import Mathlib

/-!
# Inventory plugin: slot-indexed container engine

A shallow embedding of `UItemContainerComponent` (ItemContainerComponent.cpp) and
`UInventorySystemComponent` (InventorySystemComponent.cpp).

Modelling conventions
* `TArray<T>` is `List T`; positions are `Int` as in the source (`INDEX_NONE = -1`).
* `operator[]`, `RemoveAt` and `Swap` on an invalid position fail the engine's range
  check; the embedding returns `Except.error Fault.rangeCheck` there.
* `int` is `Int`, without a word size: a sum or difference of the embedding is the one
  of the code as long as the code's value stays inside the 32-bit range (signed overflow
  is undefined behaviour in the source language and is not modelled). The quotient
  `a / b` of two `int`s is `Int.tdiv`, which is the code's value for `b ≠ 0`; the code
  divides by zero where the embedding yields 0. The ceiling of a single-precision
  quotient is `CeilToIntDiv`, the exact ceiling, which is the code's value for
  `0 ≤ a < 2^24` and `1 ≤ b`. The theorems state the range they need as hypotheses:
  well-formedness bounds the stored amounts by the stack limit, `ExactRange` and the
  bounds on the offered amount and on the stack limit bound the rest.
* `FString` and `FText::ToString()` values are `String`; `operator==` of `FString`
  ignores the case of ASCII letters (`FString.eq`). An `FName` is the number of its
  entry in the name table.
* The asset manager, the asset registry tags (`bCanStack`, `EquipmentType`), the
  project settings and the owner's authority are inputs, collected in `World`.
* The virtual getters `GetStackSizeConfig` / `GetInventorySizeConfig` are resolved by
  the public entry points and passed to the internal functions as `StackSize` and
  `InventorySize`.
* Delegate broadcasts are returned as a list of `Broadcast` values, in call order.
-/

set_option autoImplicit false
set_option linter.unusedVariables false

deriving instance DecidableEq for Except

/-- Ways in which a run of the embedded code can stop without a result. -/
inductive Fault where
  | rangeCheck
  | outOfFuel
deriving DecidableEq, Repr

/-- The engine constant `INDEX_NONE`. -/
def INDEX_NONE : Int := -1

/-! ## Engine containers -/

namespace TArray

variable {α : Type}

/-- `TArray::Num`. -/
def Num (l : List α) : Int := (l.length : Int)

/-- `TArray::IsValidIndex`. -/
def IsValidIndex (l : List α) (i : Int) : Bool := decide (0 ≤ i ∧ i < (l.length : Int))

/-- `TArray::IsEmpty`. -/
def IsEmpty (l : List α) : Bool := l.isEmpty

/-- `TArray::Contains`. -/
def Contains [DecidableEq α] (l : List α) (x : α) : Bool := decide (x ∈ l)

/-- `TArray::Find`: position of the first equal element, or `INDEX_NONE`. -/
def Find [DecidableEq α] (l : List α) (x : α) : Int :=
  if x ∈ l then (l.indexOf x : Int) else INDEX_NONE

/-- `TArray::operator[]` as a read. -/
def get (l : List α) (i : Int) : Except Fault α :=
  if 0 ≤ i then
    match l[i.toNat]? with
    | some a => .ok a
    | none => .error .rangeCheck
  else .error .rangeCheck

/-- `TArray::operator[]` as a write. -/
def set (l : List α) (i : Int) (v : α) : Except Fault (List α) :=
  if IsValidIndex l i then .ok (l.set i.toNat v) else .error .rangeCheck

/-- `TArray::Add`: appends and returns the new position. -/
def Add (l : List α) (x : α) : List α × Int := (l ++ [x], (l.length : Int))

/-- `TArray::AddUnique`: appends unless present; returns the element's position. -/
def AddUnique [DecidableEq α] (l : List α) (x : α) : List α × Int :=
  if x ∈ l then (l, (l.indexOf x : Int)) else (l ++ [x], (l.length : Int))

/-- `TArray::RemoveAt` (one element). -/
def RemoveAt (l : List α) (i : Int) : Except Fault (List α) :=
  if IsValidIndex l i then .ok (l.eraseIdx i.toNat) else .error .rangeCheck

/-- `TArray::Remove`: removes every element equal to `x`. -/
def Remove [DecidableEq α] (l : List α) (x : α) : List α := l.filter (fun y => decide (y ≠ x))

/-- `TArray::Swap`. -/
def Swap (l : List α) (i j : Int) : Except Fault (List α) :=
  if IsValidIndex l i && IsValidIndex l j then
    match l[i.toNat]?, l[j.toNat]? with
    | some a, some b => .ok ((l.set i.toNat b).set j.toNat a)
    | _, _ => .error .rangeCheck
  else .error .rangeCheck

/-- `TArray::Sort` with the predicate `Slot < OtherSlot`. -/
def SortAscending (l : List Int) : List Int := l.insertionSort (fun a b => a ≤ b)

end TArray

/-- `UKismetMathLibrary::MaxOfIntArray`, the value output (the array is non-empty at
every call site). -/
def MaxOfIntArray (l : List Int) : Int :=
  match l with
  | [] => 0
  | x :: xs => xs.foldl max x

/-- `FMath::Clamp`. -/
def Clamp (x lo hi : Int) : Int := if x < lo then lo else if x < hi then x else hi

/-- `FMath::CeilToInt(static_cast<float>(a) / static_cast<float>(b))` as the ceiling of
the exact quotient. The code rounds both operands and the quotient to single precision
(24 significant bits). For `0 ≤ a < 2^24` and `1 ≤ b < 2^31` the rounded quotient has
the same ceiling: `a` is exact; for `a < b` the rounded quotient stays in `(0, 1)` or is
0; for `b ≤ a` also `b` is exact, and the quotient lies more than half a unit in the
last place above the integer below it, so rounding never reaches that integer. Outside
that range the two can differ (for `a = 2^24 + 1`, `b = 2^24` the code obtains 1, the
exact ceiling is 2), and for `b = 0` the code's quotient is infinite or not a number. -/
def CeilToIntDiv (a b : Int) : Int := (a + b - 1) / b

/-! ## Data model -/

/-- `FPrimaryAssetId`: asset type and asset name; `0` stands for `NAME_None`. -/
structure FPrimaryAssetId where
  PrimaryAssetType : Nat
  PrimaryAssetName : Nat
deriving DecidableEq, Repr

/-- The default-constructed `FPrimaryAssetId()`. -/
def FPrimaryAssetId.None : FPrimaryAssetId := ⟨0, 0⟩

/-- `FPrimaryAssetId::IsValid`. -/
def FPrimaryAssetId.IsValid (a : FPrimaryAssetId) : Bool :=
  decide (a.PrimaryAssetType ≠ 0 ∧ a.PrimaryAssetName ≠ 0)

/-- `FItemProperty` (ItemProperties.h): `Name` is an `FName` identifier, the texts are
their string contents. -/
structure FItemProperty where
  Name : Nat
  DisplayName : String
  Value : String
deriving DecidableEq, Repr

/-- The table `LowerAscii` of the engine's `Stricmp`: the code of a character, with the
ASCII capitals `A`..`Z` replaced by the small letters. -/
def FString.LowerAscii (c : Char) : Nat :=
  if 65 ≤ c.toNat ∧ c.toNat ≤ 90 then c.toNat + 32 else c.toNat

/-- The character codes that `Stricmp` compares. -/
def FString.ToLowerCodes (s : String) : List Nat := s.data.map FString.LowerAscii

/-- `operator==` of `FString` (`Equals` with `ESearchCase::IgnoreCase`, that is
`Stricmp(...) == 0`): the two texts agree up to the case of ASCII letters. -/
def FString.eq (First Other : String) : Bool :=
  decide (FString.ToLowerCodes First = FString.ToLowerCodes Other)

/-- `operator==` of `FItemProperty`: the names are equal and the value texts
(`Value.ToString()`) are equal as `FString`s, which ignores the case of letters; the
display name is ignored. -/
def FItemProperty.eq (First Other : FItemProperty) : Bool :=
  decide (First.Name = Other.Name) && FString.eq First.Value Other.Value

/-- `FItemProperties`: the `ItemProperties` array. -/
structure FItemProperties where
  ItemProperties : List FItemProperty
deriving DecidableEq, Repr

/-- Element-wise array comparison used by `TArray::operator==`. -/
def FItemProperties.eqList : List FItemProperty → List FItemProperty → Bool
  | [], [] => true
  | a :: as, b :: bs => FItemProperty.eq a b && FItemProperties.eqList as bs
  | _, _ => false

/-- `operator==` of `FItemProperties`. -/
def FItemProperties.eq (First Other : FItemProperties) : Bool :=
  FItemProperties.eqList First.ItemProperties Other.ItemProperties

/-- `operator!=` of `FItemProperties`. -/
def FItemProperties.ne (First Other : FItemProperties) : Bool := !(FItemProperties.eq First Other)

/-- The default-constructed `FItemProperties()`. -/
def FItemProperties.empty : FItemProperties := ⟨[]⟩

/-- The asset-registry tags of one item asset that the engine reads. -/
structure FAssetData where
  bCanStack : Bool
  EquipmentType : List FPrimaryAssetId
deriving DecidableEq, Repr

/-- `UInventorySystemSettings` (InventorySystemSettings.h). -/
structure UInventorySystemSettings where
  MaxInventoryStackSize : Int
  MaxInventorySize : Int
  MaxItemEquipmentStackSize : Int
  MaxItemContainerStackSize : Int
  MaxItemContainerSize : Int
  MaxItemDropStackSize : Int
deriving DecidableEq, Repr

/-- Everything a call reads from outside the component. -/
structure World where
  ManagerIsValid : Bool
  GetPrimaryAssetData : FPrimaryAssetId → Option FAssetData
  Settings : UInventorySystemSettings
  OwnerHasAuthority : Bool

/-- `FInventorySlot` (InventorySlots.h). -/
structure FInventorySlot where
  Slot : Int
  Asset : FPrimaryAssetId
  ItemProperties : FItemProperties
  Amount : Int
deriving DecidableEq, Repr

/-- The replicated state of `UItemContainerComponent`. -/
structure UItemContainerComponent where
  InventoryIndices : List Int
  InventoryAssets : List FPrimaryAssetId
  InventoryAmounts : List Int
  InventoryDynamicStatsIndices : List Int
  InventoryDynamicStats : List FItemProperties
  bIsProcessing : Bool
  MaxStackSize : Int
  InventorySize : Int
deriving DecidableEq, Repr

/-- Delegate broadcasts observed by callers. For the operations on two components the
list holds the broadcasts of both in call order: the `...OtherComponent...` delegates and
`OtherComponentChangedInventorySlots` (the `ChangedInventorySlotsDelegate` of the other
component) fire on the other component. `bOtherComponent` is `false` where the source
passes `nullptr` as `OtherComponent`. -/
inductive Broadcast where
  | AddItemSuccess (ItemsLeft : Int) (Slots : List Int)
  | AddItemFailure (Asset : FPrimaryAssetId) (DynamicStats : FItemProperties) (Amount : Int)
  | AddItemToSlotSuccess (ItemsLeft : Int) (Slot : Int) (bEnableFallback : Bool)
  | AddItemToSlotFailure (Asset : FPrimaryAssetId) (Slot : Int) (DynamicStats : FItemProperties)
      (Amount : Int) (bEnableFallback : Bool)
  | SwapItemSuccess (bSuccess : Bool) (First Second : Int) (bIsEquipment : Bool)
  | ChangedInventorySlots (Slots : List Int)
  | ChangedEquipmentSlots (Slots : List Int)
  | ItemEquipFromInventorySuccess (bSuccess : Bool) (EquipmentSlot Slot : Int)
  | ItemUnequipSuccess (bSuccess : Bool) (EquipmentSlot : Int) (Slots : List Int)
  | SetSlotAmountSuccess (bSuccess : Bool) (Slot : Int) (bIsEquipment : Bool)
  | SetSlotItemPropertySuccess (bSuccess : Bool) (Slot : Int) (bIsEquipment : Bool)
  | RemoveAmountFromSlotSuccess (bSuccess : Bool) (OldInventorySlot : FInventorySlot)
      (RemovedAmount : Int)
  | SplitItemStackSuccess (bSuccess : Bool) (SplitSlot Slot : Int)
  | AddItemToComponentSuccess (bSuccess : Bool) (Slot ItemsLeft : Int) (bOtherComponent : Bool)
  | AddItemToComponentOtherComponentStart
  | AddItemToComponentOtherComponentSuccess (bSuccess : Bool) (Slot ItemsLeft : Int)
  | SwapItemWithComponentSuccess (bSuccess : Bool) (Slot : Int) (bOtherComponent : Bool)
  | SwapItemWithComponentOtherComponentStart
  | SwapItemWithComponentOtherComponentSuccess (bSuccess : Bool) (Slot : Int)
  | CollectAllItemsSuccess (bSuccess bItemsLeft : Bool) (bOtherComponent : Bool)
  | CollectAllItemsOtherComponentStart
  | CollectAllItemsOtherComponentSuccess (bSuccess bItemsLeft : Bool)
  | OtherComponentChangedInventorySlots (Slots : List Int)
  | SetMaxStackSizeSuccess (bSuccess : Bool)
  | SetInventorySizeSuccess (bSuccess : Bool)
  | SetEquipmentTypeSuccess (EquipmentSlot : Int)
  | SetEquipmentTypeFailure (EquipmentSlot : Int) (EquipmentType : FPrimaryAssetId)
  | AddItemToEquipmentSlotSuccess (EquipmentSlot : Int) (Slots : List Int) (Overflow : Int)
  | AddItemToEquipmentSlotFailure (InventoryAsset : FPrimaryAssetId) (EquipmentSlot : Int)
      (DynamicStats : FItemProperties) (Amount : Int)
  | RemoveEquipmentAmountFromSlotSuccess (bSuccess : Bool)
      (EquipmentTypes : List FPrimaryAssetId) (EquipmentSlot : FInventorySlot)
      (RemovedAmount : Int)
deriving DecidableEq, Repr

namespace UItemContainerComponent

open TArray

/-- `UItemContainerComponent::GetStackSizeConfig`. -/
def GetStackSizeConfig (w : World) (c : UItemContainerComponent) : Int :=
  if c.MaxStackSize > 1 then c.MaxStackSize else w.Settings.MaxItemContainerStackSize

/-- `UItemContainerComponent::GetInventorySizeConfig`. -/
def GetInventorySizeConfig (w : World) (c : UItemContainerComponent) : Int :=
  if c.InventorySize > 0 then c.InventorySize else w.Settings.MaxItemContainerSize

/-- The loop of `FindItemStack` over the sorted slot numbers. The result is
`(Index, Amount, bSuccess)`. -/
def FindItemStack.scan (c : UItemContainerComponent) (StackSize : Int)
    (InventoryAsset : FPrimaryAssetId) (DynamicStats : FItemProperties) (ItemAmount : Int)
    (bReturnFullStack : Bool) (IgnoreInventorySlots : List Int) :
    List Int → Except Fault (Int × Int × Bool)
  | [] => .ok (INDEX_NONE, INDEX_NONE, false)
  | Slot :: rest =>
    if Contains IgnoreInventorySlots Slot then
      FindItemStack.scan c StackSize InventoryAsset DynamicStats ItemAmount bReturnFullStack
        IgnoreInventorySlots rest
    else
      let FoundIndex := Find c.InventoryIndices Slot
      if FoundIndex = INDEX_NONE then
        FindItemStack.scan c StackSize InventoryAsset DynamicStats ItemAmount bReturnFullStack
          IgnoreInventorySlots rest
      else
        match get c.InventoryAssets FoundIndex with
        | .error e => .error e
        | .ok FoundAsset =>
          if FoundAsset ≠ InventoryAsset then
            FindItemStack.scan c StackSize InventoryAsset DynamicStats ItemAmount bReturnFullStack
              IgnoreInventorySlots rest
          else
            match get c.InventoryAmounts FoundIndex with
            | .error e => .error e
            | .ok FoundAmount =>
              let NewAmount := if ItemAmount > 0 then FoundAmount + ItemAmount else FoundAmount
              let bSkip : Bool :=
                if bReturnFullStack then
                  decide ((ItemAmount = INDEX_NONE ∧ FoundAmount > StackSize)
                    ∨ (ItemAmount ≠ INDEX_NONE ∧ NewAmount > StackSize))
                else
                  decide ((ItemAmount = INDEX_NONE ∧ FoundAmount ≥ StackSize)
                    ∨ (ItemAmount ≠ INDEX_NONE ∧ NewAmount ≥ StackSize))
              if bSkip then
                FindItemStack.scan c StackSize InventoryAsset DynamicStats ItemAmount
                  bReturnFullStack IgnoreInventorySlots rest
              else
                let DynamicStatsIndex := Find c.InventoryDynamicStatsIndices Slot
                if DynamicStatsIndex ≠ INDEX_NONE ∧ ¬ DynamicStats.ItemProperties.isEmpty then
                  if ¬ IsValidIndex c.InventoryDynamicStats DynamicStatsIndex then
                    .ok (INDEX_NONE, INDEX_NONE, false)
                  else
                    match get c.InventoryDynamicStats DynamicStatsIndex with
                    | .error e => .error e
                    | .ok SlotStats =>
                      if FItemProperties.ne SlotStats DynamicStats then
                        FindItemStack.scan c StackSize InventoryAsset DynamicStats ItemAmount
                          bReturnFullStack IgnoreInventorySlots rest
                      else .ok (FoundIndex, NewAmount, true)
                else if DynamicStatsIndex ≠ INDEX_NONE ∨ ¬ DynamicStats.ItemProperties.isEmpty then
                  FindItemStack.scan c StackSize InventoryAsset DynamicStats ItemAmount
                    bReturnFullStack IgnoreInventorySlots rest
                else .ok (FoundIndex, NewAmount, true)

/-- `UItemContainerComponent::FindItemStack`; the result is `(Index, Amount, bSuccess)`. -/
def FindItemStack (w : World) (c : UItemContainerComponent) (StackSize InventorySize : Int)
    (InventoryAsset : FPrimaryAssetId) (DynamicStats : FItemProperties) (ItemAmount : Int)
    (bReturnFullStack : Bool) (IgnoreInventorySlots : List Int) :
    Except Fault (Int × Int × Bool) :=
  if ¬ IgnoreInventorySlots.isEmpty ∧ InventorySize < MaxOfIntArray IgnoreInventorySlots then
    .ok (INDEX_NONE, INDEX_NONE, false)
  else if ¬ w.ManagerIsValid ∨ ¬ InventoryAsset.IsValid ∨ InventoryAsset = FPrimaryAssetId.None
      ∨ ItemAmount < INDEX_NONE ∨ ItemAmount = 0 then
    .ok (INDEX_NONE, INDEX_NONE, false)
  else
    match w.GetPrimaryAssetData InventoryAsset with
    | none => .ok (INDEX_NONE, INDEX_NONE, false)
    | some AssetData =>
      if AssetData.bCanStack ∧ Num c.InventoryIndices ≠ 0 then
        FindItemStack.scan c StackSize InventoryAsset DynamicStats ItemAmount bReturnFullStack
          IgnoreInventorySlots (SortAscending c.InventoryIndices)
      else .ok (INDEX_NONE, INDEX_NONE, false)

/-- `UItemContainerComponent::FindNextEmptySlot`; the result is `(Slot, bSuccess)`. -/
def FindNextEmptySlot (c : UItemContainerComponent) (InventorySize : Int)
    (IgnoreInventorySlots : List Int) : Int × Bool :=
  if ¬ IgnoreInventorySlots.isEmpty ∧ InventorySize < MaxOfIntArray IgnoreInventorySlots then
    (INDEX_NONE, false)
  else if Num c.InventoryIndices ≥ InventorySize then (INDEX_NONE, false)
  else
    match ((List.range InventorySize.toNat).map (fun (k : Nat) => (k : Int) + 1)).find?
        (fun I => !Contains c.InventoryIndices I && !Contains IgnoreInventorySlots I) with
    | some I => (I, true)
    | none => (INDEX_NONE, false)

/-- `UItemContainerComponent::GetInventorySlot`. -/
def GetInventorySlot (c : UItemContainerComponent) (Slot : Int) : FInventorySlot :=
  let RealInventoryIndex := Find c.InventoryIndices Slot
  if RealInventoryIndex ≠ INDEX_NONE ∧ IsValidIndex c.InventoryAmounts RealInventoryIndex
      ∧ IsValidIndex c.InventoryAssets RealInventoryIndex then
    let RealInventoryDynamicStatsIndex := Find c.InventoryDynamicStatsIndices Slot
    if RealInventoryDynamicStatsIndex ≠ INDEX_NONE
        ∧ ¬ IsValidIndex c.InventoryDynamicStats RealInventoryDynamicStatsIndex then
      ⟨INDEX_NONE, FPrimaryAssetId.None, FItemProperties.empty, 0⟩
    else
      ⟨c.InventoryIndices.getD RealInventoryIndex.toNat INDEX_NONE,
       c.InventoryAssets.getD RealInventoryIndex.toNat FPrimaryAssetId.None,
       if RealInventoryDynamicStatsIndex ≠ INDEX_NONE then
         c.InventoryDynamicStats.getD RealInventoryDynamicStatsIndex.toNat FItemProperties.empty
       else FItemProperties.empty,
       c.InventoryAmounts.getD RealInventoryIndex.toNat 0⟩
  else ⟨INDEX_NONE, FPrimaryAssetId.None, FItemProperties.empty, 0⟩

/-- The mutable locals shared by `AddItemInternal` and its `AddNewItem` closure: the
component's arrays, the in/out parameter `Amount` and `ChangedSlots`. -/
structure AddItemLocals where
  c : UItemContainerComponent
  Amount : Int
  ChangedSlots : List Int
deriving DecidableEq, Repr

/-- The block of `AddNewItem` that records the dynamic stats of a freshly chosen slot.
The flag is `false` on the branch that logs "should not be filled" and returns. -/
def AddItemInternal.storeStats (c : UItemContainerComponent) (Index : Int)
    (DynamicStats : FItemProperties) : Except Fault (UItemContainerComponent × Bool) :=
  if ¬ DynamicStats.ItemProperties.isEmpty then
    let r := AddUnique c.InventoryDynamicStatsIndices Index
    if IsValidIndex c.InventoryDynamicStats r.2 then
      match RemoveAt r.1 r.2 with
      | .error e => .error e
      | .ok l => .ok ({ c with InventoryDynamicStatsIndices := l }, false)
    else
      .ok ({ c with InventoryDynamicStatsIndices := r.1,
                    InventoryDynamicStats := (Add c.InventoryDynamicStats DynamicStats).1 }, true)
  else .ok (c, true)

/-- How the slot-filling loop of `AddNewItem` ends: it runs to its end or breaks
(`done bFailedOnce`), or it leaves the closure with `return false` (`abort`). -/
inductive FillExit where
  | done (bFailedOnce : Bool)
  | abort
deriving DecidableEq, Repr

/-- The loop `for (int I = 1; I <= SlotsToBeFilled; I++)` of `AddNewItem`; `remaining`
counts the iterations still to run, `I` is the loop variable. -/
def AddItemInternal.fillSlots (StackSize InventorySize : Int) (InventoryAsset : FPrimaryAssetId)
    (DynamicStats : FItemProperties) (TempCanStack : Bool) :
    Nat → Int → AddItemLocals → Except Fault (AddItemLocals × FillExit)
  | 0, _, x => .ok (x, .done false)
  | remaining + 1, I, x =>
    if I > InventorySize then .ok (x, .done true)
    else
      match FindNextEmptySlot x.c InventorySize [] with
      | (_, false) => .ok (x, .done true)
      | (Index, true) =>
        match AddItemInternal.storeStats x.c Index DynamicStats with
        | .error e => .error e
        | .ok (c1, false) => .ok ({ x with c := c1 }, .abort)
        | .ok (c1, true) =>
          let c2 := { c1 with
            InventoryIndices := (AddUnique c1.InventoryIndices Index).1,
            InventoryAssets := (Add c1.InventoryAssets InventoryAsset).1 }
          let ChangedSlots := (Add x.ChangedSlots Index).1
          if x.Amount ≥ StackSize then
            AddItemInternal.fillSlots StackSize InventorySize InventoryAsset DynamicStats
              TempCanStack remaining (I + 1)
              { c := { c2 with InventoryAmounts := (Add c2.InventoryAmounts StackSize).1 },
                Amount := x.Amount - StackSize, ChangedSlots := ChangedSlots }
          else
            AddItemInternal.fillSlots StackSize InventorySize InventoryAsset DynamicStats
              TempCanStack remaining (I + 1)
              { c := { c2 with InventoryAmounts :=
                        (Add c2.InventoryAmounts (if TempCanStack then x.Amount else 1)).1 },
                Amount := (if TempCanStack then 0 else x.Amount - 1),
                ChangedSlots := ChangedSlots }

/-- The assignments that restore the five arrays from the snapshot taken at the start of
`AddItemInternal`, together with `ChangedSlots.Empty()`. -/
def AddItemInternal.revert (Temp : UItemContainerComponent) (x : AddItemLocals) : AddItemLocals :=
  { c := { x.c with
      InventoryIndices := Temp.InventoryIndices,
      InventoryAmounts := Temp.InventoryAmounts,
      InventoryAssets := Temp.InventoryAssets,
      InventoryDynamicStatsIndices := Temp.InventoryDynamicStatsIndices,
      InventoryDynamicStats := Temp.InventoryDynamicStats },
    Amount := x.Amount, ChangedSlots := [] }

/-- The part of `AddNewItem` after the stack search: fill several slots, or one slot,
or give up. -/
def AddItemInternal.placeInFreeSlots (StackSize InventorySize : Int)
    (InventoryAsset : FPrimaryAssetId) (DynamicStats : FItemProperties)
    (TempCanStack bRevertWhenFull : Bool) (Temp : UItemContainerComponent)
    (x : AddItemLocals) : Except Fault (AddItemLocals × Bool) :=
  if x.Amount > StackSize ∨ (¬ TempCanStack ∧ x.Amount > 1) then
    let SlotsToBeFilled : Int :=
      if TempCanStack then CeilToIntDiv x.Amount StackSize else x.Amount
    match AddItemInternal.fillSlots StackSize InventorySize InventoryAsset DynamicStats
        TempCanStack SlotsToBeFilled.toNat 1 x with
    | .error e => .error e
    | .ok (x1, .abort) => .ok (x1, false)
    | .ok (x1, .done bFailedOnce) =>
      if bFailedOnce ∧ bRevertWhenFull then .ok (AddItemInternal.revert Temp x1, false)
      else .ok (x1, true)
  else
    match FindNextEmptySlot x.c InventorySize [] with
    | (Index, true) =>
      match AddItemInternal.storeStats x.c Index DynamicStats with
      | .error e => .error e
      | .ok (c1, false) => .ok ({ x with c := c1 }, false)
      | .ok (c1, true) =>
        .ok ({ c := { c1 with
                 InventoryIndices := (AddUnique c1.InventoryIndices Index).1,
                 InventoryAssets := (Add c1.InventoryAssets InventoryAsset).1,
                 InventoryAmounts := (Add c1.InventoryAmounts x.Amount).1 },
               Amount := 0,
               ChangedSlots := (Add x.ChangedSlots Index).1 }, true)
    | (_, false) =>
      if bRevertWhenFull then .ok (AddItemInternal.revert Temp x, false)
      else .ok (x, false)

/-- The closure `AddNewItem` of `AddItemInternal`. `fuel` bounds the number of nested
calls; `Temp` is the snapshot of the arrays. The sum `FoundAmount + Amount` is the
code's 32-bit sum as long as that stays below 2^31. -/
def AddItemInternal.AddNewItem (w : World) (StackSize InventorySize : Int)
    (InventoryAsset : FPrimaryAssetId) (DynamicStats : FItemProperties)
    (bCanStack TempCanStack bRevertWhenFull : Bool) (Temp : UItemContainerComponent) :
    Nat → AddItemLocals → Except Fault (AddItemLocals × Bool)
  | 0, _ => .error .outOfFuel
  | fuel + 1, x =>
    if bCanStack ∧ TempCanStack then
      match FindItemStack w x.c StackSize InventorySize InventoryAsset DynamicStats (-1) false [] with
      | .error e => .error e
      | .ok (Index, FoundAmount, bSuccess) =>
        if bSuccess ∧ FoundAmount > 0 then
          match get x.c.InventoryIndices Index with
          | .error e => .error e
          | .ok Slot =>
            if FoundAmount + x.Amount ≤ StackSize then
              match set x.c.InventoryAmounts Index (FoundAmount + x.Amount) with
              | .error e => .error e
              | .ok Amounts =>
                .ok ({ c := { x.c with InventoryAmounts := Amounts }, Amount := 0,
                       ChangedSlots := (Add x.ChangedSlots Slot).1 }, true)
            else
              match set x.c.InventoryAmounts Index StackSize with
              | .error e => .error e
              | .ok Amounts =>
                let x1 : AddItemLocals :=
                  { c := { x.c with InventoryAmounts := Amounts },
                    Amount := FoundAmount + x.Amount - StackSize,
                    ChangedSlots := (Add x.ChangedSlots Slot).1 }
                if x1.Amount > 0 then
                  AddItemInternal.AddNewItem w StackSize InventorySize InventoryAsset DynamicStats
                    bCanStack TempCanStack bRevertWhenFull Temp fuel x1
                else .ok (x1, true)
        else
          AddItemInternal.placeInFreeSlots StackSize InventorySize InventoryAsset DynamicStats
            TempCanStack bRevertWhenFull Temp x
    else
      AddItemInternal.placeInFreeSlots StackSize InventorySize InventoryAsset DynamicStats
        TempCanStack bRevertWhenFull Temp x

/-- `UItemContainerComponent::AddItemInternal`. The result is the component, the final
value of the in/out parameter `Amount`, and the returned `ChangedSlots`. -/
def AddItemInternal (w : World) (c : UItemContainerComponent) (StackSize InventorySize : Int)
    (InventoryAsset : FPrimaryAssetId) (DynamicStats : FItemProperties) (Amount : Int)
    (bCanStack bRevertWhenFull : Bool) : Except Fault AddItemLocals :=
  if Amount ≤ 0 ∨ ¬ InventoryAsset.IsValid ∨ InventoryAsset = FPrimaryAssetId.None then
    .ok { c := c, Amount := Amount, ChangedSlots := [] }
  else if ¬ w.ManagerIsValid then .ok { c := c, Amount := Amount, ChangedSlots := [] }
  else
    match w.GetPrimaryAssetData InventoryAsset with
    | none => .ok { c := c, Amount := Amount, ChangedSlots := [] }
    | some AssetData =>
      match AddItemInternal.AddNewItem w StackSize InventorySize InventoryAsset DynamicStats
          bCanStack AssetData.bCanStack bRevertWhenFull c (c.InventoryAmounts.length + 1)
          { c := c, Amount := Amount, ChangedSlots := [] } with
      | .error e => .error e
      | .ok (x, _) => .ok x

/-- `UItemContainerComponent::AddItem_Implementation`. -/
def AddItem (w : World) (c : UItemContainerComponent) (InventoryAsset : FPrimaryAssetId)
    (DynamicStats : FItemProperties) (Amount : Int) (bCanStack bRevertWhenFull : Bool) :
    Except Fault (UItemContainerComponent × List Broadcast) :=
  if c.bIsProcessing then .ok (c, [.AddItemFailure InventoryAsset DynamicStats Amount])
  else
    match AddItemInternal w { c with bIsProcessing := true } (GetStackSizeConfig w c)
        (GetInventorySizeConfig w c) InventoryAsset DynamicStats Amount bCanStack
        bRevertWhenFull with
    | .error e => .error e
    | .ok x =>
      if IsEmpty x.ChangedSlots then
        .ok ({ x.c with bIsProcessing := false },
          [.AddItemFailure InventoryAsset DynamicStats
            (if bRevertWhenFull then Amount else x.Amount)])
      else
        .ok ({ x.c with bIsProcessing := false },
          [.AddItemSuccess x.Amount x.ChangedSlots, .ChangedInventorySlots x.ChangedSlots])

/-- The merge block shared by the two property cases of `AddItemToSlot_Implementation`
for an occupied slot (`RealIndex`, with `TempAmount` read before). -/
def AddItemToSlot.merge (w : World) (c : UItemContainerComponent) (StackSize InventorySize : Int)
    (InventoryAsset : FPrimaryAssetId) (Slot : Int) (DynamicStats : FItemProperties)
    (Amount : Int) (bCanStack bEnableFallback : Bool) (RealIndex TempAmount : Int) :
    Except Fault (UItemContainerComponent × List Broadcast) := do
  let Current ← TArray.get c.InventoryAmounts RealIndex
  if Amount + Current ≤ StackSize then
    let Amounts ← TArray.set c.InventoryAmounts RealIndex (Current + Amount)
    pure ({ c with InventoryAmounts := Amounts, bIsProcessing := false },
      [.AddItemToSlotSuccess INDEX_NONE Slot bEnableFallback, .ChangedInventorySlots [Slot]])
  else
    let NewAmount := Current + Amount - StackSize
    let Amounts ← TArray.set c.InventoryAmounts RealIndex StackSize
    let c1 := { c with InventoryAmounts := Amounts }
    if NewAmount > 0 then
      if bEnableFallback then
        let x ← AddItemInternal w c1 StackSize InventorySize InventoryAsset DynamicStats NewAmount
          bCanStack false
        if ¬ IsEmpty x.ChangedSlots then
          pure ({ x.c with bIsProcessing := false },
            [.AddItemToSlotSuccess x.Amount Slot bEnableFallback,
             .ChangedInventorySlots (Add x.ChangedSlots Slot).1])
        else
          pure ({ x.c with bIsProcessing := false },
            [.AddItemToSlotSuccess x.Amount Slot bEnableFallback, .ChangedInventorySlots [Slot]])
      else
        pure ({ c1 with bIsProcessing := false },
          [.AddItemToSlotSuccess NewAmount Slot bEnableFallback, .ChangedInventorySlots [Slot]])
    else
      let Restored ← TArray.set c1.InventoryAmounts RealIndex TempAmount
      pure ({ c1 with InventoryAmounts := Restored, bIsProcessing := false },
        [.AddItemToSlotFailure InventoryAsset Slot DynamicStats NewAmount bEnableFallback])

/-- The tail of `AddItemToSlot_Implementation` reached when the occupied slot cannot
take the item: the fallback through `AddItemInternal`. -/
def AddItemToSlot.fallback (w : World) (c : UItemContainerComponent) (StackSize InventorySize : Int)
    (InventoryAsset : FPrimaryAssetId) (Slot : Int) (DynamicStats : FItemProperties)
    (Amount : Int) (bCanStack bEnableFallback : Bool) :
    Except Fault (UItemContainerComponent × List Broadcast) := do
  if bEnableFallback then
    let x ← AddItemInternal w c StackSize InventorySize InventoryAsset DynamicStats Amount
      bCanStack false
    if ¬ IsEmpty x.ChangedSlots then
      pure ({ x.c with bIsProcessing := false },
        [.AddItemToSlotSuccess x.Amount Slot bEnableFallback, .ChangedInventorySlots x.ChangedSlots])
    else
      pure ({ x.c with bIsProcessing := false },
        [.AddItemToSlotFailure InventoryAsset Slot DynamicStats x.Amount bEnableFallback])
  else
    pure ({ c with bIsProcessing := false },
      [.AddItemToSlotFailure InventoryAsset Slot DynamicStats Amount bEnableFallback])

/-- The `else` block of `AddItemToSlot_Implementation` for a slot number that is not in
`InventoryIndices`. -/
def AddItemToSlot.emptySlot (w : World) (c : UItemContainerComponent) (StackSize InventorySize : Int)
    (InventoryAsset : FPrimaryAssetId) (Slot : Int) (DynamicStats : FItemProperties)
    (Amount : Int) (bCanStack bEnableFallback TempCanStack : Bool) :
    Except Fault (UItemContainerComponent × List Broadcast) := do
  let (c1, bStored) ← AddItemInternal.storeStats c Slot DynamicStats
  if ¬ bStored then
    pure ({ c1 with bIsProcessing := false },
      [.AddItemToSlotFailure InventoryAsset Slot DynamicStats Amount bEnableFallback])
  else
    let r := AddUnique c1.InventoryIndices Slot
    let RealNewIndex := r.2
    let c2 := { c1 with InventoryIndices := r.1,
                        InventoryAssets := (Add c1.InventoryAssets InventoryAsset).1 }
    let c3 : UItemContainerComponent :=
      if TempCanStack then
        if Amount ≤ StackSize then { c2 with InventoryAmounts := (Add c2.InventoryAmounts Amount).1 }
        else { c2 with InventoryAmounts := (Add c2.InventoryAmounts StackSize).1 }
      else { c2 with InventoryAmounts := (Add c2.InventoryAmounts 1).1 }
    let NewAmount : Int := if TempCanStack then Amount - StackSize else Amount - 1
    if NewAmount > 0 then
      if bEnableFallback then
        let x ← AddItemInternal w c3 StackSize InventorySize InventoryAsset DynamicStats NewAmount
          bCanStack false
        if ¬ IsEmpty x.ChangedSlots then
          pure ({ x.c with bIsProcessing := false },
            [.AddItemToSlotSuccess x.Amount Slot bEnableFallback,
             .ChangedInventorySlots (Add x.ChangedSlots Slot).1])
        else
          pure ({ x.c with bIsProcessing := false },
            [.AddItemToSlotSuccess x.Amount Slot bEnableFallback, .ChangedInventorySlots [Slot]])
      else
        pure ({ c3 with bIsProcessing := false },
          [.AddItemToSlotSuccess NewAmount Slot bEnableFallback, .ChangedInventorySlots [Slot]])
    else
      let Indices ← RemoveAt c3.InventoryIndices RealNewIndex
      let Amounts ← RemoveAt c3.InventoryAmounts RealNewIndex
      let Assets ← RemoveAt c3.InventoryAssets RealNewIndex
      let c4 := { c3 with InventoryIndices := Indices, InventoryAmounts := Amounts,
                          InventoryAssets := Assets }
      if ¬ DynamicStats.ItemProperties.isEmpty then
        let NewInventoryDynamicStatsIndex := Find c4.InventoryDynamicStatsIndices Slot
        if ¬ IsValidIndex c4.InventoryDynamicStats NewInventoryDynamicStatsIndex then
          pure ({ c4 with bIsProcessing := false },
            [.AddItemToSlotFailure InventoryAsset Slot DynamicStats NewAmount bEnableFallback])
        else
          let StatsIndices ← RemoveAt c4.InventoryDynamicStatsIndices NewInventoryDynamicStatsIndex
          let Stats ← RemoveAt c4.InventoryDynamicStats NewInventoryDynamicStatsIndex
          pure ({ c4 with InventoryDynamicStatsIndices := StatsIndices,
                          InventoryDynamicStats := Stats, bIsProcessing := false },
            [.AddItemToSlotFailure InventoryAsset Slot DynamicStats NewAmount bEnableFallback])
      else
        pure ({ c4 with bIsProcessing := false },
          [.AddItemToSlotFailure InventoryAsset Slot DynamicStats NewAmount bEnableFallback])

/-- `UItemContainerComponent::AddItemToSlot_Implementation`, after the virtual getters
have been resolved. -/
def AddItemToSlotWith (w : World) (c : UItemContainerComponent) (StackSize InventorySize : Int)
    (InventoryAsset : FPrimaryAssetId) (Slot : Int) (DynamicStats : FItemProperties)
    (Amount : Int) (bCanStack bEnableFallback : Bool) :
    Except Fault (UItemContainerComponent × List Broadcast) :=
  if c.bIsProcessing then
    .ok (c, [.AddItemToSlotFailure InventoryAsset Slot DynamicStats Amount bEnableFallback])
  else
    let c0 := { c with bIsProcessing := true }
    if Amount ≤ 0 ∨ ¬ w.ManagerIsValid ∨ ¬ InventoryAsset.IsValid
        ∨ InventoryAsset = FPrimaryAssetId.None then
      .ok ({ c0 with bIsProcessing := false },
        [.AddItemToSlotFailure InventoryAsset Slot DynamicStats Amount bEnableFallback])
    else
      match w.GetPrimaryAssetData InventoryAsset with
      | none =>
        .ok ({ c0 with bIsProcessing := false },
          [.AddItemToSlotFailure InventoryAsset Slot DynamicStats Amount bEnableFallback])
      | some AssetData =>
        let TempCanStack := AssetData.bCanStack
        let RealIndex := Find c0.InventoryIndices Slot
        if RealIndex ≠ INDEX_NONE then
          if bCanStack ∧ TempCanStack ∧ IsValidIndex c0.InventoryAssets RealIndex
              ∧ TArray.get c0.InventoryAssets RealIndex = .ok InventoryAsset then do
            let TempAmount ← TArray.get c0.InventoryAmounts RealIndex
            let InventoryDynamicStatsIndex := Find c0.InventoryDynamicStatsIndices Slot
            if ¬ DynamicStats.ItemProperties.isEmpty ∧ InventoryDynamicStatsIndex ≠ INDEX_NONE then
              if ¬ IsValidIndex c0.InventoryDynamicStats InventoryDynamicStatsIndex then
                pure ({ c0 with bIsProcessing := false },
                  [.AddItemToSlotFailure InventoryAsset Slot DynamicStats Amount bEnableFallback])
              else
                let SlotStats ← TArray.get c0.InventoryDynamicStats InventoryDynamicStatsIndex
                if FItemProperties.eq DynamicStats SlotStats then
                  AddItemToSlot.merge w c0 StackSize InventorySize InventoryAsset Slot DynamicStats
                    Amount bCanStack bEnableFallback RealIndex TempAmount
                else
                  AddItemToSlot.fallback w c0 StackSize InventorySize InventoryAsset Slot
                    DynamicStats Amount bCanStack bEnableFallback
            else if DynamicStats.ItemProperties.isEmpty ∧ InventoryDynamicStatsIndex = INDEX_NONE then
              AddItemToSlot.merge w c0 StackSize InventorySize InventoryAsset Slot DynamicStats
                Amount bCanStack bEnableFallback RealIndex TempAmount
            else
              AddItemToSlot.fallback w c0 StackSize InventorySize InventoryAsset Slot
                DynamicStats Amount bCanStack bEnableFallback
          else
            AddItemToSlot.fallback w c0 StackSize InventorySize InventoryAsset Slot
              DynamicStats Amount bCanStack bEnableFallback
        else
          AddItemToSlot.emptySlot w c0 StackSize InventorySize InventoryAsset Slot DynamicStats
            Amount bCanStack bEnableFallback TempCanStack

/-- `UItemContainerComponent::AddItemToSlot_Implementation` on a base container. -/
def AddItemToSlot (w : World) (c : UItemContainerComponent) (InventoryAsset : FPrimaryAssetId)
    (Slot : Int) (DynamicStats : FItemProperties) (Amount : Int)
    (bCanStack bEnableFallback : Bool) : Except Fault (UItemContainerComponent × List Broadcast) :=
  AddItemToSlotWith w c (GetStackSizeConfig w c) (GetInventorySizeConfig w c) InventoryAsset Slot
    DynamicStats Amount bCanStack bEnableFallback

/-- The block of `SwapItems_Implementation` that moves the property bag of the occupied
slot (stats position `RealFromStatsIndex`) to the slot number `To`. -/
def SwapItems.moveStats (c : UItemContainerComponent) (RealFromStatsIndex To : Int) :
    Except Fault UItemContainerComponent := do
  let StatsIndices := (AddUnique c.InventoryDynamicStatsIndices To).1
  let TempStats ← TArray.get c.InventoryDynamicStats RealFromStatsIndex
  let Stats := (Add c.InventoryDynamicStats TempStats).1
  let StatsIndices ← RemoveAt StatsIndices RealFromStatsIndex
  let Stats ← RemoveAt Stats RealFromStatsIndex
  pure { c with InventoryDynamicStatsIndices := StatsIndices, InventoryDynamicStats := Stats }

/-- The block of `SwapItems_Implementation` that moves the record at position
`FromIndex` to the empty slot number `To`. -/
def SwapItems.moveRecord (c : UItemContainerComponent) (FromIndex To : Int) :
    Except Fault UItemContainerComponent := do
  let Indices := (AddUnique c.InventoryIndices To).1
  let Indices ← RemoveAt Indices FromIndex
  let TempAmount ← TArray.get c.InventoryAmounts FromIndex
  let Amounts ← RemoveAt (Add c.InventoryAmounts TempAmount).1 FromIndex
  let TempAsset ← TArray.get c.InventoryAssets FromIndex
  let Assets ← RemoveAt (Add c.InventoryAssets TempAsset).1 FromIndex
  pure { c with InventoryIndices := Indices, InventoryAmounts := Amounts, InventoryAssets := Assets }

/-- The statements of `SwapItems_Implementation` that add the amount at `FirstIndex` to
the amount at `SecondIndex` and remove the record at `FirstIndex`. -/
def SwapItems.mergeRecords (c : UItemContainerComponent) (FirstIndex SecondIndex : Int) :
    Except Fault UItemContainerComponent := do
  let FirstAmount ← TArray.get c.InventoryAmounts FirstIndex
  let SecondAmount ← TArray.get c.InventoryAmounts SecondIndex
  let Amounts ← TArray.set c.InventoryAmounts SecondIndex (SecondAmount + FirstAmount)
  let Indices ← RemoveAt c.InventoryIndices FirstIndex
  let Amounts ← RemoveAt Amounts FirstIndex
  let Assets ← RemoveAt c.InventoryAssets FirstIndex
  pure { c with InventoryIndices := Indices, InventoryAmounts := Amounts, InventoryAssets := Assets }

/-- The "both slots in use" block of `SwapItems_Implementation`. -/
def SwapItems.bothInUse (w : World) (c : UItemContainerComponent) (First Second : Int)
    (bCanStack : Bool) (FirstIndex SecondIndex RealFirstInventoryStatsIndex
      RealSecondInventoryStatsIndex : Int) :
    Except Fault (UItemContainerComponent × List Broadcast) := do
  let failed : UItemContainerComponent × List Broadcast :=
    ({ c with bIsProcessing := false }, [.SwapItemSuccess false First Second false])
  if ¬ IsValidIndex c.InventoryAssets FirstIndex ∨ ¬ IsValidIndex c.InventoryAmounts FirstIndex
      ∨ ¬ IsValidIndex c.InventoryAssets SecondIndex
      ∨ ¬ IsValidIndex c.InventoryAmounts SecondIndex then
    pure failed
  else
    let FirstAsset ← TArray.get c.InventoryAssets FirstIndex
    let SecondAsset ← TArray.get c.InventoryAssets SecondIndex
    match w.GetPrimaryAssetData FirstAsset, w.GetPrimaryAssetData SecondAsset with
    | some FirstAssetData, some SecondAssetData =>
      let SecondTempCanStack := SecondAssetData.bCanStack
      let merged : Option (Except Fault (UItemContainerComponent × List Broadcast)) :=
        if bCanStack ∧ SecondTempCanStack ∧ FirstAsset = SecondAsset then
          if RealFirstInventoryStatsIndex ≠ INDEX_NONE
              ∧ RealSecondInventoryStatsIndex ≠ INDEX_NONE then
            if ¬ IsValidIndex c.InventoryDynamicStats RealFirstInventoryStatsIndex
                ∨ ¬ IsValidIndex c.InventoryDynamicStats RealSecondInventoryStatsIndex then
              some (pure failed)
            else some (do
              let Stats ← RemoveAt c.InventoryDynamicStats RealFirstInventoryStatsIndex
              let StatsIndices ← RemoveAt c.InventoryDynamicStatsIndices RealFirstInventoryStatsIndex
              let c1 ← SwapItems.mergeRecords
                { c with InventoryDynamicStats := Stats, InventoryDynamicStatsIndices := StatsIndices }
                FirstIndex SecondIndex
              pure ({ c1 with bIsProcessing := false },
                [.SwapItemSuccess true First Second false, .ChangedInventorySlots [First, Second]]))
          else if ¬ IsValidIndex c.InventoryDynamicStats RealFirstInventoryStatsIndex
              ∧ ¬ IsValidIndex c.InventoryDynamicStats RealSecondInventoryStatsIndex then
            some (do
              let c1 ← SwapItems.mergeRecords c FirstIndex SecondIndex
              pure ({ c1 with bIsProcessing := false },
                [.SwapItemSuccess true First Second false, .ChangedInventorySlots [First, Second]]))
          else none
        else none
      match merged with
      | some r => r
      | none =>
        let exchanged : Except Fault (Option UItemContainerComponent) :=
          if RealFirstInventoryStatsIndex ≠ INDEX_NONE
              ∧ RealSecondInventoryStatsIndex ≠ INDEX_NONE then do
            let Stats ← Swap c.InventoryDynamicStats FirstIndex SecondIndex
            pure (some { c with InventoryDynamicStats := Stats })
          else if RealFirstInventoryStatsIndex ≠ INDEX_NONE
              ∧ RealSecondInventoryStatsIndex = INDEX_NONE then
            if ¬ IsValidIndex c.InventoryDynamicStats RealFirstInventoryStatsIndex then pure none
            else do
              let c1 ← SwapItems.moveStats c RealFirstInventoryStatsIndex Second
              pure (some c1)
          else if RealSecondInventoryStatsIndex ≠ INDEX_NONE
              ∧ RealFirstInventoryStatsIndex = INDEX_NONE then
            if ¬ IsValidIndex c.InventoryDynamicStats RealSecondInventoryStatsIndex then pure none
            else do
              let c1 ← SwapItems.moveStats c RealSecondInventoryStatsIndex First
              pure (some c1)
          else pure (some c)
        match ← exchanged with
        | none => pure failed
        | some c1 =>
          let Amounts ← Swap c1.InventoryAmounts FirstIndex SecondIndex
          let Assets ← Swap c1.InventoryAssets FirstIndex SecondIndex
          pure ({ c1 with InventoryAmounts := Amounts, InventoryAssets := Assets,
                          bIsProcessing := false },
            [.SwapItemSuccess true First Second false, .ChangedInventorySlots [First, Second]])
    | _, _ => pure failed

/-- The "only one slot valid" blocks of `SwapItems_Implementation`: the record at
position `FromIndex` (stats position `RealFromStatsIndex`) moves to slot number `To`. -/
def SwapItems.oneInUse (c : UItemContainerComponent) (First Second : Int)
    (FromIndex RealFromStatsIndex To : Int) :
    Except Fault (UItemContainerComponent × List Broadcast) := do
  let failed : UItemContainerComponent × List Broadcast :=
    ({ c with bIsProcessing := false }, [.SwapItemSuccess false First Second false])
  if ¬ IsValidIndex c.InventoryAssets FromIndex ∨ ¬ IsValidIndex c.InventoryAmounts FromIndex then
    pure failed
  else if RealFromStatsIndex ≠ INDEX_NONE
      ∧ ¬ IsValidIndex c.InventoryDynamicStats RealFromStatsIndex then
    pure failed
  else
    let c1 ← if RealFromStatsIndex ≠ INDEX_NONE then SwapItems.moveStats c RealFromStatsIndex To
             else pure c
    let c2 ← SwapItems.moveRecord c1 FromIndex To
    pure ({ c2 with bIsProcessing := false },
      [.SwapItemSuccess true First Second false, .ChangedInventorySlots [First, Second]])

/-- `UItemContainerComponent::SwapItems_Implementation`. -/
def SwapItems (w : World) (c : UItemContainerComponent) (First Second : Int)
    (bCanStack bIsEquipment : Bool) : Except Fault (UItemContainerComponent × List Broadcast) :=
  if c.bIsProcessing then .ok (c, [.SwapItemSuccess false First Second bIsEquipment])
  else
    let c0 := { c with bIsProcessing := true }
    if bIsEquipment then
      .ok ({ c0 with bIsProcessing := false }, [.SwapItemSuccess false First Second bIsEquipment])
    else
      let FirstIndex := Find c0.InventoryIndices First
      let SecondIndex := Find c0.InventoryIndices Second
      if (FirstIndex = INDEX_NONE ∧ SecondIndex = INDEX_NONE) ∨ ¬ w.ManagerIsValid then
        .ok ({ c0 with bIsProcessing := false }, [.SwapItemSuccess false First Second bIsEquipment])
      else
        let RealFirstInventoryStatsIndex := Find c0.InventoryDynamicStatsIndices First
        let RealSecondInventoryStatsIndex := Find c0.InventoryDynamicStatsIndices Second
        if FirstIndex ≠ INDEX_NONE ∧ SecondIndex ≠ INDEX_NONE then
          SwapItems.bothInUse w c0 First Second bCanStack FirstIndex SecondIndex
            RealFirstInventoryStatsIndex RealSecondInventoryStatsIndex
        else if FirstIndex ≠ INDEX_NONE then
          SwapItems.oneInUse c0 First Second FirstIndex RealFirstInventoryStatsIndex Second
        else
          SwapItems.oneInUse c0 First Second SecondIndex RealSecondInventoryStatsIndex First

end UItemContainerComponent

/-! ## The inventory system component (container plus equipment) -/

/-- The replicated state of `UInventorySystemComponent`. -/
structure UInventorySystemComponent extends UItemContainerComponent where
  EquipmentTypeIndices : List Int
  EquipmentTypes : List FPrimaryAssetId
  EquipmentIndices : List Int
  EquipmentAssets : List FPrimaryAssetId
  EquipmentAmounts : List Int
  EquipmentDynamicStatsIndices : List Int
  EquipmentDynamicStats : List FItemProperties
  MaxEquipmentStackSize : Int
deriving DecidableEq, Repr

namespace UInventorySystemComponent

open TArray

/-- `UInventorySystemComponent::GetEquipmentStackSizeConfig`. -/
def GetEquipmentStackSizeConfig (w : World) (s : UInventorySystemComponent) : Int :=
  if s.MaxEquipmentStackSize > 1 then s.MaxEquipmentStackSize
  else w.Settings.MaxItemEquipmentStackSize

/-- `UInventorySystemComponent::GetStackSizeConfig` (override). -/
def GetStackSizeConfig (w : World) (s : UInventorySystemComponent) : Int :=
  if s.MaxStackSize > 1 then s.MaxStackSize else w.Settings.MaxInventorySize

/-- `UInventorySystemComponent::GetInventorySizeConfig` (override). -/
def GetInventorySizeConfig (w : World) (s : UInventorySystemComponent) : Int :=
  if s.InventorySize > 0 then s.InventorySize else w.Settings.MaxInventorySize

/-- `UInventorySystemComponent::GetEquipmentSlot`, without the parsed type list: the slot
number, asset, property bag and amount of the returned `FEquipmentSlot`. -/
def GetEquipmentSlot (w : World) (s : UInventorySystemComponent) (Slot : Int) :
    Except Fault FInventorySlot := do
  let blank : FInventorySlot := ⟨INDEX_NONE, FPrimaryAssetId.None, FItemProperties.empty, 0⟩
  if ¬ w.ManagerIsValid then pure blank
  else if Find s.EquipmentTypeIndices Slot ≠ INDEX_NONE then
    let RealEquipmentIndex := Find s.EquipmentIndices Slot
    if RealEquipmentIndex ≠ INDEX_NONE then
      let RealEquipmentDynamicStatsIndex := Find s.EquipmentDynamicStatsIndices Slot
      if RealEquipmentDynamicStatsIndex ≠ INDEX_NONE
          ∧ ¬ IsValidIndex s.EquipmentDynamicStats RealEquipmentDynamicStatsIndex then pure blank
      else
        let DynamicStats ← if RealEquipmentDynamicStatsIndex ≠ INDEX_NONE then
              TArray.get s.EquipmentDynamicStats RealEquipmentDynamicStatsIndex
            else pure FItemProperties.empty
        let NewAsset ← TArray.get s.EquipmentAssets RealEquipmentIndex
        let NewAmount ← TArray.get s.EquipmentAmounts RealEquipmentIndex
        pure ⟨Slot, NewAsset, DynamicStats, NewAmount⟩
    else pure ⟨Slot, FPrimaryAssetId.None, FItemProperties.empty, INDEX_NONE⟩
  else pure ⟨INDEX_NONE, FPrimaryAssetId.None, FItemProperties.empty, INDEX_NONE⟩

/-- The mutable state shared by `ItemUnequipInternal` and its two closures. -/
structure UnequipLocals where
  s : UInventorySystemComponent
  ChangedSlots : List Int
deriving DecidableEq, Repr

/-- The statements that delete the equipment record at `RealEquipmentIndex`
(`EquipmentIndices`, `EquipmentAmounts`, `EquipmentAssets`). -/
def removeEquipmentRecord (s : UInventorySystemComponent) (RealEquipmentIndex : Int) :
    Except Fault UInventorySystemComponent := do
  let Indices ← RemoveAt s.EquipmentIndices RealEquipmentIndex
  let Amounts ← RemoveAt s.EquipmentAmounts RealEquipmentIndex
  let Assets ← RemoveAt s.EquipmentAssets RealEquipmentIndex
  pure { s with EquipmentIndices := Indices, EquipmentAmounts := Amounts, EquipmentAssets := Assets }

/-- The statements that delete the equipment property bag at `FoundEquipmentDynamicStatsIndex`
when that position is not `INDEX_NONE`. -/
def removeEquipmentStats (s : UInventorySystemComponent) (FoundEquipmentDynamicStatsIndex : Int) :
    Except Fault UInventorySystemComponent := do
  if FoundEquipmentDynamicStatsIndex ≠ INDEX_NONE then
    let Stats ← RemoveAt s.EquipmentDynamicStats FoundEquipmentDynamicStatsIndex
    let StatsIndices ← RemoveAt s.EquipmentDynamicStatsIndices FoundEquipmentDynamicStatsIndex
    pure { s with EquipmentDynamicStats := Stats, EquipmentDynamicStatsIndices := StatsIndices }
  else pure s

/-- The closure `UnequipItemWithoutSpecificSlot` of `ItemUnequipInternal`. The sums of
an equipment amount and an inventory amount are the code's 32-bit sums as long as those
stay inside the 32-bit range; the quotient `EquippedAmount / GetStackSizeConfig()` is
the code's for a stack size other than 0, where the code divides by zero. -/
def ItemUnequipInternal.UnequipItemWithoutSpecificSlot (w : World) (StackSize InventorySize : Int)
    (IgnoreInventorySlots : List Int) (bCanStack TempCanStack : Bool)
    (RealEquipmentIndex FoundEquipmentDynamicStatsIndex : Int) :
    Nat → UnequipLocals → Except Fault (UnequipLocals × Bool)
  | 0, _ => .error .outOfFuel
  | fuel + 1, x => do
    let placeInFreeSlot : Except Fault (UnequipLocals × Bool) := do
      let EquippedAmount ← TArray.get x.s.EquipmentAmounts RealEquipmentIndex
      let bNoSpace : Bool :=
        if bCanStack ∧ TempCanStack then
          decide (EquippedAmount > StackSize
            ∧ InventorySize - Num x.s.InventoryIndices < Int.tdiv EquippedAmount StackSize)
        else decide (InventorySize - Num x.s.InventoryIndices < EquippedAmount)
      if bNoSpace then pure (x, false)
      else
        match UItemContainerComponent.FindNextEmptySlot x.s.toUItemContainerComponent
            InventorySize IgnoreInventorySlots with
        | (_, false) => pure (x, false)
        | (FoundIndex, true) =>
          let EquippedAsset ← TArray.get x.s.EquipmentAssets RealEquipmentIndex
          let s1 : UInventorySystemComponent :=
            { x.s with InventoryIndices := (Add x.s.InventoryIndices FoundIndex).1,
                       InventoryAssets := (Add x.s.InventoryAssets EquippedAsset).1 }
          let s2 ← if FoundEquipmentDynamicStatsIndex ≠ INDEX_NONE then do
                let Stats ← TArray.get s1.EquipmentDynamicStats FoundEquipmentDynamicStatsIndex
                pure { s1 with
                  InventoryDynamicStatsIndices := (Add s1.InventoryDynamicStatsIndices FoundIndex).1,
                  InventoryDynamicStats := (Add s1.InventoryDynamicStats Stats).1 }
              else pure s1
          let ChangedSlots := (Add x.ChangedSlots FoundIndex).1
          let s3 : UInventorySystemComponent :=
            { s2 with InventoryAmounts := (Add s2.InventoryAmounts 1).1 }
          if EquippedAmount - 1 = 0 then
            let s4 ← removeEquipmentRecord s3 RealEquipmentIndex
            let s5 ← removeEquipmentStats s4 FoundEquipmentDynamicStatsIndex
            pure ({ s := s5, ChangedSlots := ChangedSlots }, true)
          else
            let Amounts ← TArray.set s3.EquipmentAmounts RealEquipmentIndex (EquippedAmount - 1)
            ItemUnequipInternal.UnequipItemWithoutSpecificSlot w StackSize InventorySize
              IgnoreInventorySlots bCanStack TempCanStack RealEquipmentIndex
              FoundEquipmentDynamicStatsIndex fuel
              { s := { s3 with EquipmentAmounts := Amounts }, ChangedSlots := ChangedSlots }
    if bCanStack ∧ TempCanStack then
      let DynamicStats ← if FoundEquipmentDynamicStatsIndex ≠ INDEX_NONE then
            TArray.get x.s.EquipmentDynamicStats FoundEquipmentDynamicStatsIndex
          else pure FItemProperties.empty
      let EquippedAsset ← TArray.get x.s.EquipmentAssets RealEquipmentIndex
      let (FoundIndex, Amount, bSuccess) ←
        UItemContainerComponent.FindItemStack w x.s.toUItemContainerComponent StackSize
          InventorySize EquippedAsset DynamicStats (-1) false IgnoreInventorySlots
      if bSuccess ∧ Amount < StackSize then
        let EquippedAmount ← TArray.get x.s.EquipmentAmounts RealEquipmentIndex
        let FoundAmount ← TArray.get x.s.InventoryAmounts FoundIndex
        let FoundSlot ← TArray.get x.s.InventoryIndices FoundIndex
        if EquippedAmount + FoundAmount > StackSize then
          let EqAmounts ← TArray.set x.s.EquipmentAmounts RealEquipmentIndex
            (EquippedAmount + FoundAmount - StackSize)
          let InvAmounts ← TArray.set x.s.InventoryAmounts FoundIndex StackSize
          ItemUnequipInternal.UnequipItemWithoutSpecificSlot w StackSize InventorySize
            IgnoreInventorySlots bCanStack TempCanStack RealEquipmentIndex
            FoundEquipmentDynamicStatsIndex fuel
            { s := { x.s with EquipmentAmounts := EqAmounts, InventoryAmounts := InvAmounts },
              ChangedSlots := (Add x.ChangedSlots FoundSlot).1 }
        else
          let InvAmounts ← TArray.set x.s.InventoryAmounts FoundIndex (EquippedAmount + FoundAmount)
          let s1 ← removeEquipmentStats { x.s with InventoryAmounts := InvAmounts }
            FoundEquipmentDynamicStatsIndex
          let s2 ← removeEquipmentRecord s1 RealEquipmentIndex
          pure ({ s := s2, ChangedSlots := (Add x.ChangedSlots FoundSlot).1 }, true)
      else placeInFreeSlot
    else placeInFreeSlot

/-- The closure `UnequipItemSpecificSlot` of `ItemUnequipInternal`. The sum of the
equipment amount and the inventory amount and the number of slots needed
(`CeilToIntDiv`) are the code's values inside the range described by `ExactRange`. -/
def ItemUnequipInternal.UnequipItemSpecificSlot (w : World) (StackSize InventorySize : Int)
    (IgnoreInventorySlots : List Int) (bCanStack TempCanStack : Bool)
    (SpecificInventorySlot RealEquipmentIndex FoundEquipmentDynamicStatsIndex : Int)
    (fuel : Nat) (x : UnequipLocals) : Except Fault (UnequipLocals × Bool) := do
  let withoutSpecificSlot (y : UnequipLocals) : Except Fault (UnequipLocals × Bool) :=
    ItemUnequipInternal.UnequipItemWithoutSpecificSlot w StackSize InventorySize
      IgnoreInventorySlots bCanStack TempCanStack RealEquipmentIndex
      FoundEquipmentDynamicStatsIndex fuel y
  if SpecificInventorySlot ≠ INDEX_NONE ∧ SpecificInventorySlot ≤ InventorySize
      ∧ ¬ Contains IgnoreInventorySlots SpecificInventorySlot then
    let RealSpecificInventoryIndex := Find x.s.InventoryIndices SpecificInventorySlot
    if RealSpecificInventoryIndex ≠ INDEX_NONE then
      let FoundInventoryDynamicStatsIndex := Find x.s.InventoryDynamicStatsIndices SpecificInventorySlot
      if FoundInventoryDynamicStatsIndex ≠ INDEX_NONE
          ∧ ¬ IsValidIndex x.s.InventoryDynamicStats FoundInventoryDynamicStatsIndex then
        pure (x, false)
      else
        let SpecificAsset ← if bCanStack ∧ TempCanStack then
              TArray.get x.s.InventoryAssets RealSpecificInventoryIndex
            else pure FPrimaryAssetId.None
        let EquippedAsset ← if bCanStack ∧ TempCanStack then
              TArray.get x.s.EquipmentAssets RealEquipmentIndex
            else pure FPrimaryAssetId.None
        if bCanStack ∧ TempCanStack ∧ SpecificAsset = EquippedAsset then
          let bSameStats ←
            if FoundInventoryDynamicStatsIndex ≠ INDEX_NONE
                ∧ FoundEquipmentDynamicStatsIndex ≠ INDEX_NONE then do
              let EqStats ← TArray.get x.s.EquipmentDynamicStats FoundEquipmentDynamicStatsIndex
              let InvStats ← TArray.get x.s.InventoryDynamicStats FoundInventoryDynamicStatsIndex
              pure (FItemProperties.eq EqStats InvStats)
            else pure (decide (FoundInventoryDynamicStatsIndex = INDEX_NONE
                ∧ FoundEquipmentDynamicStatsIndex = INDEX_NONE))
          if bSameStats then
            let EquippedAmount ← TArray.get x.s.EquipmentAmounts RealEquipmentIndex
            let SpecificAmount ← TArray.get x.s.InventoryAmounts RealSpecificInventoryIndex
            let SpecificSlot ← TArray.get x.s.InventoryIndices RealSpecificInventoryIndex
            if EquippedAmount + SpecificAmount ≤ StackSize then
              let InvAmounts ← TArray.set x.s.InventoryAmounts RealSpecificInventoryIndex
                (SpecificAmount + EquippedAmount)
              let s1 ← removeEquipmentStats { x.s with InventoryAmounts := InvAmounts }
                FoundEquipmentDynamicStatsIndex
              let s2 ← removeEquipmentRecord s1 RealEquipmentIndex
              pure ({ s := s2, ChangedSlots := (Add x.ChangedSlots SpecificSlot).1 }, true)
            else
              let EqAmounts ← TArray.set x.s.EquipmentAmounts RealEquipmentIndex
                (EquippedAmount + SpecificAmount - StackSize)
              let InvAmounts ← TArray.set x.s.InventoryAmounts RealSpecificInventoryIndex StackSize
              withoutSpecificSlot
                { s := { x.s with EquipmentAmounts := EqAmounts, InventoryAmounts := InvAmounts },
                  ChangedSlots := (Add x.ChangedSlots SpecificSlot).1 }
          else withoutSpecificSlot x
        else withoutSpecificSlot x
    else
      let EquippedAmount ← TArray.get x.s.EquipmentAmounts RealEquipmentIndex
      if Num x.s.InventoryIndices = InventorySize
          ∨ Num x.s.InventoryIndices + CeilToIntDiv EquippedAmount StackSize > InventorySize then
        pure (x, false)
      else
        let ItemsLeft : Int := if bCanStack then EquippedAmount - StackSize else EquippedAmount - 1
        let EquippedAsset ← TArray.get x.s.EquipmentAssets RealEquipmentIndex
        let s1 : UInventorySystemComponent :=
          { x.s with InventoryIndices := (AddUnique x.s.InventoryIndices SpecificInventorySlot).1,
                     InventoryAssets := (Add x.s.InventoryAssets EquippedAsset).1 }
        let s2 ← if FoundEquipmentDynamicStatsIndex ≠ INDEX_NONE then do
              let Stats ← TArray.get s1.EquipmentDynamicStats FoundEquipmentDynamicStatsIndex
              pure { s1 with
                InventoryDynamicStatsIndices :=
                  (Add s1.InventoryDynamicStatsIndices SpecificInventorySlot).1,
                InventoryDynamicStats := (Add s1.InventoryDynamicStats Stats).1 }
            else pure s1
        if ItemsLeft > 0 then
          let EqAmounts ← TArray.set s2.EquipmentAmounts RealEquipmentIndex ItemsLeft
          withoutSpecificSlot
            { s := { s2 with
                InventoryAmounts := (Add s2.InventoryAmounts (EquippedAmount - ItemsLeft)).1,
                EquipmentAmounts := EqAmounts },
              ChangedSlots := x.ChangedSlots }
        else
          let s3 ← removeEquipmentStats
            { s2 with InventoryAmounts := (Add s2.InventoryAmounts EquippedAmount).1 }
            FoundEquipmentDynamicStatsIndex
          let s4 ← removeEquipmentRecord s3 RealEquipmentIndex
          pure ({ s := s4, ChangedSlots := x.ChangedSlots }, true)
  else withoutSpecificSlot x

/-- `UInventorySystemComponent::ItemUnequipInternal`. The result is the component, the
returned `ChangedSlots` and the broadcasts made inside the function. The fuel of the
closure allows a nested call for each stored amount and two for each slot number up to
the capacity: a nested call follows the topping up of an amount or the filling of a free
slot. -/
def ItemUnequipInternal (w : World) (s : UInventorySystemComponent) (EquipmentSlot : Int)
    (IgnoreInventorySlots : List Int) (bCanStack : Bool) (SpecificInventorySlot : Int) :
    Except Fault (UInventorySystemComponent × List Int × List Broadcast) := do
  let RealEquipmentIndex := Find s.EquipmentIndices EquipmentSlot
  if RealEquipmentIndex = INDEX_NONE ∨ ¬ w.ManagerIsValid
      ∨ ¬ Contains s.EquipmentTypeIndices EquipmentSlot
      ∨ ¬ IsValidIndex s.EquipmentAssets RealEquipmentIndex
      ∨ ¬ IsValidIndex s.EquipmentAmounts RealEquipmentIndex then
    pure (s, [], [])
  else if ¬ IgnoreInventorySlots.isEmpty
      ∧ GetInventorySizeConfig w s < MaxOfIntArray IgnoreInventorySlots then
    pure (s, [], [])
  else
    let FoundEquipmentDynamicStatsIndex := Find s.EquipmentDynamicStatsIndices EquipmentSlot
    if FoundEquipmentDynamicStatsIndex ≠ INDEX_NONE
        ∧ ¬ IsValidIndex s.EquipmentDynamicStats FoundEquipmentDynamicStatsIndex then
      pure (s, [], [])
    else
      let EquippedAsset ← TArray.get s.EquipmentAssets RealEquipmentIndex
      match w.GetPrimaryAssetData EquippedAsset with
      | none => pure (s, [], [])
      | some AssetData =>
        let (x, bResult) ← ItemUnequipInternal.UnequipItemSpecificSlot w (GetStackSizeConfig w s)
          (GetInventorySizeConfig w s) IgnoreInventorySlots bCanStack AssetData.bCanStack
          SpecificInventorySlot RealEquipmentIndex FoundEquipmentDynamicStatsIndex
          (s.InventoryAmounts.length + 2 * (GetInventorySizeConfig w s).toNat + 2)
          { s := s, ChangedSlots := [] }
        pure (x.s, x.ChangedSlots, [.ItemUnequipSuccess bResult EquipmentSlot x.ChangedSlots])

/-- `UInventorySystemComponent::ItemUnequip_Implementation`. -/
def ItemUnequip (w : World) (s : UInventorySystemComponent) (EquipmentSlot : Int)
    (IgnoreInventorySlots : List Int) (bCanStack : Bool) (SpecificInventorySlot : Int) :
    Except Fault (UInventorySystemComponent × List Broadcast) := do
  if ¬ w.OwnerHasAuthority then pure (s, [.ItemUnequipSuccess false EquipmentSlot []])
  else if s.bIsProcessing then pure (s, [.ItemUnequipSuccess false EquipmentSlot []])
  else
    let (s1, ChangedSlots, inner) ← ItemUnequipInternal w { s with bIsProcessing := true }
      EquipmentSlot IgnoreInventorySlots bCanStack SpecificInventorySlot
    if IsEmpty ChangedSlots then
      pure ({ s1 with bIsProcessing := false }, inner ++ [.ItemUnequipSuccess false EquipmentSlot []])
    else
      pure ({ s1 with bIsProcessing := false },
        inner ++ [.ItemUnequipSuccess true EquipmentSlot ChangedSlots,
                  .ChangedEquipmentSlots [EquipmentSlot], .ChangedInventorySlots ChangedSlots])

/-- The clean-up repeated on the failure paths of `ItemEquipFromInventory`: drop the
equipment record created by the automatic slot search, if any. -/
def ItemEquipFromInventory.dropCreated (s : UInventorySystemComponent)
    (CreatedEquipmentIndicesIndex : Int) : Except Fault UInventorySystemComponent := do
  if CreatedEquipmentIndicesIndex ≠ INDEX_NONE then
    let Amounts ← RemoveAt s.EquipmentAmounts CreatedEquipmentIndicesIndex
    let Assets ← RemoveAt s.EquipmentAssets CreatedEquipmentIndicesIndex
    let Indices ← RemoveAt s.EquipmentIndices CreatedEquipmentIndicesIndex
    pure { s with EquipmentAmounts := Amounts, EquipmentAssets := Assets, EquipmentIndices := Indices }
  else pure s

/-- The loop of `ItemEquipFromInventory` that searches the type slots for the first one
accepting the item (`EquipmentSlot == INDEX_NONE`). The result is the component,
`RealEquipmentSlot` and `CreatedEquipmentIndicesIndex`; `none` when no slot fits. -/
def ItemEquipFromInventory.findTypeSlot (s : UInventorySystemComponent)
    (AssetEquipmentType : List FPrimaryAssetId) :
    Except Fault (Option (UInventorySystemComponent × Int × Int)) := do
  match (List.range s.EquipmentTypes.length).find? (fun I =>
      match s.EquipmentTypes[I]? with
      | some T => decide (T ≠ FPrimaryAssetId.None) && Contains AssetEquipmentType T
      | none => false) with
  | none => pure none
  | some I =>
    let TypeSlot ← TArray.get s.EquipmentTypeIndices (I : Int)
    if ¬ Contains s.EquipmentIndices TypeSlot then
      let r := AddUnique s.EquipmentIndices TypeSlot
      let s1 : UInventorySystemComponent :=
        { s with EquipmentIndices := r.1,
                 EquipmentAmounts := (Add s.EquipmentAmounts 1).1,
                 EquipmentAssets := (Add s.EquipmentAssets FPrimaryAssetId.None).1 }
      pure (some (s1, TypeSlot, r.2))
    else pure (some (s, TypeSlot, INDEX_NONE))

/-- The statements of `ItemEquipFromInventory` that put the remembered inventory record
back (`InventoryIndices.AddUnique`, `InventoryAssets.Add`, `InventoryAmounts.Add` and
the property bag). -/
def ItemEquipFromInventory.addInventoryRecord (s : UInventorySystemComponent)
    (TempInventorySlot : Int) (TempInventoryAsset : FPrimaryAssetId) (TempInventoryAmount : Int)
    (FoundInventoryDynamicStatsIndex : Int) (TempDynamicStats : FItemProperties) :
    UInventorySystemComponent :=
  let s1 : UInventorySystemComponent :=
    { s with InventoryIndices := (AddUnique s.InventoryIndices TempInventorySlot).1,
             InventoryAssets := (Add s.InventoryAssets TempInventoryAsset).1,
             InventoryAmounts := (Add s.InventoryAmounts TempInventoryAmount).1 }
  if FoundInventoryDynamicStatsIndex ≠ INDEX_NONE then
    { s1 with
      InventoryDynamicStatsIndices := (AddUnique s1.InventoryDynamicStatsIndices TempInventorySlot).1,
      InventoryDynamicStats := (Add s1.InventoryDynamicStats TempDynamicStats).1 }
  else s1

/-- The statements of `ItemEquipFromInventory` that delete the inventory record at
`RealIndex` together with its property bag. -/
def ItemEquipFromInventory.removeInventoryRecord (s : UInventorySystemComponent)
    (RealIndex FoundInventoryDynamicStatsIndex : Int) : Except Fault UInventorySystemComponent := do
  let s1 ← if FoundInventoryDynamicStatsIndex ≠ INDEX_NONE then do
        let Stats ← RemoveAt s.InventoryDynamicStats FoundInventoryDynamicStatsIndex
        let StatsIndices ← RemoveAt s.InventoryDynamicStatsIndices FoundInventoryDynamicStatsIndex
        pure { s with InventoryDynamicStats := Stats, InventoryDynamicStatsIndices := StatsIndices }
      else pure s
  let Amounts ← RemoveAt s1.InventoryAmounts RealIndex
  let Assets ← RemoveAt s1.InventoryAssets RealIndex
  let Indices ← RemoveAt s1.InventoryIndices RealIndex
  pure { s1 with InventoryAmounts := Amounts, InventoryAssets := Assets, InventoryIndices := Indices }

/-- The branch of `ItemEquipFromInventory` for an equipment slot that already holds a
record ("Unequip item before equipping new one or merge if possible"). -/
def ItemEquipFromInventory.occupied (w : World) (s : UInventorySystemComponent)
    (Slot RealEquipmentSlot : Int) (bCanUnequippedItemStack bCanStack TempCanStack : Bool)
    (RealIndex RealEquipmentIndex CreatedEquipmentIndicesIndex FoundInventoryDynamicStatsIndex
      FoundEquipmentDynamicStatsIndex : Int) :
    Except Fault (UInventorySystemComponent × List Broadcast) := do
  let EquipmentStackSize := GetEquipmentStackSizeConfig w s
  let succeeded (t : UInventorySystemComponent) (inner : List Broadcast) (ChangedSlots : List Int) :
      UInventorySystemComponent × List Broadcast :=
    ({ t with bIsProcessing := false },
      inner ++ [.ItemEquipFromInventorySuccess true RealEquipmentSlot Slot,
                .ChangedEquipmentSlots [RealEquipmentSlot], .ChangedInventorySlots ChangedSlots])
  let EquippedAsset ← TArray.get s.EquipmentAssets RealEquipmentIndex
  let InventoryAsset ← TArray.get s.InventoryAssets RealIndex
  let bSameItem ←
    if EquippedAsset = InventoryAsset then
      if FoundInventoryDynamicStatsIndex ≠ INDEX_NONE
          ∧ FoundEquipmentDynamicStatsIndex ≠ INDEX_NONE then do
        let InvStats ← TArray.get s.InventoryDynamicStats FoundInventoryDynamicStatsIndex
        let EqStats ← TArray.get s.EquipmentDynamicStats FoundEquipmentDynamicStatsIndex
        pure (FItemProperties.eq InvStats EqStats)
      else pure (decide (FoundInventoryDynamicStatsIndex = INDEX_NONE
          ∧ FoundEquipmentDynamicStatsIndex = INDEX_NONE))
    else pure false
  if bSameItem then
    if bCanStack ∧ TempCanStack then
      let ChangedSlots := [Slot, Slot]
      let EquippedAmount ← TArray.get s.EquipmentAmounts RealEquipmentIndex
      let InventoryAmount ← TArray.get s.InventoryAmounts RealIndex
      let NewAmount := EquippedAmount + InventoryAmount
      if NewAmount ≤ EquipmentStackSize then
        let Indices := Remove s.InventoryIndices Slot
        let Amounts ← RemoveAt s.InventoryAmounts RealIndex
        let Assets ← RemoveAt s.InventoryAssets RealIndex
        let s1 : UInventorySystemComponent :=
          { s with InventoryIndices := Indices, InventoryAmounts := Amounts, InventoryAssets := Assets }
        let s2 ← if FoundInventoryDynamicStatsIndex ≠ INDEX_NONE then do
              let StatsIndices ← RemoveAt s1.InventoryDynamicStatsIndices FoundInventoryDynamicStatsIndex
              let Stats ← RemoveAt s1.InventoryDynamicStats FoundInventoryDynamicStatsIndex
              pure { s1 with InventoryDynamicStatsIndices := StatsIndices, InventoryDynamicStats := Stats }
            else pure s1
        let EqAmounts ← TArray.set s2.EquipmentAmounts RealEquipmentIndex NewAmount
        pure (succeeded { s2 with EquipmentAmounts := EqAmounts } [] ChangedSlots)
      else
        let Amounts ← TArray.set s.InventoryAmounts RealIndex
          (InventoryAmount - (EquipmentStackSize - EquippedAmount))
        let EqAmounts ← TArray.set s.EquipmentAmounts RealEquipmentIndex
          (Clamp NewAmount 1 EquipmentStackSize)
        pure (succeeded { s with InventoryAmounts := Amounts, EquipmentAmounts := EqAmounts } []
          ChangedSlots)
    else pure (succeeded s [] [Slot])
  else
    let TempInventorySlot ← TArray.get s.InventoryIndices RealIndex
    let TempInventoryAmount ← TArray.get s.InventoryAmounts RealIndex
    let TempInventoryAsset := InventoryAsset
    let TempDynamicStats ← if FoundInventoryDynamicStatsIndex ≠ INDEX_NONE then
          TArray.get s.InventoryDynamicStats FoundInventoryDynamicStatsIndex
        else pure FItemProperties.empty
    let s1 ← if FoundInventoryDynamicStatsIndex ≠ INDEX_NONE then do
          let StatsIndices ← RemoveAt s.InventoryDynamicStatsIndices FoundInventoryDynamicStatsIndex
          let Stats ← RemoveAt s.InventoryDynamicStats FoundInventoryDynamicStatsIndex
          pure { s with InventoryDynamicStatsIndices := StatsIndices, InventoryDynamicStats := Stats }
        else pure s
    let Assets ← RemoveAt s1.InventoryAssets RealIndex
    let Amounts ← RemoveAt s1.InventoryAmounts RealIndex
    let Indices ← RemoveAt s1.InventoryIndices RealIndex
    let s2 : UInventorySystemComponent :=
      { s1 with InventoryAssets := Assets, InventoryAmounts := Amounts, InventoryIndices := Indices }
    let (s3, Unequipped, inner) ←
      if bCanStack ∧ TempInventoryAmount ≤ EquipmentStackSize then
        ItemUnequipInternal w s2 RealEquipmentSlot [] bCanUnequippedItemStack Slot
      else ItemUnequipInternal w s2 RealEquipmentSlot [Slot] bCanUnequippedItemStack Slot
    let ChangedSlots := [Slot] ++ Unequipped
    if IsEmpty ChangedSlots then
      let s4 := ItemEquipFromInventory.addInventoryRecord s3 TempInventorySlot TempInventoryAsset
        TempInventoryAmount FoundInventoryDynamicStatsIndex TempDynamicStats
      let s5 ← ItemEquipFromInventory.dropCreated s4 CreatedEquipmentIndicesIndex
      pure ({ s5 with bIsProcessing := false },
        inner ++ [.ItemEquipFromInventorySuccess false RealEquipmentSlot Slot])
    else
      let s4 : UInventorySystemComponent :=
        { s3 with EquipmentIndices := (AddUnique s3.EquipmentIndices RealEquipmentSlot).1,
                  EquipmentAssets := (Add s3.EquipmentAssets TempInventoryAsset).1 }
      let NewEquipmentAmountIndex := (Add s4.EquipmentAmounts 1).2
      let s5 : UInventorySystemComponent :=
        { s4 with EquipmentAmounts := (Add s4.EquipmentAmounts 1).1 }
      let s6 : UInventorySystemComponent :=
        if FoundInventoryDynamicStatsIndex ≠ INDEX_NONE then
          { s5 with
            EquipmentDynamicStatsIndices :=
              (AddUnique s5.EquipmentDynamicStatsIndices RealEquipmentSlot).1,
            EquipmentDynamicStats := (Add s5.EquipmentDynamicStats TempDynamicStats).1 }
        else s5
      if bCanStack ∧ TempInventoryAmount > 1 then
        let Equipped := Clamp TempInventoryAmount 1 EquipmentStackSize
        let EqAmounts ← TArray.set s6.EquipmentAmounts NewEquipmentAmountIndex Equipped
        let s7 : UInventorySystemComponent := { s6 with EquipmentAmounts := EqAmounts }
        if Equipped ≠ TempInventoryAmount then
          let Rest : Int :=
            if Equipped = EquipmentStackSize then TempInventoryAmount - EquipmentStackSize
            else TempInventoryAmount - 1
          pure (succeeded
            (ItemEquipFromInventory.addInventoryRecord s7 TempInventorySlot TempInventoryAsset Rest
              FoundInventoryDynamicStatsIndex TempDynamicStats) inner ChangedSlots)
        else pure (succeeded s7 inner ChangedSlots)
      else if TempInventoryAmount > 1 then
        pure (succeeded
          (ItemEquipFromInventory.addInventoryRecord s6 TempInventorySlot TempInventoryAsset
            (TempInventoryAmount - 1) FoundInventoryDynamicStatsIndex TempDynamicStats)
          inner ChangedSlots)
      else pure (succeeded s6 inner ChangedSlots)

/-- The branch of `ItemEquipFromInventory` for an equipment slot without a record, or
with the placeholder record created by the automatic slot search ("Equip item when
nothing is equipped"). -/
def ItemEquipFromInventory.vacant (w : World) (s : UInventorySystemComponent)
    (Slot RealEquipmentSlot : Int) (bCanStack : Bool)
    (RealIndex CreatedEquipmentIndicesIndex FoundInventoryDynamicStatsIndex : Int) :
    Except Fault (UInventorySystemComponent × List Broadcast) := do
  let EquipmentStackSize := GetEquipmentStackSizeConfig w s
  let succeeded (t : UInventorySystemComponent) : UInventorySystemComponent × List Broadcast :=
    ({ t with bIsProcessing := false },
      [.ItemEquipFromInventorySuccess true RealEquipmentSlot Slot,
       .ChangedEquipmentSlots [RealEquipmentSlot], .ChangedInventorySlots [Slot]])
  let InventoryAsset ← TArray.get s.InventoryAssets RealIndex
  let (s1, NewEquipmentAmountIndex) ←
    if CreatedEquipmentIndicesIndex = INDEX_NONE then
      let s0 : UInventorySystemComponent :=
        { s with EquipmentIndices := (AddUnique s.EquipmentIndices RealEquipmentSlot).1,
                 EquipmentAssets := (Add s.EquipmentAssets InventoryAsset).1 }
      pure (({ s0 with EquipmentAmounts := (Add s0.EquipmentAmounts 1).1 } :
        UInventorySystemComponent), (Add s0.EquipmentAmounts 1).2)
    else do
      let Assets ← TArray.set s.EquipmentAssets CreatedEquipmentIndicesIndex InventoryAsset
      pure (({ s with EquipmentAssets := Assets } : UInventorySystemComponent),
        CreatedEquipmentIndicesIndex)
  let s2 ← if FoundInventoryDynamicStatsIndex ≠ INDEX_NONE then do
        let Stats ← TArray.get s1.InventoryDynamicStats FoundInventoryDynamicStatsIndex
        pure ({ s1 with
          EquipmentDynamicStatsIndices :=
            (AddUnique s1.EquipmentDynamicStatsIndices RealEquipmentSlot).1,
          EquipmentDynamicStats := (Add s1.EquipmentDynamicStats Stats).1 } :
          UInventorySystemComponent)
      else pure s1
  let InventoryAmount ← TArray.get s2.InventoryAmounts RealIndex
  if bCanStack ∧ InventoryAmount > 1 then
    let Equipped := Clamp InventoryAmount 1 EquipmentStackSize
    let EqAmounts ← TArray.set s2.EquipmentAmounts NewEquipmentAmountIndex Equipped
    let s3 : UInventorySystemComponent := { s2 with EquipmentAmounts := EqAmounts }
    if Equipped = InventoryAmount then
      let s4 ← ItemEquipFromInventory.removeInventoryRecord s3 RealIndex
        FoundInventoryDynamicStatsIndex
      pure (succeeded s4)
    else if Equipped = EquipmentStackSize then
      let Amounts ← TArray.set s3.InventoryAmounts RealIndex (InventoryAmount - EquipmentStackSize)
      pure (succeeded { s3 with InventoryAmounts := Amounts })
    else
      let Amounts ← TArray.set s3.InventoryAmounts RealIndex (InventoryAmount - 1)
      pure (succeeded { s3 with InventoryAmounts := Amounts })
  else
    let s3 ← ItemEquipFromInventory.removeInventoryRecord s2 RealIndex
      FoundInventoryDynamicStatsIndex
    pure (succeeded s3)

/-- `UInventorySystemComponent::ItemEquipFromInventory_Implementation`. -/
def ItemEquipFromInventory (w : World) (s : UInventorySystemComponent) (Slot EquipmentSlot : Int)
    (bCanUnequippedItemStack bCanStack : Bool) :
    Except Fault (UInventorySystemComponent × List Broadcast) := do
  if ¬ w.ManagerIsValid then
    pure ({ s with bIsProcessing := false }, [.ItemEquipFromInventorySuccess false EquipmentSlot Slot])
  else if ¬ w.OwnerHasAuthority then
    pure (s, [.ItemEquipFromInventorySuccess false EquipmentSlot Slot])
  else if s.bIsProcessing then
    pure (s, [.ItemEquipFromInventorySuccess false EquipmentSlot Slot])
  else
    let s0 : UInventorySystemComponent := { s with bIsProcessing := true }
    let failed (t : UInventorySystemComponent) (ReportedSlot : Int) :
        UInventorySystemComponent × List Broadcast :=
      ({ t with bIsProcessing := false }, [.ItemEquipFromInventorySuccess false ReportedSlot Slot])
    let RealIndex := Find s0.InventoryIndices Slot
    if RealIndex = INDEX_NONE then pure (failed s0 EquipmentSlot)
    else
      let InventoryAsset ← TArray.get s0.InventoryAssets RealIndex
      match w.GetPrimaryAssetData InventoryAsset with
      | none => pure (failed s0 EquipmentSlot)
      | some AssetData =>
        let TempCanStack := AssetData.bCanStack
        let AssetEquipmentType := AssetData.EquipmentType
        if IsEmpty AssetEquipmentType then pure (failed s0 EquipmentSlot)
        else
          let searched ← if EquipmentSlot = INDEX_NONE then
                ItemEquipFromInventory.findTypeSlot s0 AssetEquipmentType
              else pure (some (s0, EquipmentSlot, INDEX_NONE))
          match searched with
          | none => pure (failed s0 EquipmentSlot)
          | some (s1, RealEquipmentSlot, CreatedEquipmentIndicesIndex) =>
            let RealEquipmentIndex := Find s1.EquipmentIndices RealEquipmentSlot
            let RealEquipmentTypeIndex := Find s1.EquipmentTypeIndices RealEquipmentSlot
            let bTypeSlotInvalid ←
              if RealEquipmentTypeIndex = INDEX_NONE
                  ∨ ¬ IsValidIndex s1.EquipmentTypes RealEquipmentTypeIndex then pure true
              else do
                let T ← TArray.get s1.EquipmentTypes RealEquipmentTypeIndex
                pure (decide (¬ T.IsValid ∨ T = FPrimaryAssetId.None
                  ∨ ¬ IsValidIndex s1.InventoryAmounts RealIndex
                  ∨ ¬ IsValidIndex s1.InventoryAssets RealIndex))
            if bTypeSlotInvalid then
              let s2 ← ItemEquipFromInventory.dropCreated s1 CreatedEquipmentIndicesIndex
              pure (failed s2 RealEquipmentSlot)
            else
              let SlotType ← TArray.get s1.EquipmentTypes RealEquipmentTypeIndex
              if ¬ Contains AssetEquipmentType SlotType then
                let s2 ← ItemEquipFromInventory.dropCreated s1 CreatedEquipmentIndicesIndex
                pure (failed s2 EquipmentSlot)
              else
                let FoundInventoryDynamicStatsIndex := Find s1.InventoryDynamicStatsIndices Slot
                let FoundEquipmentDynamicStatsIndex :=
                  Find s1.EquipmentDynamicStatsIndices RealEquipmentSlot
                if FoundInventoryDynamicStatsIndex ≠ INDEX_NONE
                    ∧ ¬ IsValidIndex s1.InventoryDynamicStats FoundInventoryDynamicStatsIndex then
                  let s2 ← ItemEquipFromInventory.dropCreated s1 CreatedEquipmentIndicesIndex
                  pure (failed s2 RealEquipmentSlot)
                else if FoundEquipmentDynamicStatsIndex ≠ INDEX_NONE
                    ∧ ¬ IsValidIndex s1.EquipmentDynamicStats FoundEquipmentDynamicStatsIndex then
                  let s2 ← ItemEquipFromInventory.dropCreated s1 CreatedEquipmentIndicesIndex
                  pure (failed s2 RealEquipmentSlot)
                else if RealEquipmentIndex ≠ INDEX_NONE
                    ∧ CreatedEquipmentIndicesIndex = INDEX_NONE then
                  ItemEquipFromInventory.occupied w s1 Slot RealEquipmentSlot
                    bCanUnequippedItemStack bCanStack TempCanStack RealIndex RealEquipmentIndex
                    CreatedEquipmentIndicesIndex FoundInventoryDynamicStatsIndex
                    FoundEquipmentDynamicStatsIndex
                else
                  ItemEquipFromInventory.vacant w s1 Slot RealEquipmentSlot bCanStack RealIndex
                    CreatedEquipmentIndicesIndex FoundInventoryDynamicStatsIndex

/-- `UInventorySystemComponent::SetEquipmentType_Implementation`. `ItemEquipmentTypeClass`
is the name of the class `UItemEquipmentTypeDataAsset`, with which the asset type of
`EquipmentType` is compared; the call of `ItemUnequipInternal(Slot, {}, true)` takes the
default `SpecificInventorySlot = -1`. -/
def SetEquipmentType (w : World) (ItemEquipmentTypeClass : Nat) (s : UInventorySystemComponent)
    (Slot : Int) (EquipmentType : FPrimaryAssetId) :
    Except Fault (UInventorySystemComponent × List Broadcast) := do
  let failure : List Broadcast := [.SetEquipmentTypeFailure Slot EquipmentType]
  if ¬ w.OwnerHasAuthority then pure (s, failure)
  else if s.bIsProcessing then pure (s, failure)
  else
    let s0 : UInventorySystemComponent := { s with bIsProcessing := true }
    if EquipmentType.PrimaryAssetType ≠ ItemEquipmentTypeClass then
      pure ({ s0 with bIsProcessing := false }, failure)
    else
      let RealEquipmentTypeIndices := Find s0.EquipmentTypeIndices Slot
      if RealEquipmentTypeIndices = INDEX_NONE then
        if EquipmentType = FPrimaryAssetId.None ∨ ¬ EquipmentType.IsValid then
          pure ({ s0 with bIsProcessing := false }, failure)
        else
          pure ({ s0 with EquipmentTypeIndices := (AddUnique s0.EquipmentTypeIndices Slot).1,
                          EquipmentTypes := (Add s0.EquipmentTypes EquipmentType).1,
                          bIsProcessing := false },
            [.SetEquipmentTypeSuccess Slot, .ChangedEquipmentSlots [Slot]])
      else if ¬ IsValidIndex s0.EquipmentTypes RealEquipmentTypeIndices then
        pure ({ s0 with bIsProcessing := false }, failure)
      else
        let (s1, ChangedSlots, inner) ←
          if Contains s0.EquipmentIndices Slot then ItemUnequipInternal w s0 Slot [] true INDEX_NONE
          else pure (s0, [], [])
        if Contains s0.EquipmentIndices Slot ∧ IsEmpty ChangedSlots then
          pure ({ s1 with bIsProcessing := false }, inner ++ failure)
        else if EquipmentType = FPrimaryAssetId.None then
          let Types ← RemoveAt s1.EquipmentTypes RealEquipmentTypeIndices
          let TypeIndices ← RemoveAt s1.EquipmentTypeIndices RealEquipmentTypeIndices
          pure ({ s1 with EquipmentTypes := Types, EquipmentTypeIndices := TypeIndices,
                          bIsProcessing := false },
            inner ++ [.SetEquipmentTypeSuccess Slot, .ChangedEquipmentSlots [Slot],
                      .ChangedInventorySlots ChangedSlots])
        else
          let Types ← TArray.set s1.EquipmentTypes RealEquipmentTypeIndices EquipmentType
          pure ({ s1 with EquipmentTypes := Types, bIsProcessing := false },
            inner ++ [.SetEquipmentTypeSuccess Slot, .ChangedEquipmentSlots [Slot],
                      .ChangedInventorySlots ChangedSlots])

end UInventorySystemComponent

namespace UInventorySystemComponent

open TArray

/-- A call `AddItemInternal(InventoryAsset, DynamicStats, Amount, bCanStack,
bRevertWhenFull)` made by the inventory system component: the component, the value left
in the in/out parameter `Amount` and the returned `ChangedSlots`. -/
def addToInventory (w : World) (s : UInventorySystemComponent) (InventoryAsset : FPrimaryAssetId)
    (DynamicStats : FItemProperties) (Amount : Int) (bCanStack bRevertWhenFull : Bool) :
    Except Fault (UInventorySystemComponent × Int × List Int) := do
  let x ← UItemContainerComponent.AddItemInternal w s.toUItemContainerComponent
    (GetStackSizeConfig w s) (GetInventorySizeConfig w s) InventoryAsset DynamicStats Amount
    bCanStack bRevertWhenFull
  pure ({ s with toUItemContainerComponent := x.c }, x.Amount, x.ChangedSlots)

/-- The statements of `AddItemToEquipmentSlot` that record `DynamicStats` for an equipment
slot without a property bag (`EquipmentDynamicStatsIndices.AddUnique`,
`EquipmentDynamicStats.Add`). The flag is `false` on the branch that logs "should not be
filled", takes the index out again and returns. -/
def AddItemToEquipmentSlot.storeStats (s : UInventorySystemComponent) (EquipmentSlot : Int)
    (DynamicStats : FItemProperties) : Except Fault (UInventorySystemComponent × Bool) := do
  if ¬ DynamicStats.ItemProperties.isEmpty then
    let r := AddUnique s.EquipmentDynamicStatsIndices EquipmentSlot
    if IsValidIndex s.EquipmentDynamicStats r.2 then
      let StatsIndices ← RemoveAt r.1 r.2
      pure ({ s with EquipmentDynamicStatsIndices := StatsIndices }, false)
    else
      pure ({ s with EquipmentDynamicStatsIndices := r.1,
                     EquipmentDynamicStats := (Add s.EquipmentDynamicStats DynamicStats).1 }, true)
  else pure (s, true)

/-- The end of `AddItemToEquipmentSlot` on its two successful paths: the part of `Amount`
above `NewAmount` goes to `AddItemInternal`. The result is the component, the final
`ChangedSlots` and the final `ItemAmount`. -/
def AddItemToEquipmentSlot.overflow (w : World) (s : UInventorySystemComponent)
    (InventoryAsset : FPrimaryAssetId) (DynamicStats : FItemProperties)
    (Amount NewAmount : Int) (bCanStack : Bool) (ChangedSlots : List Int) :
    Except Fault (UInventorySystemComponent × List Int × Int) := do
  let ItemAmount := Amount - NewAmount
  if ItemAmount > 0 then
    let (t, Left, Changed) ← addToInventory w s InventoryAsset DynamicStats ItemAmount bCanStack false
    pure (t, ChangedSlots ++ Changed, Left)
  else pure (s, ChangedSlots, ItemAmount)

/-- The branch of `AddItemToEquipmentSlot` for an equipment slot without a record
("Equip item here - Create new"). -/
def AddItemToEquipmentSlot.create (w : World) (s : UInventorySystemComponent)
    (InventoryAsset : FPrimaryAssetId) (EquipmentSlot : Int) (DynamicStats : FItemProperties)
    (Amount NewAmount : Int) (bCanStack : Bool) :
    Except Fault (UInventorySystemComponent × List Broadcast) := do
  let (s1, bStored) ← AddItemToEquipmentSlot.storeStats s EquipmentSlot DynamicStats
  if ¬ bStored then
    pure ({ s1 with bIsProcessing := false },
      [.AddItemToEquipmentSlotFailure InventoryAsset EquipmentSlot DynamicStats Amount,
       .ChangedInventorySlots []])
  else
    let s2 : UInventorySystemComponent :=
      { s1 with EquipmentIndices := (AddUnique s1.EquipmentIndices EquipmentSlot).1,
                EquipmentAmounts := (Add s1.EquipmentAmounts Amount).1,
                EquipmentAssets := (Add s1.EquipmentAssets InventoryAsset).1 }
    let (s3, ChangedSlots, ItemAmount) ←
      AddItemToEquipmentSlot.overflow w s2 InventoryAsset DynamicStats Amount NewAmount bCanStack []
    pure ({ s3 with bIsProcessing := false },
      [.AddItemToEquipmentSlotSuccess EquipmentSlot ChangedSlots ItemAmount,
       .ChangedEquipmentSlots [EquipmentSlot], .ChangedInventorySlots ChangedSlots])

/-- The part of the occupied branch of `AddItemToEquipmentSlot` that adds to the equipped
stack (`bCanStack && EquipmentAssets[RealEquipmentIndex] == InventoryAsset`,
`TempCanStack`). The result is `none` when the function goes on to replace the equipped
item. -/
def AddItemToEquipmentSlot.stack (w : World) (s : UInventorySystemComponent)
    (InventoryAsset : FPrimaryAssetId) (EquipmentSlot : Int) (DynamicStats : FItemProperties)
    (Amount : Int) (bCanStack TempCanStack : Bool) (RealEquipmentIndex : Int) :
    Except Fault (Option (UInventorySystemComponent × List Broadcast)) := do
  let EquipmentStackSize := GetEquipmentStackSizeConfig w s
  let bSameAsset ← if bCanStack then do
        let EquippedAsset ← TArray.get s.EquipmentAssets RealEquipmentIndex
        pure (decide (EquippedAsset = InventoryAsset))
      else pure false
  if bSameAsset ∧ TempCanStack then
    let EquippedAmount ← TArray.get s.EquipmentAmounts RealEquipmentIndex
    if EquippedAmount = EquipmentStackSize then
      let (t, ItemAmount, ChangedSlots) ←
        addToInventory w s InventoryAsset DynamicStats Amount bCanStack false
      pure (some ({ t with bIsProcessing := false },
        [.AddItemToEquipmentSlotSuccess EquipmentSlot ChangedSlots ItemAmount,
         .ChangedEquipmentSlots [EquipmentSlot], .ChangedInventorySlots ChangedSlots]))
    else
      let RealEquipmentDynamicStatsIndex := Find s.EquipmentDynamicStatsIndices EquipmentSlot
      let bSameStats ← if RealEquipmentDynamicStatsIndex ≠ INDEX_NONE then do
            let EquippedStats ← TArray.get s.EquipmentDynamicStats RealEquipmentDynamicStatsIndex
            pure (FItemProperties.eq EquippedStats DynamicStats)
          else pure DynamicStats.ItemProperties.isEmpty
      if bSameStats then
        let ClampedAmount := Clamp (EquippedAmount + Amount) 1 EquipmentStackSize
        let Overflow := EquippedAmount + Amount - EquipmentStackSize
        let Amounts ← TArray.set s.EquipmentAmounts RealEquipmentIndex ClampedAmount
        let s1 : UInventorySystemComponent := { s with EquipmentAmounts := Amounts }
        if Overflow > 0 then
          let (t, Left, ChangedSlots) ←
            addToInventory w s1 InventoryAsset DynamicStats Overflow bCanStack false
          pure (some ({ t with bIsProcessing := false },
            [.AddItemToEquipmentSlotSuccess EquipmentSlot ChangedSlots Left,
             .ChangedEquipmentSlots [EquipmentSlot], .ChangedInventorySlots ChangedSlots]))
        else
          pure (some ({ s1 with bIsProcessing := false },
            [.AddItemToEquipmentSlotSuccess EquipmentSlot [] Overflow,
             .ChangedEquipmentSlots [EquipmentSlot], .ChangedInventorySlots []]))
      else pure none
  else pure none

/-- The part of the occupied branch of `AddItemToEquipmentSlot` that moves the equipped
item to the inventory: through `AddItemInternal` when `bCanUnequippedItemStack` is set
and the equipped item is stackable (the array element `EquipmentAmounts[RealEquipmentIndex]`
is the in/out parameter `Amount` of that call and receives what the call leaves in it),
else as a new record in the next empty slot. The result is the component and
`ChangedSlots`, or `none` when the function broadcasts the failure and returns. -/
def AddItemToEquipmentSlot.unequip (w : World) (s : UInventorySystemComponent)
    (EquipmentSlot : Int) (bCanUnequippedItemStack : Bool) (RealEquipmentIndex : Int) :
    Except Fault (UInventorySystemComponent × Option (List Int)) := do
  let viaAddItem : Except Fault (Option (UInventorySystemComponent × Option (List Int))) :=
    if bCanUnequippedItemStack then do
      let EquippedAsset ← TArray.get s.EquipmentAssets RealEquipmentIndex
      match w.GetPrimaryAssetData EquippedAsset with
      | none => pure (some (s, none))
      | some EquippedAssetData =>
        if EquippedAssetData.bCanStack then
          let RealEquipmentDynamicStatsIndex := Find s.EquipmentDynamicStatsIndices EquipmentSlot
          if RealEquipmentDynamicStatsIndex ≠ INDEX_NONE
              ∧ ¬ IsValidIndex s.EquipmentDynamicStats RealEquipmentDynamicStatsIndex then
            pure (some (s, none))
          else
            let EquippedEquipmentDynamicStats ←
              if RealEquipmentDynamicStatsIndex ≠ INDEX_NONE then
                TArray.get s.EquipmentDynamicStats RealEquipmentDynamicStatsIndex
              else pure FItemProperties.empty
            let EquippedAmount ← TArray.get s.EquipmentAmounts RealEquipmentIndex
            let (t, Left, UnequipChangeSlots) ← addToInventory w s EquippedAsset
              EquippedEquipmentDynamicStats EquippedAmount bCanUnequippedItemStack true
            let Amounts ← TArray.set t.EquipmentAmounts RealEquipmentIndex Left
            let t1 : UInventorySystemComponent := { t with EquipmentAmounts := Amounts }
            if IsEmpty UnequipChangeSlots then pure (some (t1, none))
            else pure (some (t1, some UnequipChangeSlots))
        else pure none
    else pure none
  match ← viaAddItem with
  | some r => pure r
  | none =>
    match UItemContainerComponent.FindNextEmptySlot s.toUItemContainerComponent
        (GetInventorySizeConfig w s) [] with
    | (_, false) => pure (s, none)
    | (FoundSlot, true) =>
      let RealEquipmentDynamicStatsIndicesIndex :=
        Find s.EquipmentDynamicStatsIndices EquipmentSlot
      let stored : Except Fault (UInventorySystemComponent × Bool) :=
        if RealEquipmentDynamicStatsIndicesIndex ≠ INDEX_NONE then
          if ¬ IsValidIndex s.EquipmentDynamicStats RealEquipmentDynamicStatsIndicesIndex then
            pure (s, false)
          else
            let r := AddUnique s.InventoryDynamicStatsIndices FoundSlot
            if IsValidIndex s.InventoryDynamicStats r.2 then do
              let StatsIndices ← RemoveAt r.1 r.2
              pure ({ s with InventoryDynamicStatsIndices := StatsIndices }, false)
            else do
              let EquippedStats ←
                TArray.get s.EquipmentDynamicStats RealEquipmentDynamicStatsIndicesIndex
              pure ({ s with InventoryDynamicStatsIndices := r.1,
                             InventoryDynamicStats := (Add s.InventoryDynamicStats EquippedStats).1 },
                    true)
        else pure (s, true)
      let (s1, bStored) ← stored
      if ¬ bStored then pure (s1, none)
      else
        let EquippedAmount ← TArray.get s1.EquipmentAmounts RealEquipmentIndex
        let EquippedAsset ← TArray.get s1.EquipmentAssets RealEquipmentIndex
        pure ({ s1 with InventoryIndices := (AddUnique s1.InventoryIndices FoundSlot).1,
                        InventoryAmounts := (Add s1.InventoryAmounts EquippedAmount).1,
                        InventoryAssets := (Add s1.InventoryAssets EquippedAsset).1 },
              some [FoundSlot])

/-- The part of the occupied branch of `AddItemToEquipmentSlot` that puts the new item
into the equipment record ("Equip if exits"). -/
def AddItemToEquipmentSlot.replace (w : World) (s : UInventorySystemComponent)
    (InventoryAsset : FPrimaryAssetId) (EquipmentSlot : Int) (DynamicStats : FItemProperties)
    (Amount NewAmount : Int) (bCanStack : Bool) (RealEquipmentIndex : Int)
    (ChangedSlots : List Int) : Except Fault (UInventorySystemComponent × List Broadcast) := do
  let failure : List Broadcast :=
    [.AddItemToEquipmentSlotFailure InventoryAsset EquipmentSlot DynamicStats Amount]
  let RealEquipmentDynamicStatsIndicesIndex := Find s.EquipmentDynamicStatsIndices EquipmentSlot
  let stored : Except Fault (UInventorySystemComponent × Option (List Broadcast)) :=
    if RealEquipmentDynamicStatsIndicesIndex ≠ INDEX_NONE then
      if ¬ IsValidIndex s.EquipmentDynamicStats RealEquipmentDynamicStatsIndicesIndex then
        pure (s, some (failure ++ [.ChangedInventorySlots ChangedSlots]))
      else if DynamicStats.ItemProperties.isEmpty then do
        let StatsIndices ← RemoveAt s.EquipmentDynamicStatsIndices
          RealEquipmentDynamicStatsIndicesIndex
        let Stats ← RemoveAt s.EquipmentDynamicStats RealEquipmentDynamicStatsIndicesIndex
        pure ({ s with EquipmentDynamicStatsIndices := StatsIndices,
                       EquipmentDynamicStats := Stats }, none)
      else do
        let Stats ← TArray.set s.EquipmentDynamicStats RealEquipmentDynamicStatsIndicesIndex
          DynamicStats
        pure ({ s with EquipmentDynamicStats := Stats }, none)
    else do
      let (s1, bStored) ← AddItemToEquipmentSlot.storeStats s EquipmentSlot DynamicStats
      if ¬ bStored then pure (s1, some failure) else pure (s1, none)
  match ← stored with
  | (s1, some events) => pure ({ s1 with bIsProcessing := false }, events)
  | (s1, none) =>
    let Assets ← TArray.set s1.EquipmentAssets RealEquipmentIndex InventoryAsset
    let Amounts ← TArray.set s1.EquipmentAmounts RealEquipmentIndex NewAmount
    let s2 : UInventorySystemComponent :=
      { s1 with EquipmentAssets := Assets, EquipmentAmounts := Amounts }
    let (s3, Changed, ItemAmount) ← AddItemToEquipmentSlot.overflow w s2 InventoryAsset
      DynamicStats Amount NewAmount bCanStack ChangedSlots
    pure ({ s3 with bIsProcessing := false },
      [.AddItemToEquipmentSlotSuccess EquipmentSlot Changed ItemAmount,
       .ChangedInventorySlots Changed, .ChangedEquipmentSlots [EquipmentSlot]])

/-- `UInventorySystemComponent::AddItemToEquipmentSlot_Implementation`. -/
def AddItemToEquipmentSlot (w : World) (s : UInventorySystemComponent)
    (InventoryAsset : FPrimaryAssetId) (EquipmentSlot : Int) (DynamicStats : FItemProperties)
    (Amount : Int) (bCanUnequippedItemStack bCanStack : Bool) :
    Except Fault (UInventorySystemComponent × List Broadcast) := do
  let failure : List Broadcast :=
    [.AddItemToEquipmentSlotFailure InventoryAsset EquipmentSlot DynamicStats Amount]
  if ¬ w.OwnerHasAuthority then pure (s, failure)
  else if s.bIsProcessing then pure (s, failure)
  else
    let s0 : UInventorySystemComponent := { s with bIsProcessing := true }
    let failed (t : UInventorySystemComponent) : UInventorySystemComponent × List Broadcast :=
      ({ t with bIsProcessing := false }, failure)
    let RealEquipmentTypeIndicesIndex := Find s0.EquipmentTypeIndices EquipmentSlot
    let bInvalid ←
      if ¬ InventoryAsset.IsValid ∨ InventoryAsset = FPrimaryAssetId.None ∨ Amount ≤ 0
          ∨ RealEquipmentTypeIndicesIndex = INDEX_NONE
          ∨ ¬ IsValidIndex s0.EquipmentTypes RealEquipmentTypeIndicesIndex then pure true
      else do
        let T ← TArray.get s0.EquipmentTypes RealEquipmentTypeIndicesIndex
        pure (decide (¬ T.IsValid ∨ T = FPrimaryAssetId.None))
    if bInvalid then pure (failed s0)
    else
      let NewAmount : Int :=
        if Amount > GetEquipmentStackSizeConfig w s0 then GetEquipmentStackSizeConfig w s0
        else Amount
      if ¬ w.ManagerIsValid then pure (failed s0)
      else
        match w.GetPrimaryAssetData InventoryAsset with
        | none => pure (failed s0)
        | some AssetData =>
          if IsEmpty AssetData.EquipmentType then pure (failed s0)
          else
            let SlotType ← TArray.get s0.EquipmentTypes RealEquipmentTypeIndicesIndex
            if ¬ Contains AssetData.EquipmentType SlotType then pure (failed s0)
            else
              let RealEquipmentIndex := Find s0.EquipmentIndices EquipmentSlot
              if RealEquipmentIndex ≠ INDEX_NONE then
                match ← AddItemToEquipmentSlot.stack w s0 InventoryAsset EquipmentSlot
                    DynamicStats Amount bCanStack AssetData.bCanStack RealEquipmentIndex with
                | some r => pure r
                | none =>
                  match ← AddItemToEquipmentSlot.unequip w s0 EquipmentSlot
                      bCanUnequippedItemStack RealEquipmentIndex with
                  | (s1, none) => pure (failed s1)
                  | (s1, some ChangedSlots) =>
                    AddItemToEquipmentSlot.replace w s1 InventoryAsset EquipmentSlot
                      DynamicStats Amount NewAmount bCanStack RealEquipmentIndex ChangedSlots
              else
                AddItemToEquipmentSlot.create w s0 InventoryAsset EquipmentSlot DynamicStats
                  Amount NewAmount bCanStack

/-- `UInventorySystemComponent::RemoveEquipmentAmountFromSlot_Implementation`. The
`FEquipmentSlot` of the broadcast is given as its `EquipmentTypes` and the slot record. -/
def RemoveEquipmentAmountFromSlot (w : World) (s : UInventorySystemComponent)
    (EquipmentSlot Amount : Int) : Except Fault (UInventorySystemComponent × List Broadcast) := do
  let failure : List Broadcast :=
    [.RemoveEquipmentAmountFromSlotSuccess false []
      ⟨EquipmentSlot, FPrimaryAssetId.None, FItemProperties.empty, -1⟩ Amount]
  if ¬ w.ManagerIsValid then pure (s, [])
  else if ¬ w.OwnerHasAuthority then pure (s, failure)
  else if s.bIsProcessing then pure (s, failure)
  else
    let s0 : UInventorySystemComponent := { s with bIsProcessing := true }
    let failed : UInventorySystemComponent × List Broadcast :=
      ({ s0 with bIsProcessing := false }, failure)
    let RealEquipmentIndex := Find s0.EquipmentIndices EquipmentSlot
    if Amount ≤ 0 ∨ Amount > GetEquipmentStackSizeConfig w s0 ∨ RealEquipmentIndex = INDEX_NONE
        ∨ ¬ IsValidIndex s0.EquipmentAmounts RealEquipmentIndex then pure failed
    else
      let TempAmount ← TArray.get s0.EquipmentAmounts RealEquipmentIndex
      let NewAmount := TempAmount - Amount
      if NewAmount < 0 then pure failed
      else
        let TempAsset ← TArray.get s0.EquipmentAssets RealEquipmentIndex
        let RealEquipmentStatsIndex := Find s0.EquipmentDynamicStatsIndices EquipmentSlot
        if RealEquipmentStatsIndex ≠ INDEX_NONE
            ∧ ¬ IsValidIndex s0.EquipmentDynamicStats RealEquipmentStatsIndex then pure failed
        else
          let TempDynamicStats ← if RealEquipmentStatsIndex ≠ INDEX_NONE then
                TArray.get s0.EquipmentDynamicStats RealEquipmentStatsIndex
              else pure FItemProperties.empty
          let TempEquipmentTypes : List FPrimaryAssetId :=
            match w.GetPrimaryAssetData TempAsset with
            | some CurrentItemData => CurrentItemData.EquipmentType
            | none => []
          let success : List Broadcast :=
            [.RemoveEquipmentAmountFromSlotSuccess true TempEquipmentTypes
              ⟨EquipmentSlot, TempAsset, TempDynamicStats, TempAmount⟩ Amount,
             .ChangedEquipmentSlots [EquipmentSlot]]
          if NewAmount = 0 then
            let s1 ← if RealEquipmentStatsIndex ≠ INDEX_NONE then do
                  let StatsIndices ← RemoveAt s0.EquipmentDynamicStatsIndices RealEquipmentStatsIndex
                  let Stats ← RemoveAt s0.EquipmentDynamicStats RealEquipmentStatsIndex
                  pure ({ s0 with EquipmentDynamicStatsIndices := StatsIndices,
                                  EquipmentDynamicStats := Stats } : UInventorySystemComponent)
                else pure s0
            let Amounts ← RemoveAt s1.EquipmentAmounts RealEquipmentIndex
            let Assets ← RemoveAt s1.EquipmentAssets RealEquipmentIndex
            let Indices ← RemoveAt s1.EquipmentIndices RealEquipmentIndex
            pure ({ s1 with EquipmentAmounts := Amounts, EquipmentAssets := Assets,
                            EquipmentIndices := Indices, bIsProcessing := false }, success)
          else
            let Amounts ← TArray.set s0.EquipmentAmounts RealEquipmentIndex NewAmount
            pure ({ s0 with EquipmentAmounts := Amounts, bIsProcessing := false }, success)

/-- The "both slots in use" block of `UInventorySystemComponent::SwapItems_Implementation`.
The comparison `FirstAssetData == SecondAssetData` of the asset data found for the two
equipped assets is the comparison of the two primary asset ids. -/
def SwapItems.bothEquipped (w : World) (s : UInventorySystemComponent) (First Second : Int)
    (bCanStack : Bool) (FirstIndex SecondIndex RealFirstEquipmentTypeIndex
      RealSecondEquipmentTypeIndex RealFirstEquipmentStatsIndex
      RealSecondEquipmentStatsIndex : Int) :
    Except Fault (UInventorySystemComponent × List Broadcast) := do
  let failed : UInventorySystemComponent × List Broadcast :=
    ({ s with bIsProcessing := false }, [.SwapItemSuccess false First Second true])
  let succeeded (t : UInventorySystemComponent) : UInventorySystemComponent × List Broadcast :=
    ({ t with bIsProcessing := false },
      [.SwapItemSuccess true First Second true, .ChangedEquipmentSlots [First, Second]])
  if ¬ IsValidIndex s.EquipmentAssets FirstIndex ∨ ¬ IsValidIndex s.EquipmentAmounts FirstIndex
      ∨ ¬ IsValidIndex s.EquipmentAssets SecondIndex
      ∨ ¬ IsValidIndex s.EquipmentAmounts SecondIndex then
    pure failed
  else
    let FirstAsset ← TArray.get s.EquipmentAssets FirstIndex
    let SecondAsset ← TArray.get s.EquipmentAssets SecondIndex
    match w.GetPrimaryAssetData FirstAsset, w.GetPrimaryAssetData SecondAsset with
    | some FirstAssetData, some SecondAssetData =>
      let FirstAmount ← TArray.get s.EquipmentAmounts FirstIndex
      let SecondAmount ← TArray.get s.EquipmentAmounts SecondIndex
      let merged : Except Fault (Option (UInventorySystemComponent × List Broadcast)) :=
        if bCanStack ∧ FirstAssetData.bCanStack ∧ FirstAsset = SecondAsset then
          if RealFirstEquipmentStatsIndex ≠ INDEX_NONE
              ∧ RealSecondEquipmentStatsIndex ≠ INDEX_NONE
              ∧ (¬ IsValidIndex s.EquipmentDynamicStats RealFirstEquipmentStatsIndex
                ∨ ¬ IsValidIndex s.EquipmentDynamicStats RealSecondEquipmentStatsIndex) then
            pure (some failed)
          else do
            let bIsSameDynamicStatsItem ←
              if RealFirstEquipmentStatsIndex ≠ INDEX_NONE
                  ∧ RealSecondEquipmentStatsIndex ≠ INDEX_NONE then do
                let FirstStats ← TArray.get s.EquipmentDynamicStats RealFirstEquipmentStatsIndex
                let SecondStats ← TArray.get s.EquipmentDynamicStats RealSecondEquipmentStatsIndex
                pure (FItemProperties.eq FirstStats SecondStats)
              else pure false
            if (¬ IsValidIndex s.EquipmentDynamicStats RealFirstEquipmentStatsIndex
                ∧ ¬ IsValidIndex s.EquipmentDynamicStats RealSecondEquipmentStatsIndex)
                ∨ bIsSameDynamicStatsItem then
              if SecondAmount + FirstAmount ≤ GetStackSizeConfig w s then
                let Amounts ← TArray.set s.EquipmentAmounts SecondIndex (SecondAmount + FirstAmount)
                let Indices ← RemoveAt s.EquipmentIndices FirstIndex
                let Amounts ← RemoveAt Amounts FirstIndex
                let Assets ← RemoveAt s.EquipmentAssets FirstIndex
                let s1 : UInventorySystemComponent :=
                  { s with EquipmentIndices := Indices, EquipmentAmounts := Amounts,
                           EquipmentAssets := Assets }
                let s2 ← if RealFirstEquipmentStatsIndex ≠ INDEX_NONE then do
                      let StatsIndices ← RemoveAt s1.EquipmentDynamicStatsIndices
                        RealFirstEquipmentStatsIndex
                      let Stats ← RemoveAt s1.EquipmentDynamicStats RealFirstEquipmentStatsIndex
                      pure ({ s1 with EquipmentDynamicStatsIndices := StatsIndices,
                                      EquipmentDynamicStats := Stats } : UInventorySystemComponent)
                    else pure s1
                pure (some (succeeded s2))
              else if GetStackSizeConfig w s > SecondAmount then
                let AmountLeft := SecondAmount + FirstAmount - GetStackSizeConfig w s
                let Amounts ← TArray.set s.EquipmentAmounts SecondIndex (GetStackSizeConfig w s)
                let Amounts ← TArray.set Amounts FirstIndex AmountLeft
                pure (some (succeeded { s with EquipmentAmounts := Amounts }))
              else pure none
            else pure none
        else pure none
      match ← merged with
      | some r => pure r
      | none =>
        if IsEmpty FirstAssetData.EquipmentType ∨ IsEmpty SecondAssetData.EquipmentType then
          pure failed
        else
          let FirstType ← TArray.get s.EquipmentTypes RealFirstEquipmentTypeIndex
          let SecondType ← TArray.get s.EquipmentTypes RealSecondEquipmentTypeIndex
          if FirstType = SecondType
              ∨ (Contains FirstAssetData.EquipmentType SecondType
                ∧ Contains SecondAssetData.EquipmentType FirstType) then
            let Assets ← Swap s.EquipmentAssets FirstIndex SecondIndex
            let Amounts ← Swap s.EquipmentAmounts FirstIndex SecondIndex
            let s1 : UInventorySystemComponent :=
              { s with EquipmentAssets := Assets, EquipmentAmounts := Amounts }
            let s2 ←
              if RealFirstEquipmentStatsIndex ≠ INDEX_NONE
                  ∧ RealSecondEquipmentStatsIndex ≠ INDEX_NONE then do
                let Stats ← Swap s1.EquipmentDynamicStats RealFirstEquipmentStatsIndex
                  RealSecondEquipmentStatsIndex
                pure ({ s1 with EquipmentDynamicStats := Stats } : UInventorySystemComponent)
              else if RealFirstEquipmentStatsIndex ≠ INDEX_NONE then do
                let StatsIndices ← TArray.set s1.EquipmentDynamicStatsIndices
                  RealFirstEquipmentStatsIndex Second
                pure ({ s1 with EquipmentDynamicStatsIndices := StatsIndices } :
                  UInventorySystemComponent)
              else if RealSecondEquipmentStatsIndex ≠ INDEX_NONE then do
                let StatsIndices ← TArray.set s1.EquipmentDynamicStatsIndices
                  RealSecondEquipmentStatsIndex First
                pure ({ s1 with EquipmentDynamicStatsIndices := StatsIndices } :
                  UInventorySystemComponent)
              else pure s1
            pure (succeeded s2)
          else pure failed
    | _, _ => pure failed

/-- The "only first slot valid" and "only second slot valid" blocks of
`UInventorySystemComponent::SwapItems_Implementation`: the equipment record at position
`FromIndex` (stats position `RealFromEquipmentStatsIndex`) moves to the slot number `To`,
whose type is at position `RealToEquipmentTypeIndex`. -/
def SwapItems.oneEquipped (w : World) (s : UInventorySystemComponent) (First Second : Int)
    (FromIndex RealFromEquipmentStatsIndex To RealToEquipmentTypeIndex : Int) :
    Except Fault (UInventorySystemComponent × List Broadcast) := do
  let failed : UInventorySystemComponent × List Broadcast :=
    ({ s with bIsProcessing := false }, [.SwapItemSuccess false First Second true])
  let FromAsset ← TArray.get s.EquipmentAssets FromIndex
  match w.GetPrimaryAssetData FromAsset with
  | none => pure failed
  | some FromAssetData =>
    if IsEmpty FromAssetData.EquipmentType then pure failed
    else
      let ToType ← TArray.get s.EquipmentTypes RealToEquipmentTypeIndex
      if ¬ Contains FromAssetData.EquipmentType ToType then pure failed
      else
        let Indices ← TArray.set s.EquipmentIndices FromIndex To
        let s1 : UInventorySystemComponent := { s with EquipmentIndices := Indices }
        let s2 ← if RealFromEquipmentStatsIndex ≠ INDEX_NONE then do
              let StatsIndices ← TArray.set s1.EquipmentDynamicStatsIndices
                RealFromEquipmentStatsIndex To
              pure ({ s1 with EquipmentDynamicStatsIndices := StatsIndices } :
                UInventorySystemComponent)
            else pure s1
        pure ({ s2 with bIsProcessing := false },
          [.SwapItemSuccess true First Second true, .ChangedEquipmentSlots [First, Second]])

/-- `UInventorySystemComponent::SwapItems_Implementation` (override): inventory slots are
swapped by the function of the base class, equipment slots here. -/
def SwapItems (w : World) (s : UInventorySystemComponent) (First Second : Int)
    (bCanStack bIsEquipment : Bool) :
    Except Fault (UInventorySystemComponent × List Broadcast) := do
  if ¬ bIsEquipment then
    let r ← UItemContainerComponent.SwapItems w s.toUItemContainerComponent First Second
      bCanStack bIsEquipment
    pure ({ s with toUItemContainerComponent := r.1 }, r.2)
  else if ¬ w.OwnerHasAuthority then pure (s, [.SwapItemSuccess false First Second bIsEquipment])
  else if s.bIsProcessing then pure (s, [.SwapItemSuccess false First Second bIsEquipment])
  else
    let s0 : UInventorySystemComponent := { s with bIsProcessing := true }
    let failed : UInventorySystemComponent × List Broadcast :=
      ({ s0 with bIsProcessing := false }, [.SwapItemSuccess false First Second bIsEquipment])
    let FirstIndex := Find s0.EquipmentIndices First
    let SecondIndex := Find s0.EquipmentIndices Second
    if (FirstIndex = INDEX_NONE ∧ SecondIndex = INDEX_NONE) ∨ ¬ w.ManagerIsValid
        ∨ ¬ Contains s0.EquipmentTypeIndices First
        ∨ ¬ Contains s0.EquipmentTypeIndices Second then
      pure ({ s0 with bIsProcessing := false },
        [.SwapItemSuccess false First Second bIsEquipment,
         .ChangedEquipmentSlots [First, Second]])
    else
      let RealFirstEquipmentTypeIndex := Find s0.EquipmentTypeIndices First
      let RealSecondEquipmentTypeIndex := Find s0.EquipmentTypeIndices Second
      if RealFirstEquipmentTypeIndex = INDEX_NONE ∨ RealSecondEquipmentTypeIndex = INDEX_NONE
          ∨ ¬ IsValidIndex s0.EquipmentTypes RealFirstEquipmentTypeIndex
          ∨ ¬ IsValidIndex s0.EquipmentTypes RealSecondEquipmentTypeIndex then
        pure failed
      else
        let RealFirstEquipmentStatsIndex := Find s0.EquipmentDynamicStatsIndices First
        let RealSecondEquipmentStatsIndex := Find s0.EquipmentDynamicStatsIndices Second
        if (RealFirstEquipmentStatsIndex ≠ INDEX_NONE
              ∧ ¬ IsValidIndex s0.EquipmentDynamicStats RealFirstEquipmentStatsIndex)
            ∨ (RealSecondEquipmentStatsIndex ≠ INDEX_NONE
              ∧ ¬ IsValidIndex s0.EquipmentDynamicStats RealSecondEquipmentStatsIndex) then
          pure failed
        else if FirstIndex ≠ INDEX_NONE ∧ SecondIndex ≠ INDEX_NONE then
          SwapItems.bothEquipped w s0 First Second bCanStack FirstIndex SecondIndex
            RealFirstEquipmentTypeIndex RealSecondEquipmentTypeIndex
            RealFirstEquipmentStatsIndex RealSecondEquipmentStatsIndex
        else if FirstIndex ≠ INDEX_NONE then
          SwapItems.oneEquipped w s0 First Second FirstIndex RealFirstEquipmentStatsIndex
            Second RealSecondEquipmentTypeIndex
        else
          SwapItems.oneEquipped w s0 First Second SecondIndex RealSecondEquipmentStatsIndex
            First RealFirstEquipmentTypeIndex

end UInventorySystemComponent

/-! ## Further operations of the item container -/

namespace UItemContainerComponent

open TArray

/-- `UItemContainerComponent::SetSlotAmount_Implementation`. -/
def SetSlotAmount (w : World) (c : UItemContainerComponent) (Slot Amount : Int)
    (bIsEquipment : Bool) : Except Fault (UItemContainerComponent × List Broadcast) :=
  if c.bIsProcessing then .ok (c, [.SetSlotAmountSuccess false Slot bIsEquipment])
  else
    let c0 := { c with bIsProcessing := true }
    let failed : UItemContainerComponent × List Broadcast :=
      ({ c0 with bIsProcessing := false }, [.SetSlotAmountSuccess false Slot bIsEquipment])
    if bIsEquipment then .ok (c0, [])
    else
      let AmountIndex := Find c0.InventoryIndices Slot
      if AmountIndex ≠ INDEX_NONE ∧ IsValidIndex c0.InventoryAssets AmountIndex ∧ Amount > 0
          ∧ Amount ≤ GetStackSizeConfig w c0 then
        if ¬ w.ManagerIsValid then .ok failed
        else do
          let Asset ← TArray.get c0.InventoryAssets AmountIndex
          match w.GetPrimaryAssetData Asset with
          | none => pure failed
          | some AssetData =>
            let Amounts ← TArray.set c0.InventoryAmounts AmountIndex
              (if ¬ AssetData.bCanStack ∧ Amount > 1 then 1 else Amount)
            pure ({ c0 with InventoryAmounts := Amounts, bIsProcessing := false },
              [.SetSlotAmountSuccess true Slot bIsEquipment, .ChangedInventorySlots [Slot]])
      else .ok failed

/-- The assignment `ItemProperty.Value = Value; ItemProperty.DisplayName = DisplayName` to
the first property called `Name`, inside the loop of `SetSlotItemProperty_Implementation`. -/
def SetSlotItemProperty.assign (Name : Nat) (DisplayName Value : String) :
    List FItemProperty → List FItemProperty
  | [] => []
  | p :: ps =>
    if p.Name = Name then { p with Value := Value, DisplayName := DisplayName } :: ps
    else p :: SetSlotItemProperty.assign Name DisplayName Value ps

/-- `UItemContainerComponent::SetSlotItemProperty_Implementation`. `Name = 0` is
`NAME_None`, an empty `Value` string is an empty text. -/
def SetSlotItemProperty (c : UItemContainerComponent) (Slot : Int) (Name : Nat)
    (DisplayName Value : String) (bIsEquipment : Bool) :
    Except Fault (UItemContainerComponent × List Broadcast) :=
  if c.bIsProcessing then .ok (c, [.SetSlotItemPropertySuccess false Slot bIsEquipment])
  else
    let c0 := { c with bIsProcessing := true }
    let failed : UItemContainerComponent × List Broadcast :=
      ({ c0 with bIsProcessing := false }, [.SetSlotItemPropertySuccess false Slot bIsEquipment])
    let succeeded : UItemContainerComponent → UItemContainerComponent × List Broadcast :=
      fun c1 => ({ c1 with bIsProcessing := false },
        [.SetSlotItemPropertySuccess true Slot bIsEquipment, .ChangedInventorySlots [Slot]])
    let InventoryDynamicStatsIndex := Find c0.InventoryDynamicStatsIndices Slot
    let InventoryIndex := Find c0.InventoryIndices Slot
    if InventoryIndex = INDEX_NONE ∨ Name = 0 ∨ bIsEquipment then .ok failed
    else if InventoryDynamicStatsIndex = INDEX_NONE then
      let r := AddUnique c0.InventoryDynamicStatsIndices Slot
      if IsValidIndex c0.InventoryDynamicStats r.2 then do
        let StatsIndices ← RemoveAt r.1 r.2
        pure ({ c0 with InventoryDynamicStatsIndices := StatsIndices, bIsProcessing := false },
          [.SetSlotItemPropertySuccess false Slot bIsEquipment])
      else
        .ok (succeeded { c0 with
          InventoryDynamicStatsIndices := r.1,
          InventoryDynamicStats :=
            (Add c0.InventoryDynamicStats ⟨[⟨Name, DisplayName, Value⟩]⟩).1 })
    else if ¬ IsValidIndex c0.InventoryDynamicStats InventoryDynamicStatsIndex then .ok failed
    else do
      let Bag ← TArray.get c0.InventoryDynamicStats InventoryDynamicStatsIndex
      match Bag.ItemProperties.find? (fun p => decide (p.Name = Name)) with
      | some DeleteItemProperty =>
        if Value.isEmpty then
          let Props := Bag.ItemProperties.filter (fun p => !FItemProperty.eq p DeleteItemProperty)
          let Stats ← TArray.set c0.InventoryDynamicStats InventoryDynamicStatsIndex ⟨Props⟩
          if Props.isEmpty then
            let StatsIndices ← RemoveAt c0.InventoryDynamicStatsIndices InventoryDynamicStatsIndex
            let Stats ← RemoveAt Stats InventoryDynamicStatsIndex
            pure (succeeded { c0 with InventoryDynamicStatsIndices := StatsIndices,
                                      InventoryDynamicStats := Stats })
          else pure (succeeded { c0 with InventoryDynamicStats := Stats })
        else
          let Stats ← TArray.set c0.InventoryDynamicStats InventoryDynamicStatsIndex
            ⟨SetSlotItemProperty.assign Name DisplayName Value Bag.ItemProperties⟩
          pure (succeeded { c0 with InventoryDynamicStats := Stats })
      | none =>
        let Stats ← TArray.set c0.InventoryDynamicStats InventoryDynamicStatsIndex
          ⟨(Add Bag.ItemProperties ⟨Name, DisplayName, Value⟩).1⟩
        pure (succeeded { c0 with InventoryDynamicStats := Stats })

/-- `UItemContainerComponent::RemoveAmountFromSlot_Implementation`. -/
def RemoveAmountFromSlot (w : World) (c : UItemContainerComponent) (Slot Amount : Int) :
    Except Fault (UItemContainerComponent × List Broadcast) :=
  let failure : Broadcast :=
    .RemoveAmountFromSlotSuccess false ⟨Slot, FPrimaryAssetId.None, FItemProperties.empty, -1⟩ Amount
  if c.bIsProcessing then .ok (c, [failure])
  else
    let c0 := { c with bIsProcessing := true }
    let failed : UItemContainerComponent × List Broadcast :=
      ({ c0 with bIsProcessing := false }, [failure])
    let RealInventoryIndex := Find c0.InventoryIndices Slot
    if Amount > GetStackSizeConfig w c0 ∨ Amount ≤ 0 ∨ RealInventoryIndex = INDEX_NONE
        ∨ ¬ IsValidIndex c0.InventoryAmounts RealInventoryIndex
        ∨ ¬ IsValidIndex c0.InventoryAssets RealInventoryIndex then .ok failed
    else do
      let TempAmount ← TArray.get c0.InventoryAmounts RealInventoryIndex
      let NewAmount := TempAmount - Amount
      if NewAmount < 0 then pure failed
      else
        let TempAsset ← TArray.get c0.InventoryAssets RealInventoryIndex
        let RealInventoryStatsIndex := Find c0.InventoryDynamicStatsIndices Slot
        if RealInventoryStatsIndex ≠ INDEX_NONE
            ∧ ¬ IsValidIndex c0.InventoryDynamicStats RealInventoryStatsIndex then pure failed
        else
          let TempDynamicStats ←
            if RealInventoryStatsIndex ≠ INDEX_NONE then
              TArray.get c0.InventoryDynamicStats RealInventoryStatsIndex
            else pure FItemProperties.empty
          let events : List Broadcast :=
            [.RemoveAmountFromSlotSuccess true ⟨Slot, TempAsset, TempDynamicStats, TempAmount⟩ Amount,
             .ChangedInventorySlots [Slot]]
          if NewAmount = 0 then
            let c1 ←
              if RealInventoryStatsIndex ≠ INDEX_NONE then do
                let StatsIndices ← RemoveAt c0.InventoryDynamicStatsIndices RealInventoryStatsIndex
                let Stats ← RemoveAt c0.InventoryDynamicStats RealInventoryStatsIndex
                pure { c0 with InventoryDynamicStatsIndices := StatsIndices,
                               InventoryDynamicStats := Stats }
              else pure c0
            let Amounts ← RemoveAt c1.InventoryAmounts RealInventoryIndex
            let Assets ← RemoveAt c1.InventoryAssets RealInventoryIndex
            pure ({ c1 with InventoryAmounts := Amounts, InventoryAssets := Assets,
                            InventoryIndices := Remove c1.InventoryIndices Slot,
                            bIsProcessing := false }, events)
          else
            let Amounts ← TArray.set c0.InventoryAmounts RealInventoryIndex NewAmount
            pure ({ c0 with InventoryAmounts := Amounts, bIsProcessing := false }, events)

/-- `UItemContainerComponent::SplitItemStack_Implementation`. -/
def SplitItemStack (w : World) (c : UItemContainerComponent) (Slot SplitAmount : Int) :
    Except Fault (UItemContainerComponent × List Broadcast) :=
  if c.bIsProcessing then .ok (c, [.SplitItemStackSuccess false Slot INDEX_NONE])
  else
    let c0 := { c with bIsProcessing := true }
    let failed : UItemContainerComponent × List Broadcast :=
      ({ c0 with bIsProcessing := false }, [.SplitItemStackSuccess false Slot INDEX_NONE])
    let RealInventoryIndex := Find c0.InventoryIndices Slot
    if RealInventoryIndex = INDEX_NONE ∨ SplitAmount = 0 then .ok failed
    else do
      let Current ← TArray.get c0.InventoryAmounts RealInventoryIndex
      if SplitAmount ≥ Current ∨ ¬ IsValidIndex c0.InventoryAssets RealInventoryIndex
          ∨ SplitAmount > GetStackSizeConfig w c0 then pure failed
      else
        match FindNextEmptySlot c0 (GetInventorySizeConfig w c0) [] with
        | (_, false) => pure failed
        | (FoundSlot, true) =>
          let Indices := (AddUnique c0.InventoryIndices FoundSlot).1
          let Amounts := (Add c0.InventoryAmounts SplitAmount).1
          let TempInventoryAsset ← TArray.get c0.InventoryAssets RealInventoryIndex
          let Assets := (Add c0.InventoryAssets TempInventoryAsset).1
          let c1 := { c0 with InventoryIndices := Indices, InventoryAmounts := Amounts,
                              InventoryAssets := Assets }
          let FoundInventoryDynamicStatsIndex := Find c1.InventoryDynamicStatsIndices Slot
          let c2 ←
            if FoundInventoryDynamicStatsIndex ≠ INDEX_NONE
                ∧ IsValidIndex c1.InventoryDynamicStats FoundInventoryDynamicStatsIndex then do
              let StatsIndices := (AddUnique c1.InventoryDynamicStatsIndices FoundSlot).1
              let TempInventoryDynamicStats ←
                TArray.get c1.InventoryDynamicStats FoundInventoryDynamicStatsIndex
              pure { c1 with
                InventoryDynamicStatsIndices := StatsIndices,
                InventoryDynamicStats := (Add c1.InventoryDynamicStats TempInventoryDynamicStats).1 }
            else pure c1
          let Source ← TArray.get c2.InventoryAmounts RealInventoryIndex
          let Amounts ← TArray.set c2.InventoryAmounts RealInventoryIndex (Source - SplitAmount)
          pure ({ c2 with InventoryAmounts := Amounts, bIsProcessing := false },
            [.SplitItemStackSuccess true Slot FoundSlot, .ChangedInventorySlots [Slot, FoundSlot]])

/-- The state that `AddItemToComponentInternal` leaves behind: this component, the other
component, the in/out parameter `Amount` and the returned `ChangedSlots`. -/
structure TransferLocals where
  c : UItemContainerComponent
  Other : Option UItemContainerComponent
  Amount : Int
  ChangedSlots : List Int
deriving DecidableEq, Repr

/-- `UItemContainerComponent::AddItemToComponentInternal`. `ItemContainerComponent` is
`none` for a pointer that is not valid, otherwise the state of the other component (an
object different from `this`). -/
def AddItemToComponentInternal (w : World) (c : UItemContainerComponent) (Slot : Int)
    (ItemContainerComponent : Option UItemContainerComponent) (Amount : Int)
    (bCanStack bIsEquipment bRevertWhenFull : Bool) : Except Fault TransferLocals :=
  let unchanged : TransferLocals := ⟨c, ItemContainerComponent, Amount, []⟩
  let Index := Find c.InventoryIndices Slot
  if bIsEquipment ∨ Amount ≤ 0 ∨ Index = INDEX_NONE ∨ ¬ IsValidIndex c.InventoryAssets Index then
    .ok unchanged
  else do
    let Asset ← TArray.get c.InventoryAssets Index
    if ¬ Asset.IsValid ∨ Asset = FPrimaryAssetId.None ∨ ¬ IsValidIndex c.InventoryAmounts Index then
      pure unchanged
    else
      let Current ← TArray.get c.InventoryAmounts Index
      if Current ≤ 0 ∨ Amount > Current then pure unchanged
      else
        match ItemContainerComponent with
        | none => pure unchanged
        | some Other =>
          let RealInventoryDynamicStatsIndicesIndex := Find c.InventoryDynamicStatsIndices Slot
          if RealInventoryDynamicStatsIndicesIndex ≠ INDEX_NONE
              ∧ ¬ IsValidIndex c.InventoryDynamicStats RealInventoryDynamicStatsIndicesIndex then
            pure unchanged
          else
            let DynamicStats ←
              if RealInventoryDynamicStatsIndicesIndex ≠ INDEX_NONE then
                TArray.get c.InventoryDynamicStats RealInventoryDynamicStatsIndicesIndex
              else pure FItemProperties.empty
            let x ← AddItemInternal w Other (GetStackSizeConfig w Other)
              (GetInventorySizeConfig w Other) Asset DynamicStats Amount bCanStack bRevertWhenFull
            if ¬ IsEmpty x.ChangedSlots then
              let Amounts ← TArray.set c.InventoryAmounts Index (Current - (Amount - x.Amount))
              let c1 := { c with InventoryAmounts := Amounts }
              if Current - (Amount - x.Amount) = 0 then
                let Indices ← RemoveAt c1.InventoryIndices Index
                let Assets ← RemoveAt c1.InventoryAssets Index
                let Amounts ← RemoveAt c1.InventoryAmounts Index
                let c2 := { c1 with InventoryIndices := Indices, InventoryAssets := Assets,
                                    InventoryAmounts := Amounts }
                if RealInventoryDynamicStatsIndicesIndex ≠ INDEX_NONE then
                  let StatsIndices ←
                    RemoveAt c2.InventoryDynamicStatsIndices RealInventoryDynamicStatsIndicesIndex
                  let Stats ← RemoveAt c2.InventoryDynamicStats RealInventoryDynamicStatsIndicesIndex
                  pure ⟨{ c2 with InventoryDynamicStatsIndices := StatsIndices,
                                  InventoryDynamicStats := Stats }, some x.c, x.Amount, x.ChangedSlots⟩
                else pure ⟨c2, some x.c, x.Amount, x.ChangedSlots⟩
              else pure ⟨c1, some x.c, x.Amount, x.ChangedSlots⟩
            else pure ⟨c, some x.c, Amount, x.ChangedSlots⟩

/-- `UItemContainerComponent::AddItemToComponent_Implementation`. The result is this
component, the other component and the broadcasts. -/
def AddItemToComponent (w : World) (c : UItemContainerComponent) (Slot : Int)
    (ItemContainerComponent : Option UItemContainerComponent) (Amount : Int)
    (bCanStack bRevertWhenFull : Bool) :
    Except Fault (UItemContainerComponent × Option UItemContainerComponent × List Broadcast) :=
  if c.bIsProcessing then
    .ok (c, ItemContainerComponent, [.AddItemToComponentSuccess false Slot 1 false])
  else
    let c0 := { c with bIsProcessing := true }
    match ItemContainerComponent with
    | none =>
      .ok ({ c0 with bIsProcessing := false }, none, [.AddItemToComponentSuccess false Slot 1 false])
    | some Other =>
      if Other.bIsProcessing then
        .ok ({ c0 with bIsProcessing := false }, some Other,
          [.AddItemToComponentSuccess false Slot 1 false])
      else do
        let r ← AddItemToComponentInternal w c0 Slot (some { Other with bIsProcessing := true })
          Amount bCanStack false bRevertWhenFull
        let released : Option UItemContainerComponent :=
          r.Other.map (fun d => { d with bIsProcessing := false })
        if ¬ IsEmpty r.ChangedSlots then
          pure ({ r.c with bIsProcessing := false }, released,
            [.AddItemToComponentOtherComponentStart,
             .AddItemToComponentSuccess true Slot r.Amount true,
             .AddItemToComponentOtherComponentSuccess true Slot r.Amount,
             .ChangedInventorySlots [Slot],
             .OtherComponentChangedInventorySlots r.ChangedSlots])
        else
          pure ({ r.c with bIsProcessing := false }, released,
            [.AddItemToComponentOtherComponentStart,
             .AddItemToComponentSuccess false Slot Amount true,
             .AddItemToComponentOtherComponentSuccess false Slot Amount])

/-- The statements of `SwapItemWithComponent_Implementation` that move the property bag
at stats position `RealFromStatsIndex` of `From` to slot number `ToSlot` of `To`. The
result is `none` on the branch that logs "should not be filled"; `To` has then lost the
index entry again. -/
def SwapItemWithComponent.moveStats (From To : UItemContainerComponent)
    (RealFromStatsIndex ToSlot : Int) :
    Except Fault (UItemContainerComponent × UItemContainerComponent × Bool) :=
  let r := AddUnique To.InventoryDynamicStatsIndices ToSlot
  if IsValidIndex To.InventoryDynamicStats r.2 then do
    let StatsIndices ← RemoveAt r.1 r.2
    pure (From, { To with InventoryDynamicStatsIndices := StatsIndices }, false)
  else do
    let Bag ← TArray.get From.InventoryDynamicStats RealFromStatsIndex
    let To1 := { To with InventoryDynamicStatsIndices := r.1,
                         InventoryDynamicStats := (Add To.InventoryDynamicStats Bag).1 }
    let Stats ← RemoveAt From.InventoryDynamicStats RealFromStatsIndex
    let StatsIndices ← RemoveAt From.InventoryDynamicStatsIndices RealFromStatsIndex
    pure ({ From with InventoryDynamicStatsIndices := StatsIndices,
                      InventoryDynamicStats := Stats }, To1, true)

/-- `UItemContainerComponent::SwapItemWithComponent_Implementation`. The result is this
component, the other component and the broadcasts. -/
def SwapItemWithComponent (w : World) (c : UItemContainerComponent) (First Second : Int)
    (ItemContainerComponent : Option UItemContainerComponent) (bCanMergeStack : Bool) :
    Except Fault (UItemContainerComponent × Option UItemContainerComponent × List Broadcast) :=
  if c.bIsProcessing then
    .ok (c, ItemContainerComponent, [.SwapItemWithComponentSuccess false First false])
  else
    let c0 := { c with bIsProcessing := true }
    match ItemContainerComponent with
    | none =>
      .ok ({ c0 with bIsProcessing := false }, none, [.SwapItemWithComponentSuccess false First false])
    | some Other =>
      if Other.bIsProcessing then
        .ok ({ c0 with bIsProcessing := false }, some Other,
          [.SwapItemWithComponentSuccess false First false])
      else
        let d0 := { Other with bIsProcessing := true }
        let failed : UItemContainerComponent → UItemContainerComponent →
            UItemContainerComponent × Option UItemContainerComponent × List Broadcast :=
          fun c1 d1 => ({ c1 with bIsProcessing := false }, some { d1 with bIsProcessing := false },
            [.SwapItemWithComponentOtherComponentStart,
             .SwapItemWithComponentSuccess false First true,
             .SwapItemWithComponentOtherComponentSuccess false Second])
        let succeeded : UItemContainerComponent → UItemContainerComponent →
            UItemContainerComponent × Option UItemContainerComponent × List Broadcast :=
          fun c1 d1 => ({ c1 with bIsProcessing := false }, some { d1 with bIsProcessing := false },
            [.SwapItemWithComponentOtherComponentStart,
             .SwapItemWithComponentSuccess true First true,
             .SwapItemWithComponentOtherComponentSuccess true Second,
             .ChangedInventorySlots [First],
             .OtherComponentChangedInventorySlots [Second]])
        let RealFirstInventoryIndex := Find c0.InventoryIndices First
        if RealFirstInventoryIndex = INDEX_NONE ∨ ¬ w.ManagerIsValid
            ∨ ¬ IsValidIndex c0.InventoryAssets RealFirstInventoryIndex
            ∨ ¬ IsValidIndex c0.InventoryAmounts RealFirstInventoryIndex then .ok (failed c0 d0)
        else do
          let FirstAsset ← TArray.get c0.InventoryAssets RealFirstInventoryIndex
          let FirstAmount ← TArray.get c0.InventoryAmounts RealFirstInventoryIndex
          match w.GetPrimaryAssetData FirstAsset with
          | none => pure (failed c0 d0)
          | some FirstAssetData =>
            let FirstTempCanStack := FirstAssetData.bCanStack
            let RealSecondInventoryIndex := Find d0.InventoryIndices Second
            let RealFirstInventoryDynamicStatsIndicesIndex :=
              Find c0.InventoryDynamicStatsIndices First
            if RealSecondInventoryIndex ≠ INDEX_NONE then
              if ¬ IsValidIndex d0.InventoryAmounts RealSecondInventoryIndex
                  ∨ ¬ IsValidIndex d0.InventoryAssets RealSecondInventoryIndex then
                pure (failed c0 d0)
              else
                let SecondAsset ← TArray.get d0.InventoryAssets RealSecondInventoryIndex
                let SecondAmount ← TArray.get d0.InventoryAmounts RealSecondInventoryIndex
                let RealSecondInventoryDynamicStatsIndicesIndex :=
                  Find d0.InventoryDynamicStatsIndices Second
                let merged : Option (Except Fault
                    (UItemContainerComponent × Option UItemContainerComponent × List Broadcast)) :=
                  if bCanMergeStack ∧ FirstTempCanStack ∧ FirstAsset = SecondAsset
                      ∧ FirstAmount + SecondAmount ≤ GetStackSizeConfig w d0 then
                    if (RealFirstInventoryDynamicStatsIndicesIndex ≠ INDEX_NONE
                          ∧ ¬ IsValidIndex c0.InventoryDynamicStats
                                RealFirstInventoryDynamicStatsIndicesIndex)
                        ∨ (RealSecondInventoryDynamicStatsIndicesIndex ≠ INDEX_NONE
                          ∧ ¬ IsValidIndex d0.InventoryDynamicStats
                                RealSecondInventoryDynamicStatsIndicesIndex) then
                      some (pure (failed c0 d0))
                    else
                      let bIsSameItem : Except Fault Bool :=
                        if RealFirstInventoryDynamicStatsIndicesIndex ≠ INDEX_NONE
                            ∧ RealSecondInventoryDynamicStatsIndicesIndex ≠ INDEX_NONE then do
                          let FirstBag ← TArray.get c0.InventoryDynamicStats
                            RealFirstInventoryDynamicStatsIndicesIndex
                          let SecondBag ← TArray.get d0.InventoryDynamicStats
                            RealSecondInventoryDynamicStatsIndicesIndex
                          pure (FItemProperties.eq FirstBag SecondBag)
                        else
                          pure (decide (RealFirstInventoryDynamicStatsIndicesIndex = INDEX_NONE
                            ∧ RealSecondInventoryDynamicStatsIndicesIndex = INDEX_NONE))
                      match bIsSameItem with
                      | .error e => some (.error e)
                      | .ok false => none
                      | .ok true => some (do
                        let OtherAmounts ← TArray.set d0.InventoryAmounts RealSecondInventoryIndex
                          (SecondAmount + FirstAmount)
                        let Indices ← RemoveAt c0.InventoryIndices RealFirstInventoryIndex
                        let Amounts ← RemoveAt c0.InventoryAmounts RealFirstInventoryIndex
                        let Assets ← RemoveAt c0.InventoryAssets RealFirstInventoryIndex
                        let c1 := { c0 with InventoryIndices := Indices, InventoryAmounts := Amounts,
                                            InventoryAssets := Assets }
                        let c2 ←
                          if RealFirstInventoryDynamicStatsIndicesIndex ≠ INDEX_NONE then do
                            let StatsIndices ← RemoveAt c1.InventoryDynamicStatsIndices
                              RealFirstInventoryDynamicStatsIndicesIndex
                            let Stats ← RemoveAt c1.InventoryDynamicStats
                              RealFirstInventoryDynamicStatsIndicesIndex
                            pure { c1 with InventoryDynamicStatsIndices := StatsIndices,
                                           InventoryDynamicStats := Stats }
                          else pure c1
                        pure (succeeded c2 { d0 with InventoryAmounts := OtherAmounts }))
                  else none
                match merged with
                | some r => r
                | none =>
                  let exchanged : Except Fault
                      (UItemContainerComponent × UItemContainerComponent × Bool) :=
                    if RealFirstInventoryDynamicStatsIndicesIndex ≠ INDEX_NONE
                        ∧ RealSecondInventoryDynamicStatsIndicesIndex ≠ INDEX_NONE then do
                      let FirstBag ← TArray.get c0.InventoryDynamicStats RealFirstInventoryIndex
                      let SecondBag ← TArray.get d0.InventoryDynamicStats RealSecondInventoryIndex
                      let Stats ← TArray.set c0.InventoryDynamicStats RealFirstInventoryIndex SecondBag
                      let OtherStats ←
                        TArray.set d0.InventoryDynamicStats RealSecondInventoryIndex FirstBag
                      pure ({ c0 with InventoryDynamicStats := Stats },
                            { d0 with InventoryDynamicStats := OtherStats }, true)
                    else if RealFirstInventoryDynamicStatsIndicesIndex ≠ INDEX_NONE then
                      SwapItemWithComponent.moveStats c0 d0
                        RealFirstInventoryDynamicStatsIndicesIndex Second
                    else if RealSecondInventoryDynamicStatsIndicesIndex ≠ INDEX_NONE then do
                      let r ← SwapItemWithComponent.moveStats d0 c0
                        RealSecondInventoryDynamicStatsIndicesIndex First
                      pure (r.2.1, r.1, r.2.2)
                    else pure (c0, d0, true)
                  match ← exchanged with
                  | (c1, d1, false) => pure (failed c1 d1)
                  | (c1, d1, true) =>
                    let Amounts ← TArray.set c1.InventoryAmounts RealFirstInventoryIndex SecondAmount
                    let OtherAmounts ←
                      TArray.set d1.InventoryAmounts RealSecondInventoryIndex FirstAmount
                    let Assets ← TArray.set c1.InventoryAssets RealFirstInventoryIndex SecondAsset
                    let OtherAssets ←
                      TArray.set d1.InventoryAssets RealSecondInventoryIndex FirstAsset
                    pure (succeeded { c1 with InventoryAmounts := Amounts, InventoryAssets := Assets }
                      { d1 with InventoryAmounts := OtherAmounts, InventoryAssets := OtherAssets })
            else do
              let moved ←
                if RealFirstInventoryDynamicStatsIndicesIndex ≠ INDEX_NONE then
                  SwapItemWithComponent.moveStats c0 d0
                    RealFirstInventoryDynamicStatsIndicesIndex Second
                else pure (c0, d0, true)
              match moved with
              | (c1, d1, false) => pure (failed c1 d1)
              | (c1, d1, true) =>
                let d2 := { d1 with
                  InventoryIndices := (AddUnique d1.InventoryIndices Second).1,
                  InventoryAssets := (Add d1.InventoryAssets FirstAsset).1,
                  InventoryAmounts := (Add d1.InventoryAmounts FirstAmount).1 }
                let Indices ← RemoveAt c1.InventoryIndices RealFirstInventoryIndex
                let Assets ← RemoveAt c1.InventoryAssets RealFirstInventoryIndex
                let Amounts ← RemoveAt c1.InventoryAmounts RealFirstInventoryIndex
                pure (succeeded { c1 with InventoryIndices := Indices, InventoryAssets := Assets,
                                          InventoryAmounts := Amounts } d2)

/-- The locals of the loop in `CollectAllItems_Implementation`. -/
structure CollectLocals where
  c : UItemContainerComponent
  Other : Option UItemContainerComponent
  bAddedOnce : Bool
  bItemsLeft : Bool
  ChangedSlots : List Int
  ChangedSlotsOtherComponent : List Int
deriving DecidableEq, Repr

/-- The loop `for (int I = 0; I < InventoryIndicesLength; I++)` of
`CollectAllItems_Implementation`; `remaining` counts the iterations still to run. -/
def CollectAllItems.loop (w : World) (bCanStack : Bool) :
    Nat → Int → CollectLocals → Except Fault CollectLocals
  | 0, _, x => .ok x
  | remaining + 1, I, x =>
    if ¬ IsValidIndex x.c.InventoryIndices 0 then
      CollectAllItems.loop w bCanStack remaining (I + 1) x
    else if ¬ IsValidIndex x.c.InventoryAmounts 0 ∨ ¬ IsValidIndex x.c.InventoryAssets 0 then
      -- the log statement of this branch reads `InventoryIndices[I]`
      match TArray.get x.c.InventoryIndices I with
      | .error e => .error e
      | .ok _ => CollectAllItems.loop w bCanStack remaining (I + 1) x
    else
      match TArray.get x.c.InventoryAmounts 0, TArray.get x.c.InventoryIndices 0 with
      | .ok ItemsLeft, .ok AddedSlot =>
        match AddItemToComponentInternal w x.c AddedSlot x.Other ItemsLeft bCanStack false false with
        | .error e => .error e
        | .ok r =>
          let x1 : CollectLocals :=
            { x with c := r.c, Other := r.Other,
                     ChangedSlotsOtherComponent := x.ChangedSlotsOtherComponent ++ r.ChangedSlots }
          if ¬ IsEmpty r.ChangedSlots then
            let x2 : CollectLocals :=
              { x1 with bAddedOnce := true, ChangedSlots := (Add x1.ChangedSlots AddedSlot).1 }
            if r.Amount = 0 then CollectAllItems.loop w bCanStack remaining (I + 1) x2
            else CollectAllItems.loop w bCanStack remaining (I + 1) { x2 with bItemsLeft := true }
          else CollectAllItems.loop w bCanStack remaining (I + 1) { x1 with bItemsLeft := true }
      | .error e, _ => .error e
      | _, .error e => .error e

/-- `UItemContainerComponent::CollectAllItems_Implementation`. The result is this
component, the other component and the broadcasts. -/
def CollectAllItems (w : World) (c : UItemContainerComponent)
    (ItemContainerComponent : Option UItemContainerComponent) (bCanStack : Bool) :
    Except Fault (UItemContainerComponent × Option UItemContainerComponent × List Broadcast) :=
  if c.bIsProcessing then
    .ok (c, ItemContainerComponent, [.CollectAllItemsSuccess false true false])
  else
    let c0 := { c with bIsProcessing := true }
    match ItemContainerComponent with
    | none => .ok (c0, none, [.CollectAllItemsSuccess false true false])
    | some Other =>
      if Other.bIsProcessing then
        .ok (c0, some Other, [.CollectAllItemsSuccess false true false])
      else
        match CollectAllItems.loop w bCanStack c0.InventoryIndices.length 0
            ⟨c0, some { Other with bIsProcessing := true }, false, false, [], []⟩ with
        | .error e => .error e
        | .ok x =>
          let bItemsLeft : Bool := if ¬ x.bAddedOnce then true else x.bItemsLeft
          .ok ({ x.c with bIsProcessing := false },
            x.Other.map (fun d => { d with bIsProcessing := false }),
            [.CollectAllItemsOtherComponentStart,
             .CollectAllItemsSuccess x.bAddedOnce bItemsLeft true,
             .CollectAllItemsOtherComponentSuccess x.bAddedOnce bItemsLeft,
             .ChangedInventorySlots x.ChangedSlots,
             .OtherComponentChangedInventorySlots x.ChangedSlotsOtherComponent])

/-- The search `for (int I = 1; I <= GetInventorySizeConfig(); I++)` of `InternalChecks`
for the first slot number that passes `free`. -/
def InternalChecks.firstSlot (InventorySize : Int) (free : Int → Bool) : Option Int :=
  ((List.range InventorySize.toNat).map (fun (k : Nat) => (k : Int) + 1)).find? free

/-- The block of `InternalChecks` that repairs an entry `0` of a slot list: the entry
becomes `1` when it is the only one, else the first slot number that passes `free`, else
every `0` is removed. The flag is `InternalPreventExecution`. -/
def InternalChecks.repairZero (l : List Int) (InventorySize : Int) (free : Int → Bool) :
    Except Fault (List Int × Bool) :=
  if Contains l 0 then
    if Num l = 1 then do
      let l1 ← TArray.set l 0 1
      pure (l1, false)
    else
      match InternalChecks.firstSlot InventorySize free with
      | some I => do
        let l1 ← TArray.set l (Find l 0) I
        pure (l1, false)
      | none => .ok (Remove l 0, true)
  else .ok (l, false)

/-- The loops of `InternalChecks` that copy a slot list into `UniqueArray`, skipping
entries that fail `valid`, repeat an earlier entry or are not positive. The flag tells
whether an entry was skipped. -/
def InternalChecks.unique (valid : Int → Bool) (l : List Int) : List Int × Bool :=
  l.foldl (fun (acc : List Int × Bool) (Element : Int) =>
    if ¬ valid Element ∨ Element ∈ acc.1 ∨ Element ≤ 0 then (acc.1, true)
    else (acc.1 ++ [Element], acc.2)) ([], false)

/-- The loop of `InternalChecks` over `InventoryAmounts`; `remaining` bounds the
iterations, `I` is the loop variable. -/
def InternalChecks.amounts (w : World) (StackSize : Int) (Indices : List Int)
    (Assets : List FPrimaryAssetId) : Nat → Int → List Int → Bool → Except Fault (List Int × Bool)
  | 0, _, Amounts, bPrevent => .ok (Amounts, bPrevent)
  | remaining + 1, I, Amounts, bPrevent =>
    if ¬ I < Num Amounts then .ok (Amounts, bPrevent)
    else if ¬ IsValidIndex Indices I then
      match RemoveAt Amounts I with
      | .error e => .error e
      | .ok Amounts1 => .ok (Amounts1, true)
    else
      match TArray.get Amounts I with
      | .error e => .error e
      | .ok Amount =>
        let Amount1 : Int := if Amount ≤ 0 then 1 else Amount
        let AssetData : Option FAssetData :=
          if IsValidIndex Assets I then
            match TArray.get Assets I with
            | .ok Asset => w.GetPrimaryAssetData Asset
            | .error _ => none
          else none
        let Amount2 : Int :=
          match AssetData with
          | some Data => if ¬ Data.bCanStack ∧ Amount1 > 1 then 1 else Amount1
          | none => Amount1
        let Amount3 : Int := if Amount2 > StackSize then StackSize else Amount2
        match TArray.set Amounts I Amount3 with
        | .error e => .error e
        | .ok Amounts1 =>
          InternalChecks.amounts w StackSize Indices Assets remaining (I + 1) Amounts1 bPrevent

/-- The loops of `InternalChecks` that remove the entries of an array (`InventoryDynamicStats`,
`InventoryAssets`) that have no parent entry in `Parents`; `flagged` is the check made on
a kept entry. The loop variable advances after a removal as in the source. -/
def InternalChecks.orphans {α : Type} (Parents : List Int) (flagged : α → Bool) :
    Nat → Int → List α → Bool → Except Fault (List α × Bool)
  | 0, _, l, bPrevent => .ok (l, bPrevent)
  | remaining + 1, I, l, bPrevent =>
    if ¬ I < Num l then .ok (l, bPrevent)
    else if ¬ IsValidIndex Parents I then
      match RemoveAt l I with
      | .error e => .error e
      | .ok l1 => InternalChecks.orphans Parents flagged remaining (I + 1) l1 true
    else
      match TArray.get l I with
      | .error e => .error e
      | .ok a =>
        InternalChecks.orphans Parents flagged remaining (I + 1) l (bPrevent || flagged a)

/-- `UItemContainerComponent::InternalChecks`; the result is the component and the
returned flag. The editor-only members are not part of the state. Every item asset of the
catalog carries the `bCanStack` tag. -/
def InternalChecks (w : World) (c : UItemContainerComponent) :
    Except Fault (UItemContainerComponent × Bool) :=
  if ¬ w.ManagerIsValid then .ok (c, false)
  else if IsEmpty c.InventoryIndices then
    .ok ({ c with InventoryDynamicStatsIndices := [], InventoryDynamicStats := [],
                  InventoryAmounts := [], InventoryAssets := [] },
      decide (¬ IsEmpty c.InventoryDynamicStatsIndices ∨ ¬ IsEmpty c.InventoryDynamicStats
        ∨ ¬ IsEmpty c.InventoryAmounts ∨ ¬ IsEmpty c.InventoryAssets))
  else do
    let InventorySize := GetInventorySizeConfig w c
    let StackSize := GetStackSizeConfig w c
    let (Indices0, bPrevent0) ← InternalChecks.repairZero c.InventoryIndices InventorySize
      (fun I => !Contains c.InventoryIndices I)
    let (Indices1, bPrevent1) := InternalChecks.unique (fun _ => true) Indices0
    let Indices ←
      if Num Indices1 > InventorySize then
        if InventorySize < 0 then throw Fault.rangeCheck
        else pure (Indices1.take InventorySize.toNat)
      else pure Indices1
    let (Amounts, bPrevent2) ← InternalChecks.amounts w StackSize Indices c.InventoryAssets
      c.InventoryAmounts.length 0 c.InventoryAmounts (bPrevent0 || bPrevent1)
    let (StatsIndices0, bPrevent3) ← InternalChecks.repairZero c.InventoryDynamicStatsIndices
      InventorySize
      (fun I => Contains Indices I && !Contains c.InventoryDynamicStatsIndices I)
    let (StatsIndices, bPrevent4) :=
      InternalChecks.unique (fun Element => Find Indices Element ≠ INDEX_NONE) StatsIndices0
    let Stats0 : List FItemProperties :=
      if IsEmpty StatsIndices ∧ ¬ IsEmpty c.InventoryDynamicStats then []
      else c.InventoryDynamicStats
    let (Stats, bPrevent5) ← InternalChecks.orphans StatsIndices (fun _ => false)
      Stats0.length 0 Stats0 (bPrevent2 || bPrevent3 || bPrevent4)
    let (Assets, bPrevent6) ← InternalChecks.orphans Indices
      (fun (a : FPrimaryAssetId) => !a.IsValid || decide (a = FPrimaryAssetId.None))
      c.InventoryAssets.length 0 c.InventoryAssets bPrevent5
    pure ({ c with InventoryIndices := Indices, InventoryAmounts := Amounts,
                   InventoryDynamicStatsIndices := StatsIndices, InventoryDynamicStats := Stats,
                   InventoryAssets := Assets }, bPrevent6)

/-- `UItemContainerComponent::SetStackSizeConfig_Implementation`. -/
def SetStackSizeConfig (w : World) (c : UItemContainerComponent) (NewMaxStackSize : Int)
    (bForce : Bool) : Except Fault (UItemContainerComponent × List Broadcast) :=
  if c.bIsProcessing then .ok (c, [.SetMaxStackSizeSuccess false])
  else
    let c0 := { c with bIsProcessing := true }
    if bForce then do
      let (c1, _) ← InternalChecks w { c0 with MaxStackSize := NewMaxStackSize }
      pure ({ c1 with bIsProcessing := false },
        [.SetMaxStackSizeSuccess true, .ChangedInventorySlots c1.InventoryIndices])
    else if ¬ TArray.IsEmpty c0.InventoryAmounts
        ∧ c0.InventoryAmounts.any (fun Amount => decide (Amount > NewMaxStackSize)) then
      .ok ({ c0 with bIsProcessing := false }, [.SetMaxStackSizeSuccess false])
    else
      .ok ({ c0 with MaxStackSize := NewMaxStackSize, bIsProcessing := false },
        [.SetMaxStackSizeSuccess true, .ChangedInventorySlots c0.InventoryIndices])

/-- `UItemContainerComponent::SetInventorySizeConfig_Implementation`. -/
def SetInventorySizeConfig (w : World) (c : UItemContainerComponent) (NewInventorySize : Int)
    (bForce : Bool) : Except Fault (UItemContainerComponent × List Broadcast) :=
  if c.bIsProcessing then .ok (c, [.SetInventorySizeSuccess false])
  else
    let c0 := { c with bIsProcessing := true }
    if bForce then do
      let (c1, _) ← InternalChecks w { c0 with InventorySize := NewInventorySize }
      pure ({ c1 with bIsProcessing := false },
        [.SetInventorySizeSuccess true, .ChangedInventorySlots c1.InventoryIndices])
    else if ¬ TArray.IsEmpty c0.InventoryIndices ∧ Num c0.InventoryIndices > NewInventorySize then
      .ok ({ c0 with bIsProcessing := false }, [.SetInventorySizeSuccess false])
    else
      .ok ({ c0 with InventorySize := NewInventorySize, bIsProcessing := false },
        [.SetInventorySizeSuccess true, .ChangedInventorySlots c0.InventoryIndices])

end UItemContainerComponent

/-! ## Comparison operators of item properties -/

/-- `operator>` of `FItemProperty`. `IsNumeric` is the engine's `FText::IsNumeric` on the
text and `Atod` the engine's `FCString::Atod`, whose results are compared with the order
of `α`. -/
def FItemProperty.gt {α : Type} [LT α] [DecidableRel (fun (a b : α) => a < b)]
    (IsNumeric : String → Bool) (Atod : String → α) (First Other : FItemProperty) : Bool :=
  if ¬ IsNumeric First.Value then false
  else decide (First.Name = Other.Name) && decide (Atod Other.Value < Atod First.Value)

/-- `operator<` of `FItemProperty`. -/
def FItemProperty.lt {α : Type} [LT α] [DecidableRel (fun (a b : α) => a < b)]
    (IsNumeric : String → Bool) (Atod : String → α) (First Other : FItemProperty) : Bool :=
  if ¬ IsNumeric First.Value then false
  else decide (First.Name = Other.Name) && decide (Atod First.Value < Atod Other.Value)

/-- `operator>=` of `FItemProperty`. -/
def FItemProperty.ge {α : Type} [LE α] [DecidableRel (fun (a b : α) => a ≤ b)]
    (IsNumeric : String → Bool) (Atod : String → α) (First Other : FItemProperty) : Bool :=
  if ¬ IsNumeric First.Value then false
  else decide (First.Name = Other.Name) && decide (Atod Other.Value ≤ Atod First.Value)

/-- `operator<=` of `FItemProperty`. -/
def FItemProperty.le {α : Type} [LE α] [DecidableRel (fun (a b : α) => a ≤ b)]
    (IsNumeric : String → Bool) (Atod : String → α) (First Other : FItemProperty) : Bool :=
  if ¬ IsNumeric First.Value then false
  else decide (First.Name = Other.Name) && decide (Atod First.Value ≤ Atod Other.Value)

/-! ## Vocabulary of the properties -/

/-- The amount that a list of slot records holds of one `(asset, property bag)`
combination. -/
def amountOf (records : List FInventorySlot) (Asset : FPrimaryAssetId)
    (DynamicStats : FItemProperties) : Int :=
  ((records.filter (fun r =>
      decide (r.Asset = Asset) && FItemProperties.eq r.ItemProperties DynamicStats)).map
    (fun r => r.Amount)).sum

/-- Units of `(Asset, DynamicStats)` held by the inventory slots, read through
`GetInventorySlot`. -/
def UItemContainerComponent.StoredAmount (c : UItemContainerComponent) (Asset : FPrimaryAssetId)
    (DynamicStats : FItemProperties) : Int :=
  amountOf (c.InventoryIndices.map (UItemContainerComponent.GetInventorySlot c)) Asset DynamicStats

/-- Units of `(Asset, DynamicStats)` held by the equipment slots, read through
`GetEquipmentSlot`. -/
def UInventorySystemComponent.EquippedAmount (w : World) (s : UInventorySystemComponent)
    (Asset : FPrimaryAssetId) (DynamicStats : FItemProperties) : Except Fault Int := do
  let records ← s.EquipmentIndices.mapM (UInventorySystemComponent.GetEquipmentSlot w s)
  pure (amountOf records Asset DynamicStats)

/-- Units of `(Asset, DynamicStats)` held by inventory and equipment slots together. -/
def UInventorySystemComponent.TotalAmount (w : World) (s : UInventorySystemComponent)
    (Asset : FPrimaryAssetId) (DynamicStats : FItemProperties) : Except Fault Int := do
  let equipped ← UInventorySystemComponent.EquippedAmount w s Asset DynamicStats
  pure (UItemContainerComponent.StoredAmount s.toUItemContainerComponent Asset DynamicStats + equipped)

/-- The stack limit that applies to an item: 1 when the catalog marks it non-stackable,
the container's stack limit otherwise. -/
def effectiveStackLimit (w : World) (StackSize : Int) (Asset : FPrimaryAssetId) : Int :=
  match w.GetPrimaryAssetData Asset with
  | some AssetData => if AssetData.bCanStack then StackSize else 1
  | none => StackSize

namespace UItemContainerComponent

/-- The parallel arrays have matching lengths and every property-bag entry belongs to
an occupied slot. -/
structure Synced (c : UItemContainerComponent) : Prop where
  assets : c.InventoryAssets.length = c.InventoryIndices.length
  amounts : c.InventoryAmounts.length = c.InventoryIndices.length
  stats : c.InventoryDynamicStats.length = c.InventoryDynamicStatsIndices.length
  owned : ∀ slot ∈ c.InventoryDynamicStatsIndices, slot ∈ c.InventoryIndices

/-- The container invariants of the data model, for stack limit `StackSize` and capacity
`InventorySize`: unique slot numbers in `[1, InventorySize]`, amounts in
`[1, effectiveStackLimit]`, and one non-empty property bag per listed slot. -/
structure WellFormed (w : World) (c : UItemContainerComponent) (StackSize InventorySize : Int) :
    Prop where
  synced : Synced c
  unique : c.InventoryIndices.Nodup
  range : ∀ slot ∈ c.InventoryIndices, 1 ≤ slot ∧ slot ≤ InventorySize
  bound : ∀ slot ∈ c.InventoryIndices,
    1 ≤ (GetInventorySlot c slot).Amount
    ∧ (GetInventorySlot c slot).Amount
        ≤ effectiveStackLimit w StackSize (GetInventorySlot c slot).Asset
  statsUnique : c.InventoryDynamicStatsIndices.Nodup
  bagsNonEmpty : ∀ bag ∈ c.InventoryDynamicStats, bag.ItemProperties ≠ []

/-- `Synced`, and no stored property bag is empty. -/
def Consistent (c : UItemContainerComponent) : Prop :=
  Synced c ∧ ∀ bag ∈ c.InventoryDynamicStats, bag.ItemProperties ≠ []

/-- The container after a record for the unoccupied slot `Slot` has been appended to the
arrays (with its property bag when that is not empty). -/
def withRecord (c : UItemContainerComponent) (Slot : Int) (Asset : FPrimaryAssetId)
    (DynamicStats : FItemProperties) (Amount : Int) : UItemContainerComponent :=
  { c with
    InventoryIndices := c.InventoryIndices ++ [Slot],
    InventoryAssets := c.InventoryAssets ++ [Asset],
    InventoryAmounts := c.InventoryAmounts ++ [Amount],
    InventoryDynamicStatsIndices :=
      if DynamicStats.ItemProperties.isEmpty then c.InventoryDynamicStatsIndices
      else c.InventoryDynamicStatsIndices ++ [Slot],
    InventoryDynamicStats :=
      if DynamicStats.ItemProperties.isEmpty then c.InventoryDynamicStats
      else c.InventoryDynamicStats ++ [DynamicStats] }

/-- The container with the amount at storage position `Index` replaced. -/
def withAmountAt (c : UItemContainerComponent) (Index : Int) (Amount : Int) :
    UItemContainerComponent :=
  { c with InventoryAmounts := c.InventoryAmounts.set Index.toNat Amount }

/-- The amount placed into a new slot by one round of the slot-filling loop. -/
def AddItemInternal.placed (StackSize : Int) (TempCanStack : Bool) (Amount : Int) : Int :=
  if Amount ≥ StackSize then StackSize else if TempCanStack then Amount else 1

/-- The value of `Amount` after one round of the slot-filling loop. -/
def AddItemInternal.remaining (StackSize : Int) (TempCanStack : Bool) (Amount : Int) : Int :=
  if Amount ≥ StackSize then Amount - StackSize else if TempCanStack then 0 else Amount - 1

/-- The number of stored amounts below `StackSize`; it bounds the nesting depth of
`AddNewItem`. -/
def openStackCount (StackSize : Int) (c : UItemContainerComponent) : Nat :=
  (c.InventoryAmounts.filter (fun a => decide (a < StackSize))).length

/-- The locals `x'` arise from `x` by placing units: the container stays consistent, the
flag and the configuration are untouched, `ChangedSlots` and the slot list only grow at
the end, amounts that had reached `StackSize` are not touched and every unit taken from
`Amount` has been added to `InventoryAmounts`. -/
structure AddItemInternal.Progress (StackSize : Int) (x x' : AddItemLocals) : Prop where
  consistent : Consistent x'.c
  flag : x'.c.bIsProcessing = x.c.bIsProcessing
  stack : x'.c.MaxStackSize = x.c.MaxStackSize
  size : x'.c.InventorySize = x.c.InventorySize
  changed : x.ChangedSlots <+: x'.ChangedSlots
  indices : x.c.InventoryIndices <+: x'.c.InventoryIndices
  full : ∀ (i : Nat) (a : Int), x.c.InventoryAmounts[i]? = some a → StackSize ≤ a →
    x'.c.InventoryAmounts[i]? = some a
  account : x'.c.InventoryAmounts.sum + x'.Amount = x.c.InventoryAmounts.sum + x.Amount

/-- The locals `x'` hold the arrays of the snapshot `Temp`, no changed slot, and the flag
and configuration of `x`. -/
structure AddItemInternal.Reverted (Temp : UItemContainerComponent) (x x' : AddItemLocals) :
    Prop where
  changed : x'.ChangedSlots = []
  indices : x'.c.InventoryIndices = Temp.InventoryIndices
  assets : x'.c.InventoryAssets = Temp.InventoryAssets
  amounts : x'.c.InventoryAmounts = Temp.InventoryAmounts
  statsIndices : x'.c.InventoryDynamicStatsIndices = Temp.InventoryDynamicStatsIndices
  stats : x'.c.InventoryDynamicStats = Temp.InventoryDynamicStats
  flag : x'.c.bIsProcessing = x.c.bIsProcessing
  stack : x'.c.MaxStackSize = x.c.MaxStackSize
  size : x'.c.InventorySize = x.c.InventorySize

/-- What a run of `AddNewItem` achieves: with `bRevertWhenFull` it either restores the
snapshot or places everything; without it, it places what fits. -/
def AddItemInternal.Outcome (StackSize : Int) (bRevertWhenFull : Bool)
    (Temp : UItemContainerComponent) (x x' : AddItemLocals) : Prop :=
  (bRevertWhenFull = true ∧ AddItemInternal.Reverted Temp x x')
  ∨ (AddItemInternal.Progress StackSize x x'
      ∧ (bRevertWhenFull = true → x'.ChangedSlots ≠ [] ∧ x'.Amount ≤ 0))

/-- Slot `Slot` holds a record of `Asset` whose property bag equals `DynamicStats` and
whose amount is below `StackSize`: a mergeable stack with room. -/
def IsOpenStack (c : UItemContainerComponent) (StackSize : Int) (Asset : FPrimaryAssetId)
    (DynamicStats : FItemProperties) (Slot : Int) : Bool :=
  decide (Slot ∈ c.InventoryIndices)
    && decide ((GetInventorySlot c Slot).Asset = Asset)
    && decide ((GetInventorySlot c Slot).Amount < StackSize)
    && FItemProperties.eq (GetInventorySlot c Slot).ItemProperties DynamicStats

/-- Slot number `Slot` is in `[1, InventorySize]` and not occupied. -/
def IsFreeSlot (c : UItemContainerComponent) (InventorySize : Int) (Slot : Int) : Prop :=
  1 ≤ Slot ∧ Slot ≤ InventorySize ∧ Slot ∉ c.InventoryIndices

end UItemContainerComponent

namespace UItemContainerComponent

/-- The container after the record of slot `Slot`, and the property bag listed for that
slot if there is one, have been taken out of the arrays. -/
def withoutRecord (c : UItemContainerComponent) (Slot : Int) : UItemContainerComponent :=
  { c with
    InventoryIndices := c.InventoryIndices.eraseIdx (c.InventoryIndices.indexOf Slot),
    InventoryAssets := c.InventoryAssets.eraseIdx (c.InventoryIndices.indexOf Slot),
    InventoryAmounts := c.InventoryAmounts.eraseIdx (c.InventoryIndices.indexOf Slot),
    InventoryDynamicStatsIndices :=
      c.InventoryDynamicStatsIndices.eraseIdx (c.InventoryDynamicStatsIndices.indexOf Slot),
    InventoryDynamicStats :=
      c.InventoryDynamicStats.eraseIdx (c.InventoryDynamicStatsIndices.indexOf Slot) }

/-- The record that `GetInventorySlot` returns for a slot number without a record. -/
def blankSlot : FInventorySlot := ⟨INDEX_NONE, FPrimaryAssetId.None, FItemProperties.empty, 0⟩

end UItemContainerComponent

namespace UItemContainerComponent

/-- The container after `k` units of the record in slot `s` have been put into a new
record in the unoccupied slot `t`, which carries a copy of the property bag of `s`. -/
def withSplit (c : UItemContainerComponent) (s t k : Int) : UItemContainerComponent :=
  withAmountAt
    (withRecord c t (GetInventorySlot c s).Asset (GetInventorySlot c s).ItemProperties k)
    (TArray.Find c.InventoryIndices s) ((GetInventorySlot c s).Amount - k)

end UItemContainerComponent

/-- A run of the embedded code that returns a value satisfying `P`, unless a range check
of the engine aborts it; it is not cut short by the fuel bound of the embedding. -/
def Yields {α : Type} (P : α → Prop) (r : Except Fault α) : Prop :=
  match r with
  | .ok a => P a
  | .error e => e = Fault.rangeCheck

namespace UItemContainerComponent

/-- The slot numbers are pairwise distinct and the slot, item and amount arrays have the
same length. -/
structure SlotsUnique (c : UItemContainerComponent) : Prop where
  unique : c.InventoryIndices.Nodup
  assets : c.InventoryAssets.length = c.InventoryIndices.length
  amounts : c.InventoryAmounts.length = c.InventoryIndices.length

end UItemContainerComponent

namespace UItemContainerComponent

/-- The other component of a two-component operation, when the pointer is valid, has
pairwise distinct slot numbers and slot, item and amount arrays of the same length. -/
def SlotsUniqueOther (d : Option UItemContainerComponent) : Prop :=
  ∀ d', d = some d' → SlotsUnique d'

end UItemContainerComponent

/-- The effective stack limit of the item at storage position `I` of `Assets`; the stack
limit itself where the position holds no item. -/
def effectiveStackLimitAt (w : World) (StackSize : Int) (Assets : List FPrimaryAssetId)
    (I : Nat) : Int :=
  match Assets[I]? with
  | some Asset => effectiveStackLimit w StackSize Asset
  | none => StackSize

namespace UItemContainerComponent

/-- The slot numbers of `1..InventorySize` that hold no record, in ascending order. -/
def freeSlots (c : UItemContainerComponent) (InventorySize : Int) : List Int :=
  ((List.range InventorySize.toNat).map (fun (k : Nat) => (k : Int) + 1)).filter
    (fun Slot => !TArray.Contains c.InventoryIndices Slot)

/-- Every record of the container can be handed over as a whole to a container with stack
limit `StackSize`: the arrays are consistent, slot numbers are unique, and each record
holds between one unit and the effective stack limit of an item that the catalog knows. -/
def Collectable (w : World) (StackSize : Int) (c : UItemContainerComponent) : Prop :=
  Consistent c ∧ c.InventoryIndices.Nodup ∧ c.InventoryDynamicStatsIndices.Nodup
  ∧ ∀ s ∈ c.InventoryIndices,
      1 ≤ (GetInventorySlot c s).Amount
      ∧ (GetInventorySlot c s).Amount
          ≤ effectiveStackLimit w StackSize (GetInventorySlot c s).Asset
      ∧ (GetInventorySlot c s).Asset.IsValid = true
      ∧ ∃ data, w.GetPrimaryAssetData (GetInventorySlot c s).Asset = some data

end UItemContainerComponent

namespace UInventorySystemComponent

end UInventorySystemComponent

namespace UInventorySystemComponent

/-- Every occupied equipment slot number is also a type slot. -/
structure TypedSlots (s : UInventorySystemComponent) : Prop where
  typed : ∀ slot ∈ s.EquipmentIndices, slot ∈ s.EquipmentTypeIndices

/-- The component `t` has the type slots of `s` and no equipment slot that `s` has not. -/
def ShrinksEquipment (s t : UInventorySystemComponent) : Prop :=
  (∀ slot ∈ t.EquipmentIndices, slot ∈ s.EquipmentIndices)
  ∧ t.EquipmentTypeIndices = s.EquipmentTypeIndices

/-- The bound on the nesting depth of the closure `UnequipItemWithoutSpecificSlot`: the
amounts below the stack size, and twice the number of records that still fit. -/
def unequipMeasure (StackSize InventorySize : Int) (s : UInventorySystemComponent) : Nat :=
  UItemContainerComponent.openStackCount StackSize s.toUItemContainerComponent
    + 2 * (InventorySize - TArray.Num s.InventoryIndices).toNat

end UInventorySystemComponent

namespace UInventorySystemComponent

/-- The components `s` and `t` have the same equipment slots and the same type slots. -/
def SameEquipmentSlots (s t : UInventorySystemComponent) : Prop :=
  t.EquipmentIndices = s.EquipmentIndices ∧ t.EquipmentTypeIndices = s.EquipmentTypeIndices

end UInventorySystemComponent

/-- The units that the record `r` holds of the combination `(Asset, DynamicStats)`: its
amount when the asset is `Asset` and the property bag compares equal to `DynamicStats`. -/
def FInventorySlot.unitsOf (r : FInventorySlot) (Asset : FPrimaryAssetId)
    (DynamicStats : FItemProperties) : Int :=
  if r.Asset = Asset ∧ FItemProperties.eq r.ItemProperties DynamicStats = true then r.Amount
  else 0

namespace UItemContainerComponent

/-- The container `c'` is consistent, has unique slot numbers, and holds `k` units more
than `c` of the combination `(Asset, DynamicStats)` and as many as `c` of every other. -/
structure Gains (c c' : UItemContainerComponent) (Asset : FPrimaryAssetId)
    (DynamicStats : FItemProperties) (k : Int) : Prop where
  consistent : Consistent c'
  unique : c'.InventoryIndices.Nodup
  statsUnique : c'.InventoryDynamicStatsIndices.Nodup
  units : ∀ a b, StoredAmount c' a b
    = StoredAmount c a b
      + (if Asset = a ∧ FItemProperties.eq DynamicStats b = true then k else 0)

end UItemContainerComponent

namespace UInventorySystemComponent

/-- The equipment arrays read as a container, which makes the statements about slot
records available for equipment slots. -/
def equipmentContainer (s : UInventorySystemComponent) : UItemContainerComponent :=
  { InventoryIndices := s.EquipmentIndices, InventoryAssets := s.EquipmentAssets,
    InventoryAmounts := s.EquipmentAmounts,
    InventoryDynamicStatsIndices := s.EquipmentDynamicStatsIndices,
    InventoryDynamicStats := s.EquipmentDynamicStats,
    bIsProcessing := false, MaxStackSize := 0, InventorySize := 0 }

/-- The structural invariants of inventory and equipment: arrays in step, property bags
owned by occupied slots and not empty, slot numbers unique. -/
structure Sound (s : UInventorySystemComponent) : Prop where
  inv : UItemContainerComponent.Consistent s.toUItemContainerComponent
  invUnique : s.InventoryIndices.Nodup
  invStatsUnique : s.InventoryDynamicStatsIndices.Nodup
  eqp : UItemContainerComponent.Consistent (equipmentContainer s)
  eqpUnique : s.EquipmentIndices.Nodup
  eqpStatsUnique : s.EquipmentDynamicStatsIndices.Nodup

/-- Units of `(Asset, DynamicStats)` held by the inventory records and the equipment
records together, read from the arrays. -/
def held (s : UInventorySystemComponent) (Asset : FPrimaryAssetId)
    (DynamicStats : FItemProperties) : Int :=
  UItemContainerComponent.StoredAmount s.toUItemContainerComponent Asset DynamicStats
    + UItemContainerComponent.StoredAmount (equipmentContainer s) Asset DynamicStats

end UInventorySystemComponent

/-- The run `r` returns a result, and the result satisfies `P`. -/
def Returns {α : Type} (P : α → Prop) (r : Except Fault α) : Prop :=
  match r with
  | .ok a => P a
  | .error _ => False

namespace UInventorySystemComponent

/-- The component `t` arises from `s` by moving `k` units of the record in equipment slot
`e` into inventory records of the same item and property bag: the inventory gains `k`
units of that combination and nothing else, the equipment record keeps the rest (or is
deleted when nothing is left), every other equipment record and the slot types are
untouched. -/
structure Unequipped (s t : UInventorySystemComponent) (e : Int) (k : Int) : Prop where
  inventory : UItemContainerComponent.Gains s.toUItemContainerComponent
    t.toUItemContainerComponent
    (UItemContainerComponent.GetInventorySlot (equipmentContainer s) e).Asset
    (UItemContainerComponent.GetInventorySlot (equipmentContainer s) e).ItemProperties k
  equipment :
    equipmentContainer t
      = UItemContainerComponent.withAmountAt (equipmentContainer s)
          (TArray.Find s.EquipmentIndices e)
          ((UItemContainerComponent.GetInventorySlot (equipmentContainer s) e).Amount - k)
    ∨ (k = (UItemContainerComponent.GetInventorySlot (equipmentContainer s) e).Amount
        ∧ equipmentContainer t
            = UItemContainerComponent.withoutRecord (equipmentContainer s) e)
  types : t.EquipmentTypeIndices = s.EquipmentTypeIndices

end UInventorySystemComponent

namespace UInventorySystemComponent

end UInventorySystemComponent

namespace UInventorySystemComponent

end UInventorySystemComponent

/-! ## Scenario fixtures -/

namespace Fixture

/-- A stackable consumable. -/
def potion : FPrimaryAssetId := ⟨1, 1⟩
/-- A non-stackable weapon. -/
def sword : FPrimaryAssetId := ⟨1, 2⟩
/-- A stackable, equippable ammunition item. -/
def arrow : FPrimaryAssetId := ⟨1, 3⟩
/-- A non-stackable, equippable shield. -/
def shield : FPrimaryAssetId := ⟨1, 4⟩
/-- The equipment type accepted by hand slots. -/
def handType : FPrimaryAssetId := ⟨2, 1⟩
/-- The equipment type accepted by head slots. -/
def headType : FPrimaryAssetId := ⟨2, 2⟩

/-- A catalog with the four items above and project settings of stack size 10. -/
def world : World where
  ManagerIsValid := true
  GetPrimaryAssetData := fun a =>
    if a = potion then some ⟨true, []⟩
    else if a = sword then some ⟨false, [handType]⟩
    else if a = arrow then some ⟨true, [handType]⟩
    else if a = shield then some ⟨false, [handType]⟩
    else none
  Settings := ⟨10, 5, 10, 10, 5, 10⟩
  OwnerHasAuthority := true

/-- An empty container with the given stack size and capacity. -/
def emptyContainer (MaxStackSize InventorySize : Int) : UItemContainerComponent :=
  ⟨[], [], [], [], [], false, MaxStackSize, InventorySize⟩

/-- Three property bags that differ in the value of the one property they hold. -/
def bagA : FItemProperties := ⟨[⟨1, "Quality", "A"⟩]⟩
/-- See `bagA`. -/
def bagB : FItemProperties := ⟨[⟨1, "Quality", "B"⟩]⟩
/-- See `bagA`. -/
def bagC : FItemProperties := ⟨[⟨1, "Quality", "C"⟩]⟩

/-- Inventory slot 1 holds three arrows; equipment type slot 1 accepts hand items and is
empty. -/
def quiver : UInventorySystemComponent :=
  { InventoryIndices := [1], InventoryAssets := [arrow], InventoryAmounts := [3],
    InventoryDynamicStatsIndices := [], InventoryDynamicStats := [],
    bIsProcessing := false, MaxStackSize := 10, InventorySize := 5,
    EquipmentTypeIndices := [1], EquipmentTypes := [handType],
    EquipmentIndices := [], EquipmentAssets := [], EquipmentAmounts := [],
    EquipmentDynamicStatsIndices := [], EquipmentDynamicStats := [],
    MaxEquipmentStackSize := 10 }

/-- An inventory of capacity 1 whose only slot holds a sword, with a shield equipped in
hand slot 1. -/
def armed : UInventorySystemComponent :=
  { InventoryIndices := [1], InventoryAssets := [sword], InventoryAmounts := [1],
    InventoryDynamicStatsIndices := [], InventoryDynamicStats := [],
    bIsProcessing := false, MaxStackSize := 10, InventorySize := 1,
    EquipmentTypeIndices := [1], EquipmentTypes := [handType],
    EquipmentIndices := [1], EquipmentAssets := [shield], EquipmentAmounts := [1],
    EquipmentDynamicStatsIndices := [], EquipmentDynamicStats := [],
    MaxEquipmentStackSize := 10 }

/-- A container of capacity 1 whose only slot holds three potions. -/
def fullBag : UItemContainerComponent :=
  ⟨[1], [potion], [3], [], [], false, 10, 1⟩

/-- Seven potions in slot 1, stack limit 10, capacity 5. -/
def sevenPotions : UItemContainerComponent :=
  ⟨[1], [potion], [7], [], [], false, 10, 5⟩

/-- Two potion stacks of 7 and 5 in slots 1 and 2, stack limit 10. -/
def twoStacks : UItemContainerComponent :=
  ⟨[1, 2], [potion, potion], [7, 5], [], [], false, 10, 5⟩

/-- Two single potions in slots 1 and 2 with different property bags. -/
def twoBags : UItemContainerComponent :=
  ⟨[1, 2], [potion, potion], [1, 1], [1, 2], [bagA, bagB], false, 10, 5⟩

/-- A potion without properties in slot 1, then a sword, a shield and an arrow with the
bags A, B and C in slots 2, 3 and 4. -/
def fourSlots : UItemContainerComponent :=
  ⟨[1, 2, 3, 4], [potion, sword, shield, arrow], [1, 1, 1, 1], [2, 3, 4], [bagA, bagB, bagC],
    false, 10, 5⟩

/-- The container `sevenPotions` while a call is in progress. -/
def busyPotions : UItemContainerComponent :=
  ⟨[1], [potion], [7], [], [], true, 10, 5⟩

/-- A potion in slot 1 and an arrow in slot 2. -/
def potionAndArrow : UItemContainerComponent :=
  ⟨[1, 2], [potion, arrow], [1, 1], [], [], false, 10, 5⟩

/-- A container of capacity 1 whose only slot holds nine arrows, stack limit 10. -/
def nineArrows : UItemContainerComponent :=
  ⟨[1], [arrow], [9], [], [], false, 10, 1⟩



/-- An empty slot list with room for five records, used as the target of transfers. -/
def chest : UItemContainerComponent := ⟨[], [], [], [], [], false, 10, 5⟩

/-- A seed with one slot and three amount entries: two amounts have no parent slot. -/
def orphanAmounts : UItemContainerComponent :=
  ⟨[1], [potion], [5, 5, 5], [], [], false, 10, 5⟩

/-- A seed whose only record sits in slot 99 of a container of capacity 5. -/
def farSlot : UItemContainerComponent :=
  ⟨[99], [potion], [5], [], [], false, 10, 5⟩

/-- Three potion stacks in slots 1, 2 and 5 of a container of capacity 5. -/
def spread : UItemContainerComponent :=
  ⟨[1, 2, 5], [potion, potion, potion], [5, 5, 5], [], [], false, 10, 5⟩

/-- A seed that lists slot 1 twice: a potion, then a sword, and three arrows in slot 2. -/
def duplicateSlot : UItemContainerComponent :=
  ⟨[1, 1, 2], [potion, sword, arrow], [1, 1, 3], [], [], false, 10, 5⟩

/-- An inventory of capacity 1 whose only slot holds nine arrows, with three arrows
equipped in hand slot 1. -/
def quiverFull : UInventorySystemComponent :=
  { InventoryIndices := [1], InventoryAssets := [arrow], InventoryAmounts := [9],
    InventoryDynamicStatsIndices := [], InventoryDynamicStats := [],
    bIsProcessing := false, MaxStackSize := 10, InventorySize := 1,
    EquipmentTypeIndices := [1], EquipmentTypes := [handType],
    EquipmentIndices := [1], EquipmentAssets := [arrow], EquipmentAmounts := [3],
    EquipmentDynamicStatsIndices := [], EquipmentDynamicStats := [],
    MaxEquipmentStackSize := 10 }

/-- A seed with amounts to repair: no potion in slot 1, four swords in slot 2 and 25
arrows in slot 3, stack limit 10. -/
def brokenAmounts : UItemContainerComponent :=
  ⟨[1, 2, 3], [potion, sword, arrow], [0, 4, 25], [], [], false, 10, 5⟩

/-- Two potions with bag A in slot 1, a sword with bag B in slot 3 and a shield in slot 4;
type slot 2 accepts head items, type slot 5 hand items, nothing is equipped. -/
def kit : UInventorySystemComponent :=
  { InventoryIndices := [1, 3, 4], InventoryAssets := [potion, sword, shield],
    InventoryAmounts := [2, 1, 1],
    InventoryDynamicStatsIndices := [1, 3], InventoryDynamicStats := [bagA, bagB],
    bIsProcessing := false, MaxStackSize := 10, InventorySize := 5,
    EquipmentTypeIndices := [2, 5], EquipmentTypes := [headType, handType],
    EquipmentIndices := [], EquipmentAssets := [], EquipmentAmounts := [],
    EquipmentDynamicStatsIndices := [], EquipmentDynamicStats := [],
    MaxEquipmentStackSize := 10 }

/-- Four potions in slot 1, a sword with bag A in slot 2 and two arrows in slot 3. -/
def threeRecords : UItemContainerComponent :=
  ⟨[1, 2, 3], [potion, sword, arrow], [4, 1, 2], [2], [bagA], false, 10, 5⟩

/-- A container of capacity 3 whose slot 2 holds three potions: slots 1 and 3 are free. -/
def roomForTwo : UItemContainerComponent :=
  ⟨[2], [potion], [3], [], [], false, 10, 3⟩

/-- The settings with the values that the constructor of `UInventorySystemSettings`
assigns. -/
def defaultSettings : UInventorySystemSettings := ⟨99, 200, 99, 99, 20, 99⟩

/-- The world of `world` with the default settings. -/
def defaultWorld : World := { world with Settings := defaultSettings }

/-- An empty inventory system component that sets no stack size and no capacity of its
own, with the hand slot 1. -/
def unconfigured : UInventorySystemComponent :=
  { InventoryIndices := [], InventoryAssets := [], InventoryAmounts := [],
    InventoryDynamicStatsIndices := [], InventoryDynamicStats := [],
    bIsProcessing := false, MaxStackSize := 0, InventorySize := 0,
    EquipmentTypeIndices := [1], EquipmentTypes := [handType],
    EquipmentIndices := [], EquipmentAssets := [], EquipmentAmounts := [],
    EquipmentDynamicStatsIndices := [], EquipmentDynamicStats := [],
    MaxEquipmentStackSize := 0 }

/-- The answers of `FText::IsNumeric` on the texts `5` and `abc`; other texts are not
looked at. -/
def IsNumeric (Text : String) : Bool := decide (Text = "5")

/-- The answers of `FCString::Atod` on the texts `5` (5.0) and `abc` (0.0, no digits to
convert); other texts are not looked at. -/
def Atod (Text : String) : Int := if Text = "5" then 5 else 0

/-- The property `Damage = 5`. -/
def damageFive : FItemProperty := ⟨1, "Damage", "5"⟩

/-- The property `Damage = abc`, whose value is not a number. -/
def damageText : FItemProperty := ⟨1, "Damage", "abc"⟩

/-- The bag with quality A listed before weight 3. -/
def qualityThenWeight : FItemProperties := ⟨[⟨1, "Quality", "A"⟩, ⟨2, "Weight", "3"⟩]⟩

/-- The bag with weight 3 listed before quality A. -/
def weightThenQuality : FItemProperties := ⟨[⟨2, "Weight", "3"⟩, ⟨1, "Quality", "A"⟩]⟩

/-- The container `spread` after `SetInventorySizeConfig` has lowered its capacity to 3:
three records, in the slots 1, 2 and 5. -/
def spreadShrunk : UItemContainerComponent :=
  ⟨[1, 2, 5], [potion, potion, potion], [5, 5, 5], [], [], false, 10, 3⟩

/-- The bag with quality `a`, written with a small letter. -/
def bagSmallA : FItemProperties := ⟨[⟨1, "Quality", "a"⟩]⟩

end Fixture


/-! ## Lemmas -/

namespace TArray
variable {α : Type}

theorem Find_eq_none_iff [DecidableEq α] (l : List α) (x : α) :
    Find l x = INDEX_NONE ↔ x ∉ l := by
  unfold Find INDEX_NONE
  by_cases h : x ∈ l
  · simp only [h, if_true, not_true, iff_false]
    intro hc
    have : (0 : Int) ≤ (List.indexOf x l : Int) := Int.ofNat_nonneg _
    omega
  · simp [h]

theorem Find_of_mem [DecidableEq α] {l : List α} {x : α} (h : x ∈ l) :
    Find l x = (l.indexOf x : Int) := by
  simp [Find, h]

theorem Find_of_not_mem [DecidableEq α] {l : List α} {x : α} (h : x ∉ l) :
    Find l x = INDEX_NONE := by
  simp [Find, h]

theorem Find_valid [DecidableEq α] {l : List α} {x : α} (h : Find l x ≠ INDEX_NONE) :
    0 ≤ Find l x ∧ Find l x < (l.length : Int) ∧ x ∈ l := by
  have hm : x ∈ l := by
    by_contra hc
    exact h (Find_of_not_mem hc)
  rw [Find_of_mem hm]
  have := List.indexOf_lt_length.mpr hm
  exact ⟨Int.ofNat_nonneg _, by exact_mod_cast this, hm⟩

theorem IsValidIndex_iff (l : List α) (i : Int) :
    IsValidIndex l i = true ↔ 0 ≤ i ∧ i < (l.length : Int) := by
  simp [IsValidIndex]

theorem IsValidIndex_of_length_eq {β : Type} {l : List α} {m : List β} (h : l.length = m.length)
    (i : Int) : IsValidIndex l i = IsValidIndex m i := by
  simp [IsValidIndex, h]

theorem get_of_valid {l : List α} {i : Int} (h : IsValidIndex l i = true) :
    ∃ a, get l i = .ok a ∧ l[i.toNat]? = some a := by
  rw [IsValidIndex_iff] at h
  have hlt : i.toNat < l.length := by omega
  refine ⟨l[i.toNat], ?_, ?_⟩
  · simp [get, h.1, List.getElem?_eq_getElem hlt]
  · simp [List.getElem?_eq_getElem hlt]

theorem get_eq_ok_iff {l : List α} {i : Int} {a : α} :
    get l i = .ok a ↔ 0 ≤ i ∧ l[i.toNat]? = some a := by
  unfold get
  by_cases h : 0 ≤ i
  · simp only [h, if_true, true_and]
    cases hq : l[i.toNat]? with
    | none => simp
    | some b => simp
  · simp [h]

theorem set_of_valid {l : List α} {i : Int} (v : α) (h : IsValidIndex l i = true) :
    set l i v = .ok (l.set i.toNat v) := by
  simp [set, h]

theorem get_Find [DecidableEq α] {l : List α} {x : α} (h : Find l x ≠ INDEX_NONE) :
    get l (Find l x) = .ok x := by
  obtain ⟨h0, h1, hm⟩ := Find_valid h
  rw [get_eq_ok_iff]
  refine ⟨h0, ?_⟩
  rw [Find_of_mem hm]
  simp only [Int.toNat_ofNat]
  rw [← List.get?_eq_getElem?]
  exact List.indexOf_get? hm

theorem AddUnique_of_not_mem [DecidableEq α] {l : List α} {x : α} (h : x ∉ l) :
    AddUnique l x = (l ++ [x], (l.length : Int)) := by
  simp [AddUnique, h]

end TArray

namespace UItemContainerComponent
open TArray

theorem getD_of_get {α : Type} {l : List α} {i : Int} {a d : α} (h : TArray.get l i = .ok a) :
    l.getD i.toNat d = a := by
  rw [get_eq_ok_iff] at h
  simp [List.getD, h.2]

/-- What `GetInventorySlot` returns for an occupied slot of a synced container. -/
theorem GetInventorySlot_of_mem {c : UItemContainerComponent} (hs : Synced c) {Slot : Int}
    (hm : Slot ∈ c.InventoryIndices) :
    ∃ asset amount,
      TArray.get c.InventoryAssets (Find c.InventoryIndices Slot) = .ok asset
      ∧ TArray.get c.InventoryAmounts (Find c.InventoryIndices Slot) = .ok amount
      ∧ ((Find c.InventoryDynamicStatsIndices Slot = INDEX_NONE
            ∧ GetInventorySlot c Slot = ⟨Slot, asset, FItemProperties.empty, amount⟩)
          ∨ (∃ bag, Find c.InventoryDynamicStatsIndices Slot ≠ INDEX_NONE
            ∧ IsValidIndex c.InventoryDynamicStats (Find c.InventoryDynamicStatsIndices Slot) = true
            ∧ TArray.get c.InventoryDynamicStats (Find c.InventoryDynamicStatsIndices Slot) = .ok bag
            ∧ bag ∈ c.InventoryDynamicStats
            ∧ GetInventorySlot c Slot = ⟨Slot, asset, bag, amount⟩)) := by
  have hne : Find c.InventoryIndices Slot ≠ INDEX_NONE := by
    rw [Ne, Find_eq_none_iff]; exact not_not.mpr hm
  obtain ⟨h0, h1, _⟩ := Find_valid hne
  have hvI : IsValidIndex c.InventoryIndices (Find c.InventoryIndices Slot) = true := by
    rw [IsValidIndex_iff]; exact ⟨h0, h1⟩
  have hvA : IsValidIndex c.InventoryAssets (Find c.InventoryIndices Slot) = true := by
    rw [IsValidIndex_of_length_eq hs.assets]; exact hvI
  have hvM : IsValidIndex c.InventoryAmounts (Find c.InventoryIndices Slot) = true := by
    rw [IsValidIndex_of_length_eq hs.amounts]; exact hvI
  obtain ⟨asset, hga, _⟩ := get_of_valid hvA
  obtain ⟨amount, hgm, _⟩ := get_of_valid hvM
  have hgi := get_Find hne
  refine ⟨asset, amount, hga, hgm, ?_⟩
  by_cases hst : Find c.InventoryDynamicStatsIndices Slot = INDEX_NONE
  · left
    refine ⟨hst, ?_⟩
    simp only [GetInventorySlot, hne, hvA, hvM, hst, ne_eq, not_true_eq_false, not_false_eq_true,
      and_self, if_true, false_and, if_false, getD_of_get hga, getD_of_get hgm, getD_of_get hgi]
  · right
    obtain ⟨g0, g1, _⟩ := Find_valid hst
    have hvS : IsValidIndex c.InventoryDynamicStats (Find c.InventoryDynamicStatsIndices Slot)
        = true := by
      rw [IsValidIndex_iff, hs.stats]; exact ⟨g0, g1⟩
    obtain ⟨bag, hgb, hgb'⟩ := get_of_valid hvS
    refine ⟨bag, hst, hvS, hgb, List.getElem?_mem hgb', ?_⟩
    simp only [GetInventorySlot, hne, hvA, hvM, hst, hvS, ne_eq, not_true_eq_false,
      not_false_eq_true, and_self, if_true, and_false, if_false, getD_of_get hga,
      getD_of_get hgm, getD_of_get hgi, getD_of_get hgb]

end UItemContainerComponent

namespace UItemContainerComponent
open TArray

theorem eqList_nil_left (l : List FItemProperty) :
    FItemProperties.eqList [] l = l.isEmpty := by
  cases l <;> rfl

theorem eqList_nil_right (l : List FItemProperty) :
    FItemProperties.eqList l [] = l.isEmpty := by
  cases l <;> rfl

/-- One step of the stack search at an occupied slot: the checks amount to `IsOpenStack`. -/
theorem scan_cons {c : UItemContainerComponent} (hs : Synced c)
    (hb : ∀ bag ∈ c.InventoryDynamicStats, bag.ItemProperties ≠ [])
    (S : Int) (asset : FPrimaryAssetId) (stats : FItemProperties) (Slot : Int) (rest : List Int)
    (hm : Slot ∈ c.InventoryIndices) :
    FindItemStack.scan c S asset stats (-1) false [] (Slot :: rest)
      = if IsOpenStack c S asset stats Slot then
          .ok (Find c.InventoryIndices Slot, (GetInventorySlot c Slot).Amount, true)
        else FindItemStack.scan c S asset stats (-1) false [] rest := by
  obtain ⟨a, m, hga, hgm, hcase⟩ := GetInventorySlot_of_mem hs hm
  have hne : Find c.InventoryIndices Slot ≠ INDEX_NONE := by
    rw [Ne, Find_eq_none_iff]; exact not_not.mpr hm
  rw [FindItemStack.scan]
  simp only [Contains, List.not_mem_nil, decide_False, Bool.false_eq_true, if_false, hne, hga, hgm]
  obtain ⟨props⟩ := stats
  rcases hcase with ⟨hst, hrec⟩ | ⟨bag, hst, hvS, hgb, hmem, hrec⟩
  · simp only [IsOpenStack, hrec, hm, hst, decide_True, Bool.true_and, FItemProperties.eq,
      FItemProperties.empty, eqList_nil_left]
    by_cases h1 : a = asset
    · by_cases h2 : m < S
      · cases props <;> simp [h1, h2, INDEX_NONE]
      · simp [h1, h2, INDEX_NONE]
    · simp [h1]
  · have hbag := hb bag hmem
    have hst' : Find c.InventoryDynamicStatsIndices Slot ≠ -1 := hst
    simp only [IsOpenStack, hrec, hm, hst, hvS, hgb, decide_True, Bool.true_and,
      FItemProperties.eq, FItemProperties.ne]
    by_cases h1 : a = asset
    · by_cases h2 : m < S
      · have h2' : ¬ S ≤ m := by omega
        cases props with
        | nil =>
          have : FItemProperties.eqList bag.ItemProperties [] = false := by
            rw [eqList_nil_right]; cases hq : bag.ItemProperties <;> simp_all
          simp [h1, h2, INDEX_NONE, this, hst', h2']
        | cons p ps =>
          by_cases hq : FItemProperties.eqList bag.ItemProperties (p :: ps) = true
          · simp [h1, h2, INDEX_NONE, hst', h2', hq]
          · have hq' : FItemProperties.eqList bag.ItemProperties (p :: ps) = false := by
              simpa using hq
            simp [h1, h2, INDEX_NONE, hst', h2', hq']
      · simp [h1, h2, INDEX_NONE]
    · simp [h1]

/-- The stack search returns the first listed slot that is an open stack. -/
theorem scan_eq_find {c : UItemContainerComponent} (hs : Synced c)
    (hb : ∀ bag ∈ c.InventoryDynamicStats, bag.ItemProperties ≠ [])
    (S : Int) (asset : FPrimaryAssetId) (stats : FItemProperties) :
    ∀ (L : List Int), (∀ s ∈ L, s ∈ c.InventoryIndices) →
      FindItemStack.scan c S asset stats (-1) false [] L
        = match L.find? (IsOpenStack c S asset stats) with
          | some s => .ok (Find c.InventoryIndices s, (GetInventorySlot c s).Amount, true)
          | none => .ok (INDEX_NONE, INDEX_NONE, false)
  | [], _ => by simp [FindItemStack.scan]
  | Slot :: rest, hL => by
    rw [scan_cons hs hb S asset stats Slot rest (hL Slot (List.mem_cons_self _ _))]
    rw [scan_eq_find hs hb S asset stats rest (fun s h => hL s (List.mem_cons_of_mem _ h))]
    by_cases h : IsOpenStack c S asset stats Slot = true
    · simp [h, List.find?_cons]
    · simp [h, List.find?_cons]

end UItemContainerComponent

namespace UItemContainerComponent
open TArray

/-- `FindNextEmptySlot` succeeds with `I` exactly when the guards pass and `I` is the
smallest number in `1..InventorySize` that is neither occupied nor ignored. -/
theorem FindNextEmptySlot_eq_true_iff (c : UItemContainerComponent) (N : Int) (ign : List Int)
    (I : Int) :
    FindNextEmptySlot c N ign = (I, true) ↔
      (ign = [] ∨ MaxOfIntArray ign ≤ N) ∧ Num c.InventoryIndices < N
      ∧ 1 ≤ I ∧ I ≤ N ∧ I ∉ c.InventoryIndices ∧ I ∉ ign
      ∧ ∀ J, 1 ≤ J → J < I → J ∈ c.InventoryIndices ∨ J ∈ ign := by
  unfold FindNextEmptySlot
  by_cases h1 : ¬ ign.isEmpty ∧ N < MaxOfIntArray ign
  · rw [if_pos h1]
    simp only [Prod.mk.injEq, Bool.false_eq_true, and_false, false_iff]
    rintro ⟨hg, _⟩
    rcases hg with hg | hg
    · simp [hg] at h1
    · omega
  · rw [if_neg h1]
    have hg : ign = [] ∨ MaxOfIntArray ign ≤ N := by
      by_cases he : ign = []
      · exact Or.inl he
      · right
        by_contra hc
        apply h1
        refine ⟨?_, by omega⟩
        cases ign <;> simp_all
    by_cases h2 : Num c.InventoryIndices ≥ N
    · rw [if_pos h2]
      simp only [Prod.mk.injEq, Bool.false_eq_true, and_false, false_iff]
      rintro ⟨_, hlt, _⟩
      omega
    · rw [if_neg h2]
      rw [List.find?_map]
      cases hf : (List.range N.toNat).find?
          ((fun I => !Contains c.InventoryIndices I && !Contains ign I) ∘ fun (k : Nat) => (k : Int) + 1)
        with
      | none =>
        simp only [Option.map_none', Prod.mk.injEq, Bool.false_eq_true, and_false, false_iff]
        rintro ⟨_, _, hI1, hIN, hIc, hIi, _⟩
        rw [List.find?_range_eq_none] at hf
        obtain ⟨j, hj⟩ : ∃ j : Nat, I = (j : Int) + 1 := ⟨(I - 1).toNat, by omega⟩
        subst hj
        have := hf j (by omega)
        simp [Contains, hIc, hIi] at this
      | some k =>
        rw [List.find?_range_eq_some] at hf
        obtain ⟨hp, hk, hmin⟩ := hf
        simp only [Function.comp, Contains, Bool.and_eq_true, Bool.not_eq_true',
          decide_eq_false_iff_not] at hp
        rw [List.mem_range] at hk
        simp only [Option.map_some', Prod.mk.injEq, and_true]
        constructor
        · intro hI
          subst hI
          refine ⟨hg, by omega, by omega, by omega, hp.1, hp.2, ?_⟩
          intro J hJ1 hJk
          obtain ⟨j, hj⟩ : ∃ j : Nat, J = (j : Int) + 1 := ⟨(J - 1).toNat, by omega⟩
          subst hj
          have := hmin j (by omega)
          simp only [Function.comp, Contains, Bool.not_and, Bool.not_not,
            Bool.or_eq_true, decide_eq_true_eq] at this
          exact this
        · rintro ⟨_, _, hI1, hIN, hIc, hIi, hImin⟩
          by_contra hne
          rcases lt_or_gt_of_ne hne with hlt | hgt
          · rcases hImin ((k : Int) + 1) (by omega) hlt with h | h
            · exact hp.1 h
            · exact hp.2 h
          · obtain ⟨j, hj⟩ : ∃ j : Nat, I = (j : Int) + 1 := ⟨(I - 1).toNat, by omega⟩
            subst hj
            have := hmin j (by omega)
            simp [Contains, hIc, hIi] at this

end UItemContainerComponent

namespace UItemContainerComponent
open TArray

theorem Consistent.withRecord {c : UItemContainerComponent} (h : Consistent c) {Slot : Int}
    (asset : FPrimaryAssetId) (stats : FItemProperties) (amount : Int) :
    Consistent (withRecord c Slot asset stats amount) := by
  obtain ⟨hs, hb⟩ := h
  refine ⟨⟨?_, ?_, ?_, ?_⟩, ?_⟩
  · simp [UItemContainerComponent.withRecord, hs.assets]
  · simp [UItemContainerComponent.withRecord, hs.amounts]
  · simp only [UItemContainerComponent.withRecord]
    split_ifs <;> simp [hs.stats]
  · intro slot hslot
    simp only [UItemContainerComponent.withRecord] at hslot ⊢
    split_ifs at hslot
    · exact List.mem_append_left _ (hs.owned slot hslot)
    · rcases List.mem_append.mp hslot with h | h
      · exact List.mem_append_left _ (hs.owned slot h)
      · exact List.mem_append_right _ h
  · intro bag hbag
    simp only [UItemContainerComponent.withRecord] at hbag
    split_ifs at hbag with he
    · exact hb bag hbag
    · rcases List.mem_append.mp hbag with h | h
      · exact hb bag h
      · simp only [List.mem_singleton] at h
        subst h
        intro hnil
        simp [hnil] at he

theorem Consistent.withAmountAt {c : UItemContainerComponent} (h : Consistent c) (Index amount : Int) :
    Consistent (withAmountAt c Index amount) := by
  obtain ⟨hs, hb⟩ := h
  exact ⟨⟨hs.assets, by simp [UItemContainerComponent.withAmountAt, hs.amounts], hs.stats, hs.owned⟩, hb⟩

/-- In a consistent container the property bag of a free slot is stored without complaint. -/
theorem storeStats_of_free {c : UItemContainerComponent} (h : Consistent c) {Index : Int}
    (hfree : Index ∉ c.InventoryIndices) (stats : FItemProperties) :
    AddItemInternal.storeStats c Index stats
      = .ok ({ c with
          InventoryDynamicStatsIndices :=
            if stats.ItemProperties.isEmpty then c.InventoryDynamicStatsIndices
            else c.InventoryDynamicStatsIndices ++ [Index],
          InventoryDynamicStats :=
            if stats.ItemProperties.isEmpty then c.InventoryDynamicStats
            else c.InventoryDynamicStats ++ [stats] }, true) := by
  obtain ⟨hs, hb⟩ := h
  unfold AddItemInternal.storeStats
  by_cases he : stats.ItemProperties.isEmpty = true
  · simp [he]
  · have hnot : Index ∉ c.InventoryDynamicStatsIndices := fun hc => hfree (hs.owned _ hc)
    have hv : IsValidIndex c.InventoryDynamicStats (c.InventoryDynamicStatsIndices.length : Int)
        = false := by
      simp [IsValidIndex, hs.stats]
    simp [he, AddUnique_of_not_mem hnot, TArray.Add, hv]

/-- One round of the slot-filling loop in a consistent container. -/
theorem fillSlots_succ {S N : Int} {asset : FPrimaryAssetId} {stats : FItemProperties}
    {T : Bool} (k : Nat) (I : Int) {x : AddItemLocals} (h : Consistent x.c) :
    AddItemInternal.fillSlots S N asset stats T (k + 1) I x
      = if I > N then .ok (x, .done true)
        else if (FindNextEmptySlot x.c N []).2 = true then
          AddItemInternal.fillSlots S N asset stats T k (I + 1)
            { c := withRecord x.c (FindNextEmptySlot x.c N []).1 asset stats
                (AddItemInternal.placed S T x.Amount),
              Amount := AddItemInternal.remaining S T x.Amount,
              ChangedSlots := x.ChangedSlots ++ [(FindNextEmptySlot x.c N []).1] }
        else .ok (x, .done true) := by
  rw [AddItemInternal.fillSlots]
  by_cases hI : I > N
  · simp [hI]
  · simp only [hI, if_false]
    rcases hf : FindNextEmptySlot x.c N [] with ⟨Index, b⟩
    cases b with
    | false => simp
    | true =>
      have hfree : Index ∉ x.c.InventoryIndices :=
        ((FindNextEmptySlot_eq_true_iff _ _ _ _).mp hf).2.2.2.2.1
      simp only [storeStats_of_free h hfree, if_true]
      by_cases hA : x.Amount ≥ S
      · simp only [hA, if_true, AddItemInternal.placed, AddItemInternal.remaining,
          AddUnique_of_not_mem hfree, TArray.Add, UItemContainerComponent.withRecord]
      · simp only [hA, if_false, AddItemInternal.placed, AddItemInternal.remaining,
          AddUnique_of_not_mem hfree, TArray.Add, UItemContainerComponent.withRecord]

end UItemContainerComponent

namespace UItemContainerComponent
open TArray

namespace AddItemInternal

theorem Progress.refl {S : Int} {x : AddItemLocals} (h : Consistent x.c) : Progress S x x :=
  ⟨h, rfl, rfl, rfl, List.prefix_refl _, List.prefix_refl _, fun _ _ h _ => h, rfl⟩

theorem Progress.trans {S : Int} {x y z : AddItemLocals} (h1 : Progress S x y)
    (h2 : Progress S y z) : Progress S x z :=
  ⟨h2.consistent, h2.flag.trans h1.flag, h2.stack.trans h1.stack, h2.size.trans h1.size,
    h1.changed.trans h2.changed, h1.indices.trans h2.indices,
    fun i a h hS => h2.full i a (h1.full i a h hS) hS, h2.account.trans h1.account⟩

/-- Appending a record for a free slot is progress. -/
theorem Progress.place {S : Int} {x : AddItemLocals} (h : Consistent x.c) (Slot : Int)
    (asset : FPrimaryAssetId) (stats : FItemProperties) (amount rest : Int)
    (hacc : amount + rest = x.Amount) :
    Progress S x { c := withRecord x.c Slot asset stats amount, Amount := rest,
                   ChangedSlots := x.ChangedSlots ++ [Slot] } := by
  refine ⟨h.withRecord asset stats amount, rfl, rfl, rfl, List.prefix_append _ _,
    List.prefix_append _ _, ?_, ?_⟩
  · intro i a hi _
    simp only [UItemContainerComponent.withRecord]
    rw [List.getElem?_append_left (List.getElem?_eq_some.mp hi).1]
    exact hi
  simp only [UItemContainerComponent.withRecord, List.sum_append, List.sum_cons, List.sum_nil]
  omega

theorem placed_add_remaining (S : Int) (T : Bool) (a : Int) :
    placed S T a + remaining S T a = a := by
  unfold placed remaining
  cases T <;> simp only [Bool.false_eq_true, if_false, if_true] <;> split_ifs <;> omega

/-- After `k` rounds a stackable amount has dropped to at most `a - k * S`, or to 0. -/
theorem remaining_iterate_stackable {S : Int} (hS : 1 ≤ S) :
    ∀ (k : Nat) (a : Int), (remaining S true)^[k] a ≤ max 0 (a - k * S)
  | 0, a => by simp
  | k + 1, a => by
    rw [Function.iterate_succ_apply]
    have ih := remaining_iterate_stackable hS k (remaining S true a)
    have hk : (0 : Int) ≤ (k : Int) * S := by positivity
    have hexp : ((k + 1 : Nat) : Int) * S = (k : Int) * S + S := by push_cast; ring
    rw [hexp]
    by_cases h1 : a ≥ S
    · have hr : remaining S true a = a - S := by simp [remaining, h1]
      rw [hr] at ih ⊢
      have : max 0 (a - S - (k : Int) * S) ≤ max 0 (a - ((k : Int) * S + S)) := by
        apply le_of_eq; congr 1; ring
      exact le_trans ih this
    · have hr : remaining S true a = 0 := by simp [remaining, h1]
      rw [hr] at ih ⊢
      have : max 0 (0 - (k : Int) * S) = 0 := by
        apply max_eq_left; omega
      rw [this] at ih
      exact le_trans ih (le_max_left _ _)

/-- After `k` rounds a non-stackable amount has dropped by at least `k`. -/
theorem remaining_iterate_single {S : Int} (hS : 1 ≤ S) :
    ∀ (k : Nat) (a : Int), (remaining S false)^[k] a ≤ a - k
  | 0, a => by simp
  | k + 1, a => by
    rw [Function.iterate_succ_apply]
    have ih := remaining_iterate_single hS k (remaining S false a)
    have hr : remaining S false a ≤ a - 1 := by
      unfold remaining
      simp only [Bool.false_eq_true, if_false]
      split_ifs <;> omega
    have hc : (((k + 1 : Nat)) : Int) = (k : Int) + 1 := by push_cast; ring
    rw [hc]
    linarith

/-- The slot-filling loop never aborts in a consistent container; it is progress, and
when it runs to its end it has appended `k` slots and applied `remaining` `k` times. -/
theorem fillSlots_spec (S N : Int) (asset : FPrimaryAssetId) (stats : FItemProperties)
    (T : Bool) :
    ∀ (k : Nat) (I : Int) (x : AddItemLocals), Consistent x.c →
      ∃ x' e, fillSlots S N asset stats T k I x = .ok (x', .done e) ∧ Progress S x x'
        ∧ (e = false → x'.ChangedSlots.length = x.ChangedSlots.length + k
            ∧ x'.Amount = (remaining S T)^[k] x.Amount)
  | 0, I, x, h => ⟨x, false, by simp [fillSlots], Progress.refl h, fun _ => by simp⟩
  | k + 1, I, x, h => by
    rw [fillSlots_succ k I h]
    by_cases hI : I > N
    · exact ⟨x, true, by simp [hI], Progress.refl h, fun hc => by simp at hc⟩
    · simp only [hI, if_false]
      by_cases hf : (FindNextEmptySlot x.c N []).2 = true
      · simp only [hf, if_true]
        have hstep := Progress.place (S := S) h (FindNextEmptySlot x.c N []).1 asset stats
          (placed S T x.Amount) (remaining S T x.Amount) (placed_add_remaining S T x.Amount)
        obtain ⟨x', e, heq, hp, hdone⟩ :=
          fillSlots_spec S N asset stats T k (I + 1) _ hstep.consistent
        refine ⟨x', e, heq, hstep.trans hp, fun he => ?_⟩
        obtain ⟨hl, ha⟩ := hdone he
        refine ⟨?_, ?_⟩
        · rw [hl]; simp; omega
        · rw [ha, Function.iterate_succ_apply]
      · simp only [hf, Bool.false_eq_true, if_false]
        exact ⟨x, true, rfl, Progress.refl h, fun hc => by simp at hc⟩

end AddItemInternal
end UItemContainerComponent

namespace UItemContainerComponent
open TArray

namespace AddItemInternal

theorem Reverted.of_progress {S : Int} {Temp : UItemContainerComponent} {x x1 : AddItemLocals}
    (h : Progress S x x1) : Reverted Temp x (revert Temp x1) :=
  ⟨rfl, rfl, rfl, rfl, rfl, rfl, h.flag, h.stack, h.size⟩

theorem CeilToIntDiv_mul_ge {a S : Int} (hS : 1 ≤ S) : a ≤ CeilToIntDiv a S * S := by
  unfold CeilToIntDiv
  have := Int.lt_ediv_add_one_mul_self (a + S - 1) (by omega : 0 < S)
  have hexp : ((a + S - 1) / S + 1) * S = (a + S - 1) / S * S + S := by ring
  rw [hexp] at this
  omega

theorem CeilToIntDiv_pos {a S : Int} (hS : 1 ≤ S) (ha : 0 < a) : 1 ≤ CeilToIntDiv a S := by
  have h := CeilToIntDiv_mul_ge (a := a) hS
  by_contra hc
  have hq : CeilToIntDiv a S ≤ 0 := by omega
  have : CeilToIntDiv a S * S ≤ 0 := Int.mul_nonpos_of_nonpos_of_nonneg hq (by omega)
  omega

/-- Placing into free slots: in a consistent container the outcome is a revert or
progress, and with `bRevertWhenFull` progress means that everything was placed. -/
theorem placeInFreeSlots_spec {S N : Int} (hS : 1 ≤ S) (asset : FPrimaryAssetId)
    (stats : FItemProperties) (T bRevert : Bool) (Temp : UItemContainerComponent)
    (x : AddItemLocals) (h : Consistent x.c) :
    ∃ x' b, placeInFreeSlots S N asset stats T bRevert Temp x = .ok (x', b)
      ∧ Outcome S bRevert Temp x x' := by
  unfold placeInFreeSlots
  by_cases hA : x.Amount > S ∨ (¬ T = true ∧ x.Amount > 1)
  · simp only [hA, if_true]
    obtain ⟨x1, e, heq, hp, hdone⟩ := fillSlots_spec S N asset stats T
      (if T = true then CeilToIntDiv x.Amount S else x.Amount).toNat 1 x h
    rw [heq]
    cases e with
    | true =>
      cases bRevert with
      | true => exact ⟨revert Temp x1, false, by simp, Or.inl ⟨rfl, Reverted.of_progress hp⟩⟩
      | false => exact ⟨x1, true, by simp, Or.inr ⟨hp, fun hc => by simp at hc⟩⟩
    | false =>
      refine ⟨x1, true, by simp, Or.inr ⟨hp, fun _ => ?_⟩⟩
      obtain ⟨hl, ha⟩ := hdone rfl
      have hpos : 0 < x.Amount := by
        rcases hA with h1 | ⟨_, h1⟩ <;> omega
      cases T with
      | true =>
        simp only [if_true] at hl ha
        have hq1 := CeilToIntDiv_pos hS hpos
        have hq2 := CeilToIntDiv_mul_ge (a := x.Amount) hS
        have hk : (((CeilToIntDiv x.Amount S).toNat : Nat) : Int) = CeilToIntDiv x.Amount S := by
          omega
        have hle := remaining_iterate_stackable hS (CeilToIntDiv x.Amount S).toNat x.Amount
        rw [hk] at hle
        have hmax : max 0 (x.Amount - CeilToIntDiv x.Amount S * S) = 0 := by
          apply max_eq_left; omega
        rw [hmax] at hle
        refine ⟨?_, by rw [ha]; exact hle⟩
        intro hnil
        rw [hnil] at hl
        simp at hl
        omega
      | false =>
        simp only [Bool.false_eq_true, if_false] at hl ha
        have hle := remaining_iterate_single hS x.Amount.toNat x.Amount
        have hk : ((x.Amount.toNat : Nat) : Int) = x.Amount := by omega
        rw [hk] at hle
        refine ⟨?_, by rw [ha]; omega⟩
        intro hnil
        rw [hnil] at hl
        simp at hl
        omega
  · simp only [hA, if_false]
    rcases hf : FindNextEmptySlot x.c N [] with ⟨Index, b⟩
    cases b with
    | true =>
      have hfree : Index ∉ x.c.InventoryIndices :=
        ((FindNextEmptySlot_eq_true_iff _ _ _ _).mp hf).2.2.2.2.1
      simp only [storeStats_of_free h hfree]
      refine ⟨_, true, rfl, Or.inr ⟨?_, fun _ => ⟨by simp [TArray.Add], le_refl _⟩⟩⟩
      have := Progress.place (S := S) h Index asset stats x.Amount 0 (by omega)
      simpa [AddUnique_of_not_mem hfree, TArray.Add, UItemContainerComponent.withRecord] using this
    | false =>
      cases bRevert with
      | true =>
        exact ⟨revert Temp x, false, by simp, Or.inl ⟨rfl, Reverted.of_progress (Progress.refl (S := S) h)⟩⟩
      | false => exact ⟨x, false, by simp, Or.inr ⟨Progress.refl h, fun hc => by simp at hc⟩⟩

end AddItemInternal
end UItemContainerComponent

namespace UItemContainerComponent
open TArray

theorem sum_set_of_getElem? : ∀ {l : List Int} {i : Nat} {a : Int}, l[i]? = some a →
    ∀ v : Int, (l.set i v).sum = l.sum - a + v
  | [], i, a, h, v => by simp at h
  | b :: l, 0, a, h, v => by
    simp only [List.getElem?_cons_zero, Option.some.injEq] at h
    subst h
    simp only [List.set_cons_zero, List.sum_cons]
    omega
  | b :: l, i + 1, a, h, v => by
    simp only [List.getElem?_cons_succ] at h
    have := sum_set_of_getElem? h v
    simp only [List.set_cons_succ, List.sum_cons, this]
    omega

theorem filter_length_set_lt {S : Int} : ∀ {l : List Int} {i : Nat} {a : Int}, l[i]? = some a →
    a < S → ∀ v : Int, ¬ v < S →
      ((l.set i v).filter (fun a => decide (a < S))).length + 1
        = (l.filter (fun a => decide (a < S))).length
  | [], i, a, h, _, v, _ => by simp at h
  | b :: l, 0, a, h, ha, v, hv => by
    simp only [List.getElem?_cons_zero, Option.some.injEq] at h
    subst h
    simp [List.filter_cons, ha, hv]
  | b :: l, i + 1, a, h, ha, v, hv => by
    simp only [List.getElem?_cons_succ] at h
    have := filter_length_set_lt h ha v hv
    simp only [List.set_cons_succ, List.filter_cons]
    split_ifs <;> simp [this]

theorem SortAscending_mem {l : List Int} {s : Int} : s ∈ SortAscending l ↔ s ∈ l :=
  (List.perm_insertionSort _ l).mem_iff

/-- The stack search of `AddNewItem` with the manager, the asset and its catalog entry in
order: the first open stack in ascending slot order. -/
theorem FindItemStack_eq {w : World} {c : UItemContainerComponent} (h : Consistent c)
    (S N : Int) {asset : FPrimaryAssetId} (stats : FItemProperties) {d : FAssetData}
    (hm : w.ManagerIsValid = true) (hv : asset.IsValid = true)
    (hd : w.GetPrimaryAssetData asset = some d) (hstack : d.bCanStack = true) :
    FindItemStack w c S N asset stats (-1) false []
      = match (SortAscending c.InventoryIndices).find? (IsOpenStack c S asset stats) with
        | some s => .ok (Find c.InventoryIndices s, (GetInventorySlot c s).Amount, true)
        | none => .ok (INDEX_NONE, INDEX_NONE, false) := by
  have hne : asset ≠ FPrimaryAssetId.None := by
    intro hc
    rw [hc] at hv
    simp [FPrimaryAssetId.IsValid, FPrimaryAssetId.None] at hv
  unfold FindItemStack
  simp only [List.isEmpty_nil, not_true_eq_false, false_and, if_false, hm, hv, hne, INDEX_NONE,
    hd, hstack, true_and, false_or]
  norm_num
  by_cases he : c.InventoryIndices = []
  · simp [he, TArray.Num, SortAscending, FindItemStack.scan]
  · have hnum : ¬ Num c.InventoryIndices = 0 := by
      simp [TArray.Num, he]
    rw [if_neg hnum]
    exact scan_eq_find h.1 h.2 S asset stats _ (fun s hs => SortAscending_mem.mp hs)

/-- The stack search of `AddNewItem` either fails or returns the position and amount of
an open stack. -/
theorem FindItemStack_cases (w : World) {c : UItemContainerComponent} (h : Consistent c)
    (S N : Int) (asset : FPrimaryAssetId) (stats : FItemProperties) :
    FindItemStack w c S N asset stats (-1) false [] = .ok (INDEX_NONE, INDEX_NONE, false)
    ∨ ∃ s, s ∈ c.InventoryIndices ∧ IsOpenStack c S asset stats s = true
        ∧ FindItemStack w c S N asset stats (-1) false []
          = .ok (Find c.InventoryIndices s, (GetInventorySlot c s).Amount, true) := by
  by_cases hg : w.ManagerIsValid = true ∧ asset.IsValid = true
      ∧ ∃ d, w.GetPrimaryAssetData asset = some d ∧ d.bCanStack = true
  · obtain ⟨hm, hv, d, hd, hstack⟩ := hg
    rw [FindItemStack_eq h S N stats hm hv hd hstack]
    cases hf : (SortAscending c.InventoryIndices).find? (IsOpenStack c S asset stats) with
    | none => exact Or.inl rfl
    | some s =>
      right
      exact ⟨s, SortAscending_mem.mp (List.mem_of_find?_eq_some hf), List.find?_some hf, rfl⟩
  · left
    unfold FindItemStack
    simp only [List.isEmpty_nil, not_true_eq_false, false_and, if_false]
    by_cases hm : w.ManagerIsValid = true
    · by_cases hv : asset.IsValid = true
      · cases hd : w.GetPrimaryAssetData asset with
        | none => simp [hm, hv, hd]
        | some d =>
          have hstack : ¬ d.bCanStack = true := fun hc => hg ⟨hm, hv, d, hd, hc⟩
          simp [hm, hv, hd, hstack]
      · simp [hv]
    · simp [hm]

end UItemContainerComponent

namespace UItemContainerComponent
open TArray

/-- The storage position and amount behind an open stack. -/
theorem IsOpenStack.position {c : UItemContainerComponent} (h : Consistent c) {S : Int}
    {asset : FPrimaryAssetId} {stats : FItemProperties} {s : Int}
    (ho : IsOpenStack c S asset stats s = true) :
    s ∈ c.InventoryIndices
    ∧ TArray.get c.InventoryIndices (Find c.InventoryIndices s) = .ok s
    ∧ IsValidIndex c.InventoryAmounts (Find c.InventoryIndices s) = true
    ∧ c.InventoryAmounts[(Find c.InventoryIndices s).toNat]? = some (GetInventorySlot c s).Amount
    ∧ (GetInventorySlot c s).Amount < S := by
  simp only [IsOpenStack, Bool.and_eq_true, decide_eq_true_eq] at ho
  obtain ⟨⟨⟨hm, _⟩, hlt⟩, _⟩ := ho
  have hne : Find c.InventoryIndices s ≠ INDEX_NONE := by
    rw [Ne, Find_eq_none_iff]; exact not_not.mpr hm
  obtain ⟨h0, h1, _⟩ := Find_valid hne
  obtain ⟨a, m, _, hgm, hcase⟩ := GetInventorySlot_of_mem h.1 hm
  have hrec : (GetInventorySlot c s).Amount = m := by
    rcases hcase with ⟨_, hr⟩ | ⟨_, _, _, _, _, hr⟩ <;> rw [hr]
  refine ⟨hm, get_Find hne, ?_, ?_, hlt⟩
  · rw [IsValidIndex_iff, h.1.amounts]; exact ⟨h0, h1⟩
  · rw [hrec]; exact (get_eq_ok_iff.mp hgm).2

namespace AddItemInternal

theorem Outcome.after_progress {S : Int} {bRevert : Bool} {Temp : UItemContainerComponent}
    {x x1 x' : AddItemLocals} (h1 : Progress S x x1) (h2 : Outcome S bRevert Temp x1 x') :
    Outcome S bRevert Temp x x' := by
  rcases h2 with ⟨hr, hrev⟩ | ⟨hp, hfin⟩
  · exact Or.inl ⟨hr, ⟨hrev.changed, hrev.indices, hrev.assets, hrev.amounts, hrev.statsIndices,
      hrev.stats, hrev.flag.trans h1.flag, hrev.stack.trans h1.stack, hrev.size.trans h1.size⟩⟩
  · exact Or.inr ⟨h1.trans hp, hfin⟩

/-- Topping up the stack at an open slot is progress. -/
theorem Progress.topUp {S : Int} {x : AddItemLocals} (h : Consistent x.c) {Index : Int}
    {old : Int} (hold : x.c.InventoryAmounts[Index.toNat]? = some old) (hlt : old < S)
    (Slot new rest : Int) (hacc : new + rest = old + x.Amount) :
    Progress S x
      { c := { x.c with InventoryAmounts := x.c.InventoryAmounts.set Index.toNat new },
        Amount := rest, ChangedSlots := (TArray.Add x.ChangedSlots Slot).1 } := by
  refine ⟨h.withAmountAt Index new, rfl, rfl, rfl, List.prefix_append _ _, List.prefix_refl _,
    ?_, ?_⟩
  · intro i a hi hS
    have hne : Index.toNat ≠ i := by
      intro hc
      rw [hc, hi] at hold
      simp only [Option.some.injEq] at hold
      omega
    simp only [List.getElem?_set_ne hne]
    exact hi
  simp only [sum_set_of_getElem? hold new]
  omega

/-- `AddNewItem` in a consistent container with enough fuel: the outcome is a revert or
progress, and with `bRevertWhenFull` progress means that everything was placed. -/
theorem AddNewItem_spec (w : World) {S N : Int} (hS : 1 ≤ S) (asset : FPrimaryAssetId)
    (stats : FItemProperties) (bCanStack T bRevert : Bool) (Temp : UItemContainerComponent) :
    ∀ (fuel : Nat) (x : AddItemLocals), Consistent x.c → openStackCount S x.c < fuel →
      ∃ x' b, AddNewItem w S N asset stats bCanStack T bRevert Temp fuel x = .ok (x', b)
        ∧ Outcome S bRevert Temp x x'
  | 0, x, _, hfuel => by omega
  | fuel + 1, x, h, hfuel => by
    rw [AddNewItem]
    by_cases hc : bCanStack = true ∧ T = true
    · obtain ⟨hb1, hT1⟩ := hc
      subst hb1
      subst hT1
      simp only [and_self, if_true]
      rcases FindItemStack_cases w h S N asset stats with hfail | ⟨s, hs, ho, hfound⟩
      · rw [hfail]
        simp only [Bool.false_eq_true, false_and, if_false]
        exact placeInFreeSlots_spec hS asset stats true bRevert Temp x h
      · rw [hfound]
        obtain ⟨_, hgs, hvalid, hold, hlt⟩ := IsOpenStack.position h ho
        by_cases hpos : (GetInventorySlot x.c s).Amount > 0
        · simp only [hpos, and_self, if_true, hgs, set_of_valid _ hvalid]
          by_cases hfit : (GetInventorySlot x.c s).Amount + x.Amount ≤ S
          · simp only [hfit, if_true]
            refine ⟨_, true, rfl, Or.inr ⟨Progress.topUp h hold hlt s _ 0 (by omega), fun _ => ?_⟩⟩
            exact ⟨by simp [TArray.Add], le_refl _⟩
          · simp only [hfit, if_false]
            have hstep := Progress.topUp h hold hlt s S
              ((GetInventorySlot x.c s).Amount + x.Amount - S) (by omega)
            have hgt : (GetInventorySlot x.c s).Amount + x.Amount - S > 0 := by omega
            simp only [hgt, if_true]
            have hcount : openStackCount S
                { x.c with InventoryAmounts :=
                    x.c.InventoryAmounts.set (Find x.c.InventoryIndices s).toNat S } < fuel := by
              have := filter_length_set_lt hold hlt S (lt_irrefl S)
              simp only [openStackCount] at hfuel ⊢
              omega
            obtain ⟨x', b, heq, hout⟩ := AddNewItem_spec w hS asset stats true true bRevert Temp
              fuel _ hstep.consistent hcount
            exact ⟨x', b, heq, Outcome.after_progress hstep hout⟩
        · simp only [hpos, and_false, if_false]
          exact placeInFreeSlots_spec hS asset stats true bRevert Temp x h
    · simp only [hc, if_false]
      exact placeInFreeSlots_spec hS asset stats T bRevert Temp x h

end AddItemInternal
end UItemContainerComponent

namespace UItemContainerComponent
open TArray

theorem eq_of_fields {a b : UItemContainerComponent}
    (h1 : a.InventoryIndices = b.InventoryIndices) (h2 : a.InventoryAssets = b.InventoryAssets)
    (h3 : a.InventoryAmounts = b.InventoryAmounts)
    (h4 : a.InventoryDynamicStatsIndices = b.InventoryDynamicStatsIndices)
    (h5 : a.InventoryDynamicStats = b.InventoryDynamicStats)
    (h6 : a.bIsProcessing = b.bIsProcessing) (h7 : a.MaxStackSize = b.MaxStackSize)
    (h8 : a.InventorySize = b.InventorySize) : a = b := by
  cases a; cases b; simp_all

theorem openStackCount_le (S : Int) (c : UItemContainerComponent) :
    openStackCount S c ≤ c.InventoryAmounts.length :=
  List.length_filter_le _ _

/-- `AddItemInternal` on a consistent container returns; it either leaves everything as
it was or behaves as described by `Outcome`. -/
theorem AddItemInternal_spec (w : World) {c : UItemContainerComponent} (h : Consistent c)
    {S : Int} (hS : 1 ≤ S) (N : Int) (asset : FPrimaryAssetId) (stats : FItemProperties)
    (n : Int) (bCanStack bRevert : Bool) :
    ∃ x', AddItemInternal w c S N asset stats n bCanStack bRevert = .ok x'
      ∧ (x' = { c := c, Amount := n, ChangedSlots := [] }
          ∨ AddItemInternal.Outcome S bRevert c { c := c, Amount := n, ChangedSlots := [] } x') := by
  unfold AddItemInternal
  by_cases h1 : n ≤ 0 ∨ ¬ asset.IsValid = true ∨ asset = FPrimaryAssetId.None
  · exact ⟨_, by rw [if_pos h1], Or.inl rfl⟩
  · rw [if_neg h1]
    by_cases h2 : ¬ w.ManagerIsValid = true
    · exact ⟨_, by rw [if_pos h2], Or.inl rfl⟩
    · rw [if_neg h2]
      cases hd : w.GetPrimaryAssetData asset with
      | none => exact ⟨_, rfl, Or.inl rfl⟩
      | some d =>
        obtain ⟨x', b, heq, hout⟩ := AddItemInternal.AddNewItem_spec w hS (N := N) asset stats
          bCanStack d.bCanStack bRevert c (c.InventoryAmounts.length + 1)
          { c := c, Amount := n, ChangedSlots := [] } h
          (Nat.lt_succ_of_le (openStackCount_le S c))
        exact ⟨x', by simp only [heq], Or.inr hout⟩

end UItemContainerComponent

namespace UItemContainerComponent
open TArray

/-- The record of an occupied slot of a consistent container, read off the arrays. -/
theorem GetInventorySlot_eq {c : UItemContainerComponent} (h : Consistent c) {t : Int}
    (ht : t ∈ c.InventoryIndices) :
    GetInventorySlot c t
      = ⟨t, c.InventoryAssets.getD (c.InventoryIndices.indexOf t) FPrimaryAssetId.None,
         if t ∈ c.InventoryDynamicStatsIndices then
           c.InventoryDynamicStats.getD (c.InventoryDynamicStatsIndices.indexOf t)
             FItemProperties.empty
         else FItemProperties.empty,
         c.InventoryAmounts.getD (c.InventoryIndices.indexOf t) 0⟩ := by
  obtain ⟨a, m, hga, hgm, hcase⟩ := GetInventorySlot_of_mem h.1 ht
  have ha := getD_of_get (d := FPrimaryAssetId.None) hga
  have hm := getD_of_get (d := (0 : Int)) hgm
  rw [Find_of_mem ht, Int.toNat_ofNat] at ha hm
  rcases hcase with ⟨hst, hrec⟩ | ⟨bag, hst, _, hgb, _, hrec⟩
  · have hnot : t ∉ c.InventoryDynamicStatsIndices := (Find_eq_none_iff _ _).mp hst
    rw [hrec, ha, hm, if_neg hnot]
  · have hin : t ∈ c.InventoryDynamicStatsIndices := (Find_valid hst).2.2
    have hb := getD_of_get (d := FItemProperties.empty) hgb
    rw [Find_of_mem hin, Int.toNat_ofNat] at hb
    rw [hrec, ha, hm, if_pos hin, hb]

/-- The record read for a slot number that is not occupied is blank. -/
theorem GetInventorySlot_of_not_mem {c : UItemContainerComponent} {t : Int}
    (ht : t ∉ c.InventoryIndices) :
    GetInventorySlot c t = ⟨INDEX_NONE, FPrimaryAssetId.None, FItemProperties.empty, 0⟩ := by
  simp [GetInventorySlot, Find_of_not_mem ht]

theorem getD_append_of_lt {α : Type} (l l2 : List α) {i : Nat} (hi : i < l.length) (d : α) :
    (l ++ l2).getD i d = l.getD i d := by
  simp [List.getD, List.getElem?_append_left hi]

/-- Appending a record for a free slot does not change what the occupied slots hold. -/
theorem GetInventorySlot_withRecord_of_mem {c : UItemContainerComponent} (h : Consistent c)
    {f : Int} (hf : f ∉ c.InventoryIndices) (asset : FPrimaryAssetId) (stats : FItemProperties)
    (v : Int) {t : Int} (ht : t ∈ c.InventoryIndices) :
    GetInventorySlot (withRecord c f asset stats v) t = GetInventorySlot c t := by
  have ht' : t ∈ (withRecord c f asset stats v).InventoryIndices :=
    List.mem_append_left _ ht
  rw [GetInventorySlot_eq (h.withRecord asset stats v) ht', GetInventorySlot_eq h ht]
  have hi : c.InventoryIndices.indexOf t < c.InventoryIndices.length :=
    List.indexOf_lt_length.mpr ht
  have hidx : (c.InventoryIndices ++ [f]).indexOf t = c.InventoryIndices.indexOf t :=
    List.indexOf_append_of_mem ht
  have htf : t ≠ f := fun hc => hf (hc ▸ ht)
  simp only [UItemContainerComponent.withRecord, hidx]
  rw [getD_append_of_lt _ _ (by rw [h.1.assets]; exact hi),
    getD_append_of_lt _ _ (by rw [h.1.amounts]; exact hi)]
  congr 1
  by_cases he : stats.ItemProperties.isEmpty = true
  · simp only [he, if_true]
  · simp only [he, Bool.false_eq_true, if_false]
    by_cases hts : t ∈ c.InventoryDynamicStatsIndices
    · have hj : c.InventoryDynamicStatsIndices.indexOf t < c.InventoryDynamicStatsIndices.length :=
        List.indexOf_lt_length.mpr hts
      rw [if_pos hts, if_pos (List.mem_append_left _ hts), List.indexOf_append_of_mem hts,
        getD_append_of_lt _ _ (by rw [h.1.stats]; exact hj)]
    · have hnot : t ∉ c.InventoryDynamicStatsIndices ++ [f] := by
        simp [hts, htf]
      rw [if_neg hts, if_neg hnot]

/-- The record of the slot that was appended. -/
theorem GetInventorySlot_withRecord_self {c : UItemContainerComponent} (h : Consistent c)
    {f : Int} (hf : f ∉ c.InventoryIndices) (asset : FPrimaryAssetId) (stats : FItemProperties)
    (v : Int) :
    GetInventorySlot (withRecord c f asset stats v) f = ⟨f, asset, stats, v⟩ := by
  have hf' : f ∈ (withRecord c f asset stats v).InventoryIndices := by
    simp [UItemContainerComponent.withRecord]
  have hfs : f ∉ c.InventoryDynamicStatsIndices := fun hc => hf (h.1.owned f hc)
  rw [GetInventorySlot_eq (h.withRecord asset stats v) hf']
  have hidx : (c.InventoryIndices ++ [f]).indexOf f = c.InventoryIndices.length := by
    rw [List.indexOf_append_of_not_mem hf]; simp
  simp only [UItemContainerComponent.withRecord, hidx]
  have e1 : (c.InventoryAssets ++ [asset]).getD c.InventoryIndices.length FPrimaryAssetId.None
      = asset := by
    rw [← h.1.assets]; simp [List.getD]
  have e2 : (c.InventoryAmounts ++ [v]).getD c.InventoryIndices.length 0 = v := by
    rw [← h.1.amounts]; simp [List.getD]
  rw [e1, e2]
  congr 1
  obtain ⟨props⟩ := stats
  cases props with
  | nil => simp [hfs, FItemProperties.empty]
  | cons p ps =>
    have hidx2 : (c.InventoryDynamicStatsIndices ++ [f]).indexOf f
        = c.InventoryDynamicStatsIndices.length := by
      rw [List.indexOf_append_of_not_mem hfs]; simp
    simp only [List.isEmpty_cons, Bool.false_eq_true, if_false, List.mem_append,
      List.mem_singleton, or_true, if_true, hidx2]
    rw [← h.1.stats]; simp [List.getD]

/-- Replacing the amount at the position of slot `s` changes only that record's amount. -/
theorem GetInventorySlot_withAmountAt {c : UItemContainerComponent} (h : Consistent c)
    {s : Int} (hs : s ∈ c.InventoryIndices) (v : Int) (t : Int) :
    GetInventorySlot
        { c with InventoryAmounts := c.InventoryAmounts.set (Find c.InventoryIndices s).toNat v } t
      = if t = s then { GetInventorySlot c s with Amount := v } else GetInventorySlot c t := by
  have hcons := h.withAmountAt (Find c.InventoryIndices s) v
  simp only [UItemContainerComponent.withAmountAt] at hcons
  by_cases ht : t ∈ c.InventoryIndices
  · rw [GetInventorySlot_eq hcons ht]
    simp only [Find_of_mem hs, Int.toNat_ofNat]
    have hsi : c.InventoryIndices.indexOf s < c.InventoryAmounts.length := by
      rw [h.1.amounts]; exact List.indexOf_lt_length.mpr hs
    by_cases hts : t = s
    · subst hts
      rw [if_pos rfl, GetInventorySlot_eq h ht]
      simp [List.getD, List.getElem?_set_self hsi]
    · rw [if_neg hts, GetInventorySlot_eq h ht]
      have hne : c.InventoryIndices.indexOf s ≠ c.InventoryIndices.indexOf t := by
        intro hc
        apply hts
        have h1 := List.indexOf_get (List.indexOf_lt_length.mpr hs)
        have h2 := List.indexOf_get (List.indexOf_lt_length.mpr ht)
        rw [← h1, ← h2]
        congr 1
        exact Fin.ext hc.symm
      simp [List.getD, List.getElem?_set_ne hne]
  · have hts : t ≠ s := fun hc => ht (hc ▸ hs)
    rw [if_neg hts, GetInventorySlot_of_not_mem ht]
    exact GetInventorySlot_of_not_mem ht

end UItemContainerComponent
namespace UItemContainerComponent
open TArray

/-- A container with unique slot numbers in `1..N` and a free slot holds fewer than `N`
records. -/
theorem Num_lt_of_free {c : UItemContainerComponent} {N : Int}
    (hu : c.InventoryIndices.Nodup) (hr : ∀ slot ∈ c.InventoryIndices, 1 ≤ slot ∧ slot ≤ N)
    {f : Int} (hf : IsFreeSlot c N f) : Num c.InventoryIndices < N := by
  obtain ⟨hf1, hfN, hfree⟩ := hf
  have hfU : f ∈ (List.range N.toNat).map (fun (k : Nat) => (k : Int) + 1) := by
    rw [List.mem_map]
    exact ⟨(f - 1).toNat, List.mem_range.mpr (by omega), by omega⟩
  have hsub : c.InventoryIndices ⊆ ((List.range N.toNat).map (fun (k : Nat) => (k : Int) + 1)).erase f := by
    intro slot hslot
    have hne : slot ≠ f := fun hc => hfree (hc ▸ hslot)
    rw [List.mem_erase_of_ne hne, List.mem_map]
    obtain ⟨h1, h2⟩ := hr slot hslot
    exact ⟨(slot - 1).toNat, List.mem_range.mpr (by omega), by omega⟩
  have hlen := (List.subperm_of_subset hu hsub).length_le
  rw [List.length_erase_of_mem hfU] at hlen
  simp only [List.length_map, List.length_range] at hlen
  unfold TArray.Num
  omega

/-- In a container with unique slot numbers in `1..N`, `FindNextEmptySlot` returns the
lowest free slot whenever there is one. -/
theorem FindNextEmptySlot_of_free {c : UItemContainerComponent} {N : Int}
    (hu : c.InventoryIndices.Nodup) (hr : ∀ slot ∈ c.InventoryIndices, 1 ≤ slot ∧ slot ≤ N)
    {f : Int} (hf : IsFreeSlot c N f) (hmin : ∀ g, IsFreeSlot c N g → f ≤ g) :
    FindNextEmptySlot c N [] = (f, true) := by
  rw [FindNextEmptySlot_eq_true_iff]
  refine ⟨Or.inl rfl, Num_lt_of_free hu hr hf, hf.1, hf.2.1, hf.2.2, List.not_mem_nil _, ?_⟩
  intro J hJ1 hJf
  left
  by_contra hc
  have := hmin J ⟨hJ1, by have := hf.2.1; omega, hc⟩
  omega

end UItemContainerComponent
namespace UItemContainerComponent
open TArray

end UItemContainerComponent
namespace UItemContainerComponent
open TArray

end UItemContainerComponent
namespace UItemContainerComponent
open TArray

theorem IsOpenStack_flag (c : UItemContainerComponent) (b : Bool) (S : Int)
    (asset : FPrimaryAssetId) (stats : FItemProperties) (t : Int) :
    IsOpenStack { c with bIsProcessing := b } S asset stats t = IsOpenStack c S asset stats t := rfl

theorem WellFormed.consistent_busy {w : World} {c : UItemContainerComponent} {S N : Int}
    (hwf : WellFormed w c S N) (b : Bool) : Consistent { c with bIsProcessing := b } :=
  ⟨⟨hwf.synced.assets, hwf.synced.amounts, hwf.synced.stats, hwf.synced.owned⟩, hwf.bagsNonEmpty⟩

end UItemContainerComponent

namespace UItemContainerComponent
open TArray

theorem eraseIdx_indexOf (s : Int) : ∀ l : List Int, l.eraseIdx (l.indexOf s) = l.erase s
  | [] => rfl
  | x :: xs => by
    by_cases hx : x = s
    · subst hx; simp
    · rw [List.indexOf_cons_ne _ hx, List.eraseIdx_cons_succ, eraseIdx_indexOf s xs]
      simp [List.erase_cons, hx]

theorem getD_eraseIdx_indexOf {α : Type} {s t : Int} (hts : t ≠ s) (d : α) :
    ∀ (l : List Int) (as : List α), t ∈ l →
      (as.eraseIdx (l.indexOf s)).getD ((l.eraseIdx (l.indexOf s)).indexOf t) d
        = as.getD (l.indexOf t) d
  | [], _, ht => by simp at ht
  | x :: xs, as, ht => by
    by_cases hx : x = s
    · subst hx
      have hxt : x ≠ t := fun h => hts h.symm
      rw [List.indexOf_cons_self, List.eraseIdx_cons_zero, List.indexOf_cons_ne _ hxt]
      cases as with
      | nil => simp
      | cons a as => simp
    · rw [List.indexOf_cons_ne _ hx, List.eraseIdx_cons_succ]
      cases as with
      | nil => simp
      | cons a as =>
        rw [List.eraseIdx_cons_succ]
        by_cases hxt : x = t
        · subst hxt; simp
        · have ht' : t ∈ xs := by
            rcases List.mem_cons.mp ht with h | h
            · exact absurd h.symm hxt
            · exact h
          rw [List.indexOf_cons_ne _ hxt, List.indexOf_cons_ne _ hxt]
          simp only [List.getD_cons_succ]
          exact getD_eraseIdx_indexOf hts d xs as ht'

theorem mem_eraseIdx_indexOf {l : List Int} (hnd : l.Nodup) {s t : Int} :
    t ∈ l.eraseIdx (l.indexOf s) ↔ t ≠ s ∧ t ∈ l := by
  rw [eraseIdx_indexOf]; exact hnd.mem_erase_iff

theorem Consistent.withoutRecord {c : UItemContainerComponent} (h : Consistent c)
    (hu : c.InventoryIndices.Nodup) (hsu : c.InventoryDynamicStatsIndices.Nodup) (s : Int) :
    Consistent (withoutRecord c s) := by
  obtain ⟨⟨h1, h2, h3, h4⟩, h5⟩ := h
  refine ⟨⟨?_, ?_, ?_, ?_⟩, ?_⟩
  · simp only [UItemContainerComponent.withoutRecord, List.length_eraseIdx, h1]
  · simp only [UItemContainerComponent.withoutRecord, List.length_eraseIdx, h2]
  · simp only [UItemContainerComponent.withoutRecord, List.length_eraseIdx, h3]
  · intro slot hslot
    simp only [UItemContainerComponent.withoutRecord] at hslot ⊢
    rw [mem_eraseIdx_indexOf hsu] at hslot
    rw [mem_eraseIdx_indexOf hu]
    exact ⟨hslot.1, h4 slot hslot.2⟩
  · intro bag hbag
    simp only [UItemContainerComponent.withoutRecord] at hbag
    exact h5 bag (List.mem_of_mem_eraseIdx hbag)

/-- Taking out the record of slot `s` blanks that slot and leaves every other record as it
was. -/
theorem GetInventorySlot_withoutRecord {c : UItemContainerComponent} (h : Consistent c)
    (hu : c.InventoryIndices.Nodup) (hsu : c.InventoryDynamicStatsIndices.Nodup) (s t : Int) :
    GetInventorySlot (withoutRecord c s) t
      = if t = s then blankSlot else GetInventorySlot c t := by
  have hcons := h.withoutRecord hu hsu s
  by_cases hts : t = s
  · subst hts
    rw [if_pos rfl]
    apply GetInventorySlot_of_not_mem
    simp only [UItemContainerComponent.withoutRecord]
    rw [mem_eraseIdx_indexOf hu]
    exact fun hc => hc.1 rfl
  · rw [if_neg hts]
    by_cases ht : t ∈ c.InventoryIndices
    · have ht' : t ∈ (withoutRecord c s).InventoryIndices := by
        simp only [UItemContainerComponent.withoutRecord]
        rw [mem_eraseIdx_indexOf hu]; exact ⟨hts, ht⟩
      rw [GetInventorySlot_eq hcons ht', GetInventorySlot_eq h ht]
      simp only [UItemContainerComponent.withoutRecord]
      rw [getD_eraseIdx_indexOf hts _ _ _ ht, getD_eraseIdx_indexOf hts _ _ _ ht]
      by_cases hb : t ∈ c.InventoryDynamicStatsIndices
      · have hb' : t ∈ c.InventoryDynamicStatsIndices.eraseIdx
            (c.InventoryDynamicStatsIndices.indexOf s) := by
          rw [mem_eraseIdx_indexOf hsu]; exact ⟨hts, hb⟩
        rw [if_pos hb', if_pos hb, getD_eraseIdx_indexOf hts _ _ _ hb]
      · have hb' : t ∉ c.InventoryDynamicStatsIndices.eraseIdx
            (c.InventoryDynamicStatsIndices.indexOf s) := by
          rw [mem_eraseIdx_indexOf hsu]; exact fun hc => hb hc.2
        rw [if_neg hb', if_neg hb]
    · have ht' : t ∉ (withoutRecord c s).InventoryIndices := by
        simp only [UItemContainerComponent.withoutRecord]
        rw [mem_eraseIdx_indexOf hu]; exact fun hc => ht hc.2
      rw [GetInventorySlot_of_not_mem ht', GetInventorySlot_of_not_mem ht]

end UItemContainerComponent

namespace UItemContainerComponent
open TArray

theorem RemoveAt_of_valid {α : Type} {l : List α} {i : Int} (h : IsValidIndex l i = true) :
    RemoveAt l i = .ok (l.eraseIdx i.toNat) := by
  simp [RemoveAt, h]

theorem Remove_eq_eraseIdx {l : List Int} (hnd : l.Nodup) (s : Int) :
    Remove l s = l.eraseIdx (l.indexOf s) := by
  rw [eraseIdx_indexOf, hnd.erase_eq_filter]
  simp only [Remove]
  congr 1
  funext y
  by_cases hy : y = s <;> simp [hy, bne]

theorem GetStackSizeConfig_flag (w : World) (c : UItemContainerComponent) (b : Bool) :
    GetStackSizeConfig w { c with bIsProcessing := b } = GetStackSizeConfig w c := rfl

theorem GetInventorySizeConfig_flag (w : World) (c : UItemContainerComponent) (b : Bool) :
    GetInventorySizeConfig w { c with bIsProcessing := b } = GetInventorySizeConfig w c := rfl

/-- `RemoveAmountFromSlot` on an occupied slot of a consistent, idle container, for an
amount between 1 and the stored amount that does not exceed the stack limit. -/
theorem RemoveAmountFromSlot_of_mem (w : World) {c : UItemContainerComponent} (h : Consistent c)
    (hu : c.InventoryIndices.Nodup) (hidle : c.bIsProcessing = false) {s k : Int}
    (hs : s ∈ c.InventoryIndices) (hk : 0 < k) (hka : k ≤ (GetInventorySlot c s).Amount)
    (hkS : k ≤ GetStackSizeConfig w c) :
    RemoveAmountFromSlot w c s k
      = .ok (if k = (GetInventorySlot c s).Amount then withoutRecord c s
             else withAmountAt c (Find c.InventoryIndices s) ((GetInventorySlot c s).Amount - k),
            [.RemoveAmountFromSlotSuccess true (GetInventorySlot c s) k,
             .ChangedInventorySlots [s]]) := by
  obtain ⟨asset, amount, hga, hgm, hcase⟩ := GetInventorySlot_of_mem h.1 hs
  have hne : Find c.InventoryIndices s ≠ INDEX_NONE := by
    rw [Ne, Find_eq_none_iff]; exact not_not.mpr hs
  obtain ⟨h0, h1, _⟩ := Find_valid hne
  have hvA : IsValidIndex c.InventoryAssets (Find c.InventoryIndices s) = true := by
    rw [IsValidIndex_iff, h.1.assets]; exact ⟨h0, h1⟩
  have hvM : IsValidIndex c.InventoryAmounts (Find c.InventoryIndices s) = true := by
    rw [IsValidIndex_iff, h.1.amounts]; exact ⟨h0, h1⟩
  have hFi : (Find c.InventoryIndices s).toNat = c.InventoryIndices.indexOf s := by
    rw [Find_of_mem hs, Int.toNat_ofNat]
  have hk0 : ¬ k ≤ 0 := by omega
  have hkS' : ¬ k > GetStackSizeConfig w c := by omega
  rcases hcase with ⟨hst, hrec⟩ | ⟨bag, hst, hvS, hgb, _, hrec⟩
  · have hnot : s ∉ c.InventoryDynamicStatsIndices := (Find_eq_none_iff _ _).mp hst
    rw [hrec] at hka ⊢
    simp only at hka
    have hlt : ¬ amount - k < 0 := by omega
    unfold RemoveAmountFromSlot
    simp only [hidle, Bool.false_eq_true, if_false, GetStackSizeConfig_flag, hkS', hk0, hne, hvA,
      hvM, not_true_eq_false, or_self, hgm, hga, bind, Except.bind, hlt, hst, ne_eq,
      false_and, pure, Except.pure]
    by_cases hkeq : k = amount
    · subst hkeq
      simp only [sub_self, if_true, RemoveAt_of_valid hvM, RemoveAt_of_valid hvA,
        Remove_eq_eraseIdx hu]
      congr 1
      refine congrArg (fun x => (x, _)) ?_
      apply eq_of_fields <;> simp [UItemContainerComponent.withoutRecord, hFi, hidle,
        List.eraseIdx_of_length_le, List.indexOf_eq_length.mpr hnot, h.1.stats]
    · have hz : ¬ amount - k = 0 := by omega
      simp only [hz, if_false, hkeq, set_of_valid _ hvM]
      congr 1
      refine congrArg (fun x => (x, _)) ?_
      apply eq_of_fields <;> simp [UItemContainerComponent.withAmountAt, hidle]
  · have hin : s ∈ c.InventoryDynamicStatsIndices := (Find_valid hst).2.2
    obtain ⟨g0, g1, _⟩ := Find_valid hst
    have hvSI : IsValidIndex c.InventoryDynamicStatsIndices
        (Find c.InventoryDynamicStatsIndices s) = true := by
      rw [IsValidIndex_iff]; exact ⟨g0, g1⟩
    have hFs : (Find c.InventoryDynamicStatsIndices s).toNat
        = c.InventoryDynamicStatsIndices.indexOf s := by
      rw [Find_of_mem hin, Int.toNat_ofNat]
    rw [hrec] at hka ⊢
    simp only at hka
    have hlt : ¬ amount - k < 0 := by omega
    unfold RemoveAmountFromSlot
    simp only [hidle, Bool.false_eq_true, if_false, GetStackSizeConfig_flag, hkS', hk0, hne, hvA,
      hvM, not_true_eq_false, or_self, hgm, hga, bind, Except.bind, hlt, hst, ne_eq, hvS,
      not_false_eq_true, and_false, and_true, if_true, hgb, pure, Except.pure]
    by_cases hkeq : k = amount
    · subst hkeq
      simp only [sub_self, if_true, RemoveAt_of_valid hvM, RemoveAt_of_valid hvA,
        RemoveAt_of_valid hvS, RemoveAt_of_valid hvSI, Remove_eq_eraseIdx hu]
      congr 1
      refine congrArg (fun x => (x, _)) ?_
      apply eq_of_fields <;> simp [UItemContainerComponent.withoutRecord, hFi, hFs, hidle]
    · have hz : ¬ amount - k = 0 := by omega
      simp only [hz, if_false, hkeq, set_of_valid _ hvM]
      congr 1
      refine congrArg (fun x => (x, _)) ?_
      apply eq_of_fields <;> simp [UItemContainerComponent.withAmountAt, hidle]

end UItemContainerComponent

namespace UItemContainerComponent
open TArray

theorem effectiveStackLimit_le (w : World) {S : Int} (hS : 1 ≤ S) (a : FPrimaryAssetId) :
    effectiveStackLimit w S a ≤ S := by
  unfold effectiveStackLimit
  split
  · split
    · exact le_refl _
    · exact hS
  · exact le_refl _

theorem flag_restore {c : UItemContainerComponent} (hidle : c.bIsProcessing = false) :
    ({ c with bIsProcessing := false } : UItemContainerComponent) = c := by
  cases c; simp_all

/-- `RemoveAmountFromSlot` fails and changes nothing for an empty slot, an amount that is
not positive or an amount above the stored one. -/
theorem RemoveAmountFromSlot_fails (w : World) {c : UItemContainerComponent} (h : Consistent c)
    (hidle : c.bIsProcessing = false) {s k : Int}
    (hbad : s ∉ c.InventoryIndices ∨ k ≤ 0 ∨ (GetInventorySlot c s).Amount < k) :
    RemoveAmountFromSlot w c s k
      = .ok (c, [.RemoveAmountFromSlotSuccess false
                  ⟨s, FPrimaryAssetId.None, FItemProperties.empty, -1⟩ k]) := by
  by_cases hfirst : k > GetStackSizeConfig w c ∨ k ≤ 0 ∨ Find c.InventoryIndices s = INDEX_NONE
      ∨ ¬ IsValidIndex c.InventoryAmounts (Find c.InventoryIndices s) = true
      ∨ ¬ IsValidIndex c.InventoryAssets (Find c.InventoryIndices s) = true
  · unfold RemoveAmountFromSlot
    simp only [hidle, Bool.false_eq_true, if_false, GetStackSizeConfig_flag, hfirst, if_true,
      flag_restore hidle]
  · have hs : s ∈ c.InventoryIndices := by
      by_contra hc
      exact hfirst (Or.inr (Or.inr (Or.inl (Find_of_not_mem hc))))
    have hk : ¬ k ≤ 0 := fun hc => hfirst (Or.inr (Or.inl hc))
    have hlt : (GetInventorySlot c s).Amount < k := by
      rcases hbad with hb | hb | hb
      · exact absurd hs hb
      · exact absurd hb hk
      · exact hb
    obtain ⟨asset, amount, hga, hgm, hcase⟩ := GetInventorySlot_of_mem h.1 hs
    have hamt : (GetInventorySlot c s).Amount = amount := by
      rcases hcase with ⟨_, hrec⟩ | ⟨bag, _, _, _, _, hrec⟩ <;> rw [hrec]
    rw [hamt] at hlt
    have hneg : amount - k < 0 := by omega
    unfold RemoveAmountFromSlot
    simp only [hidle, Bool.false_eq_true, if_false, GetStackSizeConfig_flag, hfirst, hgm, bind,
      Except.bind, hneg, if_true, pure, Except.pure, flag_restore hidle]

end UItemContainerComponent

namespace TArray

variable {α : Type}

theorem Find_append_self [DecidableEq α] {l : List α} {x : α} (h : x ∉ l) :
    Find (l ++ [x]) x = (l.length : Int) := by
  rw [Find_of_mem (by simp), List.indexOf_append_of_not_mem h]
  simp

theorem Find_append_of_mem [DecidableEq α] {l : List α} {x : α} (h : x ∈ l) (y : α) :
    Find (l ++ [y]) x = Find l x := by
  rw [Find_of_mem (List.mem_append_left _ h), Find_of_mem h, List.indexOf_append_of_mem h]

theorem IsValidIndex_append_length (l : List α) (x : α) :
    IsValidIndex (l ++ [x]) (l.length : Int) = true := by
  rw [IsValidIndex_iff]; simp

theorem IsValidIndex_append_of_valid {l : List α} {i : Int} (h : IsValidIndex l i = true)
    (x : α) : IsValidIndex (l ++ [x]) i = true := by
  rw [IsValidIndex_iff] at h ⊢
  simp only [List.length_append, List.length_singleton, Nat.cast_add, Nat.cast_one]
  omega

theorem IsValidIndex_none (l : List α) : IsValidIndex l INDEX_NONE = false := by
  simp [IsValidIndex, INDEX_NONE]

theorem IsValidIndex_set (l : List α) (j : Nat) (v : α) (i : Int) :
    IsValidIndex (l.set j v) i = IsValidIndex l i := by
  simp [IsValidIndex]

theorem get_append_length (l : List α) (x : α) : get (l ++ [x]) (l.length : Int) = .ok x := by
  rw [get_eq_ok_iff]; simp

theorem get_append_of_ok {l : List α} {i : Int} {a : α} (h : get l i = .ok a) (x : α) :
    get (l ++ [x]) i = .ok a := by
  rw [get_eq_ok_iff] at h ⊢
  refine ⟨h.1, ?_⟩
  have hlt : i.toNat < l.length := by
    by_contra hc
    rw [List.getElem?_eq_none (by omega)] at h
    exact absurd h.2 (by simp)
  rw [List.getElem?_append_left hlt]; exact h.2

theorem RemoveAt_append_length (l : List α) (x : α) :
    RemoveAt (l ++ [x]) (l.length : Int) = .ok l := by
  rw [RemoveAt, IsValidIndex_append_length]
  simp [List.eraseIdx_append_of_length_le]

end TArray

namespace UItemContainerComponent
open TArray

theorem FindNextEmptySlot_flag (c : UItemContainerComponent) (b : Bool) (N : Int)
    (ign : List Int) :
    FindNextEmptySlot { c with bIsProcessing := b } N ign = FindNextEmptySlot c N ign := rfl

/-- `SplitItemStack` on an occupied slot of a consistent, idle container: `k` units, with
`k ≠ 0`, below the stored amount and within the stack limit, go to the slot that
`FindNextEmptySlot` returns. -/
theorem SplitItemStack_of_mem (w : World) {c : UItemContainerComponent} (h : Consistent c)
    (hidle : c.bIsProcessing = false) {s k t : Int} (hs : s ∈ c.InventoryIndices)
    (hk : k ≠ 0) (hka : k < (GetInventorySlot c s).Amount) (hkS : k ≤ GetStackSizeConfig w c)
    (ht : FindNextEmptySlot c (GetInventorySizeConfig w c) [] = (t, true)) :
    SplitItemStack w c s k
      = .ok (withSplit c s t k,
             [.SplitItemStackSuccess true s t, .ChangedInventorySlots [s, t]]) := by
  obtain ⟨asset, amount, hga, hgm, hcase⟩ := GetInventorySlot_of_mem h.1 hs
  have hne : Find c.InventoryIndices s ≠ INDEX_NONE := by
    rw [Ne, Find_eq_none_iff]; exact not_not.mpr hs
  obtain ⟨h0, h1, _⟩ := Find_valid hne
  have hvA : IsValidIndex c.InventoryAssets (Find c.InventoryIndices s) = true := by
    rw [IsValidIndex_iff, h.1.assets]; exact ⟨h0, h1⟩
  have hvM : IsValidIndex c.InventoryAmounts (Find c.InventoryIndices s) = true := by
    rw [IsValidIndex_iff, h.1.amounts]; exact ⟨h0, h1⟩
  have htfree : t ∉ c.InventoryIndices :=
    ((FindNextEmptySlot_eq_true_iff c _ [] t).mp ht).2.2.2.2.1
  have hkS' : ¬ k > GetStackSizeConfig w c := by omega
  have hgm' := get_append_of_ok hgm k
  have hvM' := IsValidIndex_append_of_valid hvM k
  rcases hcase with ⟨hst, hrec⟩ | ⟨bag, hst, hvS, hgb, hbag, hrec⟩
  · rw [hrec] at hka
    simp only at hka
    have hge : ¬ k ≥ amount := by omega
    unfold SplitItemStack
    simp only [hidle, Bool.false_eq_true, if_false, hne, hk, or_self, hgm, bind, Except.bind,
      hge, hvA, not_true_eq_false, GetStackSizeConfig_flag, GetInventorySizeConfig_flag, hkS',
      FindNextEmptySlot_flag, ht, AddUnique_of_not_mem htfree, hga, TArray.Add, hst, ne_eq,
      false_and, pure, Except.pure, hgm', set_of_valid _ hvM']
    congr 1
    refine congrArg (fun x => (x, _)) ?_
    apply eq_of_fields <;>
      simp [UItemContainerComponent.withSplit, UItemContainerComponent.withAmountAt,
        UItemContainerComponent.withRecord, hrec, FItemProperties.empty, hidle]
  · rw [hrec] at hka
    simp only at hka
    have hge : ¬ k ≥ amount := by omega
    have hbne : bag.ItemProperties ≠ [] := h.2 bag hbag
    have htS : t ∉ c.InventoryDynamicStatsIndices := fun hc => htfree (h.1.owned t hc)
    unfold SplitItemStack
    simp only [hidle, Bool.false_eq_true, if_false, hne, hk, or_self, hgm, bind, Except.bind,
      hge, hvA, not_true_eq_false, GetStackSizeConfig_flag, GetInventorySizeConfig_flag, hkS',
      FindNextEmptySlot_flag, ht, AddUnique_of_not_mem htfree, AddUnique_of_not_mem htS, hga,
      TArray.Add, hst, ne_eq, not_false_eq_true, hvS, and_self, if_true, hgb,
      pure, Except.pure, hgm', set_of_valid _ hvM']
    congr 1
    refine congrArg (fun x => (x, _)) ?_
    apply eq_of_fields <;>
      simp [UItemContainerComponent.withSplit, UItemContainerComponent.withAmountAt,
        UItemContainerComponent.withRecord, hrec, hbne, hidle]

end UItemContainerComponent

namespace UItemContainerComponent
open TArray

theorem set_getElem?_self {α : Type} : ∀ {l : List α} {i : Nat} {a : α}, l[i]? = some a →
    l.set i a = l
  | [], _, _, h => by simp at h
  | x :: xs, 0, a, h => by simp at h; simp [h]
  | x :: xs, i + 1, a, h => by
    simp only [List.getElem?_cons_succ] at h
    simp [set_getElem?_self h]

/-- Swapping the slot `t` created by a split onto the slot `s` it was split from, with
merging allowed, gives back the container as it was before the split. -/
theorem SwapItems_withSplit (w : World) {c : UItemContainerComponent} (h : Consistent c)
    (hidle : c.bIsProcessing = false) (hm : w.ManagerIsValid = true) {s t : Int} (k : Int)
    (hs : s ∈ c.InventoryIndices) (ht : t ∉ c.InventoryIndices) {d : FAssetData}
    (hd : w.GetPrimaryAssetData (GetInventorySlot c s).Asset = some d)
    (hstack : d.bCanStack = true) :
    SwapItems w (withSplit c s t k) t s true false
      = .ok (c, [.SwapItemSuccess true t s false, .ChangedInventorySlots [t, s]]) := by
  obtain ⟨asset, amount, hga, hgm, hcase⟩ := GetInventorySlot_of_mem h.1 hs
  have hne : Find c.InventoryIndices s ≠ INDEX_NONE := by
    rw [Ne, Find_eq_none_iff]; exact not_not.mpr hs
  obtain ⟨h0, h1, _⟩ := Find_valid hne
  have hvA : IsValidIndex c.InventoryAssets (Find c.InventoryIndices s) = true := by
    rw [IsValidIndex_iff, h.1.assets]; exact ⟨h0, h1⟩
  have hvM : IsValidIndex c.InventoryAmounts (Find c.InventoryIndices s) = true := by
    rw [IsValidIndex_iff, h.1.amounts]; exact ⟨h0, h1⟩
  have hFt : Find (c.InventoryIndices ++ [t]) t = (c.InventoryIndices.length : Int) :=
    Find_append_self ht
  have hFs : Find (c.InventoryIndices ++ [t]) s = Find c.InventoryIndices s :=
    Find_append_of_mem hs t
  have hlenNe : (c.InventoryIndices.length : Int) ≠ INDEX_NONE := by
    simp only [INDEX_NONE]; omega
  have hFnat : (Find c.InventoryIndices s).toNat < c.InventoryIndices.length := by omega
  have hgmN : c.InventoryAmounts[(Find c.InventoryIndices s).toNat]? = some amount :=
    (get_eq_ok_iff.mp hgm).2
  -- the amounts array of the split container and what the merge does to it
  have hA1 : TArray.get ((c.InventoryAmounts ++ [k]).set (Find c.InventoryIndices s).toNat
      (amount - k)) (c.InventoryIndices.length : Int) = .ok k := by
    rw [get_eq_ok_iff]
    refine ⟨by omega, ?_⟩
    rw [Int.toNat_ofNat, List.getElem?_set_ne (by omega), ← h.1.amounts]
    simp
  have hA2 : TArray.get ((c.InventoryAmounts ++ [k]).set (Find c.InventoryIndices s).toNat
      (amount - k)) (Find c.InventoryIndices s) = .ok (amount - k) := by
    rw [get_eq_ok_iff]
    refine ⟨h0, ?_⟩
    rw [List.getElem?_set_self
      (by simp only [List.length_append, List.length_singleton, h.1.amounts]; omega)]
  have hA3 : TArray.set ((c.InventoryAmounts ++ [k]).set (Find c.InventoryIndices s).toNat
      (amount - k)) (Find c.InventoryIndices s) (amount - k + k)
      = .ok (c.InventoryAmounts ++ [k]) := by
    rw [set_of_valid _ (by rw [IsValidIndex_set]; exact IsValidIndex_append_of_valid hvM k)]
    congr 1
    rw [List.set_set, sub_add_cancel]
    apply set_getElem?_self
    rw [List.getElem?_append_left (by rw [h.1.amounts]; exact hFnat)]
    exact hgmN
  have hA4 : RemoveAt (c.InventoryAmounts ++ [k]) (c.InventoryIndices.length : Int)
      = .ok c.InventoryAmounts := by
    rw [← h.1.amounts]; exact RemoveAt_append_length _ _
  have hI4 : RemoveAt (c.InventoryIndices ++ [t]) (c.InventoryIndices.length : Int)
      = .ok c.InventoryIndices := RemoveAt_append_length _ _
  have hS1 : TArray.get (c.InventoryAssets ++ [asset]) (c.InventoryIndices.length : Int)
      = .ok asset := by
    rw [← h.1.assets]; exact get_append_length _ _
  have hS2 : TArray.get (c.InventoryAssets ++ [asset]) (Find c.InventoryIndices s) = .ok asset :=
    get_append_of_ok hga asset
  have hS4 : RemoveAt (c.InventoryAssets ++ [asset]) (c.InventoryIndices.length : Int)
      = .ok c.InventoryAssets := by
    rw [← h.1.assets]; exact RemoveAt_append_length _ _
  have hV1 : IsValidIndex (c.InventoryAssets ++ [asset]) (c.InventoryIndices.length : Int)
      = true := by
    rw [← h.1.assets]; exact IsValidIndex_append_length _ _
  have hV2 : IsValidIndex ((c.InventoryAmounts ++ [k]).set (Find c.InventoryIndices s).toNat
      (amount - k)) (c.InventoryIndices.length : Int) = true := by
    rw [IsValidIndex_set, ← h.1.amounts]; exact IsValidIndex_append_length _ _
  have hV3 : IsValidIndex (c.InventoryAssets ++ [asset]) (Find c.InventoryIndices s) = true :=
    IsValidIndex_append_of_valid hvA asset
  have hV4 : IsValidIndex ((c.InventoryAmounts ++ [k]).set (Find c.InventoryIndices s).toNat
      (amount - k)) (Find c.InventoryIndices s) = true := by
    rw [IsValidIndex_set]; exact IsValidIndex_append_of_valid hvM k
  rcases hcase with ⟨hst, hrec⟩ | ⟨bag, hst, hvS, hgb, hbag, hrec⟩
  · rw [hrec] at hd
    simp only at hd
    have hsS : s ∉ c.InventoryDynamicStatsIndices := (Find_eq_none_iff _ _).mp hst
    have htS : t ∉ c.InventoryDynamicStatsIndices := fun hc => ht (h.1.owned t hc)
    have hstT : Find c.InventoryDynamicStatsIndices t = INDEX_NONE := Find_of_not_mem htS
    simp only [UItemContainerComponent.withSplit, UItemContainerComponent.withAmountAt,
      UItemContainerComponent.withRecord, hrec, FItemProperties.empty, List.isEmpty_nil, if_true]
    unfold SwapItems
    simp only [hidle, Bool.false_eq_true, if_false, hFt, hFs, hlenNe, hne, false_and, hm,
      not_true_eq_false, or_self, ne_eq, not_false_eq_true, and_self, if_true, hst, hstT]
    unfold SwapItems.bothInUse
    simp only [hV1, hV2, hV3, hV4, not_true_eq_false, or_self, if_false, bind, Except.bind,
      hS1, hS2, hd, hstack, and_self, if_true, ne_eq, false_and, IsValidIndex_none,
      Bool.false_eq_true, not_false_eq_true, SwapItems.mergeRecords, hA1, hA2, hA3, hA4, hI4,
      hS4, pure, Except.pure]
    congr 1
    refine congrArg (fun x => (x, _)) ?_
    apply eq_of_fields <;> simp [hidle]
  · rw [hrec] at hd
    simp only at hd
    have hbne : bag.ItemProperties ≠ [] := h.2 bag hbag
    have hsS : s ∈ c.InventoryDynamicStatsIndices := (Find_valid hst).2.2
    have htS : t ∉ c.InventoryDynamicStatsIndices := fun hc => ht (h.1.owned t hc)
    have hQt : Find (c.InventoryDynamicStatsIndices ++ [t]) t
        = (c.InventoryDynamicStatsIndices.length : Int) := Find_append_self htS
    have hQs : Find (c.InventoryDynamicStatsIndices ++ [t]) s
        = Find c.InventoryDynamicStatsIndices s := Find_append_of_mem hsS t
    have hQne : (c.InventoryDynamicStatsIndices.length : Int) ≠ INDEX_NONE := by
      simp only [INDEX_NONE]; omega
    have hW1 : IsValidIndex (c.InventoryDynamicStats ++ [bag])
        (c.InventoryDynamicStatsIndices.length : Int) = true := by
      rw [← h.1.stats]; exact IsValidIndex_append_length _ _
    have hW2 : IsValidIndex (c.InventoryDynamicStats ++ [bag])
        (Find c.InventoryDynamicStatsIndices s) = true := IsValidIndex_append_of_valid hvS bag
    have hW3 : RemoveAt (c.InventoryDynamicStats ++ [bag])
        (c.InventoryDynamicStatsIndices.length : Int) = .ok c.InventoryDynamicStats := by
      rw [← h.1.stats]; exact RemoveAt_append_length _ _
    have hW4 : RemoveAt (c.InventoryDynamicStatsIndices ++ [t])
        (c.InventoryDynamicStatsIndices.length : Int) = .ok c.InventoryDynamicStatsIndices :=
      RemoveAt_append_length _ _
    simp only [UItemContainerComponent.withSplit, UItemContainerComponent.withAmountAt,
      UItemContainerComponent.withRecord, hrec, List.isEmpty_eq_true, hbne, if_false]
    unfold SwapItems
    simp only [hidle, Bool.false_eq_true, if_false, hFt, hFs, hlenNe, hne, false_and, hm,
      not_true_eq_false, or_self, ne_eq, not_false_eq_true, and_self, if_true, hQt, hQs]
    unfold SwapItems.bothInUse
    simp only [hV1, hV2, hV3, hV4, not_true_eq_false, or_self, if_false, bind, Except.bind,
      hS1, hS2, hd, hstack, and_self, if_true, ne_eq, hQne, hst, not_false_eq_true, hW1, hW2,
      hW3, hW4, SwapItems.mergeRecords, hA1, hA2, hA3, hA4, hI4, hS4, pure, Except.pure]
    congr 1
    refine congrArg (fun x => (x, _)) ?_
    apply eq_of_fields <;> simp [hidle]

end UItemContainerComponent

namespace UItemContainerComponent
open TArray

theorem effectiveStackLimit_of_stackable {w : World} {S : Int} {a : FPrimaryAssetId}
    {d : FAssetData} (hd : w.GetPrimaryAssetData a = some d) (hstack : d.bCanStack = true) :
    effectiveStackLimit w S a = S := by
  simp [effectiveStackLimit, hd, hstack]

/-- The two records that a split leaves in the slot `s` and in the new slot `t`. -/
theorem GetInventorySlot_withSplit {c : UItemContainerComponent} (h : Consistent c) {s t : Int}
    (k : Int) (hs : s ∈ c.InventoryIndices) (ht : t ∉ c.InventoryIndices) :
    GetInventorySlot (withSplit c s t k) s
        = { GetInventorySlot c s with Amount := (GetInventorySlot c s).Amount - k }
    ∧ GetInventorySlot (withSplit c s t k) t
        = { GetInventorySlot c s with Slot := t, Amount := k } := by
  have hcons : Consistent (withRecord c t (GetInventorySlot c s).Asset
      (GetInventorySlot c s).ItemProperties k) :=
    h.withRecord (GetInventorySlot c s).Asset (GetInventorySlot c s).ItemProperties k
  have hs' : s ∈ (withRecord c t (GetInventorySlot c s).Asset
      (GetInventorySlot c s).ItemProperties k).InventoryIndices := by
    simp [UItemContainerComponent.withRecord, hs]
  have hF : Find (withRecord c t (GetInventorySlot c s).Asset
      (GetInventorySlot c s).ItemProperties k).InventoryIndices s = Find c.InventoryIndices s := by
    simp only [UItemContainerComponent.withRecord]
    exact Find_append_of_mem hs t
  have hts : t ≠ s := fun hc => ht (hc ▸ hs)
  have key := fun u => GetInventorySlot_withAmountAt hcons hs' ((GetInventorySlot c s).Amount - k) u
  rw [hF] at key
  constructor
  · have := key s
    rw [if_pos rfl, GetInventorySlot_withRecord_of_mem h ht _ _ _ hs] at this
    exact this
  · have := key t
    rw [if_neg hts, GetInventorySlot_withRecord_self h ht] at this
    exact this

end UItemContainerComponent

namespace UItemContainerComponent
open TArray

theorem eraseIdx_set_self {α : Type} (v : α) : ∀ (l : List α) (i : Nat),
    (l.set i v).eraseIdx i = l.eraseIdx i
  | [], _ => by simp
  | _ :: _, 0 => by simp
  | x :: xs, i + 1 => by simp [eraseIdx_set_self v xs i]

end UItemContainerComponent

namespace UItemContainerComponent
open TArray

end UItemContainerComponent

section YieldsLemmas

variable {α β : Type}

theorem Yields_ok (P : α → Prop) (a : α) : Yields P (Except.ok a) ↔ P a := Iff.rfl

theorem Yields_pure (P : α → Prop) (a : α) : Yields P (pure a : Except Fault α) ↔ P a := Iff.rfl

theorem Yields_bind (P : β → Prop) (x : Except Fault α) (f : α → Except Fault β) :
    Yields P (x >>= f) ↔ Yields (fun a => Yields P (f a)) x := by
  cases x <;> rfl

theorem Yields_ite (P : α → Prop) (p : Prop) [Decidable p] (x y : Except Fault α) :
    Yields P (if p then x else y) ↔ (p → Yields P x) ∧ (¬ p → Yields P y) := by
  by_cases h : p <;> simp [h]

theorem Yields.mono {P Q : α → Prop} {r : Except Fault α} (h : Yields P r)
    (hPQ : ∀ a, P a → Q a) : Yields Q r := by
  cases r with
  | ok a => exact hPQ a h
  | error e => exact h

theorem Yields_get (P : α → Prop) (l : List α) (i : Int) :
    Yields P (TArray.get l i) ↔ ∀ a, TArray.get l i = .ok a → P a := by
  unfold TArray.get
  split
  · split <;> simp [Yields]
  · simp [Yields]

theorem Yields_set (P : List α → Prop) (l : List α) (i : Int) (v : α) :
    Yields P (TArray.set l i v) ↔ (TArray.IsValidIndex l i = true → P (l.set i.toNat v)) := by
  unfold TArray.set
  split <;> simp_all [Yields]

theorem Yields_RemoveAt (P : List α → Prop) (l : List α) (i : Int) :
    Yields P (TArray.RemoveAt l i)
      ↔ (TArray.IsValidIndex l i = true → P (l.eraseIdx i.toNat)) := by
  unfold TArray.RemoveAt
  split <;> simp_all [Yields]

theorem Yields_Swap (P : List α → Prop) (l : List α) (i j : Int) :
    Yields P (TArray.Swap l i j) ↔ ∀ l', TArray.Swap l i j = .ok l' → P l' := by
  unfold TArray.Swap
  split
  · split <;> simp [Yields]
  · simp [Yields]

theorem Swap_length {l l' : List α} {i j : Int} (h : TArray.Swap l i j = .ok l') :
    l'.length = l.length := by
  unfold TArray.Swap at h
  split at h
  · split at h
    · simp only [Except.ok.injEq] at h
      rw [← h]; simp
    · exact absurd h (by simp)
  · exact absurd h (by simp)

end YieldsLemmas

namespace UItemContainerComponent
open TArray

theorem SlotsUnique_iff (c : UItemContainerComponent) :
    SlotsUnique c ↔ c.InventoryIndices.Nodup
      ∧ c.InventoryAssets.length = c.InventoryIndices.length
      ∧ c.InventoryAmounts.length = c.InventoryIndices.length :=
  ⟨fun h => ⟨h.unique, h.assets, h.amounts⟩, fun h => ⟨h.1, h.2.1, h.2.2⟩⟩

theorem Find_mem_of_nonneg {l : List Int} {s : Int} (h : 0 ≤ Find l s) : s ∈ l := by
  by_contra hc
  rw [Find_of_not_mem hc] at h
  simp [INDEX_NONE] at h

theorem Nodup_Remove {l : List Int} (hu : l.Nodup) (s : Int) : (Remove l s).Nodup :=
  hu.filter _

theorem length_Remove {l : List Int} (hu : l.Nodup) {s : Int} (h : 0 ≤ Find l s) :
    (Remove l s).length + 1 = l.length := by
  have hs := Find_mem_of_nonneg h
  rw [Remove_eq_eraseIdx hu, List.length_eraseIdx, if_pos (List.indexOf_lt_length.mpr hs)]
  have := List.length_pos_of_mem hs
  omega

theorem RemoveAmountFromSlot_unique (w : World) {c : UItemContainerComponent}
    (h : SlotsUnique c) (s k : Int) :
    Yields (fun r => SlotsUnique r.1) (RemoveAmountFromSlot w c s k) := by
  obtain ⟨hu, ha, hm⟩ := h
  have hR := Nodup_Remove hu s
  have hL : Find c.InventoryIndices s < 0
      ∨ (Remove c.InventoryIndices s).length + 1 = c.InventoryIndices.length := by
    by_cases h0 : 0 ≤ Find c.InventoryIndices s
    · exact Or.inr (length_Remove hu h0)
    · exact Or.inl (by omega)
  unfold RemoveAmountFromSlot
  simp only [Yields_ite, Yields_ok, Yields_bind, Yields_pure, Yields_get, Yields_set,
    Yields_RemoveAt, SlotsUnique_iff, hu, ha, hm, hR, and_self, implies_true, true_and,
    List.length_set, IsValidIndex_iff, List.length_eraseIdx, INDEX_NONE]
  repeat' first | intro _ | refine And.intro ?_ ?_ | trivial
  all_goals (split_ifs <;> omega)

end UItemContainerComponent

namespace UItemContainerComponent
open TArray

theorem AddUnique_fst_of_not_mem {l : List Int} {x : Int} (h : x ∉ l) :
    (AddUnique l x).1 = l ++ [x] := by
  rw [AddUnique_of_not_mem h]

theorem Nodup_append_singleton {l : List Int} (hu : l.Nodup) {x : Int} (h : x ∉ l) :
    (l ++ [x]).Nodup := by
  rw [List.nodup_append]
  refine ⟨hu, List.nodup_singleton x, ?_⟩
  intro a ha hb
  rw [List.mem_singleton] at hb
  exact h (hb ▸ ha)

theorem FindNextEmptySlot_not_mem {c : UItemContainerComponent} {N : Int} {ign : List Int}
    {t : Int} (h : FindNextEmptySlot c N ign = (t, true)) : t ∉ c.InventoryIndices :=
  ((FindNextEmptySlot_eq_true_iff c N ign t).mp h).2.2.2.2.1

theorem SplitItemStack_unique (w : World) {c : UItemContainerComponent}
    (h : SlotsUnique c) (s k : Int) :
    Yields (fun r => SlotsUnique r.1) (SplitItemStack w c s k) := by
  obtain ⟨hu, ha, hm⟩ := h
  unfold SplitItemStack
  simp only [Yields_ite, Yields_ok, Yields_bind, Yields_pure, Yields_get, SlotsUnique_iff, hu, ha,
    hm, and_self, implies_true, true_and]
  intro _ _ a _ _
  split
  · simp only [Yields_pure, SlotsUnique_iff, hu, ha, hm, and_self]
  · rename_i t heq
    have ht : t ∉ c.InventoryIndices := FindNextEmptySlot_not_mem heq
    simp only [Yields_ite, Yields_ok, Yields_bind, Yields_pure, Yields_get, Yields_set,
      SlotsUnique_iff, AddUnique_fst_of_not_mem ht, Nodup_append_singleton hu ht, TArray.Add,
      List.length_set, List.length_append, List.length_singleton, ha, hm, and_self,
      implies_true, true_and]

end UItemContainerComponent

namespace UItemContainerComponent
open TArray

theorem Nodup_eraseIdx {l : List Int} (hu : l.Nodup) (i : Nat) : (l.eraseIdx i).Nodup :=
  (List.eraseIdx_sublist l i).nodup hu

theorem not_mem_of_Find_none {l : List Int} {s : Int} (h : Find l s = INDEX_NONE) : s ∉ l :=
  (Find_eq_none_iff l s).mp h

theorem SwapItems_moveStats_slots (c : UItemContainerComponent) (i t : Int) :
    Yields (fun r => r.InventoryIndices = c.InventoryIndices
        ∧ r.InventoryAssets = c.InventoryAssets ∧ r.InventoryAmounts = c.InventoryAmounts)
      (SwapItems.moveStats c i t) := by
  unfold SwapItems.moveStats
  simp only [Yields_bind, Yields_pure, Yields_get, Yields_RemoveAt, and_self, implies_true]

theorem SwapItems_moveRecord_unique {c : UItemContainerComponent} (h : SlotsUnique c) (i : Int)
    {t : Int} (ht : t ∉ c.InventoryIndices) :
    Yields SlotsUnique (SwapItems.moveRecord c i t) := by
  obtain ⟨hu, ha, hm⟩ := h
  unfold SwapItems.moveRecord
  simp only [Yields_bind, Yields_pure, Yields_get, Yields_RemoveAt, SlotsUnique_iff,
    AddUnique_fst_of_not_mem ht, Nodup_eraseIdx (Nodup_append_singleton hu ht), TArray.Add,
    List.length_eraseIdx, List.length_append, List.length_singleton, IsValidIndex_iff, ha, hm,
    true_and]
  repeat' first | intro _ | refine And.intro ?_ ?_ | trivial

theorem SwapItems_mergeRecords_unique {c : UItemContainerComponent} (h : SlotsUnique c)
    (i j : Int) : Yields SlotsUnique (SwapItems.mergeRecords c i j) := by
  obtain ⟨hu, ha, hm⟩ := h
  unfold SwapItems.mergeRecords
  simp only [Yields_bind, Yields_pure, Yields_get, Yields_set, Yields_RemoveAt, SlotsUnique_iff,
    Nodup_eraseIdx hu, List.length_eraseIdx, List.length_set, IsValidIndex_iff, ha, hm, true_and]
  repeat' first | intro _ | refine And.intro ?_ ?_ | trivial

theorem SlotsUnique_of_slots {c r : UItemContainerComponent} (h : SlotsUnique c)
    (h1 : r.InventoryIndices = c.InventoryIndices) (h2 : r.InventoryAssets = c.InventoryAssets)
    (h3 : r.InventoryAmounts = c.InventoryAmounts) : SlotsUnique r :=
  ⟨h1 ▸ h.unique, by rw [h1, h2]; exact h.assets, by rw [h1, h3]; exact h.amounts⟩

theorem SwapItems_oneInUse_unique {c : UItemContainerComponent} (h : SlotsUnique c)
    (First Second i j : Int) {t : Int} (ht : t ∉ c.InventoryIndices) :
    Yields (fun r => SlotsUnique r.1) (SwapItems.oneInUse c First Second i j t) := by
  have hrec : ∀ c1 : UItemContainerComponent, SlotsUnique c1 →
      c1.InventoryIndices = c.InventoryIndices →
      Yields (fun c2 => SlotsUnique { c2 with bIsProcessing := false })
        (SwapItems.moveRecord c1 i t) := fun c1 hc1 hI =>
    (SwapItems_moveRecord_unique hc1 i (hI ▸ ht)).mono
      (fun c2 hc2 => SlotsUnique_of_slots hc2 rfl rfl rfl)
  unfold SwapItems.oneInUse
  simp only [Yields_ite, Yields_pure, Yields_bind]
  refine ⟨fun _ => SlotsUnique_of_slots h rfl rfl rfl,
    fun _ => ⟨fun _ => SlotsUnique_of_slots h rfl rfl rfl, fun _ => ⟨fun _ => ?_, fun _ => ?_⟩⟩⟩
  · refine (SwapItems_moveStats_slots c j t).mono ?_
    rintro a ⟨h1, h2, h3⟩
    exact hrec a (SlotsUnique_of_slots h h1 h2 h3) h1
  · exact hrec c h rfl

end UItemContainerComponent

namespace UItemContainerComponent
open TArray

theorem SwapItems_bothInUse_unique (w : World) {c : UItemContainerComponent} (h : SlotsUnique c)
    (First Second : Int) (b : Bool) (i j si sj : Int) :
    Yields (fun r => SlotsUnique r.1) (SwapItems.bothInUse w c First Second b i j si sj) := by
  have hflag : SlotsUnique { c with bIsProcessing := false } := SlotsUnique_of_slots h rfl rfl rfl
  unfold SwapItems.bothInUse
  simp only [Yields_ite, Yields_pure, Yields_bind, Yields_get, hflag, implies_true, true_and]
  intro _ FirstAsset _ SecondAsset _
  split
  · split_ifs
    all_goals simp only [Yields_ite, Yields_pure, Yields_bind, Yields_get, Yields_RemoveAt,
      Yields_Swap, hflag, implies_true, true_and]
    all_goals first
      | exact hflag
      | (intros
         refine Yields.mono (SwapItems_mergeRecords_unique ?_ i j)
           (fun a ha => SlotsUnique_of_slots ha rfl rfl rfl)
         exact SlotsUnique_of_slots h rfl rfl rfl)
      | (refine (SwapItems_moveStats_slots c _ _).mono ?_
         rintro a ⟨h1, h2, h3⟩ l1 hl1 l2 hl2
         exact ⟨h1 ▸ h.unique, by rw [Swap_length hl2, h1, h2]; exact h.assets,
           by rw [Swap_length hl1, h1, h3]; exact h.amounts⟩)
      | (intro l0 _ l1 hl1 l2 hl2
         exact ⟨h.unique, by rw [Swap_length hl2]; exact h.assets,
           by rw [Swap_length hl1]; exact h.amounts⟩)
      | (intro l1 hl1 l2 hl2
         exact ⟨h.unique, by rw [Swap_length hl2]; exact h.assets,
           by rw [Swap_length hl1]; exact h.amounts⟩)
  · simp only [Yields_pure, hflag]

theorem SwapItems_unique (w : World) {c : UItemContainerComponent} (h : SlotsUnique c)
    (First Second : Int) (bCanStack bIsEquipment : Bool) :
    Yields (fun r => SlotsUnique r.1) (SwapItems w c First Second bCanStack bIsEquipment) := by
  have hflag : ∀ b, SlotsUnique { c with bIsProcessing := b } :=
    fun _ => SlotsUnique_of_slots h rfl rfl rfl
  unfold SwapItems
  simp only [Yields_ite, Yields_ok, h, hflag, implies_true, true_and]
  intro _ _ _
  refine ⟨fun _ => SwapItems_bothInUse_unique w (hflag true) _ _ _ _ _ _ _, fun hn => ⟨fun _ => ?_, fun _ => ?_⟩⟩
  · refine SwapItems_oneInUse_unique (hflag true) _ _ _ _ (not_mem_of_Find_none ?_)
    by_contra h2
    exact hn ⟨by assumption, h2⟩
  · refine SwapItems_oneInUse_unique (hflag true) _ _ _ _ (not_mem_of_Find_none ?_)
    by_contra h2
    exact absurd h2 (by assumption)

end UItemContainerComponent

namespace UItemContainerComponent
open TArray

theorem RemoveAt_error {α : Type} {l : List α} {i : Int} {e : Fault}
    (h : RemoveAt l i = .error e) : e = Fault.rangeCheck := by
  unfold RemoveAt at h
  split at h
  · exact absurd h (by simp)
  · simp only [Except.error.injEq] at h
    exact h.symm

theorem storeStats_slots (c : UItemContainerComponent) (Index : Int) (stats : FItemProperties) :
    Yields (fun r => r.1.InventoryIndices = c.InventoryIndices
        ∧ r.1.InventoryAssets = c.InventoryAssets ∧ r.1.InventoryAmounts = c.InventoryAmounts)
      (AddItemInternal.storeStats c Index stats) := by
  unfold AddItemInternal.storeStats
  split
  · dsimp only
    split
    · split
      · rename_i e he
        exact RemoveAt_error he
      · exact ⟨rfl, rfl, rfl⟩
    · exact ⟨rfl, rfl, rfl⟩
  · exact ⟨rfl, rfl, rfl⟩

theorem SlotsUnique_append {c r : UItemContainerComponent} (h : SlotsUnique c) {t : Int}
    (ht : t ∉ c.InventoryIndices) (a : FPrimaryAssetId) (k : Int)
    (h1 : r.InventoryIndices = (AddUnique c.InventoryIndices t).1)
    (h2 : r.InventoryAssets = (TArray.Add c.InventoryAssets a).1)
    (h3 : r.InventoryAmounts = (TArray.Add c.InventoryAmounts k).1) : SlotsUnique r := by
  rw [AddUnique_fst_of_not_mem ht] at h1
  refine ⟨h1 ▸ Nodup_append_singleton h.unique ht, ?_, ?_⟩
  · rw [h1, h2]; simp [TArray.Add, h.assets]
  · rw [h1, h3]; simp [TArray.Add, h.amounts]

theorem fillSlots_unique (S N : Int) (asset : FPrimaryAssetId) (stats : FItemProperties)
    (T : Bool) : ∀ (remaining : Nat) (I : Int) (x : AddItemLocals), SlotsUnique x.c →
    Yields (fun r => SlotsUnique r.1.c)
      (AddItemInternal.fillSlots S N asset stats T remaining I x) := by
  intro remaining
  induction remaining with
  | zero => intro I x hx; exact hx
  | succ n ih =>
    intro I x hx
    unfold AddItemInternal.fillSlots
    split
    · exact hx
    · split
      · exact hx
      · rename_i Index hfree
        have hI : Index ∉ x.c.InventoryIndices := FindNextEmptySlot_not_mem hfree
        have hs := storeStats_slots x.c Index stats
        split
        · rename_i e he
          rw [he] at hs; exact hs
        · rename_i c1 he
          rw [he] at hs
          exact SlotsUnique_of_slots hx hs.1 hs.2.1 hs.2.2
        · rename_i c1 he
          rw [he] at hs
          have hc1 : SlotsUnique c1 := SlotsUnique_of_slots hx hs.1 hs.2.1 hs.2.2
          have hI1 : Index ∉ c1.InventoryIndices := by rw [hs.1]; exact hI
          dsimp only
          split
          · exact ih _ _ (SlotsUnique_append hc1 hI1 asset S rfl rfl rfl)
          · exact ih _ _ (SlotsUnique_append hc1 hI1 asset _ rfl rfl rfl)

theorem placeInFreeSlots_unique (S N : Int) (asset : FPrimaryAssetId) (stats : FItemProperties)
    (T bRevert : Bool) {Temp : UItemContainerComponent} (hT : SlotsUnique Temp)
    {x : AddItemLocals} (hx : SlotsUnique x.c) :
    Yields (fun r => SlotsUnique r.1.c)
      (AddItemInternal.placeInFreeSlots S N asset stats T bRevert Temp x) := by
  unfold AddItemInternal.placeInFreeSlots
  split
  · dsimp only
    generalize (if T = true then CeilToIntDiv x.Amount S else x.Amount).toNat = k
    have hf := fillSlots_unique S N asset stats T k 1 x hx
    split
    · rename_i e he
      rw [he] at hf; exact hf
    · rename_i x1 he
      rw [he] at hf; exact hf
    · rename_i x1 b he
      rw [he] at hf
      split
      · exact SlotsUnique_of_slots hT rfl rfl rfl
      · exact hf
  · split
    · rename_i Index hfree
      have hI : Index ∉ x.c.InventoryIndices := FindNextEmptySlot_not_mem hfree
      have hs := storeStats_slots x.c Index stats
      split
      · rename_i e he
        rw [he] at hs; exact hs
      · rename_i c1 he
        rw [he] at hs
        exact SlotsUnique_of_slots hx hs.1 hs.2.1 hs.2.2
      · rename_i c1 he
        rw [he] at hs
        have hc1 : SlotsUnique c1 := SlotsUnique_of_slots hx hs.1 hs.2.1 hs.2.2
        have hI1 : Index ∉ c1.InventoryIndices := by rw [hs.1]; exact hI
        exact SlotsUnique_append hc1 hI1 asset _ rfl rfl rfl
    · split
      · exact SlotsUnique_of_slots hT rfl rfl rfl
      · exact hx

end UItemContainerComponent

namespace UItemContainerComponent
open TArray

theorem get_error {α : Type} {l : List α} {i : Int} {e : Fault}
    (h : TArray.get l i = .error e) : e = Fault.rangeCheck := by
  cases hg : TArray.get l i with
  | ok a => rw [hg] at h; exact absurd h (by simp)
  | error e' =>
    rw [hg] at h
    simp only [Except.error.injEq] at h
    subst h
    have h2 : Yields (fun _ => True) (TArray.get l i) := (Yields_get _ l i).mpr (fun _ _ => trivial)
    rw [hg] at h2
    exact h2

theorem set_error {α : Type} {l : List α} {i : Int} {v : α} {e : Fault}
    (h : TArray.set l i v = .error e) : e = Fault.rangeCheck := by
  have h2 : Yields (fun _ => True) (TArray.set l i v) := (Yields_set _ l i v).mpr (fun _ => trivial)
  rw [h] at h2
  exact h2

theorem set_eq_ok {α : Type} {l l' : List α} {i : Int} {v : α}
    (h : TArray.set l i v = .ok l') : l' = l.set i.toNat v := by
  unfold TArray.set at h
  split at h
  · simp only [Except.ok.injEq] at h
    exact h.symm
  · exact absurd h (by simp)

theorem scan_open (c : UItemContainerComponent) (S : Int) (asset : FPrimaryAssetId)
    (stats : FItemProperties) (ign : List Int) : ∀ l : List Int,
    Yields (fun r => r.2.2 = true → TArray.get c.InventoryAmounts r.1 = .ok r.2.1 ∧ r.2.1 < S)
      (FindItemStack.scan c S asset stats (-1) false ign l) := by
  intro l
  induction l with
  | nil => unfold FindItemStack.scan; intro h; exact absurd h (by simp)
  | cons Slot rest ih =>
    unfold FindItemStack.scan
    split
    · exact ih
    · dsimp only
      split
      · exact ih
      · split
        · rename_i e he; exact get_error he
        · split
          · exact ih
          · split
            · rename_i e he; exact get_error he
            · rename_i FoundAmount hget
              have hneg : ¬ ((-1 : Int) > 0) := by decide
              simp only [hneg, if_false, Bool.false_eq_true, INDEX_NONE, ne_eq, not_true_eq_false,
                false_and, or_false, true_and, decide_eq_true_eq]
              split
              · exact ih
              · rename_i hlt
                split
                · split
                  · intro h; exact absurd h (by simp)
                  · split
                    · rename_i e he; exact get_error he
                    · split
                      · exact ih
                      · intro _; exact ⟨hget, by simpa using hlt⟩
                · split
                  · exact ih
                  · intro _; exact ⟨hget, by simpa using hlt⟩

theorem FindItemStack_open (w : World) (c : UItemContainerComponent) (S N : Int)
    (asset : FPrimaryAssetId) (stats : FItemProperties) (ign : List Int) :
    Yields (fun r => r.2.2 = true → TArray.get c.InventoryAmounts r.1 = .ok r.2.1 ∧ r.2.1 < S)
      (FindItemStack w c S N asset stats (-1) false ign) := by
  unfold FindItemStack
  split
  · intro h; exact absurd h (by simp)
  · split
    · intro h; exact absurd h (by simp)
    · split
      · intro h; exact absurd h (by simp)
      · split
        · exact scan_open c S asset stats ign _
        · intro h; exact absurd h (by simp)

end UItemContainerComponent

namespace UItemContainerComponent
open TArray

theorem getElem?_of_get {α : Type} {l : List α} {i : Int} {a : α}
    (h : TArray.get l i = .ok a) : l[i.toNat]? = some a := by
  unfold TArray.get at h
  split at h
  · split at h
    · rename_i v hv
      simp only [Except.ok.injEq] at h
      rw [← h]; exact hv
    · exact absurd h (by simp)
  · exact absurd h (by simp)

theorem AddNewItem_unique (w : World) (S N : Int) (asset : FPrimaryAssetId)
    (stats : FItemProperties) (bCanStack T bRevert : Bool) {Temp : UItemContainerComponent}
    (hT : SlotsUnique Temp) : ∀ (fuel : Nat) (x : AddItemLocals),
    openStackCount S x.c < fuel → SlotsUnique x.c →
    Yields (fun r => SlotsUnique r.1.c)
      (AddItemInternal.AddNewItem w S N asset stats bCanStack T bRevert Temp fuel x) := by
  intro fuel
  induction fuel with
  | zero => intro x h; exact absurd h (Nat.not_lt_zero _)
  | succ n ih =>
    intro x hfuel hx
    unfold AddItemInternal.AddNewItem
    split
    · have hopen := FindItemStack_open w x.c S N asset stats []
      split
      · rename_i e he
        rw [he] at hopen; exact hopen
      · rename_i Index FoundAmount bSuccess he
        rw [he] at hopen
        split
        · rename_i hfound
          obtain ⟨hget, hlt⟩ := hopen (by simpa using hfound.1)
          dsimp only at hget hlt
          split
          · rename_i e he; exact get_error he
          · split
            · split
              · rename_i e he; exact set_error he
              · rename_i Amounts hset
                have := set_eq_ok hset
                subst this
                exact ⟨hx.unique, hx.assets, by simp [hx.amounts]⟩
            · split
              · rename_i e he; exact set_error he
              · rename_i Amounts hset
                have := set_eq_ok hset
                subst this
                have hx1 : SlotsUnique { x.c with InventoryAmounts := x.c.InventoryAmounts.set Index.toNat S } :=
                  ⟨hx.unique, hx.assets, by simp [hx.amounts]⟩
                dsimp only
                split
                · refine ih _ ?_ hx1
                  have hdec := filter_length_set_lt (getElem?_of_get hget) hlt S (lt_irrefl S)
                  simp only [openStackCount] at hfuel ⊢
                  omega
                · exact hx1
        · exact placeInFreeSlots_unique S N asset stats T bRevert hT hx
    · exact placeInFreeSlots_unique S N asset stats T bRevert hT hx

theorem AddItemInternal_unique (w : World) {c : UItemContainerComponent} (h : SlotsUnique c)
    (S N : Int) (asset : FPrimaryAssetId) (stats : FItemProperties) (n : Int)
    (bCanStack bRevert : Bool) :
    Yields (fun x => SlotsUnique x.c)
      (AddItemInternal w c S N asset stats n bCanStack bRevert) := by
  unfold AddItemInternal
  split
  · exact h
  · split
    · exact h
    · split
      · exact h
      · rename_i AssetData _
        have hnew := AddNewItem_unique w S N asset stats bCanStack AssetData.bCanStack bRevert h
          (c.InventoryAmounts.length + 1) ⟨c, n, []⟩
          (Nat.lt_succ_of_le (openStackCount_le S c)) h
        split
        · rename_i e he
          rw [he] at hnew; exact hnew
        · rename_i x b he
          rw [he] at hnew; exact hnew

theorem AddItem_unique (w : World) {c : UItemContainerComponent} (h : SlotsUnique c)
    (asset : FPrimaryAssetId) (stats : FItemProperties) (n : Int) (bCanStack bRevert : Bool) :
    Yields (fun r => SlotsUnique r.1) (AddItem w c asset stats n bCanStack bRevert) := by
  unfold AddItem
  split
  · exact h
  · have hint := AddItemInternal_unique w
      (SlotsUnique_of_slots h rfl rfl rfl : SlotsUnique { c with bIsProcessing := true })
      (GetStackSizeConfig w c) (GetInventorySizeConfig w c) asset stats n bCanStack bRevert
    split
    · rename_i e he
      rw [he] at hint; exact hint
    · rename_i x he
      rw [he] at hint
      split
      · exact SlotsUnique_of_slots hint rfl rfl rfl
      · exact SlotsUnique_of_slots hint rfl rfl rfl

end UItemContainerComponent

namespace UItemContainerComponent
open TArray

theorem AddItemToSlot_merge_unique (w : World) {c : UItemContainerComponent} (h : SlotsUnique c)
    (S N : Int) (asset : FPrimaryAssetId) (Slot : Int) (stats : FItemProperties) (n : Int)
    (bCanStack bFallback : Bool) (i k : Int) :
    Yields (fun r => SlotsUnique r.1)
      (AddItemToSlot.merge w c S N asset Slot stats n bCanStack bFallback i k) := by
  obtain ⟨hu, ha, hm⟩ := h
  unfold AddItemToSlot.merge
  simp only [Yields_ite, Yields_bind, Yields_pure, Yields_get, Yields_set, SlotsUnique_iff, hu, ha,
    hm, List.length_set, and_self, implies_true, true_and]
  intro a _ _ _
  refine ⟨fun _ => ⟨fun _ => ?_, trivial⟩, trivial⟩
  refine Yields.mono (AddItemInternal_unique w ?_ S N asset stats _ bCanStack false) ?_
  · exact ⟨hu, ha, by simp [hm]⟩
  · intro x hx
    exact ⟨fun _ => ⟨hx.unique, hx.assets, hx.amounts⟩, fun _ => ⟨hx.unique, hx.assets, hx.amounts⟩⟩

theorem AddItemToSlot_fallback_unique (w : World) {c : UItemContainerComponent}
    (h : SlotsUnique c) (S N : Int) (asset : FPrimaryAssetId) (Slot : Int)
    (stats : FItemProperties) (n : Int) (bCanStack bFallback : Bool) :
    Yields (fun r => SlotsUnique r.1)
      (AddItemToSlot.fallback w c S N asset Slot stats n bCanStack bFallback) := by
  unfold AddItemToSlot.fallback
  simp only [Yields_ite, Yields_bind, Yields_pure]
  refine ⟨fun _ => ?_, fun _ => SlotsUnique_of_slots h rfl rfl rfl⟩
  refine Yields.mono (AddItemInternal_unique w h S N asset stats _ bCanStack false) ?_
  intro x hx
  exact ⟨fun _ => SlotsUnique_of_slots hx rfl rfl rfl, fun _ => SlotsUnique_of_slots hx rfl rfl rfl⟩

theorem AddItemToSlot_emptySlot_unique (w : World) {c : UItemContainerComponent}
    (h : SlotsUnique c) (S N : Int) (asset : FPrimaryAssetId) {Slot : Int}
    (hSlot : Slot ∉ c.InventoryIndices) (stats : FItemProperties) (n : Int)
    (bCanStack bFallback T : Bool) :
    Yields (fun r => SlotsUnique r.1)
      (AddItemToSlot.emptySlot w c S N asset Slot stats n bCanStack bFallback T) := by
  unfold AddItemToSlot.emptySlot
  rw [Yields_bind]
  refine (storeStats_slots c Slot stats).mono ?_
  rintro ⟨c1, b⟩ ⟨h1, h2, h3⟩
  dsimp only at h1 h2 h3 ⊢
  have hc1 : SlotsUnique c1 := SlotsUnique_of_slots h h1 h2 h3
  have hS1 : Slot ∉ c1.InventoryIndices := h1 ▸ hSlot
  obtain ⟨hu, ha, hm⟩ := hc1
  have hadd : AddUnique c1.InventoryIndices Slot
      = (c1.InventoryIndices ++ [Slot], (c1.InventoryIndices.length : Int)) :=
    AddUnique_of_not_mem hS1
  have hnd := Nodup_append_singleton hu hS1
  simp only [hadd, TArray.Add]
  have hInt : ∀ (c3 : UItemContainerComponent) (k : Int), SlotsUnique c3 →
      Yields (fun a =>
        (¬TArray.IsEmpty a.ChangedSlots = true →
          a.c.InventoryIndices.Nodup ∧ a.c.InventoryAssets.length = a.c.InventoryIndices.length
            ∧ a.c.InventoryAmounts.length = a.c.InventoryIndices.length) ∧
        (¬¬TArray.IsEmpty a.ChangedSlots = true →
          a.c.InventoryIndices.Nodup ∧ a.c.InventoryAssets.length = a.c.InventoryIndices.length
            ∧ a.c.InventoryAmounts.length = a.c.InventoryIndices.length))
        (AddItemInternal w c3 S N asset stats k bCanStack false) := fun c3 k h3 =>
    (AddItemInternal_unique w h3 S N asset stats k bCanStack false).mono
      (fun x hx => ⟨fun _ => ⟨hx.unique, hx.assets, hx.amounts⟩,
        fun _ => ⟨hx.unique, hx.assets, hx.amounts⟩⟩)
  cases T <;> by_cases hn : n ≤ S <;>
    simp only [hn, if_true, if_false, Bool.false_eq_true, Yields_ite, Yields_bind, Yields_pure,
      Yields_RemoveAt, SlotsUnique_iff, hnd, Nodup_eraseIdx hnd, ha, hm, List.length_append,
      List.length_singleton, List.length_eraseIdx, IsValidIndex_iff, and_self, implies_true,
      true_and, and_true]
  all_goals repeat' first | intro _ | refine And.intro ?_ ?_ | trivial | exact hu
  all_goals
    refine hInt _ _ ⟨hnd, ?_, ?_⟩
    all_goals simp only [List.length_append, List.length_singleton, ha, hm]

theorem AddItemToSlotWith_unique (w : World) {c : UItemContainerComponent} (h : SlotsUnique c)
    (S N : Int) (asset : FPrimaryAssetId) (Slot : Int) (stats : FItemProperties) (n : Int)
    (bCanStack bFallback : Bool) :
    Yields (fun r => SlotsUnique r.1)
      (AddItemToSlotWith w c S N asset Slot stats n bCanStack bFallback) := by
  have hflag : ∀ b, SlotsUnique { c with bIsProcessing := b } :=
    fun _ => SlotsUnique_of_slots h rfl rfl rfl
  unfold AddItemToSlotWith
  simp only [Yields_ite, Yields_ok, h, hflag, implies_true, true_and]
  intro _ _
  split
  · exact hflag false
  · simp only [Yields_ite, Yields_bind, Yields_pure, Yields_get, hflag, implies_true, true_and]
    refine ⟨fun _ => ⟨fun _ a _ => ⟨fun _ _ b _ => ⟨fun _ => ?_, fun _ => ?_⟩,
      fun _ => ⟨fun _ => ?_, fun _ => ?_⟩⟩, fun _ => ?_⟩, fun hnone => ?_⟩
    · exact AddItemToSlot_merge_unique w (hflag true) _ _ _ _ _ _ _ _ _ _
    · exact AddItemToSlot_fallback_unique w (hflag true) _ _ _ _ _ _ _ _
    · exact AddItemToSlot_merge_unique w (hflag true) _ _ _ _ _ _ _ _ _ _
    · exact AddItemToSlot_fallback_unique w (hflag true) _ _ _ _ _ _ _ _
    · exact AddItemToSlot_fallback_unique w (hflag true) _ _ _ _ _ _ _ _
    · refine AddItemToSlot_emptySlot_unique w (hflag true) _ _ _ (not_mem_of_Find_none ?_) _ _ _ _ _
      by_contra h2
      exact hnone h2

theorem AddItemToSlot_unique (w : World) {c : UItemContainerComponent} (h : SlotsUnique c)
    (asset : FPrimaryAssetId) (Slot : Int) (stats : FItemProperties) (n : Int)
    (bCanStack bFallback : Bool) :
    Yields (fun r => SlotsUnique r.1)
      (AddItemToSlot w c asset Slot stats n bCanStack bFallback) :=
  AddItemToSlotWith_unique w h _ _ asset Slot stats n bCanStack bFallback

end UItemContainerComponent

namespace UItemContainerComponent
open TArray

theorem SlotsUniqueOther_none : SlotsUniqueOther none ↔ True :=
  ⟨fun _ => trivial, fun _ d' h => absurd h (by simp)⟩

theorem SlotsUniqueOther_some (d : UItemContainerComponent) :
    SlotsUniqueOther (some d) ↔ SlotsUnique d :=
  ⟨fun h => h d rfl, fun h d' hd => by
    simp only [Option.some.injEq] at hd
    exact hd ▸ h⟩

theorem AddItemToComponentInternal_unique (w : World) {c : UItemContainerComponent}
    (h : SlotsUnique c) (Slot : Int) {Other : Option UItemContainerComponent}
    (hd : SlotsUniqueOther Other) (n : Int) (bCanStack bIsEquipment bRevert : Bool) :
    Yields (fun r => SlotsUnique r.c ∧ SlotsUniqueOther r.Other)
      (AddItemToComponentInternal w c Slot Other n bCanStack bIsEquipment bRevert) := by
  obtain ⟨hu, ha, hm⟩ := h
  cases Other with
  | none =>
    unfold AddItemToComponentInternal
    simp only [Yields_ite, Yields_ok, Yields_bind, Yields_pure, Yields_get, SlotsUnique_iff,
      SlotsUniqueOther_none, hu, ha, hm, and_self, implies_true]
  | some d =>
    rw [SlotsUniqueOther_some] at hd
    have hInt := fun a s => AddItemInternal_unique w hd (GetStackSizeConfig w d)
      (GetInventorySizeConfig w d) a s n bCanStack bRevert
    obtain ⟨hdu, hda, hdm⟩ := hd
    unfold AddItemToComponentInternal
    simp only [Yields_ite, Yields_ok, Yields_bind, Yields_pure, Yields_get, Yields_set,
      Yields_RemoveAt, SlotsUnique_iff, SlotsUniqueOther_some, hu, ha, hm, hdu, hda, hdm, and_self,
      implies_true, true_and, List.length_set, List.length_eraseIdx, IsValidIndex_iff,
      Nodup_eraseIdx hu]
    intro _ a _ _ a_3 _ _ _
    refine ⟨fun _ a_8 _ => (hInt a a_8).mono ?_, fun _ => (hInt a _).mono ?_⟩
    all_goals
      intro x hx
      repeat' first | intro _ | refine And.intro ?_ ?_ | exact hx.unique | exact hx.assets
                    | exact hx.amounts

theorem SlotsUniqueOther_map {o : Option UItemContainerComponent} (h : SlotsUniqueOther o)
    (b : Bool) : SlotsUniqueOther (o.map (fun d => { d with bIsProcessing := b })) := by
  cases o with
  | none => exact SlotsUniqueOther_none.mpr trivial
  | some d =>
    exact (SlotsUniqueOther_some _).mpr
      (SlotsUnique_of_slots ((SlotsUniqueOther_some d).mp h) rfl rfl rfl)

theorem AddItemToComponent_unique (w : World) {c : UItemContainerComponent} (h : SlotsUnique c)
    (Slot : Int) {Other : Option UItemContainerComponent} (hd : SlotsUniqueOther Other) (n : Int)
    (bCanStack bRevert : Bool) :
    Yields (fun r => SlotsUnique r.1 ∧ SlotsUniqueOther r.2.1)
      (AddItemToComponent w c Slot Other n bCanStack bRevert) := by
  have hflag : ∀ b, SlotsUnique { c with bIsProcessing := b } :=
    fun _ => SlotsUnique_of_slots h rfl rfl rfl
  unfold AddItemToComponent
  split
  · exact ⟨h, hd⟩
  · split
    · exact ⟨hflag false, hd⟩
    · rename_i d
      have hd1 : SlotsUnique d := (SlotsUniqueOther_some d).mp hd
      split
      · exact ⟨hflag false, hd⟩
      · rw [Yields_bind]
        refine Yields.mono (AddItemToComponentInternal_unique w (hflag true) Slot ?_ n bCanStack
          false bRevert) ?_
        · exact (SlotsUniqueOther_some _).mpr (SlotsUnique_of_slots hd1 rfl rfl rfl)
        rintro r ⟨hr, hro⟩
        simp only [Yields_ite, Yields_pure]
        exact ⟨fun _ => ⟨SlotsUnique_of_slots hr rfl rfl rfl, SlotsUniqueOther_map hro false⟩,
          fun _ => ⟨SlotsUnique_of_slots hr rfl rfl rfl, SlotsUniqueOther_map hro false⟩⟩

theorem CollectAllItems_loop_unique (w : World) (bCanStack : Bool) :
    ∀ (remaining : Nat) (I : Int) (x : CollectLocals), SlotsUnique x.c → SlotsUniqueOther x.Other →
    Yields (fun r => SlotsUnique r.c ∧ SlotsUniqueOther r.Other)
      (CollectAllItems.loop w bCanStack remaining I x) := by
  intro remaining
  induction remaining with
  | zero => intro I x hx hd; exact ⟨hx, hd⟩
  | succ k ih =>
    intro I x hx hd
    unfold CollectAllItems.loop
    split
    · exact ih _ _ hx hd
    · split
      · split
        · rename_i e he; exact get_error he
        · exact ih _ _ hx hd
      · split
        · rename_i ItemsLeft AddedSlot _ _
          have hint := AddItemToComponentInternal_unique w hx AddedSlot hd ItemsLeft bCanStack
            false false
          split
          · rename_i e he
            rw [he] at hint; exact hint
          · rename_i r he
            rw [he] at hint
            dsimp only
            split
            · split
              · exact ih _ _ hint.1 hint.2
              · exact ih _ _ hint.1 hint.2
            · exact ih _ _ hint.1 hint.2
        · rename_i e he; exact get_error he
        · rename_i e he _; exact get_error he

theorem CollectAllItems_unique (w : World) {c : UItemContainerComponent} (h : SlotsUnique c)
    {Other : Option UItemContainerComponent} (hd : SlotsUniqueOther Other) (bCanStack : Bool) :
    Yields (fun r => SlotsUnique r.1 ∧ SlotsUniqueOther r.2.1)
      (CollectAllItems w c Other bCanStack) := by
  have hflag : ∀ b, SlotsUnique { c with bIsProcessing := b } :=
    fun _ => SlotsUnique_of_slots h rfl rfl rfl
  unfold CollectAllItems
  split
  · exact ⟨h, hd⟩
  · split
    · exact ⟨hflag true, hd⟩
    · rename_i d
      have hd1 : SlotsUnique d := (SlotsUniqueOther_some d).mp hd
      split
      · exact ⟨hflag true, hd⟩
      · have hloop := CollectAllItems_loop_unique w bCanStack c.InventoryIndices.length 0
          ⟨{ c with bIsProcessing := true }, some { d with bIsProcessing := true }, false, false,
            [], []⟩ (hflag true)
          ((SlotsUniqueOther_some _).mpr (SlotsUnique_of_slots hd1 rfl rfl rfl))
        dsimp only
        split
        · rename_i e he
          rw [he] at hloop; exact hloop
        · rename_i x he
          rw [he] at hloop
          exact ⟨SlotsUnique_of_slots hloop.1 rfl rfl rfl, SlotsUniqueOther_map hloop.2 false⟩

end UItemContainerComponent

namespace UItemContainerComponent
open TArray

theorem SwapItemWithComponent_moveStats_slots (From To : UItemContainerComponent) (i t : Int) :
    Yields (fun r =>
        (r.1.InventoryIndices = From.InventoryIndices ∧ r.1.InventoryAssets = From.InventoryAssets
          ∧ r.1.InventoryAmounts = From.InventoryAmounts)
        ∧ (r.2.1.InventoryIndices = To.InventoryIndices ∧ r.2.1.InventoryAssets = To.InventoryAssets
          ∧ r.2.1.InventoryAmounts = To.InventoryAmounts))
      (SwapItemWithComponent.moveStats From To i t) := by
  unfold SwapItemWithComponent.moveStats
  simp only [Yields_ite, Yields_bind, Yields_pure, Yields_get, Yields_RemoveAt, and_self,
    implies_true]

theorem SwapItemWithComponent_unique (w : World) {c : UItemContainerComponent}
    (h : SlotsUnique c) (First Second : Int) {Other : Option UItemContainerComponent}
    (hd : SlotsUniqueOther Other) (bCanMergeStack : Bool) :
    Yields (fun r => SlotsUnique r.1 ∧ SlotsUniqueOther r.2.1)
      (SwapItemWithComponent w c First Second Other bCanMergeStack) := by
  have hflag : ∀ b, SlotsUnique { c with bIsProcessing := b } :=
    fun _ => SlotsUnique_of_slots h rfl rfl rfl
  rw [SwapItemWithComponent]
  by_cases hb : c.bIsProcessing = true
  · rw [if_pos hb]; exact ⟨h, hd⟩
  rw [if_neg hb]
  cases Other with
  | none => exact ⟨hflag false, hd⟩
  | some d =>
    have hd1 : SlotsUnique d := (SlotsUniqueOther_some d).mp hd
    have hdflag : ∀ b, SlotsUnique { d with bIsProcessing := b } :=
      fun _ => SlotsUnique_of_slots hd1 rfl rfl rfl
    dsimp only
    by_cases hdb : d.bIsProcessing = true
    · rw [if_pos hdb]; exact ⟨hflag false, hd⟩
    rw [if_neg hdb, Yields_ite]
    refine ⟨fun _ => ⟨hflag false, (SlotsUniqueOther_some _).mpr (hdflag false)⟩, fun _ => ?_⟩
    simp only [Yields_bind, Yields_get]
    intro FirstAsset _ FirstAmount _
    cases hdata : w.GetPrimaryAssetData FirstAsset with
    | none => exact ⟨hflag false, (SlotsUniqueOther_some _).mpr (hdflag false)⟩
    | some FirstAssetData =>
      dsimp only
      rw [Yields_ite]
      refine ⟨fun _ => ?_, fun hnone => ?_⟩
      · rw [Yields_ite]
        refine ⟨fun _ => ⟨hflag false, (SlotsUniqueOther_some _).mpr (hdflag false)⟩, fun _ => ?_⟩
        simp only [Yields_bind, Yields_get]
        intro SecondAsset _ SecondAmount _
        obtain ⟨hu, ha, hm⟩ := h
        obtain ⟨hdu, hda, hdm⟩ := hd1
        split
        · rename_i merged r heq
          split at heq
          · split at heq
            · simp only [Option.some.injEq] at heq
              subst heq
              exact ⟨hflag false, (SlotsUniqueOther_some _).mpr (hdflag false)⟩
            · split at heq
              · rename_i e hX
                simp only [Option.some.injEq] at heq
                subst heq
                have hY : Yields (fun _ => True) (Except.error e : Except Fault Bool) := by
                  rw [← hX]
                  simp only [Yields_ite, Yields_bind, Yields_get, Yields_pure, implies_true,
                    and_self]
                exact hY
              · exact absurd heq (by simp)
              · simp only [Option.some.injEq] at heq
                subst heq
                simp only [Yields_ite, Yields_bind, Yields_pure, Yields_set, Yields_RemoveAt,
                  SlotsUnique_iff, SlotsUniqueOther_some, Nodup_eraseIdx hu, List.length_eraseIdx,
                  List.length_set, hdu, hda, hdm, ha, hm, and_self, implies_true, true_and]
          · exact absurd heq (by simp)
        · rw [Yields_bind]
          refine Yields.mono
            (P := fun r : UItemContainerComponent × UItemContainerComponent × Bool =>
              (r.1.InventoryIndices = c.InventoryIndices
                ∧ r.1.InventoryAssets.length = c.InventoryAssets.length
                ∧ r.1.InventoryAmounts.length = c.InventoryAmounts.length)
              ∧ (r.2.1.InventoryIndices = d.InventoryIndices
                ∧ r.2.1.InventoryAssets.length = d.InventoryAssets.length
                ∧ r.2.1.InventoryAmounts.length = d.InventoryAmounts.length)) ?_ ?_
          · simp only [Yields_ite, Yields_bind, Yields_pure, Yields_get, Yields_set, and_self,
              implies_true, true_and]
            intro _
            refine ⟨fun _ => (SwapItemWithComponent_moveStats_slots _ _ _ _).mono ?_,
              fun _ => ⟨fun _ => (SwapItemWithComponent_moveStats_slots _ _ _ _).mono ?_, trivial⟩⟩
            · rintro r ⟨⟨h1, h2, h3⟩, h4, h5, h6⟩
              exact ⟨⟨h1, by rw [h2], by rw [h3]⟩, h4, by rw [h5], by rw [h6]⟩
            · rintro r ⟨⟨h1, h2, h3⟩, h4, h5, h6⟩
              exact ⟨⟨h4, by rw [h5], by rw [h6]⟩, h1, by rw [h2], by rw [h3]⟩
          · rintro ⟨c1, d1, b⟩ ⟨⟨h1, h2, h3⟩, h4, h5, h6⟩
            dsimp only at h1 h2 h3 h4 h5 h6
            cases b with
            | false =>
              exact ⟨⟨h1 ▸ hu, by rw [h1, h2, ha], by rw [h1, h3, hm]⟩,
                (SlotsUniqueOther_some _).mpr ⟨h4 ▸ hdu, by rw [h4, h5, hda], by rw [h4, h6, hdm]⟩⟩
            | true =>
              simp only [Yields_bind, Yields_pure, Yields_set, SlotsUnique_iff,
                SlotsUniqueOther_some, List.length_set, h1, h2, h3, h4, h5, h6, hu, ha, hm, hdu,
                hda, hdm, and_self, implies_true]
      · have hSecond : Second ∉ d.InventoryIndices := by
          refine not_mem_of_Find_none ?_
          by_contra h2
          exact hnone h2
        rw [Yields_ite]
        refine ⟨fun _ => ?_, fun _ => ?_⟩
        all_goals
          rw [Yields_bind]
          refine Yields.mono
            (P := fun r : UItemContainerComponent × UItemContainerComponent × Bool =>
              SlotsUnique r.1 ∧ SlotsUnique r.2.1
                ∧ r.2.1.InventoryIndices = d.InventoryIndices) ?_ ?_
        all_goals first
          | exact ⟨hflag true, hdflag true, rfl⟩
          | (refine (SwapItemWithComponent_moveStats_slots _ _ _ _).mono ?_
             rintro r ⟨⟨h1, h2, h3⟩, h4, h5, h6⟩
             exact ⟨SlotsUnique_of_slots h h1 h2 h3, SlotsUnique_of_slots hd1 h4 h5 h6, h4⟩)
          | (rintro ⟨c1, d1, b⟩ ⟨hc1, hd1', hJ⟩
             dsimp only at hc1 hd1' hJ
             obtain ⟨hu, ha, hm⟩ := hc1
             cases b with
             | false =>
               exact ⟨SlotsUnique_of_slots ⟨hu, ha, hm⟩ rfl rfl rfl,
                 (SlotsUniqueOther_some _).mpr (SlotsUnique_of_slots hd1' rfl rfl rfl)⟩
             | true =>
               have hd2 := SlotsUnique_append hd1' (hJ ▸ hSecond) FirstAsset FirstAmount
                 (r := { d1 with
                   InventoryIndices := (AddUnique d1.InventoryIndices Second).1,
                   InventoryAssets := (TArray.Add d1.InventoryAssets FirstAsset).1,
                   InventoryAmounts := (TArray.Add d1.InventoryAmounts FirstAmount).1,
                   bIsProcessing := false }) rfl rfl rfl
               simp only [Yields_bind, Yields_pure, Yields_RemoveAt, SlotsUnique_iff,
                 SlotsUniqueOther_some, Nodup_eraseIdx hu, List.length_eraseIdx, ha, hm, true_and]
               intro _ _ _
               exact ⟨hd2.unique, hd2.assets, hd2.amounts⟩)

end UItemContainerComponent

namespace UInventorySystemComponent
open TArray

theorem system_flag_restore {s : UInventorySystemComponent} (hidle : s.bIsProcessing = false) :
    ({ s with bIsProcessing := false } : UInventorySystemComponent) = s := by
  obtain ⟨⟨_, _, _, _, _, _, _, _⟩, _, _, _, _, _, _, _, _⟩ := s
  simp only at hidle
  subst hidle
  rfl

theorem findTypeSlot_none {s : UInventorySystemComponent} {tags : List FPrimaryAssetId}
    (h : ∀ T ∈ s.EquipmentTypes, T ∉ tags) :
    ItemEquipFromInventory.findTypeSlot s tags = .ok none := by
  unfold ItemEquipFromInventory.findTypeSlot
  split
  · rfl
  · rename_i I heq
    have hp := List.find?_some heq
    cases hT : s.EquipmentTypes[I]? with
    | none => simp [hT] at hp
    | some T =>
      have hmem : T ∈ s.EquipmentTypes := List.getElem?_mem hT
      simp [hT, Contains, h T hmem] at hp

theorem dropCreated_none (s : UInventorySystemComponent) :
    ItemEquipFromInventory.dropCreated s INDEX_NONE = .ok s := by
  unfold ItemEquipFromInventory.dropCreated
  simp only [ne_eq, not_true_eq_false, if_false]
  rfl

end UInventorySystemComponent

namespace UItemContainerComponent
open TArray

theorem effectiveStackLimitAt_pos (w : World) {S : Int} (hS : 1 ≤ S)
    (Assets : List FPrimaryAssetId) (I : Nat) : 1 ≤ effectiveStackLimitAt w S Assets I := by
  unfold effectiveStackLimitAt effectiveStackLimit
  split
  · split
    · split <;> omega
    · exact hS
  · exact hS

theorem InternalChecks_amounts_spec (w : World) {S : Int} (hS : 1 ≤ S) (Indices : List Int)
    (Assets : List FPrimaryAssetId) :
    ∀ (remaining : Nat) (I : Nat) (Amounts : List Int) (b : Bool),
      Amounts.length ≤ I + remaining →
      ∃ A' b', InternalChecks.amounts w S Indices Assets remaining (I : Int) Amounts b = .ok (A', b')
        ∧ ∀ J : Nat, J < Indices.length →
            A'[J]? = if J < I then Amounts[J]?
                     else Amounts[J]?.map
                       (fun a => max 1 (min a (effectiveStackLimitAt w S Assets J))) := by
  intro remaining
  induction remaining with
  | zero =>
    intro I Amounts b hlen
    refine ⟨Amounts, b, rfl, ?_⟩
    intro J _
    split
    · rfl
    · have : Amounts[J]? = none := by
        rw [List.getElem?_eq_none_iff]; omega
      rw [this]; rfl
  | succ n ih =>
    intro I Amounts b hlen
    unfold InternalChecks.amounts
    by_cases hI : (I : Int) < TArray.Num Amounts
    swap
    · rw [if_pos hI]
      refine ⟨Amounts, b, rfl, ?_⟩
      intro J _
      split
      · rfl
      · have : Amounts[J]? = none := by
          rw [List.getElem?_eq_none_iff]
          simp only [TArray.Num] at hI
          omega
        rw [this]; rfl
    rw [if_neg (not_not.mpr hI)]
    have hIlt : I < Amounts.length := by
      simp only [TArray.Num] at hI; omega
    by_cases hv : IsValidIndex Indices (I : Int) = true
    swap
    · rw [if_pos hv]
      have hvA : IsValidIndex Amounts (I : Int) = true := by
        rw [IsValidIndex_iff]; omega
      rw [RemoveAt_of_valid hvA]
      refine ⟨_, true, rfl, ?_⟩
      intro J hJ
      have hIge : Indices.length ≤ I := by
        rw [IsValidIndex_iff] at hv; omega
      have hJI : J < I := by omega
      rw [if_pos hJI, Int.toNat_ofNat, List.getElem?_eraseIdx, if_pos hJI]
    rw [if_neg (not_not.mpr hv)]
    have hvA : IsValidIndex Amounts (I : Int) = true := by
      rw [IsValidIndex_iff]; omega
    obtain ⟨a, hga, hgl⟩ := get_of_valid hvA
    rw [Int.toNat_ofNat] at hgl
    have key : ∀ X : Int, X = max 1 (min a (effectiveStackLimitAt w S Assets I)) →
        ∃ A' b', InternalChecks.amounts w S Indices Assets n ((I : Int) + 1) (Amounts.set I X) b
            = .ok (A', b')
          ∧ ∀ J : Nat, J < Indices.length →
              A'[J]? = if J < I then Amounts[J]?
                       else Amounts[J]?.map
                         (fun a => max 1 (min a (effectiveStackLimitAt w S Assets J))) := by
      intro X hX
      obtain ⟨A', b', hrun, hspec⟩ := ih (I + 1) (Amounts.set I X) b (by simp; omega)
      rw [Nat.cast_add, Nat.cast_one] at hrun
      refine ⟨A', b', hrun, ?_⟩
      intro J hJ
      rw [hspec J hJ]
      by_cases hJI : J < I
      · rw [if_pos hJI, if_pos (by omega), List.getElem?_set_ne (by omega)]
      · rw [if_neg hJI]
        by_cases hJe : J = I
        · subst hJe
          rw [if_pos (by omega), List.getElem?_set_self hIlt, hgl, hX]
          rfl
        · rw [if_neg (by omega), List.getElem?_set_ne (fun h => hJe h.symm)]
    simp only [hga]
    rw [set_of_valid _ hvA, Int.toNat_ofNat]
    refine key _ ?_
    unfold effectiveStackLimitAt effectiveStackLimit
    by_cases hvAs : IsValidIndex Assets (I : Int) = true
    · obtain ⟨asset, hgas, hgasl⟩ := get_of_valid hvAs
      rw [Int.toNat_ofNat] at hgasl
      simp only [hvAs, hgas, hgasl, if_true]
      cases hd : w.GetPrimaryAssetData asset with
      | none =>
        simp only [max_def, min_def]
        split_ifs <;> omega
      | some Data =>
        by_cases hst : Data.bCanStack = true <;>
          simp only [hst, max_def, min_def, Bool.false_eq_true, not_false_eq_true, true_and,
            not_true_eq_false, false_and, if_false, if_true] <;>
          split_ifs <;> omega
    · have hnone : Assets[I]? = none := by
        rw [List.getElem?_eq_none_iff]
        rw [IsValidIndex_iff] at hvAs
        omega
      simp only [hvAs, hnone, if_false, Bool.false_eq_true, max_def, min_def]
      split_ifs <;> omega

end UItemContainerComponent

namespace UItemContainerComponent
open TArray

theorem InternalChecks_orphans_spec {α : Type} (Parents : List Int) (flagged : α → Bool) :
    ∀ (remaining : Nat) (I : Nat) (l : List α) (b : Bool),
      ∃ l' b', InternalChecks.orphans Parents flagged remaining (I : Int) l b = .ok (l', b')
        ∧ ∀ J : Nat, J < Parents.length → l'[J]? = l[J]? := by
  intro remaining
  induction remaining with
  | zero => intro I l b; exact ⟨l, b, rfl, fun _ _ => rfl⟩
  | succ n ih =>
    intro I l b
    unfold InternalChecks.orphans
    by_cases hI : (I : Int) < TArray.Num l
    swap
    · rw [if_pos hI]; exact ⟨l, b, rfl, fun _ _ => rfl⟩
    rw [if_neg (not_not.mpr hI)]
    have hvl : IsValidIndex l (I : Int) = true := by
      rw [IsValidIndex_iff]; simp only [TArray.Num] at hI; omega
    by_cases hv : IsValidIndex Parents (I : Int) = true
    swap
    · rw [if_pos hv, RemoveAt_of_valid hvl]
      obtain ⟨l', b', hrun, hspec⟩ := ih (I + 1) (l.eraseIdx (I : Int).toNat) true
      rw [Nat.cast_add, Nat.cast_one] at hrun
      refine ⟨l', b', hrun, ?_⟩
      intro J hJ
      have hIge : Parents.length ≤ I := by
        rw [IsValidIndex_iff] at hv; omega
      rw [hspec J hJ, Int.toNat_ofNat, List.getElem?_eraseIdx, if_pos (by omega)]
    rw [if_neg (not_not.mpr hv)]
    obtain ⟨a, hga, _⟩ := get_of_valid hvl
    simp only [hga]
    obtain ⟨l', b', hrun, hspec⟩ := ih (I + 1) l (b || flagged a)
    rw [Nat.cast_add, Nat.cast_one] at hrun
    exact ⟨l', b', hrun, hspec⟩

theorem InternalChecks_repairZero_ok (l : List Int) (N : Int) (free : Int → Bool) :
    ∃ r, InternalChecks.repairZero l N free = .ok r := by
  unfold InternalChecks.repairZero
  by_cases h0 : Contains l 0 = true
  swap
  · rw [if_neg h0]; exact ⟨_, rfl⟩
  rw [if_pos h0]
  have hmem : (0 : Int) ∈ l := by simpa [Contains] using h0
  by_cases h1 : TArray.Num l = 1
  · rw [if_pos h1]
    have hv : IsValidIndex l 0 = true := by
      rw [IsValidIndex_iff]; simp only [TArray.Num] at h1; omega
    simp only [set_of_valid _ hv, bind, Except.bind, pure, Except.pure]
    exact ⟨_, rfl⟩
  · rw [if_neg h1]
    split
    · have hne : Find l 0 ≠ INDEX_NONE := by
        rw [Ne, Find_eq_none_iff]; exact not_not.mpr hmem
      obtain ⟨h0', h1', _⟩ := Find_valid hne
      have hv : IsValidIndex l (Find l 0) = true := by
        rw [IsValidIndex_iff]; exact ⟨h0', h1'⟩
      simp only [set_of_valid _ hv, bind, Except.bind, pure, Except.pure]
      exact ⟨_, rfl⟩
    · exact ⟨_, rfl⟩

theorem InternalChecks_amounts_run (w : World) {S : Int} (hS : 1 ≤ S) {Indices : List Int}
    {Assets : List FPrimaryAssetId} {Amounts : List Int} {b : Bool}
    {r : Except Fault (List Int × Bool)}
    (h : InternalChecks.amounts w S Indices Assets Amounts.length 0 Amounts b = r) :
    ∃ v, r = .ok v ∧ ∀ J : Nat, J < Indices.length →
      v.1[J]? = Amounts[J]?.map (fun a => max 1 (min a (effectiveStackLimitAt w S Assets J))) := by
  obtain ⟨A', b', hrun, hspec⟩ := InternalChecks_amounts_spec w hS Indices Assets
    Amounts.length 0 Amounts b (by simp)
  rw [Nat.cast_zero, h] at hrun
  refine ⟨(A', b'), hrun, ?_⟩
  intro J hJ
  rw [hspec J hJ, if_neg (Nat.not_lt_zero J)]

theorem InternalChecks_orphans_run {α : Type} {Parents : List Int} {flagged : α → Bool}
    {n : Nat} {l : List α} {b : Bool} {r : Except Fault (List α × Bool)}
    (h : InternalChecks.orphans Parents flagged n 0 l b = r) :
    ∃ v, r = .ok v ∧ ∀ J : Nat, J < Parents.length → v.1[J]? = l[J]? := by
  obtain ⟨l', b', hrun, hspec⟩ := InternalChecks_orphans_spec Parents flagged n 0 l b
  rw [Nat.cast_zero, h] at hrun
  exact ⟨(l', b'), hrun, hspec⟩

theorem InternalChecks_repairZero_run {l : List Int} {N : Int} {free : Int → Bool}
    {r : Except Fault (List Int × Bool)} (h : InternalChecks.repairZero l N free = r) :
    ∃ v, r = .ok v := by
  obtain ⟨v, hv⟩ := InternalChecks_repairZero_ok l N free
  rw [h] at hv
  exact ⟨v, hv⟩

end UItemContainerComponent

namespace UItemContainerComponent
open TArray

theorem InternalChecks_amounts_repaired (w : World) (c : UItemContainerComponent)
    (hm : w.ManagerIsValid = true) (hS : 1 ≤ GetStackSizeConfig w c)
    (hN : 0 ≤ GetInventorySizeConfig w c) :
    ∃ c' b, InternalChecks w c = .ok (c', b)
      ∧ ∀ J : Nat, J < c'.InventoryIndices.length →
          c'.InventoryAssets[J]? = c.InventoryAssets[J]?
          ∧ c'.InventoryAmounts[J]? = c.InventoryAmounts[J]?.map (fun a =>
              max 1 (min a (effectiveStackLimitAt w (GetStackSizeConfig w c) c.InventoryAssets J))) := by
  unfold InternalChecks
  rw [if_neg (not_not.mpr hm)]
  by_cases he : TArray.IsEmpty c.InventoryIndices = true
  · rw [if_pos he]
    refine ⟨_, _, rfl, ?_⟩
    intro J hJ
    simp only [TArray.IsEmpty, List.isEmpty_iff] at he
    rw [he] at hJ
    exact absurd hJ (Nat.not_lt_zero _)
  rw [if_neg he]
  obtain ⟨r0, hr0⟩ := InternalChecks_repairZero_ok c.InventoryIndices (GetInventorySizeConfig w c)
    (fun I => !Contains c.InventoryIndices I)
  have hN' : ¬ GetInventorySizeConfig w c < 0 := by omega
  simp only [hr0, bind, Except.bind, hN', if_false, pure, Except.pure]
  split
  all_goals
    split
    · rename_i e he
      obtain ⟨_, h, _⟩ := InternalChecks_amounts_run w hS he
      exact absurd h (by simp)
    · rename_i v1 h1
      obtain ⟨v1', h1', hA⟩ := InternalChecks_amounts_run w hS h1
      simp only [Except.ok.injEq] at h1'
      subst h1'
      split
      · rename_i e he
        obtain ⟨_, h⟩ := InternalChecks_repairZero_run he
        exact absurd h (by simp)
      · split
        · rename_i e he
          obtain ⟨_, h, _⟩ := InternalChecks_orphans_run he
          exact absurd h (by simp)
        · split
          · rename_i e he
            obtain ⟨_, h, _⟩ := InternalChecks_orphans_run he
            exact absurd h (by simp)
          · rename_i v4 h4
            obtain ⟨v4', h4', hAs⟩ := InternalChecks_orphans_run h4
            simp only [Except.ok.injEq] at h4'
            subst h4'
            exact ⟨_, _, rfl, fun J hJ => ⟨hAs J hJ, hA J hJ⟩⟩

end UItemContainerComponent

namespace UItemContainerComponent
open TArray

/-- `AddItemToComponentInternal` from an occupied slot with a valid item, given what
`AddItemInternal` returns on the other container. -/
theorem AddItemToComponentInternal_of_internal (w : World) {c d : UItemContainerComponent}
    (h : Consistent c) {s n : Int} (hs : s ∈ c.InventoryIndices) (hn : 1 ≤ n)
    (hna : n ≤ (GetInventorySlot c s).Amount)
    (hval : (GetInventorySlot c s).Asset.IsValid = true) (bCanStack bRevert : Bool)
    {x : AddItemLocals}
    (hx : AddItemInternal w d (GetStackSizeConfig w d) (GetInventorySizeConfig w d)
      (GetInventorySlot c s).Asset (GetInventorySlot c s).ItemProperties n bCanStack bRevert
        = .ok x) :
    AddItemToComponentInternal w c s (some d) n bCanStack false bRevert
      = .ok (if x.ChangedSlots = [] then ⟨c, some x.c, n, x.ChangedSlots⟩
             else ⟨if (GetInventorySlot c s).Amount - (n - x.Amount) = 0 then withoutRecord c s
                   else withAmountAt c (Find c.InventoryIndices s)
                     ((GetInventorySlot c s).Amount - (n - x.Amount)),
                   some x.c, x.Amount, x.ChangedSlots⟩) := by
  obtain ⟨asset, amount, hga, hgm, hcase⟩ := GetInventorySlot_of_mem h.1 hs
  have hne : Find c.InventoryIndices s ≠ INDEX_NONE := by
    rw [Ne, Find_eq_none_iff]; exact not_not.mpr hs
  obtain ⟨h0, h1, _⟩ := Find_valid hne
  have hvI : IsValidIndex c.InventoryIndices (Find c.InventoryIndices s) = true := by
    rw [IsValidIndex_iff]; exact ⟨h0, h1⟩
  have hvA : IsValidIndex c.InventoryAssets (Find c.InventoryIndices s) = true := by
    rw [IsValidIndex_iff, h.1.assets]; exact ⟨h0, h1⟩
  have hvM : IsValidIndex c.InventoryAmounts (Find c.InventoryIndices s) = true := by
    rw [IsValidIndex_iff, h.1.amounts]; exact ⟨h0, h1⟩
  have hFi : (Find c.InventoryIndices s).toNat = c.InventoryIndices.indexOf s := by
    rw [Find_of_mem hs, Int.toNat_ofNat]
  have hamt : (GetInventorySlot c s).Amount = amount := by
    rcases hcase with ⟨_, hrec⟩ | ⟨bag, _, _, _, _, hrec⟩ <;> rw [hrec]
  have hast : (GetInventorySlot c s).Asset = asset := by
    rcases hcase with ⟨_, hrec⟩ | ⟨bag, _, _, _, _, hrec⟩ <;> rw [hrec]
  rw [hamt] at hna ⊢
  rw [hast] at hval hx
  have hn0 : ¬ n ≤ 0 := by omega
  have hcur : ¬ (amount ≤ 0 ∨ n > amount) := by omega
  have hnone : ¬ asset = FPrimaryAssetId.None := by
    intro h0
    rw [h0] at hval
    exact absurd hval (by decide)
  have hv : ¬ (¬ asset.IsValid = true ∨ asset = FPrimaryAssetId.None
      ∨ ¬ IsValidIndex c.InventoryAmounts (Find c.InventoryIndices s) = true) := by
    simp only [hval, hnone, hvM, not_true_eq_false, or_self, not_false_eq_true]
  rcases hcase with ⟨hst, hrec⟩ | ⟨bag, hst, hvS, hgb, _, hrec⟩
  · have hprops : (GetInventorySlot c s).ItemProperties = FItemProperties.empty := by rw [hrec]
    rw [hprops] at hx
    have hnot : s ∉ c.InventoryDynamicStatsIndices := (Find_eq_none_iff _ _).mp hst
    by_cases hch : x.ChangedSlots = []
    · rw [if_pos hch]
      unfold AddItemToComponentInternal
      simp only [Bool.false_eq_true, hn0, hne, hvA, not_true_eq_false, or_self, if_false, hga,
        bind, Except.bind, hv, hgm, hcur, hst, hx, TArray.IsEmpty, hch, List.isEmpty_nil,
        pure, Except.pure, false_or, ne_eq, not_false_eq_true, and_false, false_and, if_true]
    · rw [if_neg hch]
      have hne' : ¬ x.ChangedSlots.isEmpty = true := by
        rw [List.isEmpty_iff]; exact hch
      by_cases hz : amount - (n - x.Amount) = 0
      · have hvM0 : IsValidIndex (c.InventoryAmounts.set (Find c.InventoryIndices s).toNat 0)
            (Find c.InventoryIndices s) = true := by
          rw [IsValidIndex_set]; exact hvM
        rw [if_pos hz]
        unfold AddItemToComponentInternal
        simp only [Bool.false_eq_true, hn0, hne, hvA, not_true_eq_false, or_self, if_false, hga,
          bind, Except.bind, hv, hgm, hcur, hst, hx, TArray.IsEmpty, hne',
          not_false_eq_true, if_true, hz, set_of_valid _ hvM, pure, Except.pure, false_or,
          RemoveAt_of_valid hvI, RemoveAt_of_valid hvA, RemoveAt_of_valid hvM0,
          eraseIdx_set_self, ne_eq, and_false, false_and]
        congr 2
        apply eq_of_fields <;> simp [UItemContainerComponent.withoutRecord, hFi,
          List.eraseIdx_of_length_le, List.indexOf_eq_length.mpr hnot, h.1.stats]
      · rw [if_neg hz]
        unfold AddItemToComponentInternal
        simp only [Bool.false_eq_true, hn0, hne, hvA, not_true_eq_false, or_self, if_false, hga,
          bind, Except.bind, hv, hgm, hcur, hst, hx, TArray.IsEmpty, hne',
          not_false_eq_true, if_true, hz, set_of_valid _ hvM, pure, Except.pure, false_or,
          ne_eq, and_false, false_and]
        rfl
  · have hprops : (GetInventorySlot c s).ItemProperties = bag := by rw [hrec]
    rw [hprops] at hx
    have hin : s ∈ c.InventoryDynamicStatsIndices := (Find_valid hst).2.2
    obtain ⟨g0, g1, _⟩ := Find_valid hst
    have hvSI : IsValidIndex c.InventoryDynamicStatsIndices
        (Find c.InventoryDynamicStatsIndices s) = true := by
      rw [IsValidIndex_iff]; exact ⟨g0, g1⟩
    have hFs : (Find c.InventoryDynamicStatsIndices s).toNat
        = c.InventoryDynamicStatsIndices.indexOf s := by
      rw [Find_of_mem hin, Int.toNat_ofNat]
    by_cases hch : x.ChangedSlots = []
    · rw [if_pos hch]
      unfold AddItemToComponentInternal
      simp only [Bool.false_eq_true, hn0, hne, hvA, not_true_eq_false, or_self, if_false, hga,
        bind, Except.bind, hv, hgm, hcur, hst, hvS, hgb, hx, TArray.IsEmpty, hch, List.isEmpty_nil,
        pure, Except.pure, false_or, ne_eq, not_false_eq_true, and_false, false_and, if_true]
    · rw [if_neg hch]
      have hne' : ¬ x.ChangedSlots.isEmpty = true := by
        rw [List.isEmpty_iff]; exact hch
      by_cases hz : amount - (n - x.Amount) = 0
      · have hvM0 : IsValidIndex (c.InventoryAmounts.set (Find c.InventoryIndices s).toNat 0)
            (Find c.InventoryIndices s) = true := by
          rw [IsValidIndex_set]; exact hvM
        rw [if_pos hz]
        unfold AddItemToComponentInternal
        simp only [Bool.false_eq_true, hn0, hne, hvA, not_true_eq_false, or_self, if_false, hga,
          bind, Except.bind, hv, hgm, hcur, hst, hvS, hgb, hx, TArray.IsEmpty, hne',
          not_false_eq_true, if_true, hz, set_of_valid _ hvM, pure, Except.pure, false_or,
          RemoveAt_of_valid hvI, RemoveAt_of_valid hvA, RemoveAt_of_valid hvM0,
          RemoveAt_of_valid hvSI, RemoveAt_of_valid hvS,
          eraseIdx_set_self, ne_eq, and_false, false_and]
        congr 2
        apply eq_of_fields <;> simp [UItemContainerComponent.withoutRecord, hFi, hFs]
      · rw [if_neg hz]
        unfold AddItemToComponentInternal
        simp only [Bool.false_eq_true, hn0, hne, hvA, not_true_eq_false, or_self, if_false, hga,
          bind, Except.bind, hv, hgm, hcur, hst, hvS, hgb, hx, TArray.IsEmpty, hne',
          not_false_eq_true, if_true, hz, set_of_valid _ hvM, pure, Except.pure, false_or,
          ne_eq, and_false, false_and]
        rfl

end UItemContainerComponent

namespace UItemContainerComponent
open TArray

theorem FindNextEmptySlot_full {c : UItemContainerComponent} {N : Int}
    (h : N ≤ Num c.InventoryIndices) : FindNextEmptySlot c N [] = (INDEX_NONE, false) := by
  unfold FindNextEmptySlot
  simp only [List.isEmpty_nil, not_true_eq_false, false_and, if_false]
  rw [if_pos h]

theorem FindNextEmptySlot_exists {c : UItemContainerComponent} {N : Int}
    (h : Num c.InventoryIndices < N) : ∃ t, FindNextEmptySlot c N [] = (t, true) := by
  unfold FindNextEmptySlot
  simp only [List.isEmpty_nil, not_true_eq_false, false_and, if_false]
  rw [if_neg (by omega)]
  cases hfind : ((List.range N.toNat).map (fun (k : Nat) => (k : Int) + 1)).find?
      (fun I => !Contains c.InventoryIndices I && !Contains ([] : List Int) I) with
  | some I => exact ⟨I, rfl⟩
  | none =>
    exfalso
    rw [List.find?_eq_none] at hfind
    have hsub : (List.range N.toNat).map (fun (k : Nat) => (k : Int) + 1) ⊆ c.InventoryIndices := by
      intro I hI
      have := hfind I hI
      simpa [Contains] using this
    have hnd : ((List.range N.toNat).map (fun (k : Nat) => (k : Int) + 1)).Nodup := by
      refine List.Nodup.map ?_ (List.nodup_range _)
      intro a b hab
      simp only at hab
      omega
    have hlen := (hnd.subperm hsub).length_le
    simp only [List.length_map, List.length_range, TArray.Num] at hlen h
    omega

end UItemContainerComponent

namespace UItemContainerComponent
open TArray

theorem single_slot_amount {w : World} {S : Int} (hS : 1 ≤ S) {asset : FPrimaryAssetId}
    {data : FAssetData} (hdat : w.GetPrimaryAssetData asset = some data) {n : Int}
    (hfit : n ≤ effectiveStackLimit w S asset) :
    ¬ (n > S ∨ (¬ data.bCanStack = true ∧ n > 1)) := by
  unfold effectiveStackLimit at hfit
  rw [hdat] at hfit
  simp only at hfit
  by_cases hst : data.bCanStack = true
  · rw [if_pos hst] at hfit
    simp only [hst, not_true_eq_false, false_and, or_false]
    omega
  · rw [if_neg hst] at hfit
    simp only [hst, not_false_eq_true, true_and]
    omega

theorem AddItemInternal_single (w : World) {d : UItemContainerComponent} (hd : Consistent d)
    {S : Int} (hS : 1 ≤ S) (N : Int) {asset : FPrimaryAssetId} (stats : FItemProperties)
    {data : FAssetData} (hm : w.ManagerIsValid = true) (hv : asset.IsValid = true)
    (hdat : w.GetPrimaryAssetData asset = some data) {n : Int} (h1 : 1 ≤ n)
    (hfit : n ≤ effectiveStackLimit w S asset) :
    (∀ t, FindNextEmptySlot d N [] = (t, true) →
      AddItemInternal w d S N asset stats n false false
        = .ok ⟨withRecord d t asset stats n, 0, [t]⟩)
    ∧ (∀ t, FindNextEmptySlot d N [] = (t, false) →
      AddItemInternal w d S N asset stats n false false = .ok ⟨d, n, []⟩) := by
  have hn0 : ¬ n ≤ 0 := by omega
  have hnone : ¬ asset = FPrimaryAssetId.None := by
    intro h0
    rw [h0] at hv
    exact absurd hv (by decide)
  have hone := single_slot_amount hS hdat hfit
  constructor
  · intro t ht
    have hfree : t ∉ d.InventoryIndices := ((FindNextEmptySlot_eq_true_iff d N [] t).mp ht).2.2.2.2.1
    unfold AddItemInternal
    simp only [hn0, hv, hnone, hm, hdat, not_true_eq_false, or_self, if_false,
      AddItemInternal.AddNewItem, Bool.false_eq_true, false_and,
      AddItemInternal.placeInFreeSlots, hone, ht, storeStats_of_free hd hfree]
    congr 2
    apply eq_of_fields <;>
      simp [UItemContainerComponent.withRecord, AddUnique_of_not_mem hfree, TArray.Add]
  · intro t ht
    unfold AddItemInternal
    simp only [hn0, hv, hnone, hm, hdat, not_true_eq_false, or_self, if_false,
      AddItemInternal.AddNewItem, Bool.false_eq_true, false_and,
      AddItemInternal.placeInFreeSlots, hone, ht]

end UItemContainerComponent

namespace UItemContainerComponent
open TArray

theorem Collectable_withoutRecord {w : World} {S : Int} {c : UItemContainerComponent}
    (h : Collectable w S c) (s0 : Int) : Collectable w S (withoutRecord c s0) := by
  obtain ⟨hc, hu, hsu, hrec⟩ := h
  refine ⟨hc.withoutRecord hu hsu s0, ?_, ?_, ?_⟩
  · exact Nodup_eraseIdx hu _
  · exact Nodup_eraseIdx hsu _
  · intro s hs
    have hs' : s ≠ s0 ∧ s ∈ c.InventoryIndices := by
      simp only [UItemContainerComponent.withoutRecord] at hs
      exact (mem_eraseIdx_indexOf hu).mp hs
    rw [GetInventorySlot_withoutRecord hc hu hsu, if_neg hs'.1]
    exact hrec s hs'.2

theorem withoutRecord_length {c : UItemContainerComponent} {s0 : Int}
    (hs : s0 ∈ c.InventoryIndices) :
    (withoutRecord c s0).InventoryIndices.length + 1 = c.InventoryIndices.length := by
  simp only [UItemContainerComponent.withoutRecord]
  have hlt : c.InventoryIndices.indexOf s0 < c.InventoryIndices.length :=
    List.indexOf_lt_length.mpr hs
  rw [List.length_eraseIdx, if_pos hlt]
  omega

/-- One round of the loop of `CollectAllItems` without stacking: the first record of the
source goes as a whole into the lowest free slot of the destination, or stays when the
destination has no free slot. -/
theorem collect_step (w : World) {c d : UItemContainerComponent}
    (hm : w.ManagerIsValid = true) (hS : 1 ≤ GetStackSizeConfig w d)
    (hc : Collectable w (GetStackSizeConfig w d) c) (hd : Consistent d)
    {s0 : Int} {rest : List Int} (hidx : c.InventoryIndices = s0 :: rest) :
    ∃ a, TArray.get c.InventoryAmounts 0 = .ok a
      ∧ TArray.get c.InventoryIndices 0 = .ok s0
      ∧ IsValidIndex c.InventoryAmounts 0 = true
      ∧ IsValidIndex c.InventoryAssets 0 = true
      ∧ (∀ t, FindNextEmptySlot d (GetInventorySizeConfig w d) [] = (t, true) →
          AddItemToComponentInternal w c s0 (some d) a false false false
            = .ok ⟨withoutRecord c s0,
                   some (withRecord d t (GetInventorySlot c s0).Asset
                     (GetInventorySlot c s0).ItemProperties a), 0, [t]⟩)
      ∧ (∀ t, FindNextEmptySlot d (GetInventorySizeConfig w d) [] = (t, false) →
          AddItemToComponentInternal w c s0 (some d) a false false false
            = .ok ⟨c, some d, a, []⟩) := by
  obtain ⟨hcc, hu, hsu, hrec⟩ := hc
  have hs : s0 ∈ c.InventoryIndices := by rw [hidx]; exact List.mem_cons_self _ _
  have hfind : Find c.InventoryIndices s0 = 0 := by
    rw [Find_of_mem hs, hidx]
    simp
  obtain ⟨asset, amount, hga, hgm, hcase⟩ := GetInventorySlot_of_mem hcc.1 hs
  rw [hfind] at hga hgm
  have hAm : (GetInventorySlot c s0).Amount = amount := by
    rcases hcase with ⟨_, hr⟩ | ⟨bag, _, _, _, _, hr⟩ <;> rw [hr]
  obtain ⟨h1, hfit, hval, data, hdat⟩ := hrec s0 hs
  rw [hAm] at h1 hfit
  have hvI : IsValidIndex c.InventoryIndices 0 = true := by
    rw [IsValidIndex_iff, hidx]; simp
  have hsingle := AddItemInternal_single w hd hS (GetInventorySizeConfig w d)
    (GetInventorySlot c s0).ItemProperties hm hval hdat h1 hfit
  refine ⟨amount, hgm, ?_, ?_, ?_, ?_, ?_⟩
  · rw [hidx]; simp [TArray.get]
  · rw [IsValidIndex_of_length_eq hcc.1.amounts]; exact hvI
  · rw [IsValidIndex_of_length_eq hcc.1.assets]; exact hvI
  · intro t ht
    rw [AddItemToComponentInternal_of_internal w hcc hs h1 (le_of_eq hAm.symm) hval false false
      (hsingle.1 t ht)]
    simp [hAm]
  · intro t ht
    rw [AddItemToComponentInternal_of_internal w hcc hs h1 (le_of_eq hAm.symm) hval false false
      (hsingle.2 t ht)]
    simp

end UItemContainerComponent

namespace UItemContainerComponent
open TArray

/-- The loop of `CollectAllItems` without stacking hands over `k` records, where `k` is
the smallest of the rounds to run, the records of the source and the free slots of the
destination. -/
theorem collect_loop (w : World) (hm : w.ManagerIsValid = true) :
    ∀ (remaining : Nat) (I : Int) (x : CollectLocals) (d : UItemContainerComponent),
      x.Other = some d → 1 ≤ GetStackSizeConfig w d →
      Collectable w (GetStackSizeConfig w d) x.c → Consistent d →
      ∃ (x' : CollectLocals) (d' : UItemContainerComponent) (k : Nat),
        CollectAllItems.loop w false remaining I x = .ok x' ∧ x'.Other = some d'
        ∧ k ≤ remaining ∧ k ≤ x.c.InventoryIndices.length
        ∧ k ≤ (GetInventorySizeConfig w d - d.InventoryIndices.length).toNat
        ∧ (k = remaining ∨ k = x.c.InventoryIndices.length
            ∨ k = (GetInventorySizeConfig w d - d.InventoryIndices.length).toNat)
        ∧ x'.c.InventoryIndices.length + k = x.c.InventoryIndices.length
        ∧ d'.InventoryIndices.length = d.InventoryIndices.length + k
        ∧ (x'.bAddedOnce = true ↔ x.bAddedOnce = true ∨ 0 < k)
        ∧ (x'.bItemsLeft = true
            ↔ x.bItemsLeft = true ∨ (k < remaining ∧ k < x.c.InventoryIndices.length)) := by
  intro remaining
  induction remaining with
  | zero =>
    intro I x d hO _ _ _
    refine ⟨x, d, 0, rfl, hO, le_refl _, Nat.zero_le _, Nat.zero_le _, Or.inl rfl, rfl, rfl,
      ?_, ?_⟩
    · simp
    · simp
  | succ remaining ih =>
    intro I x d hO hS hc hd
    have hshape : x.c.InventoryIndices = [] ∨ ∃ s0 rest, x.c.InventoryIndices = s0 :: rest := by
      cases x.c.InventoryIndices with
      | nil => exact Or.inl rfl
      | cons s0 rest => exact Or.inr ⟨s0, rest, rfl⟩
    rcases hshape with hidx | ⟨s0, rest, hidx⟩
    ·
      obtain ⟨x', d', k, hrun, hO', hk1, hk2, hk3, hk4, hlen, hdlen, hadd, hleft⟩ :=
        ih (I + 1) x d hO hS hc hd
      have hl0 : x.c.InventoryIndices.length = 0 := by rw [hidx]; rfl
      have hv : IsValidIndex x.c.InventoryIndices 0 = false := by rw [hidx]; rfl
      refine ⟨x', d', k, ?_, hO', by omega, hk2, hk3, ?_, hlen, hdlen, hadd, ?_⟩
      · rw [CollectAllItems.loop]
        simp only [hv, Bool.false_eq_true, not_false_eq_true, if_true]
        exact hrun
      · right; left; omega
      · rw [hleft]
        constructor
        · rintro (h | h)
          · exact Or.inl h
          · omega
        · rintro (h | h)
          · exact Or.inl h
          · omega
    ·
      obtain ⟨a, hgm, hgi, hvM, hvA, hmove, hstay⟩ := collect_step w hm hS hc hd hidx
      have hvI : IsValidIndex x.c.InventoryIndices 0 = true := by
        rw [IsValidIndex_iff, hidx]; simp
      have hs : s0 ∈ x.c.InventoryIndices := by rw [hidx]; exact List.mem_cons_self _ _
      have hlen0 := withoutRecord_length hs
      by_cases hroom : TArray.Num d.InventoryIndices < GetInventorySizeConfig w d
      · obtain ⟨t, ht⟩ := FindNextEmptySlot_exists hroom
        have htfree : t ∉ d.InventoryIndices :=
          ((FindNextEmptySlot_eq_true_iff d _ [] t).mp ht).2.2.2.2.1
        obtain ⟨x', d', k, hrun, hO', hk1, hk2, hk3, hk4, hlen, hdlen, hadd, hleft⟩ :=
          ih (I + 1)
            ⟨withoutRecord x.c s0,
             some (withRecord d t (GetInventorySlot x.c s0).Asset
               (GetInventorySlot x.c s0).ItemProperties a),
             true, x.bItemsLeft, (TArray.Add x.ChangedSlots s0).1,
             x.ChangedSlotsOtherComponent ++ [t]⟩
            (withRecord d t (GetInventorySlot x.c s0).Asset
               (GetInventorySlot x.c s0).ItemProperties a)
            rfl hS (Collectable_withoutRecord hc s0) (hd.withRecord _ _ _)
        have hN : GetInventorySizeConfig w (withRecord d t (GetInventorySlot x.c s0).Asset
            (GetInventorySlot x.c s0).ItemProperties a) = GetInventorySizeConfig w d := rfl
        have hdl : (withRecord d t (GetInventorySlot x.c s0).Asset
            (GetInventorySlot x.c s0).ItemProperties a).InventoryIndices.length
            = d.InventoryIndices.length + 1 := by
          simp [UItemContainerComponent.withRecord]
        simp only at hk2 hk3 hk4 hlen hdlen hleft
        rw [hN, hdl] at hk3 hk4
        rw [hdl] at hdlen
        unfold TArray.Num at hroom
        refine ⟨x', d', k + 1, ?_, hO', by omega, by omega, by omega, by omega, by omega,
          by omega, ?_, ?_⟩
        · rw [CollectAllItems.loop]
          simp only [hvI, hvM, hvA, not_true_eq_false, or_self, if_false, hgm, hgi, hO,
            hmove t ht, TArray.IsEmpty, List.isEmpty_cons, Bool.false_eq_true,
            not_false_eq_true, if_true]
          exact hrun
        · constructor
          · intro _; right; omega
          · intro _; exact hadd.mpr (Or.inl rfl)
        · rw [hleft]
          constructor
          · rintro (h | h)
            · exact Or.inl h
            · right; omega
          · rintro (h | h)
            · exact Or.inl h
            · right; omega
      · obtain ⟨x', d', k, hrun, hO', hk1, hk2, hk3, hk4, hlen, hdlen, hadd, hleft⟩ :=
          ih (I + 1)
            ⟨x.c, some d, x.bAddedOnce, true, x.ChangedSlots, x.ChangedSlotsOtherComponent ++ []⟩
            d rfl hS hc hd
        have hfull := FindNextEmptySlot_full (not_lt.mp hroom)
        simp only at hk2 hk3 hk4 hlen hdlen hadd
        unfold TArray.Num at hroom
        have hlenpos : 0 < x.c.InventoryIndices.length := by rw [hidx]; simp
        refine ⟨x', d', k, ?_, hO', by omega, hk2, hk3, by omega, hlen, hdlen, hadd, ?_⟩
        · rw [CollectAllItems.loop]
          simp only [hvI, hvM, hvA, not_true_eq_false, or_self, if_false, hgm, hgi, hO,
            hstay _ hfull, TArray.IsEmpty, List.isEmpty_nil, if_false]
          exact hrun
        · constructor
          · intro _; right; omega
          · intro _; exact hleft.mpr (Or.inl rfl)

end UItemContainerComponent

namespace UItemContainerComponent
open TArray

/-- With unique slot numbers in `1..N`, the free slots are the `N` slot numbers less the
records. -/
theorem freeSlots_length {d : UItemContainerComponent} {N : Int}
    (hu : d.InventoryIndices.Nodup) (hr : ∀ slot ∈ d.InventoryIndices, 1 ≤ slot ∧ slot ≤ N) :
    (freeSlots d N).length + d.InventoryIndices.length = N.toNat := by
  have hnd : ((List.range N.toNat).map (fun (k : Nat) => (k : Int) + 1)).Nodup := by
    refine List.Nodup.map ?_ (List.nodup_range _)
    intro a b hab
    simp only at hab
    omega
  have hsplit := List.length_eq_length_filter_add
    (l := (List.range N.toNat).map (fun (k : Nat) => (k : Int) + 1))
    (fun Slot => !Contains d.InventoryIndices Slot)
  have hperm : (((List.range N.toNat).map (fun (k : Nat) => (k : Int) + 1)).filter
      (fun Slot => !(!Contains d.InventoryIndices Slot))).Perm d.InventoryIndices := by
    rw [List.perm_ext_iff_of_nodup (hnd.filter _) hu]
    intro s
    simp only [List.mem_filter, List.mem_map, List.mem_range, Bool.not_not, Contains,
      decide_eq_true_eq]
    constructor
    · exact fun h => h.2
    · intro hs
      obtain ⟨h1, h2⟩ := hr s hs
      exact ⟨⟨(s - 1).toNat, by omega, by omega⟩, hs⟩
  rw [hperm.length_eq] at hsplit
  simp only [List.length_map, List.length_range] at hsplit
  unfold freeSlots
  omega

end UItemContainerComponent

namespace UInventorySystemComponent
open TArray UItemContainerComponent

end UInventorySystemComponent

namespace TArray
variable {α : Type}

end TArray

namespace UInventorySystemComponent
open TArray UItemContainerComponent

end UInventorySystemComponent

namespace UInventorySystemComponent
open TArray UItemContainerComponent

end UInventorySystemComponent

namespace UInventorySystemComponent
open TArray UItemContainerComponent

end UInventorySystemComponent

namespace UItemContainerComponent
open TArray

theorem FindNextEmptySlot_shape (c : UItemContainerComponent) (N : Int) (ign : List Int) :
    FindNextEmptySlot c N ign = (INDEX_NONE, false)
    ∨ ∃ t, FindNextEmptySlot c N ign = (t, true) := by
  unfold FindNextEmptySlot
  split
  · exact Or.inl rfl
  · split
    · exact Or.inl rfl
    · split
      · exact Or.inr ⟨_, rfl⟩
      · exact Or.inl rfl

/-- Among finitely many candidates `1..N` there is a least one with a decidable
property, if there is one at all. -/
theorem exists_least_slot (P : Int → Prop) [DecidablePred P] (N : Int) {g : Int}
    (h1 : 1 ≤ g) (hN : g ≤ N) (hg : P g) :
    ∃ t, 1 ≤ t ∧ t ≤ N ∧ P t ∧ ∀ J, 1 ≤ J → J < t → ¬ P J := by
  have hex : ∃ k : Nat, 1 ≤ (k : Int) ∧ (k : Int) ≤ N ∧ P (k : Int) :=
    ⟨g.toNat, by omega, by omega, by rw [Int.toNat_of_nonneg (by omega)]; exact hg⟩
  refine ⟨(Nat.find hex : Nat), (Nat.find_spec hex).1, (Nat.find_spec hex).2.1,
    (Nat.find_spec hex).2.2, ?_⟩
  intro J hJ1 hJlt hPJ
  have hmin := Nat.find_min hex (m := J.toNat) (by omega)
  apply hmin
  refine ⟨by omega, ?_, by rw [Int.toNat_of_nonneg (by omega)]; exact hPJ⟩
  have := (Nat.find_spec hex).2.1
  omega

end UItemContainerComponent

namespace UItemContainerComponent
open TArray

theorem storeStats_returns (c : UItemContainerComponent) (Index : Int) (stats : FItemProperties) :
    Yields (fun _ => True) (AddItemInternal.storeStats c Index stats) :=
  (storeStats_slots c Index stats).mono (fun _ _ => trivial)

theorem fillSlots_returns (S N : Int) (asset : FPrimaryAssetId) (stats : FItemProperties)
    (T : Bool) : ∀ (remaining : Nat) (I : Int) (x : AddItemLocals),
    Yields (fun _ => True) (AddItemInternal.fillSlots S N asset stats T remaining I x) := by
  intro remaining
  induction remaining with
  | zero => intro I x; trivial
  | succ n ih =>
    intro I x
    unfold AddItemInternal.fillSlots
    split
    · trivial
    · split
      · trivial
      · rename_i Index hfree
        have hs := storeStats_returns x.c Index stats
        split
        · rename_i e he
          rw [he] at hs; exact hs
        · trivial
        · dsimp only
          split
          · exact ih _ _
          · exact ih _ _

theorem placeInFreeSlots_returns (S N : Int) (asset : FPrimaryAssetId)
    (stats : FItemProperties) (T bRevert : Bool) (Temp : UItemContainerComponent)
    (x : AddItemLocals) :
    Yields (fun _ => True)
      (AddItemInternal.placeInFreeSlots S N asset stats T bRevert Temp x) := by
  unfold AddItemInternal.placeInFreeSlots
  split
  · dsimp only
    generalize (if T = true then CeilToIntDiv x.Amount S else x.Amount).toNat = k
    have hf := fillSlots_returns S N asset stats T k 1 x
    split
    · rename_i e he
      rw [he] at hf; exact hf
    · trivial
    · split
      · trivial
      · trivial
  · split
    · rename_i Index hfree
      have hs := storeStats_returns x.c Index stats
      split
      · rename_i e he
        rw [he] at hs; exact hs
      · trivial
      · trivial
    · split
      · trivial
      · trivial

/-- `AddNewItem` does not use up its fuel when the fuel exceeds the number of amounts
below the stack size: every nested call follows the filling of one such amount. -/
theorem AddNewItem_returns (w : World) (S N : Int) (asset : FPrimaryAssetId)
    (stats : FItemProperties) (bCanStack T bRevert : Bool) (Temp : UItemContainerComponent) :
    ∀ (fuel : Nat) (x : AddItemLocals), openStackCount S x.c < fuel →
    Yields (fun _ => True)
      (AddItemInternal.AddNewItem w S N asset stats bCanStack T bRevert Temp fuel x) := by
  intro fuel
  induction fuel with
  | zero => intro x h; exact absurd h (Nat.not_lt_zero _)
  | succ n ih =>
    intro x hfuel
    unfold AddItemInternal.AddNewItem
    split
    · have hopen := FindItemStack_open w x.c S N asset stats []
      split
      · rename_i e he
        rw [he] at hopen; exact hopen
      · rename_i Index FoundAmount bSuccess he
        rw [he] at hopen
        split
        · rename_i hfound
          obtain ⟨hget, hlt⟩ := hopen (by simpa using hfound.1)
          dsimp only at hget hlt
          split
          · rename_i e he; exact get_error he
          · split
            · split
              · rename_i e he; exact set_error he
              · trivial
            · split
              · rename_i e he; exact set_error he
              · rename_i Amounts hset
                have := set_eq_ok hset
                subst this
                dsimp only
                split
                · refine ih _ ?_
                  have hdec := filter_length_set_lt (getElem?_of_get hget) hlt S (lt_irrefl S)
                  simp only [openStackCount] at hfuel ⊢
                  omega
                · trivial
        · exact placeInFreeSlots_returns S N asset stats T bRevert Temp x
    · exact placeInFreeSlots_returns S N asset stats T bRevert Temp x

theorem Yields_ne_outOfFuel {α : Type} {P : α → Prop} {r : Except Fault α} (h : Yields P r) :
    r ≠ .error .outOfFuel := by
  intro hr
  rw [hr] at h
  exact absurd h (by simp [Yields])

end UItemContainerComponent

namespace UInventorySystemComponent
open TArray UItemContainerComponent

theorem ShrinksEquipment.unchanged (s : UInventorySystemComponent) : ShrinksEquipment s s :=
  ⟨fun _ h => h, rfl⟩

theorem ShrinksEquipment.andThen {s t u : UInventorySystemComponent} (h1 : ShrinksEquipment s t)
    (h2 : ShrinksEquipment t u) : ShrinksEquipment s u :=
  ⟨fun slot h => h1.1 slot (h2.1 slot h), h2.2.trans h1.2⟩

theorem ShrinksEquipment.keepsTyped {s t : UInventorySystemComponent} (h : ShrinksEquipment s t)
    (hs : TypedSlots s) : TypedSlots t :=
  ⟨fun slot hm => h.2 ▸ hs.typed slot (h.1 slot hm)⟩

theorem removeEquipmentRecord_shrinks (s : UInventorySystemComponent) (i : Int) :
    Yields (fun t => ShrinksEquipment s t
        ∧ t.toUItemContainerComponent = s.toUItemContainerComponent)
      (removeEquipmentRecord s i) := by
  unfold removeEquipmentRecord
  simp only [Yields_bind, Yields_pure, Yields_RemoveAt, ShrinksEquipment, and_true]
  intro _ _ _ slot hslot
  exact List.mem_of_mem_eraseIdx hslot

theorem removeEquipmentStats_shrinks (s : UInventorySystemComponent) (j : Int) :
    Yields (fun t => ShrinksEquipment s t
        ∧ t.toUItemContainerComponent = s.toUItemContainerComponent)
      (removeEquipmentStats s j) := by
  unfold removeEquipmentStats
  simp only [Yields_bind, Yields_pure, Yields_ite, Yields_RemoveAt, ShrinksEquipment, and_true,
    implies_true, and_self, imp_self]

theorem unequipMeasure_topUp {S N : Int} {s : UInventorySystemComponent} {k a : Int}
    (l : List Int) (hget : TArray.get s.InventoryAmounts k = .ok a) (ha : a < S) :
    unequipMeasure S N { s with InventoryAmounts := s.InventoryAmounts.set k.toNat S,
                                EquipmentAmounts := l } + 1
      = unequipMeasure S N s := by
  have hdec := filter_length_set_lt (getElem?_of_get hget) ha S (lt_irrefl S)
  simp only [unequipMeasure, openStackCount] at hdec ⊢
  omega

theorem unequipMeasure_place {S N : Int} {s t : UInventorySystemComponent} {ign : List Int}
    {f : Int} (hf : FindNextEmptySlot s.toUItemContainerComponent N ign = (f, true))
    (hI : t.InventoryIndices = s.InventoryIndices ++ [f])
    (hA : t.InventoryAmounts = s.InventoryAmounts ++ [1]) :
    unequipMeasure S N t + 1 ≤ unequipMeasure S N s := by
  have hroom := ((FindNextEmptySlot_eq_true_iff _ _ _ _).mp hf).2.1
  have h1 : ([(1 : Int)].filter (fun a => decide (a < S))).length ≤ 1 :=
    (List.length_filter_le _ _).trans (by simp)
  simp only [unequipMeasure, openStackCount, hI, hA, TArray.Num, List.filter_append,
    List.length_append, List.length_singleton, Nat.cast_add, Nat.cast_one] at hroom ⊢
  omega

theorem UnequipItemWithoutSpecificSlot_shrinks (w : World) (S N : Int) (ign : List Int)
    (bCanStack T : Bool) (i j : Int) :
    ∀ (fuel : Nat) (x : UnequipLocals), unequipMeasure S N x.s < fuel →
    Yields (fun r => ShrinksEquipment x.s r.1.s)
      (ItemUnequipInternal.UnequipItemWithoutSpecificSlot w S N ign bCanStack T i j fuel x) := by
  intro fuel
  induction fuel with
  | zero => intro x h; exact absurd h (Nat.not_lt_zero _)
  | succ n ih =>
    intro x hfuel
    have hfound : ∀ (r : Int × Int × Bool),
        (r.2.2 = true → TArray.get x.s.InventoryAmounts r.1 = .ok r.2.1 ∧ r.2.1 < S) →
        (r.2.2 = true ∧ r.2.1 < S →
          ∀ (a_5 : ℤ),
            TArray.get x.s.EquipmentAmounts i = Except.ok a_5 →
              ∀ (a_7 : ℤ),
                TArray.get x.s.InventoryAmounts r.1 = Except.ok a_7 →
                  ∀ (a_9 : ℤ),
                    TArray.get x.s.InventoryIndices r.1 = Except.ok a_9 →
                      (a_5 + a_7 > S →
                          TArray.IsValidIndex x.s.EquipmentAmounts i = true →
                            TArray.IsValidIndex x.s.InventoryAmounts r.1 = true →
                              Yields (fun r => x.s.ShrinksEquipment r.1.s)
                                (ItemUnequipInternal.UnequipItemWithoutSpecificSlot
                                  w S N ign bCanStack T i j n
                                  { s := { x.s with
                                      InventoryAmounts := x.s.InventoryAmounts.set r.1.toNat S,
                                      EquipmentAmounts :=
                                        x.s.EquipmentAmounts.set i.toNat (a_5 + a_7 - S) },
                                    ChangedSlots := (TArray.Add x.ChangedSlots a_9).1 })) ∧
                        (¬a_5 + a_7 > S →
                          TArray.IsValidIndex x.s.InventoryAmounts r.1 = true →
                            Yields
                              (fun a =>
                                Yields (fun a => x.s.ShrinksEquipment a) (a.removeEquipmentRecord i))
                              (removeEquipmentStats { x.s with
                                  InventoryAmounts := x.s.InventoryAmounts.set r.1.toNat (a_5 + a_7) }
                                j))) := by
      intro r hopen hr E hE F hF slot hslot
      obtain ⟨hget, hlt⟩ := hopen hr.1
      have hFa : F = r.2.1 := by rw [hget] at hF; exact (Except.ok.inj hF).symm
      subst hFa
      refine ⟨fun _ _ _ => ih _ ?_, fun _ _ => ?_⟩
      · have := unequipMeasure_topUp (N := N) (x.s.EquipmentAmounts.set i.toNat (E + r.2.1 - S))
          hget hlt
        dsimp only at this ⊢
        omega
      · refine (removeEquipmentStats_shrinks _ j).mono (fun t ht => ?_)
        refine (removeEquipmentRecord_shrinks t i).mono (fun u hu => ?_)
        exact ShrinksEquipment.andThen ht.1 hu.1
    unfold ItemUnequipInternal.UnequipItemWithoutSpecificSlot
    simp only [Yields_bind, Yields_pure, Yields_ite, Yields_get, Yields_set]
    refine ⟨fun hc => ⟨fun hj a ha a2 ha2 =>
        (FindItemStack_open w _ S N _ _ ign).mono (fun r hr => ⟨hfound r hr, fun _ => ?_⟩),
      fun hj a2 ha2 =>
        (FindItemStack_open w _ S N _ _ ign).mono (fun r hr => ⟨hfound r hr, fun _ => ?_⟩)⟩,
      fun _ => ?_⟩
    all_goals
      intro E hE
      refine ⟨fun _ => ShrinksEquipment.unchanged _, fun _ => ?_⟩
      split
      · exact ShrinksEquipment.unchanged _
      · rename_i FoundIndex hfree
        simp only [Yields_bind, Yields_pure, Yields_ite, Yields_get, Yields_set]
        have hfin : ∀ (u : UInventorySystemComponent), ShrinksEquipment x.s u →
            Yields (fun a => Yields (fun a => x.s.ShrinksEquipment a) (a.removeEquipmentStats j))
              (u.removeEquipmentRecord i) := fun u hu =>
          (removeEquipmentRecord_shrinks u i).mono (fun t ht =>
            (removeEquipmentStats_shrinks t j).mono (fun v hv => (hu.andThen ht.1).andThen hv.1))
        have hrec : ∀ (y : UnequipLocals),
            y.s.InventoryIndices = x.s.InventoryIndices ++ [FoundIndex] →
            y.s.InventoryAmounts = x.s.InventoryAmounts ++ [1] → ShrinksEquipment x.s y.s →
            Yields (fun r => x.s.ShrinksEquipment r.1.s)
              (ItemUnequipInternal.UnequipItemWithoutSpecificSlot w S N ign bCanStack T i j n y) :=
          fun y hI hA hy =>
            (ih y (by have := unequipMeasure_place (S := S) hfree hI hA; omega)).mono
              (fun r hr => hy.andThen hr)
        intro asset _
        exact ⟨fun _ Stats _ => ⟨fun _ => hfin _ ⟨fun _ h => h, rfl⟩,
            fun _ _ => hrec _ rfl rfl ⟨fun _ h => h, rfl⟩⟩,
          fun _ => ⟨fun _ => hfin _ ⟨fun _ h => h, rfl⟩,
            fun _ _ => hrec _ rfl rfl ⟨fun _ h => h, rfl⟩⟩⟩

theorem unequipMeasure_le (S N : Int) (s : UInventorySystemComponent) :
    unequipMeasure S N s ≤ s.InventoryAmounts.length + 2 * N.toNat := by
  have h1 := openStackCount_le S s.toUItemContainerComponent
  have h2 : (N - TArray.Num s.InventoryIndices).toNat ≤ N.toNat := by
    simp only [TArray.Num]; omega
  simp only [unequipMeasure]
  omega

theorem UnequipItemSpecificSlot_shrinks (w : World) (S N : Int) (ign : List Int)
    (bCanStack T : Bool) (sp i j : Int) (fuel : Nat) (x : UnequipLocals)
    (hfuel : x.s.InventoryAmounts.length + 2 * N.toNat + 1 < fuel) :
    Yields (fun r => ShrinksEquipment x.s r.1.s)
      (ItemUnequipInternal.UnequipItemSpecificSlot w S N ign bCanStack T sp i j fuel x) := by
  have hrec : ∀ (y : UnequipLocals), y.s.InventoryAmounts.length ≤ x.s.InventoryAmounts.length + 1 →
      ShrinksEquipment x.s y.s →
      Yields (fun r => x.s.ShrinksEquipment r.1.s)
        (ItemUnequipInternal.UnequipItemWithoutSpecificSlot w S N ign bCanStack T i j fuel y) :=
    fun y hlen hy =>
      (UnequipItemWithoutSpecificSlot_shrinks w S N ign bCanStack T i j fuel y
        (by have := unequipMeasure_le S N y.s; omega)).mono (fun r hr => hy.andThen hr)
  have hfin : ∀ (u : UInventorySystemComponent), ShrinksEquipment x.s u →
      Yields (fun a => Yields (fun a => x.s.ShrinksEquipment a) (a.removeEquipmentRecord i))
        (u.removeEquipmentStats j) := fun u hu =>
    (removeEquipmentStats_shrinks u j).mono (fun t ht =>
      (removeEquipmentRecord_shrinks t i).mono (fun v hv => (hu.andThen ht.1).andThen hv.1))
  unfold ItemUnequipInternal.UnequipItemSpecificSlot
  simp only [Yields_bind, Yields_pure, Yields_ite, Yields_get, Yields_set]
  repeat' first
    | exact ShrinksEquipment.unchanged _
    | exact hfin _ ⟨fun _ h => h, rfl⟩
    | exact hrec _ (by simp [TArray.Add]) ⟨fun _ h => h, rfl⟩
    | intro _
    | refine And.intro ?_ ?_

theorem ItemUnequipInternal_shrinks (w : World) (s : UInventorySystemComponent) (e : Int)
    (ign : List Int) (b : Bool) (sp : Int) :
    Yields (fun r => ShrinksEquipment s r.1) (ItemUnequipInternal w s e ign b sp) := by
  unfold ItemUnequipInternal
  simp only [Yields_bind, Yields_pure, Yields_ite, Yields_get]
  refine ⟨fun _ => ShrinksEquipment.unchanged _, fun _ => ⟨fun _ => ShrinksEquipment.unchanged _,
    fun _ => ⟨fun _ => ShrinksEquipment.unchanged _, fun _ asset _ => ?_⟩⟩⟩
  split
  · exact ShrinksEquipment.unchanged _
  · simp only [Yields_bind, Yields_pure]
    exact (UnequipItemSpecificSlot_shrinks w _ _ ign b _ sp _ _ _ ⟨s, []⟩ (by simp)).mono
      (fun r hr => hr)

theorem ItemUnequip_shrinks (w : World) (s : UInventorySystemComponent) (e : Int)
    (ign : List Int) (b : Bool) (sp : Int) :
    Yields (fun r => ShrinksEquipment s r.1) (ItemUnequip w s e ign b sp) := by
  unfold ItemUnequip
  simp only [Yields_bind, Yields_pure, Yields_ite]
  refine ⟨fun _ => ShrinksEquipment.unchanged _, fun _ => ⟨fun _ => ShrinksEquipment.unchanged _, fun _ => ?_⟩⟩
  refine (ItemUnequipInternal_shrinks w _ e ign b sp).mono (fun r hr => ?_)
  exact ⟨fun _ => ⟨fun slot h => hr.1 slot h, hr.2⟩, fun _ => ⟨fun slot h => hr.1 slot h, hr.2⟩⟩

end UInventorySystemComponent

namespace UInventorySystemComponent
open TArray UItemContainerComponent

theorem TypedSlots.flag {s : UInventorySystemComponent} (h : TypedSlots s) (b : Bool) :
    TypedSlots { s with bIsProcessing := b } := ⟨h.typed⟩

theorem RemoveEquipmentAmountFromSlot_shrinks (w : World) (s : UInventorySystemComponent)
    (e n : Int) :
    Yields (fun r => ShrinksEquipment s r.1) (RemoveEquipmentAmountFromSlot w s e n) := by
  unfold RemoveEquipmentAmountFromSlot
  simp only [Yields_bind, Yields_pure, Yields_ite, Yields_get, Yields_set, Yields_RemoveAt]
  repeat' first
    | exact ShrinksEquipment.unchanged _
    | exact ⟨fun _ h => h, rfl⟩
    | exact ⟨fun _ h => List.mem_of_mem_eraseIdx h, rfl⟩
    | intro _
    | refine And.intro ?_ ?_

theorem SwapItems_oneEquipped_typed (w : World) {s : UInventorySystemComponent}
    (hs : TypedSlots s) (First Second i j : Int) {t : Int} (k : Int)
    (ht : t ∈ s.EquipmentTypeIndices) :
    Yields (fun r => TypedSlots r.1) (SwapItems.oneEquipped w s First Second i j t k) := by
  unfold SwapItems.oneEquipped
  simp only [Yields_bind, Yields_pure, Yields_ite, Yields_get, Yields_set]
  intro asset _
  split
  · exact ⟨hs.typed⟩
  · simp only [Yields_bind, Yields_pure, Yields_ite, Yields_get, Yields_set]
    have hset : ∀ slot ∈ s.EquipmentIndices.set i.toNat t, slot ∈ s.EquipmentTypeIndices := by
      intro slot hslot
      rcases List.mem_or_eq_of_mem_set hslot with h | h
      · exact hs.typed slot h
      · exact h ▸ ht
    repeat' first
      | exact ⟨hs.typed⟩
      | exact ⟨hset⟩
      | intro _
      | refine And.intro ?_ ?_

theorem SwapItems_bothEquipped_shrinks (w : World) (s : UInventorySystemComponent)
    (First Second : Int) (b : Bool) (i j ti tj si sj : Int) :
    Yields (fun r => ShrinksEquipment s r.1)
      (SwapItems.bothEquipped w s First Second b i j ti tj si sj) := by
  unfold SwapItems.bothEquipped
  simp only [Yields_bind, Yields_pure, Yields_ite, Yields_get, Yields_set]
  refine ⟨fun _ => ShrinksEquipment.unchanged _, fun _ a1 _ a2 _ => ?_⟩
  split
  · simp only [Yields_bind, Yields_pure, Yields_ite, Yields_get, Yields_set, Yields_RemoveAt,
      Yields_Swap]
    repeat' first
      | exact ShrinksEquipment.unchanged _
      | exact ⟨fun _ h => h, rfl⟩
      | exact ⟨fun _ h => List.mem_of_mem_eraseIdx h, rfl⟩
      | intro _
      | refine And.intro ?_ ?_
  · exact ShrinksEquipment.unchanged _

theorem SwapItems_equipment_typed (w : World) {s : UInventorySystemComponent}
    (hs : TypedSlots s) (First Second : Int) (bCanStack : Bool) :
    Yields (fun r => TypedSlots r.1)
      (UInventorySystemComponent.SwapItems w s First Second bCanStack true) := by
  unfold UInventorySystemComponent.SwapItems
  simp only [Yields_bind, Yields_pure, Yields_ite, not_true_eq_false, false_implies, true_and,
    not_false_eq_true, true_implies]
  refine ⟨fun _ => ⟨hs.typed⟩, fun _ => ⟨fun _ => ⟨hs.typed⟩, fun _ => ⟨fun _ => ⟨hs.typed⟩, fun hg =>
    ⟨fun _ => ⟨hs.typed⟩, fun _ => ⟨fun _ => ⟨hs.typed⟩, fun _ => ⟨fun _ => ?_, fun _ => ⟨fun _ => ?_, fun _ => ?_⟩⟩⟩⟩⟩⟩⟩
  · exact (SwapItems_bothEquipped_shrinks w _ First Second bCanStack _ _ _ _ _ _).mono
      (fun r hr => ⟨(hr.keepsTyped ⟨hs.typed⟩).typed⟩)
  · refine SwapItems_oneEquipped_typed w (s := { s with bIsProcessing := true }) ⟨hs.typed⟩ _ _ _ _ _ ?_
    have hc : Contains s.EquipmentTypeIndices Second = true := by
      by_contra h; exact hg (Or.inr (Or.inr (Or.inr h)))
    simpa [Contains] using hc
  · refine SwapItems_oneEquipped_typed w (s := { s with bIsProcessing := true }) ⟨hs.typed⟩ _ _ _ _ _ ?_
    have hc : Contains s.EquipmentTypeIndices First = true := by
      by_contra h; exact hg (Or.inr (Or.inr (Or.inl h)))
    simpa [Contains] using hc

theorem mem_AddUnique {l : List Int} {x : Int} (y : Int) (h : x ∈ l) :
    x ∈ (AddUnique l y).1 := by
  unfold AddUnique
  split
  · exact h
  · exact List.mem_append_left _ h

theorem mem_of_mem_AddUnique {l : List Int} {x y : Int} (h : x ∈ (AddUnique l y).1) :
    x ∈ l ∨ x = y := by
  unfold AddUnique at h
  split at h
  · exact Or.inl h
  · simpa using h

theorem SetEquipmentType_typed (w : World) (cls : Nat) (hcls : cls ≠ 0)
    {s : UInventorySystemComponent} (hs : TypedSlots s) (Slot : Int) (T : FPrimaryAssetId) :
    Yields (fun r => TypedSlots r.1) (SetEquipmentType w cls s Slot T) := by
  unfold SetEquipmentType
  simp only [Yields_bind, Yields_pure, Yields_ite, Yields_get, Yields_set, Yields_RemoveAt]
  refine ⟨fun _ => ⟨hs.typed⟩, fun _ => ⟨fun _ => ⟨hs.typed⟩, fun _ => ⟨fun _ => ⟨hs.typed⟩, fun hT => ⟨fun _ => ⟨fun _ => ⟨hs.typed⟩,
    fun _ => ?_⟩, fun _ => ⟨fun _ => ⟨hs.typed⟩, fun _ => ⟨fun _ => ?_, fun _ => ?_⟩⟩⟩⟩⟩⟩
  · exact ⟨fun slot h => mem_AddUnique Slot (hs.typed slot h)⟩
  · have hTne : T ≠ FPrimaryAssetId.None := by
      intro hN
      rw [hN] at hT
      exact hcls (not_not.mp hT).symm
    refine (ItemUnequipInternal_shrinks w _ Slot [] true INDEX_NONE).mono (fun r hr => ?_)
    have ht : TypedSlots r.1 := hr.keepsTyped ⟨hs.typed⟩
    exact ⟨fun _ => ⟨ht.typed⟩, fun _ => ⟨fun hN => absurd hN hTne, fun _ _ => ⟨ht.typed⟩⟩⟩
  · have hTne : T ≠ FPrimaryAssetId.None := by
      intro hN
      rw [hN] at hT
      exact hcls (not_not.mp hT).symm
    exact ⟨fun _ => ⟨hs.typed⟩, fun _ => ⟨fun hN => absurd hN hTne, fun _ _ => ⟨hs.typed⟩⟩⟩

end UInventorySystemComponent

namespace UItemContainerComponent
open TArray

theorem AddItemInternal_returns (w : World) (c : UItemContainerComponent) (S N : Int)
    (asset : FPrimaryAssetId) (stats : FItemProperties) (n : Int) (bCanStack bRevert : Bool) :
    Yields (fun _ => True) (AddItemInternal w c S N asset stats n bCanStack bRevert) := by
  unfold AddItemInternal
  split
  · trivial
  · split
    · trivial
    · split
      · trivial
      · rename_i AssetData _
        have hnew := AddNewItem_returns w S N asset stats bCanStack AssetData.bCanStack bRevert c
          (c.InventoryAmounts.length + 1) ⟨c, n, []⟩
          (Nat.lt_succ_of_le (openStackCount_le S c))
        split
        · rename_i e he
          rw [he] at hnew; exact hnew
        · trivial

end UItemContainerComponent

namespace UInventorySystemComponent
open TArray UItemContainerComponent

theorem SameEquipmentSlots.self (s : UInventorySystemComponent) : SameEquipmentSlots s s :=
  ⟨rfl, rfl⟩

theorem SameEquipmentSlots.chain {s t u : UInventorySystemComponent}
    (h1 : SameEquipmentSlots s t) (h2 : SameEquipmentSlots t u) : SameEquipmentSlots s u :=
  ⟨h2.1.trans h1.1, h2.2.trans h1.2⟩

theorem SameEquipmentSlots.preservesTyped {s t : UInventorySystemComponent}
    (h : SameEquipmentSlots s t) (hs : TypedSlots s) : TypedSlots t := by
  refine ⟨fun slot hm => ?_⟩
  rw [h.2]
  exact hs.typed slot (h.1 ▸ hm)

theorem addToInventory_same (w : World) (s : UInventorySystemComponent)
    (asset : FPrimaryAssetId) (stats : FItemProperties) (n : Int) (b r : Bool) :
    Yields (fun x => SameEquipmentSlots s x.1) (addToInventory w s asset stats n b r) := by
  unfold addToInventory
  simp only [Yields_bind, Yields_pure]
  exact (AddItemInternal_returns w _ _ _ asset stats n b r).mono (fun _ _ => ⟨rfl, rfl⟩)

theorem AddItemToEquipmentSlot_storeStats_same (s : UInventorySystemComponent) (e : Int)
    (stats : FItemProperties) :
    Yields (fun x => SameEquipmentSlots s x.1) (AddItemToEquipmentSlot.storeStats s e stats) := by
  unfold AddItemToEquipmentSlot.storeStats
  simp only [Yields_bind, Yields_pure, Yields_ite, Yields_RemoveAt]
  repeat' first
    | exact ⟨rfl, rfl⟩
    | intro _
    | refine And.intro ?_ ?_

theorem AddItemToEquipmentSlot_overflow_same (w : World) (s : UInventorySystemComponent)
    (asset : FPrimaryAssetId) (stats : FItemProperties) (n m : Int) (b : Bool) (l : List Int) :
    Yields (fun x => SameEquipmentSlots s x.1)
      (AddItemToEquipmentSlot.overflow w s asset stats n m b l) := by
  unfold AddItemToEquipmentSlot.overflow
  simp only [Yields_bind, Yields_pure, Yields_ite]
  refine ⟨fun _ => ?_, fun _ => ⟨rfl, rfl⟩⟩
  exact (addToInventory_same w s asset stats _ b false).mono (fun r hr => hr)

theorem AddItemToEquipmentSlot_create_typed (w : World) {s : UInventorySystemComponent}
    (hs : TypedSlots s) (asset : FPrimaryAssetId) {e : Int} (he : e ∈ s.EquipmentTypeIndices)
    (stats : FItemProperties) (n m : Int) (b : Bool) :
    Yields (fun x => TypedSlots x.1) (AddItemToEquipmentSlot.create w s asset e stats n m b) := by
  unfold AddItemToEquipmentSlot.create
  simp only [Yields_bind, Yields_pure, Yields_ite]
  refine (AddItemToEquipmentSlot_storeStats_same s e stats).mono (fun r hr => ?_)
  have hr' : TypedSlots r.1 := hr.preservesTyped hs
  refine ⟨fun _ => ⟨hr'.typed⟩, fun _ => ?_⟩
  refine (AddItemToEquipmentSlot_overflow_same w _ asset stats n m b []).mono (fun u hu => ?_)
  refine ⟨fun slot hslot => ?_⟩
  have hu1 : u.1.EquipmentIndices = (AddUnique r.1.EquipmentIndices e).1 := hu.1
  have h1 : slot ∈ (AddUnique r.1.EquipmentIndices e).1 := hu1 ▸ hslot
  have h2 : u.1.EquipmentTypeIndices = s.EquipmentTypeIndices := hu.2.trans hr.2
  show slot ∈ u.1.EquipmentTypeIndices
  rw [h2]
  rcases mem_of_mem_AddUnique h1 with h | h
  · exact hs.typed slot (hr.1 ▸ h)
  · exact h ▸ he

theorem AddItemToEquipmentSlot_stack_same (w : World) (s : UInventorySystemComponent)
    (asset : FPrimaryAssetId) (e : Int) (stats : FItemProperties) (n : Int) (b T : Bool)
    (i : Int) :
    Yields (fun x => match x with
        | some r => SameEquipmentSlots s r.1
        | none => True)
      (AddItemToEquipmentSlot.stack w s asset e stats n b T i) := by
  unfold AddItemToEquipmentSlot.stack
  simp only [Yields_bind, Yields_pure, Yields_ite, Yields_get, Yields_set]
  repeat' first
    | trivial
    | exact ⟨rfl, rfl⟩
    | exact (addToInventory_same w _ _ _ _ _ _).mono (fun x hx => ⟨hx.1, hx.2⟩)
    | intro _
    | refine And.intro ?_ ?_

theorem AddItemToEquipmentSlot_unequip_same (w : World) (s : UInventorySystemComponent)
    (e : Int) (b : Bool) (i : Int) :
    Yields (fun x => SameEquipmentSlots s x.1) (AddItemToEquipmentSlot.unequip w s e b i) := by
  unfold AddItemToEquipmentSlot.unequip
  simp only [Yields_bind, Yields_pure, Yields_ite, Yields_get, Yields_set, Yields_RemoveAt]
  repeat' first
    | exact ⟨rfl, rfl⟩
    | exact ⟨(‹SameEquipmentSlots _ _›).1, (‹SameEquipmentSlots _ _›).2⟩
    | refine (addToInventory_same w _ _ _ _ _ _).mono (fun x hx => ?_)
    | intro _
    | refine And.intro ?_ ?_
    | (split <;>
        try simp only [Yields_bind, Yields_pure, Yields_ite, Yields_get, Yields_set,
          Yields_RemoveAt])

theorem AddItemToEquipmentSlot_replace_same (w : World) (s : UInventorySystemComponent)
    (asset : FPrimaryAssetId) (e : Int) (stats : FItemProperties) (n m : Int) (b : Bool)
    (i : Int) (l : List Int) :
    Yields (fun x => SameEquipmentSlots s x.1)
      (AddItemToEquipmentSlot.replace w s asset e stats n m b i l) := by
  unfold AddItemToEquipmentSlot.replace
  simp only [Yields_bind, Yields_pure, Yields_ite, Yields_get, Yields_set, Yields_RemoveAt]
  repeat' first
    | exact ⟨rfl, rfl⟩
    | exact ⟨hu.1.trans hx.1, hu.2.trans hx.2⟩
    | exact ⟨hu.1, hu.2⟩
    | exact ⟨hx.1, hx.2⟩
    | refine (AddItemToEquipmentSlot_storeStats_same _ _ _).mono (fun x hx => ?_)
    | refine (AddItemToEquipmentSlot_overflow_same w _ _ _ _ _ _ _).mono (fun u hu => ?_)
    | intro _
    | refine And.intro ?_ ?_

theorem AddItemToEquipmentSlot_typed (w : World) {s : UInventorySystemComponent}
    (hs : TypedSlots s) (asset : FPrimaryAssetId) (e : Int) (stats : FItemProperties) (n : Int)
    (bUnequipStack bCanStack : Bool) :
    Yields (fun x => TypedSlots x.1)
      (AddItemToEquipmentSlot w s asset e stats n bUnequipStack bCanStack) := by
  unfold AddItemToEquipmentSlot
  simp only [Yields_bind, Yields_pure, Yields_ite, Yields_get, not_true_eq_false, false_implies,
    and_true, true_implies]
  refine ⟨fun _ => ⟨hs.typed⟩, fun _ => ⟨fun _ => ⟨hs.typed⟩, fun _ => ⟨fun _ => ⟨hs.typed⟩, fun hg T _ =>
    ⟨fun _ => ⟨hs.typed⟩, fun _ => ⟨fun _ => ⟨hs.typed⟩, fun _ => ?_⟩⟩⟩⟩⟩
  have he : e ∈ s.EquipmentTypeIndices := by
    by_contra hmem
    exact hg (Or.inr (Or.inr (Or.inr (Or.inl ((Find_eq_none_iff _ _).mpr hmem)))))
  split
  · exact ⟨hs.typed⟩
  · simp only [Yields_bind, Yields_pure, Yields_ite, Yields_get]
    refine ⟨fun _ => ⟨hs.typed⟩, fun _ SlotType _ => ⟨fun _ => ⟨hs.typed⟩, fun _ => ⟨fun _ => ?_, fun _ => ?_⟩⟩⟩
    · refine (AddItemToEquipmentSlot_stack_same w _ asset e stats n bCanStack _ _).mono
        (fun x hx => ?_)
      split
      · exact hx.preservesTyped ⟨hs.typed⟩
      · simp only [Yields_bind]
        refine (AddItemToEquipmentSlot_unequip_same w _ e bUnequipStack _).mono (fun y hy => ?_)
        split
        · exact ⟨(hy.preservesTyped ⟨hs.typed⟩).typed⟩
        · exact (AddItemToEquipmentSlot_replace_same w _ asset e stats n _ bCanStack _ _).mono
            (fun z hz => (hy.chain hz).preservesTyped ⟨hs.typed⟩)
    · exact AddItemToEquipmentSlot_create_typed w (s := { s with bIsProcessing := true }) ⟨hs.typed⟩
        asset he stats n _ bCanStack

end UInventorySystemComponent

namespace UInventorySystemComponent
open TArray UItemContainerComponent

theorem mem_of_get {l : List Int} {i x : Int} (h : TArray.get l i = .ok x) : x ∈ l :=
  List.getElem?_mem (getElem?_of_get h)

theorem TypedSlots.of_added {s t : UInventorySystemComponent} {e : Int} (hs : TypedSlots s)
    (he : e ∈ s.EquipmentTypeIndices)
    (h1 : ∀ slot ∈ t.EquipmentIndices, slot ∈ s.EquipmentIndices ∨ slot = e)
    (h2 : t.EquipmentTypeIndices = s.EquipmentTypeIndices) : TypedSlots t := by
  refine ⟨fun slot hslot => ?_⟩
  rw [h2]
  rcases h1 slot hslot with h | h
  · exact hs.typed slot h
  · exact h ▸ he

theorem ItemEquipFromInventory_dropCreated_shrinks (s : UInventorySystemComponent) (k : Int) :
    Yields (fun t => ShrinksEquipment s t) (ItemEquipFromInventory.dropCreated s k) := by
  unfold ItemEquipFromInventory.dropCreated
  simp only [Yields_bind, Yields_pure, Yields_ite, Yields_RemoveAt]
  repeat' first
    | exact ShrinksEquipment.unchanged _
    | exact ⟨fun _ h => List.mem_of_mem_eraseIdx h, rfl⟩
    | intro _
    | refine And.intro ?_ ?_

theorem ItemEquipFromInventory_findTypeSlot_typed {s : UInventorySystemComponent}
    (hs : TypedSlots s) (types : List FPrimaryAssetId) :
    Yields (fun r => match r with
        | some t => TypedSlots t.1
        | none => True)
      (ItemEquipFromInventory.findTypeSlot s types) := by
  unfold ItemEquipFromInventory.findTypeSlot
  split
  · trivial
  · simp only [Yields_bind, Yields_pure, Yields_ite, Yields_get]
    intro TypeSlot hget
    refine ⟨fun _ => ?_, fun _ => hs⟩
    exact hs.of_added (mem_of_get hget) (fun slot h => mem_of_mem_AddUnique h) rfl

theorem ItemEquipFromInventory_addInventoryRecord_same (s : UInventorySystemComponent)
    (slot : Int) (asset : FPrimaryAssetId) (n j : Int) (stats : FItemProperties) :
    SameEquipmentSlots s (ItemEquipFromInventory.addInventoryRecord s slot asset n j stats) := by
  unfold ItemEquipFromInventory.addInventoryRecord
  dsimp only
  split <;> exact ⟨rfl, rfl⟩

theorem ItemEquipFromInventory_removeInventoryRecord_same (s : UInventorySystemComponent)
    (i j : Int) :
    Yields (fun t => SameEquipmentSlots s t)
      (ItemEquipFromInventory.removeInventoryRecord s i j) := by
  unfold ItemEquipFromInventory.removeInventoryRecord
  simp only [Yields_bind, Yields_pure, Yields_ite, Yields_RemoveAt]
  repeat' first
    | exact ⟨rfl, rfl⟩
    | intro _
    | refine And.intro ?_ ?_

theorem ItemEquipFromInventory_vacant_typed (w : World) {s : UInventorySystemComponent}
    (hs : TypedSlots s) (Slot : Int) {e : Int} (he : e ∈ s.EquipmentTypeIndices) (b : Bool)
    (i k j : Int) :
    Yields (fun r => TypedSlots r.1) (ItemEquipFromInventory.vacant w s Slot e b i k j) := by
  have hadd : ∀ t : UInventorySystemComponent,
      (∀ slot ∈ t.EquipmentIndices, slot ∈ s.EquipmentIndices ∨ slot = e) →
      t.EquipmentTypeIndices = s.EquipmentTypeIndices → TypedSlots t :=
    fun t h1 h2 => hs.of_added he h1 h2
  unfold ItemEquipFromInventory.vacant
  simp only [Yields_bind, Yields_pure, Yields_ite, Yields_get, Yields_set, Yields_RemoveAt]
  repeat' first
    | exact ⟨hs.typed⟩
    | exact hadd _ (fun slot h => mem_of_mem_AddUnique h) rfl
    | exact ⟨(hx.preservesTyped (hadd _ (fun slot h => mem_of_mem_AddUnique h) rfl)).typed⟩
    | exact ⟨(hx.preservesTyped ⟨hs.typed⟩).typed⟩
    | refine (ItemEquipFromInventory_removeInventoryRecord_same _ _ _).mono (fun x hx => ?_)
    | intro _
    | refine And.intro ?_ ?_

theorem ItemEquipFromInventory_occupied_typed (w : World) {s : UInventorySystemComponent}
    (hs : TypedSlots s) (Slot : Int) {e : Int} (he : e ∈ s.EquipmentTypeIndices)
    (bUnequipStack b T : Bool) (i ei k j ej : Int) :
    Yields (fun r => TypedSlots r.1)
      (ItemEquipFromInventory.occupied w s Slot e bUnequipStack b T i ei k j ej) := by
  have hadd : ∀ t : UInventorySystemComponent,
      (∀ slot ∈ t.EquipmentIndices, slot ∈ s.EquipmentIndices ∨ slot = e) →
      t.EquipmentTypeIndices = s.EquipmentTypeIndices → TypedSlots t :=
    fun t h1 h2 => hs.of_added he h1 h2
  have hgrow : ∀ (r t : UInventorySystemComponent), ShrinksEquipment s r →
      (∀ slot ∈ t.EquipmentIndices, slot ∈ (AddUnique r.EquipmentIndices e).1) →
      t.EquipmentTypeIndices = r.EquipmentTypeIndices → TypedSlots t :=
    fun r t hr h1 h2 =>
      hadd t (fun slot h => (mem_of_mem_AddUnique (h1 slot h)).imp (hr.1 slot) id) (h2.trans hr.2)
  unfold ItemEquipFromInventory.occupied
  simp only [Yields_bind, Yields_pure, Yields_ite, Yields_get, Yields_set, Yields_RemoveAt]
  repeat' first
    | refine (ItemUnequipInternal_shrinks w _ _ _ _ _).mono (fun r hr => ?_)
    | refine (ItemEquipFromInventory_dropCreated_shrinks _ _).mono (fun u hu => ?_)
    | intro _
    | refine And.intro ?_ ?_
    | exact ⟨hs.typed⟩
    | exact ⟨(hu.keepsTyped ((ItemEquipFromInventory_addInventoryRecord_same _ _ _ _ _ _).preservesTyped
        (hr.keepsTyped ⟨hs.typed⟩))).typed⟩
    | (refine hgrow r.1 _ ⟨hr.1, hr.2⟩ ?_ ?_ <;>
        simp only [ItemEquipFromInventory.addInventoryRecord] <;> split_ifs <;>
        first | exact fun _ h => h | rfl)

theorem ItemEquipFromInventory_typed (w : World) {s : UInventorySystemComponent}
    (hs : TypedSlots s) (Slot e : Int) (bUnequipStack b : Bool) :
    Yields (fun r => TypedSlots r.1) (ItemEquipFromInventory w s Slot e bUnequipStack b) := by
  unfold ItemEquipFromInventory
  simp only [Yields_bind, Yields_pure, Yields_ite, Yields_get]
  refine ⟨fun _ => ⟨hs.typed⟩, fun _ => ⟨fun _ => ⟨hs.typed⟩, fun _ => ⟨fun _ => ⟨hs.typed⟩,
    fun _ => ⟨fun _ => ⟨hs.typed⟩, fun _ asset _ => ?_⟩⟩⟩⟩
  split
  · exact ⟨hs.typed⟩
  · simp only [Yields_bind, Yields_pure, Yields_ite, Yields_get, not_true_eq_false,
      false_implies, and_true, true_implies]
    refine ⟨fun _ => ⟨hs.typed⟩, fun _ => ⟨fun _ => ?_, fun _ => ?_⟩⟩
    · refine (ItemEquipFromInventory_findTypeSlot_typed (s := { s with bIsProcessing := true })
        ⟨hs.typed⟩ _).mono (fun a ha => ?_)
      split
      · exact ⟨hs.typed⟩
      · rename_i s1 R C
        have hs1 : TypedSlots s1 := ha
        simp only [Yields_bind, Yields_pure, Yields_ite, Yields_get, not_true_eq_false,
          false_implies, and_true, true_implies]
        repeat' first
          | refine (ItemEquipFromInventory_dropCreated_shrinks _ _).mono (fun u hu => ?_)
          | exact ItemEquipFromInventory_occupied_typed w hs1 Slot
              (by by_contra hmem
                  exact (‹¬(Find _ _ = INDEX_NONE ∨ _)›) (Or.inl ((Find_eq_none_iff _ _).mpr hmem)))
              _ _ _ _ _ _ _ _
          | exact ItemEquipFromInventory_vacant_typed w hs1 Slot
              (by by_contra hmem
                  exact (‹¬(Find _ _ = INDEX_NONE ∨ _)›) (Or.inl ((Find_eq_none_iff _ _).mpr hmem)))
              _ _ _ _
          | intro _
          | refine And.intro ?_ ?_
          | exact ⟨(hu.keepsTyped hs1).typed⟩
    · have hs1 : TypedSlots { s with bIsProcessing := true } := ⟨hs.typed⟩
      repeat' first
        | refine (ItemEquipFromInventory_dropCreated_shrinks _ _).mono (fun u hu => ?_)
        | exact ItemEquipFromInventory_occupied_typed w hs1 Slot
            (by by_contra hmem
                exact (‹¬(Find _ _ = INDEX_NONE ∨ _)›) (Or.inl ((Find_eq_none_iff _ _).mpr hmem)))
            _ _ _ _ _ _ _ _
        | exact ItemEquipFromInventory_vacant_typed w hs1 Slot
            (by by_contra hmem
                exact (‹¬(Find _ _ = INDEX_NONE ∨ _)›) (Or.inl ((Find_eq_none_iff _ _).mpr hmem)))
            _ _ _ _
        | intro _
        | refine And.intro ?_ ?_
        | exact ⟨(hu.keepsTyped hs1).typed⟩

end UInventorySystemComponent

section UnitsLemmas

theorem FItemProperties.eqList_trans :
    ∀ l1 l2 l3 : List FItemProperty, FItemProperties.eqList l1 l2 = true →
      FItemProperties.eqList l1 l3 = FItemProperties.eqList l2 l3
  | [], [], _, _ => rfl
  | [], _ :: _, _, h => by simp [FItemProperties.eqList] at h
  | _ :: _, [], _, h => by simp [FItemProperties.eqList] at h
  | a :: as, b :: bs, [], _ => rfl
  | a :: as, b :: bs, c :: cs, h => by
    simp only [FItemProperties.eqList, FItemProperty.eq, FString.eq, Bool.and_eq_true,
      decide_eq_true_eq] at h
    obtain ⟨⟨h1, h2⟩, h3⟩ := h
    simp only [FItemProperties.eqList, FItemProperty.eq, FString.eq, h1, h2,
      FItemProperties.eqList_trans as bs cs h3]

theorem FItemProperties.eq_congr {b1 b2 : FItemProperties}
    (h : FItemProperties.eq b1 b2 = true) (b : FItemProperties) :
    FItemProperties.eq b1 b = FItemProperties.eq b2 b :=
  FItemProperties.eqList_trans _ _ _ h

theorem FItemProperties.eq_refl (b : FItemProperties) : FItemProperties.eq b b = true := by
  obtain ⟨l⟩ := b
  simp only [FItemProperties.eq]
  induction l with
  | nil => rfl
  | cons a as ih => simp [FItemProperties.eqList, FItemProperty.eq, FString.eq, ih]

theorem unitsOf_congr {r1 r2 : FInventorySlot} (ha : r1.Asset = r2.Asset)
    (hb : FItemProperties.eq r1.ItemProperties r2.ItemProperties = true)
    (hm : r1.Amount = r2.Amount) (a : FPrimaryAssetId) (b : FItemProperties) :
    r1.unitsOf a b = r2.unitsOf a b := by
  simp only [FInventorySlot.unitsOf, ha, hm, FItemProperties.eq_congr hb b]

theorem amountOf_eq_sum (rs : List FInventorySlot) (a : FPrimaryAssetId) (b : FItemProperties) :
    amountOf rs a b = (rs.map (fun r => r.unitsOf a b)).sum := by
  induction rs with
  | nil => rfl
  | cons r rs ih =>
    simp only [amountOf, List.filter_cons, List.map_cons, List.sum_cons] at ih ⊢
    by_cases h1 : r.Asset = a
    · by_cases h2 : FItemProperties.eq r.ItemProperties b = true
      · simp [FInventorySlot.unitsOf, h1, h2, ih]
      · simp [FInventorySlot.unitsOf, h1, h2, ih]
    · simp [FInventorySlot.unitsOf, h1, ih]

theorem sum_map_congr {l : List Int} {g g' : Int → Int} (h : ∀ t ∈ l, g' t = g t) :
    (l.map g').sum = (l.map g).sum := by
  rw [List.map_congr_left h]

theorem sum_map_update : ∀ {l : List Int}, l.Nodup → ∀ {s : Int}, s ∈ l →
    ∀ (g g' : Int → Int), (∀ t ∈ l, t ≠ s → g' t = g t) →
    (l.map g').sum = (l.map g).sum - g s + g' s
  | [], _, _, hs, _, _, _ => by simp at hs
  | x :: l, hl, s, hs, g, g', h => by
    have hxl : x ∉ l := (List.nodup_cons.mp hl).1
    have hl' : l.Nodup := (List.nodup_cons.mp hl).2
    by_cases hx : x = s
    · subst hx
      have hrest : (l.map g').sum = (l.map g).sum :=
        sum_map_congr (fun t ht => h t (List.mem_cons_of_mem _ ht) (fun hc => hxl (hc ▸ ht)))
      simp only [List.map_cons, List.sum_cons, hrest]
      omega
    · have hs' : s ∈ l := by
        rcases List.mem_cons.mp hs with h1 | h1
        · exact absurd h1.symm hx
        · exact h1
      have ih := sum_map_update hl' hs' g g' (fun t ht => h t (List.mem_cons_of_mem _ ht))
      simp only [List.map_cons, List.sum_cons, ih, h x (List.mem_cons_self _ _) hx]
      omega

theorem sum_map_eraseIdx_indexOf : ∀ {l : List Int}, l.Nodup → ∀ {s : Int}, s ∈ l →
    ∀ (g g' : Int → Int), (∀ t ∈ l, t ≠ s → g' t = g t) →
    ((l.eraseIdx (l.indexOf s)).map g').sum = (l.map g).sum - g s
  | [], _, _, hs, _, _, _ => by simp at hs
  | x :: l, hl, s, hs, g, g', h => by
    have hxl : x ∉ l := (List.nodup_cons.mp hl).1
    have hl' : l.Nodup := (List.nodup_cons.mp hl).2
    by_cases hx : x = s
    · subst hx
      have hrest : (l.map g').sum = (l.map g).sum :=
        sum_map_congr (fun t ht => h t (List.mem_cons_of_mem _ ht) (fun hc => hxl (hc ▸ ht)))
      simp only [List.indexOf_cons_self, List.eraseIdx_cons_zero, List.map_cons, List.sum_cons,
        hrest]
      omega
    · have hs' : s ∈ l := by
        rcases List.mem_cons.mp hs with h1 | h1
        · exact absurd h1.symm hx
        · exact h1
      have ih := sum_map_eraseIdx_indexOf hl' hs' g g'
        (fun t ht => h t (List.mem_cons_of_mem _ ht))
      rw [List.indexOf_cons_ne _ hx]
      simp only [List.eraseIdx_cons_succ, List.map_cons, List.sum_cons, ih,
        h x (List.mem_cons_self _ _) hx]
      omega

end UnitsLemmas

namespace UItemContainerComponent
open TArray

theorem StoredAmount_eq_sum (c : UItemContainerComponent) (a : FPrimaryAssetId)
    (b : FItemProperties) :
    StoredAmount c a b
      = (c.InventoryIndices.map (fun t => (GetInventorySlot c t).unitsOf a b)).sum := by
  rw [StoredAmount, amountOf_eq_sum, List.map_map]
  rfl

/-- Replacing the amount of slot `s` changes the units of its combination only. -/
theorem StoredAmount_withAmountAt {c : UItemContainerComponent} (h : Consistent c)
    (hu : c.InventoryIndices.Nodup) {s : Int} (hs : s ∈ c.InventoryIndices) (v : Int)
    (a : FPrimaryAssetId) (b : FItemProperties) :
    StoredAmount
        { c with InventoryAmounts := c.InventoryAmounts.set (Find c.InventoryIndices s).toNat v }
        a b
      = StoredAmount c a b - (GetInventorySlot c s).unitsOf a b
        + ({ GetInventorySlot c s with Amount := v } : FInventorySlot).unitsOf a b := by
  rw [StoredAmount_eq_sum, StoredAmount_eq_sum]
  have key := fun t => GetInventorySlot_withAmountAt h hs v t
  rw [sum_map_update hu hs (fun t => (GetInventorySlot c t).unitsOf a b)
    (fun t => (GetInventorySlot
      { c with InventoryAmounts := c.InventoryAmounts.set (Find c.InventoryIndices s).toNat v }
      t).unitsOf a b)
    (fun t _ hts => by dsimp only; rw [key t, if_neg hts])]
  dsimp only
  rw [key s, if_pos rfl]

/-- Taking the record of slot `s` out removes its units. -/
theorem StoredAmount_withoutRecord {c : UItemContainerComponent} (h : Consistent c)
    (hu : c.InventoryIndices.Nodup) (hsu : c.InventoryDynamicStatsIndices.Nodup) {s : Int}
    (hs : s ∈ c.InventoryIndices) (a : FPrimaryAssetId) (b : FItemProperties) :
    StoredAmount (withoutRecord c s) a b
      = StoredAmount c a b - (GetInventorySlot c s).unitsOf a b := by
  rw [StoredAmount_eq_sum, StoredAmount_eq_sum]
  have hidx : (withoutRecord c s).InventoryIndices
      = c.InventoryIndices.eraseIdx (c.InventoryIndices.indexOf s) := rfl
  rw [hidx]
  exact sum_map_eraseIdx_indexOf hu hs (fun t => (GetInventorySlot c t).unitsOf a b) _
    (fun t _ hts => by
      rw [GetInventorySlot_withoutRecord h hu hsu, if_neg hts])

end UItemContainerComponent

namespace UItemContainerComponent
open TArray

theorem unitsOf_eq (r : FInventorySlot) (a : FPrimaryAssetId) (b : FItemProperties) :
    r.unitsOf a b
      = if r.Asset = a ∧ FItemProperties.eq r.ItemProperties b = true then r.Amount else 0 := rfl

theorem Gains.ofAmountAt {c : UItemContainerComponent} (h : Consistent c)
    (hu : c.InventoryIndices.Nodup) (hsu : c.InventoryDynamicStatsIndices.Nodup) {s : Int}
    (hs : s ∈ c.InventoryIndices) (v : Int) :
    Gains c
      { c with InventoryAmounts := c.InventoryAmounts.set (Find c.InventoryIndices s).toNat v }
      (GetInventorySlot c s).Asset (GetInventorySlot c s).ItemProperties
      (v - (GetInventorySlot c s).Amount) := by
  refine ⟨h.withAmountAt _ v, hu, hsu, fun a b => ?_⟩
  rw [StoredAmount_withAmountAt h hu hs v a b, unitsOf_eq, unitsOf_eq]
  dsimp only
  split_ifs <;> omega

theorem Gains.ofRemoval {c : UItemContainerComponent} (h : Consistent c)
    (hu : c.InventoryIndices.Nodup) (hsu : c.InventoryDynamicStatsIndices.Nodup) {s : Int}
    (hs : s ∈ c.InventoryIndices) :
    Gains c (withoutRecord c s) (GetInventorySlot c s).Asset
      (GetInventorySlot c s).ItemProperties (-(GetInventorySlot c s).Amount) := by
  refine ⟨h.withoutRecord hu hsu s, Nodup_eraseIdx hu _, Nodup_eraseIdx hsu _, fun a b => ?_⟩
  rw [StoredAmount_withoutRecord h hu hsu hs a b, unitsOf_eq]
  split_ifs <;> omega

theorem Gains.congr {c c' : UItemContainerComponent} {a1 a2 : FPrimaryAssetId}
    {b1 b2 : FItemProperties} {k k' : Int} (h : Gains c c' a1 b1 k) (ha : a1 = a2)
    (hb : FItemProperties.eq b1 b2 = true) (hk : k = k') : Gains c c' a2 b2 k' := by
  refine ⟨h.consistent, h.unique, h.statsUnique, fun a b => ?_⟩
  rw [h.units a b, ha, FItemProperties.eq_congr hb b, hk]

end UItemContainerComponent

namespace UInventorySystemComponent
open TArray UItemContainerComponent

theorem Sound.of_gains {s t : UInventorySystemComponent} {asset : FPrimaryAssetId}
    {bag : FItemProperties} {k : Int}
    (h1 : Gains s.toUItemContainerComponent t.toUItemContainerComponent asset bag k)
    (h2 : Gains (equipmentContainer s) (equipmentContainer t) asset bag (-k)) :
    Sound t ∧ ∀ a b, held t a b = held s a b := by
  refine ⟨⟨h1.consistent, h1.unique, h1.statsUnique, h2.consistent, h2.unique, h2.statsUnique⟩,
    fun a b => ?_⟩
  simp only [held, h1.units a b, h2.units a b]
  split_ifs <;> omega

/-- The record of an occupied equipment slot and the positions behind it. -/
theorem Sound.equipped {s : UInventorySystemComponent} (hs : Sound s) {e : Int}
    (he : e ∈ s.EquipmentIndices) :
    ∃ (EA : FPrimaryAssetId) (E : Int) (EB : FItemProperties),
      Find s.EquipmentIndices e ≠ INDEX_NONE
      ∧ IsValidIndex s.EquipmentIndices (Find s.EquipmentIndices e) = true
      ∧ IsValidIndex s.EquipmentAssets (Find s.EquipmentIndices e) = true
      ∧ IsValidIndex s.EquipmentAmounts (Find s.EquipmentIndices e) = true
      ∧ TArray.get s.EquipmentAssets (Find s.EquipmentIndices e) = .ok EA
      ∧ TArray.get s.EquipmentAmounts (Find s.EquipmentIndices e) = .ok E
      ∧ GetInventorySlot (equipmentContainer s) e = ⟨e, EA, EB, E⟩
      ∧ ((Find s.EquipmentDynamicStatsIndices e = INDEX_NONE ∧ EB = FItemProperties.empty)
        ∨ (Find s.EquipmentDynamicStatsIndices e ≠ INDEX_NONE
          ∧ IsValidIndex s.EquipmentDynamicStats (Find s.EquipmentDynamicStatsIndices e) = true
          ∧ IsValidIndex s.EquipmentDynamicStatsIndices
              (Find s.EquipmentDynamicStatsIndices e) = true
          ∧ TArray.get s.EquipmentDynamicStats (Find s.EquipmentDynamicStatsIndices e) = .ok EB
          ∧ EB.ItemProperties ≠ [])) := by
  have hne : Find s.EquipmentIndices e ≠ INDEX_NONE := by
    rw [Ne, Find_eq_none_iff]; exact not_not.mpr he
  obtain ⟨h0, h1, _⟩ := Find_valid hne
  have hsy := hs.eqp.1
  have hvI : IsValidIndex s.EquipmentIndices (Find s.EquipmentIndices e) = true :=
    (IsValidIndex_iff _ _).mpr ⟨h0, h1⟩
  have hlA : s.EquipmentAssets.length = s.EquipmentIndices.length := hsy.assets
  have hlM : s.EquipmentAmounts.length = s.EquipmentIndices.length := hsy.amounts
  have hlS : s.EquipmentDynamicStats.length = s.EquipmentDynamicStatsIndices.length := hsy.stats
  have hvA : IsValidIndex s.EquipmentAssets (Find s.EquipmentIndices e) = true := by
    rw [IsValidIndex_of_length_eq hlA]; exact hvI
  have hvM : IsValidIndex s.EquipmentAmounts (Find s.EquipmentIndices e) = true := by
    rw [IsValidIndex_of_length_eq hlM]; exact hvI
  obtain ⟨EA, E, hgA, hgM, hcase⟩ := GetInventorySlot_of_mem hsy he
  rcases hcase with ⟨hj, hrec⟩ | ⟨bag, hj, hvS, hgS, hmem, hrec⟩
  · exact ⟨EA, E, FItemProperties.empty, hne, hvI, hvA, hvM, hgA, hgM, hrec, Or.inl ⟨hj, rfl⟩⟩
  · refine ⟨EA, E, bag, hne, hvI, hvA, hvM, hgA, hgM, hrec, Or.inr ⟨hj, hvS, ?_, hgS,
      hs.eqp.2 bag hmem⟩⟩
    rw [← IsValidIndex_of_length_eq hlS]; exact hvS

end UInventorySystemComponent

section ReturnsLemmas

variable {α β : Type}

theorem Returns_error (P : α → Prop) (e : Fault) : Returns P (Except.error e) ↔ False :=
  Iff.rfl

theorem Returns.yields {P : α → Prop} {r : Except Fault α} (h : Returns P r) : Yields P r := by
  cases r with
  | ok a => exact h
  | error e => exact absurd h (by simp [Returns])

end ReturnsLemmas

namespace UInventorySystemComponent
open TArray UItemContainerComponent

end UInventorySystemComponent

namespace UItemContainerComponent
open TArray

end UItemContainerComponent

namespace UItemContainerComponent
open TArray

end UItemContainerComponent

namespace UInventorySystemComponent
open TArray UItemContainerComponent

/-- What the equipment records lose is what the inventory records gain. -/
theorem Unequipped.equipmentGains {s t : UInventorySystemComponent} (hs : Sound s) {e : Int}
    (he : e ∈ s.EquipmentIndices) {k : Int} (h : Unequipped s t e k) :
    Gains (equipmentContainer s) (equipmentContainer t)
      (GetInventorySlot (equipmentContainer s) e).Asset
      (GetInventorySlot (equipmentContainer s) e).ItemProperties (-k) := by
  rcases h.equipment with heq | ⟨hk, heq⟩
  · rw [heq]
    exact (Gains.ofAmountAt hs.eqp hs.eqpUnique hs.eqpStatsUnique he _).congr rfl
      (FItemProperties.eq_refl _) (by omega)
  · rw [heq, hk]
    exact Gains.ofRemoval hs.eqp hs.eqpUnique hs.eqpStatsUnique he

theorem Unequipped.held {s t : UInventorySystemComponent} (hs : Sound s) {e : Int}
    (he : e ∈ s.EquipmentIndices) {k : Int} (h : Unequipped s t e k) (a : FPrimaryAssetId)
    (b : FItemProperties) : held t a b = held s a b :=
  (Sound.of_gains h.inventory (h.equipmentGains hs he)).2 a b

end UInventorySystemComponent

namespace UItemContainerComponent
open TArray

end UItemContainerComponent

namespace UInventorySystemComponent
open TArray UItemContainerComponent

end UInventorySystemComponent

namespace UInventorySystemComponent
open TArray UItemContainerComponent

end UInventorySystemComponent

namespace UItemContainerComponent
open TArray

theorem StoredAmount_flag (c : UItemContainerComponent) (b : Bool) (a : FPrimaryAssetId)
    (p : FItemProperties) :
    StoredAmount { c with bIsProcessing := b } a p = StoredAmount c a p := rfl

end UItemContainerComponent

namespace UInventorySystemComponent
open TArray UItemContainerComponent

end UInventorySystemComponent

namespace UInventorySystemComponent
open TArray UItemContainerComponent

/-- The equipment slot numbers after the move. -/
theorem Unequipped.mem_iff {s t : UInventorySystemComponent} (hs : Sound s) {e k : Int}
    (h : Unequipped s t e k) {e' : Int} (hne : e' ≠ e) :
    e' ∈ t.EquipmentIndices ↔ e' ∈ s.EquipmentIndices := by
  rcases h.equipment with heq | ⟨_, heq⟩
  · have : t.EquipmentIndices = s.EquipmentIndices :=
      congrArg UItemContainerComponent.InventoryIndices heq
    rw [this]
  · have : t.EquipmentIndices = s.EquipmentIndices.eraseIdx (s.EquipmentIndices.indexOf e) :=
      congrArg UItemContainerComponent.InventoryIndices heq
    rw [this, mem_eraseIdx_indexOf hs.eqpUnique]
    exact ⟨fun h => h.2, fun h => ⟨hne, h⟩⟩

/-- The record of the slot itself after the move. -/
theorem Unequipped.slot {s t : UInventorySystemComponent} (hs : Sound s) {e k : Int}
    (he : e ∈ s.EquipmentIndices) (h : Unequipped s t e k) :
    (e ∈ t.EquipmentIndices
      ∧ GetInventorySlot (equipmentContainer t) e
        = { GetInventorySlot (equipmentContainer s) e with
            Amount := (GetInventorySlot (equipmentContainer s) e).Amount - k })
    ∨ (k = (GetInventorySlot (equipmentContainer s) e).Amount ∧ e ∉ t.EquipmentIndices) := by
  rcases h.equipment with heq | ⟨hk, heq⟩
  · left
    have hI : t.EquipmentIndices = s.EquipmentIndices :=
      congrArg UItemContainerComponent.InventoryIndices heq
    refine ⟨hI ▸ he, ?_⟩
    rw [heq]
    have := GetInventorySlot_withAmountAt hs.eqp (s := e) he
      ((GetInventorySlot (equipmentContainer s) e).Amount - k) e
    rw [if_pos rfl] at this
    exact this
  · right
    have hI : t.EquipmentIndices = s.EquipmentIndices.eraseIdx (s.EquipmentIndices.indexOf e) :=
      congrArg UItemContainerComponent.InventoryIndices heq
    refine ⟨hk, ?_⟩
    rw [hI, mem_eraseIdx_indexOf hs.eqpUnique]
    exact fun hc => hc.1 rfl

end UInventorySystemComponent

namespace UItemContainerComponent
open TArray

namespace AddItemInternal

end AddItemInternal

end UItemContainerComponent

namespace UItemContainerComponent
open TArray

namespace AddItemInternal

end AddItemInternal

end UItemContainerComponent

/-! ## Theorems -/

section Claims

open TArray UItemContainerComponent UInventorySystemComponent Fixture

/-- C1 (code defect): equipping three arrows from inventory slot 1 into the empty hand
slot 1 with `bCanStack = false` reports success, puts one arrow into the equipment slot
and deletes the inventory record: the total drops from 3 to 1. -/
theorem equip_without_stacking_drops_units :
    TotalAmount world quiver arrow FItemProperties.empty = .ok 3
    ∧ ∃ after,
        ItemEquipFromInventory world quiver 1 1 true false
          = .ok (after, [.ItemEquipFromInventorySuccess true 1 1, .ChangedEquipmentSlots [1],
                         .ChangedInventorySlots [1]])
        ∧ after.InventoryIndices = [] ∧ after.EquipmentAmounts = [1]
        ∧ TotalAmount world after arrow FItemProperties.empty = .ok 1 := by
  refine ⟨by decide, _, rfl, ?_, ?_, ?_⟩ <;> decide

/-- C2 (code defect): adding 3 swords (not stackable) to an empty container with stack
limit 2 stores 2 + 1 + 1 = 4 swords and reports -1 units left. -/
theorem addItem_nonstackable_reports_negative_remainder :
    AddItem world (emptyContainer 2 5) sword FItemProperties.empty 3 false false
      = .ok (⟨[1, 2, 3], [sword, sword, sword], [2, 1, 1], [], [], false, 2, 5⟩,
             [.AddItemSuccess (-1) [1, 2, 3], .ChangedInventorySlots [1, 2, 3]])
    ∧ StoredAmount ⟨[1, 2, 3], [sword, sword, sword], [2, 1, 1], [], [], false, 2, 5⟩ sword
        FItemProperties.empty = 4 := by
  decide

/-- C3 (code defect): adding 10 swords (not stackable) to an empty container with stack
limit 10 and capacity 10 creates a record of 10 swords in slot 1, above the effective
limit 1. -/
theorem addItem_nonstackable_exceeds_effective_limit :
    ∃ after events,
      AddItem world (emptyContainer 10 10) sword FItemProperties.empty 10 false true
        = .ok (after, events)
      ∧ GetInventorySlot after 1 = ⟨1, sword, FItemProperties.empty, 10⟩
      ∧ (world.GetPrimaryAssetData sword).map (fun d => d.bCanStack) = some false := by
  refine ⟨_, _, rfl, ?_, ?_⟩ <;> decide

/-- C6 (code defect): the inventory (capacity 1) holds a sword, a shield is equipped.
Equipping the sword with `bCanStack = false` cannot unequip the shield (the only slot is
ignored), yet the call reports success, the sword's inventory record is gone and the
equipment arrays have different lengths. -/
theorem equip_continues_after_failed_unequip :
    ∃ after,
      ItemEquipFromInventory world armed 1 1 false false
        = .ok (after, [.ItemUnequipSuccess false 1 [], .ItemEquipFromInventorySuccess true 1 1,
                       .ChangedEquipmentSlots [1], .ChangedInventorySlots [1]])
      ∧ after.InventoryIndices = [] ∧ after.EquipmentIndices = [1]
      ∧ after.EquipmentAssets = [shield, sword] ∧ after.EquipmentAmounts = [1, 1]
      ∧ after ≠ armed := by
  refine ⟨_, rfl, ?_, ?_, ?_, ?_, ?_⟩ <;> decide

/-- C7 (code defect): swapping a stack of 7 potions onto a stack of 5 with merging
allowed and stack limit 10 leaves 12 potions in slot 2 and removes slot 1. -/
theorem swapItems_merge_exceeds_stack_limit :
    GetStackSizeConfig world twoStacks = 10
    ∧ SwapItems world twoStacks 1 2 true false
      = .ok (⟨[2], [potion], [12], [], [], false, 10, 5⟩,
             [.SwapItemSuccess true 1 2 false, .ChangedInventorySlots [1, 2]]) := by
  decide

/-- C8 (code defect): swapping two potions whose property bags differ, with merging
allowed, merges them: slot 2 holds 2 potions with bag B, slot 1 and bag A are gone. -/
theorem swapItems_merges_different_bags :
    FItemProperties.eq bagA bagB = false
    ∧ GetInventorySlot twoBags 1 = ⟨1, potion, bagA, 1⟩
    ∧ GetInventorySlot twoBags 2 = ⟨2, potion, bagB, 1⟩
    ∧ SwapItems world twoBags 1 2 true false
      = .ok (⟨[2], [potion], [2], [2], [bagB], false, 10, 5⟩,
             [.SwapItemSuccess true 1 2 false, .ChangedInventorySlots [1, 2]]) := by
  decide

/-- C9 (code defect): swapping slots 2 and 3, which both carry a property bag, exchanges
the bags stored at the inventory positions 1 and 2 of the property array, which belong
to slots 3 and 4: afterwards slot 2 still has bag A, slot 3 has bag C and the untouched
slot 4 has bag B. -/
theorem swapItems_exchanges_wrong_bags :
    ∃ after events,
      SwapItems world fourSlots 2 3 false false = .ok (after, events)
      ∧ GetInventorySlot fourSlots 2 = ⟨2, sword, bagA, 1⟩
      ∧ GetInventorySlot fourSlots 3 = ⟨3, shield, bagB, 1⟩
      ∧ GetInventorySlot fourSlots 4 = ⟨4, arrow, bagC, 1⟩
      ∧ GetInventorySlot after 2 = ⟨2, shield, bagA, 1⟩
      ∧ GetInventorySlot after 3 = ⟨3, sword, bagC, 1⟩
      ∧ GetInventorySlot after 4 = ⟨4, arrow, bagB, 1⟩ := by
  refine ⟨_, _, rfl, ?_, ?_, ?_, ?_, ?_, ?_⟩ <;> decide

/-- C10 (code defect): adding one potion to the empty slot 1 of an empty container
reports failure and leaves the container empty, with and without fallback. -/
theorem addItemToSlot_empty_slot_fitting_amount_fails :
    ∀ bEnableFallback : Bool,
      AddItemToSlot world (emptyContainer 10 5) potion 1 FItemProperties.empty 1 true bEnableFallback
        = .ok (emptyContainer 10 5,
               [.AddItemToSlotFailure potion 1 FItemProperties.empty (-9) bEnableFallback]) := by
  decide

/-- C11 (code defect): in a container of capacity 5 whose only record sits in slot 1,
`SwapItems` moves the record to the slot numbers 0, 99 and -3 and reports success, and
`AddItemToSlot` creates a record in slot 99 and reports success. -/
theorem slot_arguments_outside_range_are_accepted :
    GetInventorySizeConfig world sevenPotions = 5
    ∧ sevenPotions.InventoryIndices = [1]
    ∧ SwapItems world sevenPotions 1 0 false false
        = .ok (⟨[0], [potion], [7], [], [], false, 10, 5⟩,
               [.SwapItemSuccess true 1 0 false, .ChangedInventorySlots [1, 0]])
    ∧ SwapItems world sevenPotions 1 99 false false
        = .ok (⟨[99], [potion], [7], [], [], false, 10, 5⟩,
               [.SwapItemSuccess true 1 99 false, .ChangedInventorySlots [1, 99]])
    ∧ SwapItems world sevenPotions 1 (-3) false false
        = .ok (⟨[-3], [potion], [7], [], [], false, 10, 5⟩,
               [.SwapItemSuccess true 1 (-3) false, .ChangedInventorySlots [1, -3]])
    ∧ AddItemToSlot world sevenPotions potion 99 FItemProperties.empty 15 true false
        = .ok (⟨[1, 99], [potion, potion], [7, 10], [], [], false, 10, 5⟩,
               [.AddItemToSlotSuccess 5 99 false, .ChangedInventorySlots [99]]) := by
  decide

/-- C13 (code defect): `SetSlotAmount` called with `bIsEquipment = true` on an idle base
container returns with the processing flag set and without any broadcast; the next call
is then refused as busy. -/
theorem setSlotAmount_equipment_keeps_flag :
    sevenPotions.bIsProcessing = false
    ∧ SetSlotAmount world sevenPotions 1 3 true = .ok (busyPotions, [])
    ∧ busyPotions.bIsProcessing = true
    ∧ AddItem world busyPotions potion FItemProperties.empty 1 true false
        = .ok (busyPotions, [.AddItemFailure potion FItemProperties.empty 1]) := by
  decide

/-- C14 (code defect): `CollectAllItems` with an invalid other component, or with one that
is processing, reports failure but leaves the processing flag of this component set;
`AddItemToComponent` and `SwapItemWithComponent` clear it on the same path. -/
theorem collectAllItems_keeps_flag_on_busy_destination :
    sevenPotions.bIsProcessing = false
    ∧ CollectAllItems world sevenPotions none true
        = .ok (busyPotions, none, [.CollectAllItemsSuccess false true false])
    ∧ CollectAllItems world sevenPotions (some busyPotions) true
        = .ok (busyPotions, some busyPotions, [.CollectAllItemsSuccess false true false])
    ∧ busyPotions.bIsProcessing = true
    ∧ AddItemToComponent world sevenPotions 1 (some busyPotions) 1 true false
        = .ok (sevenPotions, some busyPotions, [.AddItemToComponentSuccess false 1 1 false])
    ∧ SwapItemWithComponent world sevenPotions 1 1 (some busyPotions) true
        = .ok (sevenPotions, some busyPotions, [.SwapItemWithComponentSuccess false 1 false]) := by
  decide

/-- C15: every mutating operation of the base container that is called while the
processing flag is set returns the component as it is (arrays, capacity, stack limit and
flag) together with its failure broadcast, and leaves the other component of a
two-component call as it is. -/
theorem busy_call_fails_fast (w : World) (c : UItemContainerComponent)
    (hbusy : c.bIsProcessing = true)
    (Slot Second Amount NewSize : Int) (Asset : FPrimaryAssetId) (DynamicStats : FItemProperties)
    (Name : Nat) (DisplayName Value : String) (Other : Option UItemContainerComponent)
    (bIsEquipment bCanStack bFlag : Bool) :
    SetSlotAmount w c Slot Amount bIsEquipment
        = .ok (c, [.SetSlotAmountSuccess false Slot bIsEquipment])
    ∧ SetSlotItemProperty c Slot Name DisplayName Value bIsEquipment
        = .ok (c, [.SetSlotItemPropertySuccess false Slot bIsEquipment])
    ∧ AddItem w c Asset DynamicStats Amount bCanStack bFlag
        = .ok (c, [.AddItemFailure Asset DynamicStats Amount])
    ∧ AddItemToSlot w c Asset Slot DynamicStats Amount bCanStack bFlag
        = .ok (c, [.AddItemToSlotFailure Asset Slot DynamicStats Amount bFlag])
    ∧ SwapItems w c Slot Second bCanStack bIsEquipment
        = .ok (c, [.SwapItemSuccess false Slot Second bIsEquipment])
    ∧ RemoveAmountFromSlot w c Slot Amount
        = .ok (c, [.RemoveAmountFromSlotSuccess false
                    ⟨Slot, FPrimaryAssetId.None, FItemProperties.empty, -1⟩ Amount])
    ∧ SplitItemStack w c Slot Amount = .ok (c, [.SplitItemStackSuccess false Slot INDEX_NONE])
    ∧ AddItemToComponent w c Slot Other Amount bCanStack bFlag
        = .ok (c, Other, [.AddItemToComponentSuccess false Slot 1 false])
    ∧ SwapItemWithComponent w c Slot Second Other bCanStack
        = .ok (c, Other, [.SwapItemWithComponentSuccess false Slot false])
    ∧ CollectAllItems w c Other bCanStack
        = .ok (c, Other, [.CollectAllItemsSuccess false true false])
    ∧ SetStackSizeConfig w c NewSize bFlag = .ok (c, [.SetMaxStackSizeSuccess false])
    ∧ SetInventorySizeConfig w c NewSize bFlag = .ok (c, [.SetInventorySizeSuccess false]) := by
  refine ⟨?_, ?_, ?_, ?_, ?_, ?_, ?_, ?_, ?_, ?_, ?_, ?_⟩
  · unfold SetSlotAmount; simp only [hbusy, if_true]
  · unfold SetSlotItemProperty; simp only [hbusy, if_true]
  · unfold AddItem; simp only [hbusy, if_true]
  · unfold AddItemToSlot AddItemToSlotWith; simp only [hbusy, if_true]
  · unfold UItemContainerComponent.SwapItems; simp only [hbusy, if_true]
  · unfold RemoveAmountFromSlot; simp only [hbusy, if_true]
  · unfold SplitItemStack; simp only [hbusy, if_true]
  · unfold AddItemToComponent; simp only [hbusy, if_true]
  · unfold SwapItemWithComponent; simp only [hbusy, if_true]
  · unfold CollectAllItems; simp only [hbusy, if_true]
  · unfold SetStackSizeConfig; simp only [hbusy, if_true]
  · unfold SetInventorySizeConfig; simp only [hbusy, if_true]

/-- C15 (witness): the busy container `busyPotions`. -/
theorem busy_call_fails_fast_witness :
    busyPotions.bIsProcessing = true
    ∧ AddItem world busyPotions potion FItemProperties.empty 3 true false
        = .ok (busyPotions, [.AddItemFailure potion FItemProperties.empty 3])
    ∧ RemoveAmountFromSlot world busyPotions 1 2
        = .ok (busyPotions, [.RemoveAmountFromSlotSuccess false
                    ⟨1, FPrimaryAssetId.None, FItemProperties.empty, -1⟩ 2]) :=
  have h := busy_call_fails_fast world busyPotions rfl 1 2 2 7 potion FItemProperties.empty 1
    "Quality" "A" none false true false
  ⟨rfl, by decide, h.2.2.2.2.2.1⟩

/-- C17 (code defect): `SplitItemStack` with the negative split amount -2 on a stack of 7
potions reports success, creates a record of -2 potions in slot 2 and raises the source
to 9. -/
theorem splitItemStack_accepts_negative_amount :
    SplitItemStack world sevenPotions 1 (-2)
      = .ok (⟨[1, 2], [potion, potion], [9, -2], [], [], false, 10, 5⟩,
             [.SplitItemStackSuccess true 1 2, .ChangedInventorySlots [1, 2]]) := by
  decide

/-- C20 (code defect): the source holds a potion (slot 1) and an arrow (slot 2); the
destination has one slot, holding nine arrows. `CollectAllItems` offers the potion twice
and the arrow never: nothing is moved, although `AddItemToComponent` moves the arrow from
the same states. -/
theorem collectAllItems_stops_at_rejected_record :
    CollectAllItems world potionAndArrow (some nineArrows) true
      = .ok (potionAndArrow, some nineArrows,
             [.CollectAllItemsOtherComponentStart,
              .CollectAllItemsSuccess false true true,
              .CollectAllItemsOtherComponentSuccess false true,
              .ChangedInventorySlots [],
              .OtherComponentChangedInventorySlots []])
    ∧ AddItemToComponent world potionAndArrow 2 (some nineArrows) 1 true false
      = .ok (⟨[1], [potion], [1], [], [], false, 10, 5⟩,
             some ⟨[1], [arrow], [10], [], [], false, 10, 1⟩,
             [.AddItemToComponentOtherComponentStart,
              .AddItemToComponentSuccess true 2 0 true,
              .AddItemToComponentOtherComponentSuccess true 2 0,
              .ChangedInventorySlots [2],
              .OtherComponentChangedInventorySlots [1]]) := by
  decide

/-- C16: `RemoveAmountFromSlot(Slot, k)` on a well-formed, idle container with a positive
stack limit. (1) For an empty slot, `k ≤ 0` or `k` above the stored amount it broadcasts
failure and the component is exactly as before. (2) For `0 < k ≤ amount` it broadcasts
success with the record that the slot held before the call; if `k` equals the amount, the
record and its property bag are taken out of the arrays and the slot reads blank; if `k`
is smaller, the slot keeps its item and bag with `amount - k`; every other slot reads as
before. -/
theorem removeAmountFromSlot_contract (w : World) (c : UItemContainerComponent) (Slot k : Int)
    (hwf : WellFormed w c (GetStackSizeConfig w c) (GetInventorySizeConfig w c))
    (hS : 1 ≤ GetStackSizeConfig w c) (hidle : c.bIsProcessing = false) :
    ((Slot ∉ c.InventoryIndices ∨ k ≤ 0 ∨ (GetInventorySlot c Slot).Amount < k) →
        RemoveAmountFromSlot w c Slot k
          = .ok (c, [.RemoveAmountFromSlotSuccess false
                      ⟨Slot, FPrimaryAssetId.None, FItemProperties.empty, -1⟩ k]))
    ∧ (Slot ∈ c.InventoryIndices → 0 < k → k ≤ (GetInventorySlot c Slot).Amount →
        ∃ c', RemoveAmountFromSlot w c Slot k
              = .ok (c', [.RemoveAmountFromSlotSuccess true (GetInventorySlot c Slot) k,
                          .ChangedInventorySlots [Slot]])
          ∧ (k = (GetInventorySlot c Slot).Amount →
              c' = withoutRecord c Slot ∧ GetInventorySlot c' Slot = blankSlot
              ∧ Slot ∉ c'.InventoryIndices ∧ Slot ∉ c'.InventoryDynamicStatsIndices)
          ∧ (k < (GetInventorySlot c Slot).Amount →
              GetInventorySlot c' Slot
                = { GetInventorySlot c Slot with Amount := (GetInventorySlot c Slot).Amount - k })
          ∧ ∀ t, t ≠ Slot → GetInventorySlot c' t = GetInventorySlot c t) := by
  have hcons : Consistent c := ⟨hwf.synced, hwf.bagsNonEmpty⟩
  refine ⟨fun hbad => RemoveAmountFromSlot_fails w hcons hidle hbad, ?_⟩
  intro hs hk hka
  have hkS : k ≤ GetStackSizeConfig w c :=
    le_trans hka (le_trans (hwf.bound Slot hs).2 (effectiveStackLimit_le w hS _))
  refine ⟨_, RemoveAmountFromSlot_of_mem w hcons hwf.unique hidle hs hk hka hkS, ?_, ?_, ?_⟩
  · intro hkeq
    rw [if_pos hkeq]
    refine ⟨rfl, ?_, ?_, ?_⟩
    · rw [GetInventorySlot_withoutRecord hcons hwf.unique hwf.statsUnique, if_pos rfl]
    · simp only [UItemContainerComponent.withoutRecord]
      rw [mem_eraseIdx_indexOf hwf.unique]; exact fun hc => hc.1 rfl
    · simp only [UItemContainerComponent.withoutRecord]
      rw [mem_eraseIdx_indexOf hwf.statsUnique]; exact fun hc => hc.1 rfl
  · intro hlt
    rw [if_neg (ne_of_lt hlt)]
    have := GetInventorySlot_withAmountAt hcons hs ((GetInventorySlot c Slot).Amount - k) Slot
    simp only [UItemContainerComponent.withAmountAt]
    rw [this, if_pos rfl]
  · intro t hts
    by_cases hkeq : k = (GetInventorySlot c Slot).Amount
    · rw [if_pos hkeq, GetInventorySlot_withoutRecord hcons hwf.unique hwf.statsUnique,
        if_neg hts]
    · rw [if_neg hkeq]
      have := GetInventorySlot_withAmountAt hcons hs ((GetInventorySlot c Slot).Amount - k) t
      simp only [UItemContainerComponent.withAmountAt]
      rw [this, if_neg hts]

/-- C16 (witness): in `twoBags` (one potion with bag A in slot 1, one with bag B in slot 2)
removing the potion of slot 1 deletes the record and bag A and reports them; slot 2 is
untouched. -/
theorem removeAmountFromSlot_contract_witness :
    WellFormed world twoBags (GetStackSizeConfig world twoBags) (GetInventorySizeConfig world twoBags)
    ∧ RemoveAmountFromSlot world twoBags 1 1
        = .ok (⟨[2], [potion], [1], [2], [bagB], false, 10, 5⟩,
               [.RemoveAmountFromSlotSuccess true ⟨1, potion, bagA, 1⟩ 1,
                .ChangedInventorySlots [1]])
    ∧ ∃ c', RemoveAmountFromSlot world twoBags 1 1
              = .ok (c', [.RemoveAmountFromSlotSuccess true (GetInventorySlot twoBags 1) 1,
                          .ChangedInventorySlots [1]])
          ∧ (1 = (GetInventorySlot twoBags 1).Amount →
              c' = withoutRecord twoBags 1 ∧ GetInventorySlot c' 1 = blankSlot
              ∧ (1 : Int) ∉ c'.InventoryIndices ∧ (1 : Int) ∉ c'.InventoryDynamicStatsIndices)
          ∧ ((1 : Int) < (GetInventorySlot twoBags 1).Amount →
              GetInventorySlot c' 1
                = { GetInventorySlot twoBags 1 with
                    Amount := (GetInventorySlot twoBags 1).Amount - 1 })
          ∧ ∀ t, t ≠ 1 → GetInventorySlot c' t = GetInventorySlot twoBags t :=
  have hwf : WellFormed world twoBags (GetStackSizeConfig world twoBags)
      (GetInventorySizeConfig world twoBags) :=
    ⟨⟨rfl, rfl, rfl, by decide⟩, by decide, by decide, by decide, by decide, by decide⟩
  ⟨hwf, by decide,
    (removeAmountFromSlot_contract world twoBags 1 1 hwf (by decide) rfl).2
      (by decide) (by decide) (by decide)⟩

/-- C18: in a well-formed, idle container let slot `s` hold `a` units of an item that the
catalog marks stackable, let `0 < k < a` and let a free slot exist. Then
`SplitItemStack(s, k)` succeeds and creates a record of `k` units with the same item and
property bag in a free slot `t`, leaving `a - k` in `s`; and `SwapItems(t, s)` with merging
allowed on the result succeeds and returns exactly the container from before the split. -/
theorem split_then_merge_restores (w : World) (c : UItemContainerComponent) (s k : Int)
    (d : FAssetData)
    (hwf : WellFormed w c (GetStackSizeConfig w c) (GetInventorySizeConfig w c))
    (hidle : c.bIsProcessing = false) (hm : w.ManagerIsValid = true)
    (hs : s ∈ c.InventoryIndices)
    (hd : w.GetPrimaryAssetData (GetInventorySlot c s).Asset = some d)
    (hstack : d.bCanStack = true)
    (hk : 0 < k) (hka : k < (GetInventorySlot c s).Amount)
    (hfree : ∃ f, IsFreeSlot c (GetInventorySizeConfig w c) f) :
    ∃ c1 t,
      SplitItemStack w c s k
        = .ok (c1, [.SplitItemStackSuccess true s t, .ChangedInventorySlots [s, t]])
      ∧ IsFreeSlot c (GetInventorySizeConfig w c) t
      ∧ GetInventorySlot c1 s
          = { GetInventorySlot c s with Amount := (GetInventorySlot c s).Amount - k }
      ∧ GetInventorySlot c1 t = { GetInventorySlot c s with Slot := t, Amount := k }
      ∧ SwapItems w c1 t s true false
          = .ok (c, [.SwapItemSuccess true t s false, .ChangedInventorySlots [t, s]]) := by
  have hcons : Consistent c := ⟨hwf.synced, hwf.bagsNonEmpty⟩
  obtain ⟨t, ht, hmin⟩ := Int.exists_least_of_bdd ⟨1, fun z hz => hz.1⟩ hfree
  have hfind := FindNextEmptySlot_of_free hwf.unique hwf.range ht hmin
  have hkS : k ≤ GetStackSizeConfig w c := by
    have hb := (hwf.bound s hs).2
    rw [effectiveStackLimit_of_stackable hd hstack] at hb
    omega
  obtain ⟨g1, g2⟩ := GetInventorySlot_withSplit hcons k hs ht.2.2
  exact ⟨withSplit c s t k, t,
    SplitItemStack_of_mem w hcons hidle hs (by omega) hka hkS hfind, ht, g1, g2,
    SwapItems_withSplit w hcons hidle hm k hs ht.2.2 hd hstack⟩

/-- C18 (witness): splitting 3 potions off the 7 in slot 1 of `sevenPotions` puts them
into slot 2, and swapping slot 2 onto slot 1 with merging restores `sevenPotions`. -/
theorem split_then_merge_restores_witness :
    WellFormed world sevenPotions (GetStackSizeConfig world sevenPotions)
        (GetInventorySizeConfig world sevenPotions)
    ∧ SplitItemStack world sevenPotions 1 3
        = .ok (⟨[1, 2], [potion, potion], [4, 3], [], [], false, 10, 5⟩,
               [.SplitItemStackSuccess true 1 2, .ChangedInventorySlots [1, 2]])
    ∧ SwapItems world ⟨[1, 2], [potion, potion], [4, 3], [], [], false, 10, 5⟩ 2 1 true false
        = .ok (sevenPotions, [.SwapItemSuccess true 2 1 false, .ChangedInventorySlots [2, 1]])
    ∧ ∃ c1 t,
        SplitItemStack world sevenPotions 1 3
          = .ok (c1, [.SplitItemStackSuccess true 1 t, .ChangedInventorySlots [1, t]])
        ∧ IsFreeSlot sevenPotions (GetInventorySizeConfig world sevenPotions) t
        ∧ GetInventorySlot c1 1
            = { GetInventorySlot sevenPotions 1 with
                Amount := (GetInventorySlot sevenPotions 1).Amount - 3 }
        ∧ GetInventorySlot c1 t = { GetInventorySlot sevenPotions 1 with Slot := t, Amount := 3 }
        ∧ SwapItems world c1 t 1 true false
            = .ok (sevenPotions, [.SwapItemSuccess true t 1 false, .ChangedInventorySlots [t, 1]]) :=
  have hwf : WellFormed world sevenPotions (GetStackSizeConfig world sevenPotions)
      (GetInventorySizeConfig world sevenPotions) :=
    ⟨⟨rfl, rfl, rfl, by decide⟩, by decide, by decide, by decide, by decide, by decide⟩
  ⟨hwf, by decide, by decide,
    split_then_merge_restores world sevenPotions 1 3 ⟨true, []⟩ hwf rfl rfl (by decide) rfl rfl
      (by decide) (by decide) ⟨2, by decide, by decide, by decide⟩⟩

/-- C12: slot uniqueness. If the slot numbers of a container are pairwise distinct and its
slot, item and amount arrays have equal length, and the same holds for the other
component of a two-component call, then each of AddItem, AddItemToSlot,
RemoveAmountFromSlot, SplitItemStack, SwapItems, AddItemToComponent,
SwapItemWithComponent and CollectAllItems leaves every container it touches in such a
state. Every call comes to an end within the fuel of the embedding; the only way it
produces no state is an engine range check that aborts it. -/
theorem operations_keep_slots_unique (w : World) (c : UItemContainerComponent)
    (Other : Option UItemContainerComponent) (hc : SlotsUnique c)
    (hd : SlotsUniqueOther Other) (InventoryAsset : FPrimaryAssetId)
    (DynamicStats : FItemProperties) (First Second Amount : Int) (b1 b2 : Bool) :
    Yields (fun r => SlotsUnique r.1) (AddItem w c InventoryAsset DynamicStats Amount b1 b2)
    ∧ Yields (fun r => SlotsUnique r.1)
        (AddItemToSlot w c InventoryAsset First DynamicStats Amount b1 b2)
    ∧ Yields (fun r => SlotsUnique r.1) (RemoveAmountFromSlot w c First Amount)
    ∧ Yields (fun r => SlotsUnique r.1) (SplitItemStack w c First Amount)
    ∧ Yields (fun r => SlotsUnique r.1) (SwapItems w c First Second b1 b2)
    ∧ Yields (fun r => SlotsUnique r.1 ∧ SlotsUniqueOther r.2.1)
        (AddItemToComponent w c First Other Amount b1 b2)
    ∧ Yields (fun r => SlotsUnique r.1 ∧ SlotsUniqueOther r.2.1)
        (SwapItemWithComponent w c First Second Other b1)
    ∧ Yields (fun r => SlotsUnique r.1 ∧ SlotsUniqueOther r.2.1)
        (CollectAllItems w c Other b1) :=
  ⟨AddItem_unique w hc InventoryAsset DynamicStats Amount b1 b2,
   AddItemToSlot_unique w hc InventoryAsset First DynamicStats Amount b1 b2,
   RemoveAmountFromSlot_unique w hc First Amount,
   SplitItemStack_unique w hc First Amount,
   SwapItems_unique w hc First Second b1 b2,
   AddItemToComponent_unique w hc First hd Amount b1 b2,
   SwapItemWithComponent_unique w hc First Second hd b1,
   CollectAllItems_unique w hc hd b1⟩

/-- C12, witness: seven potions in slot 1 next to an empty chest; three potions are added,
added to slot 1, removed, split off, slot 1 is swapped with slot 2, and potions are moved
to the chest in the three ways. Every call returns a state. -/
theorem operations_keep_slots_unique_witness :
    SlotsUnique Fixture.sevenPotions ∧ SlotsUniqueOther (some Fixture.chest)
    ∧ ((AddItem Fixture.world Fixture.sevenPotions Fixture.potion FItemProperties.empty 3 true
          false).isOk = true
      ∧ (AddItemToSlot Fixture.world Fixture.sevenPotions Fixture.potion 1 FItemProperties.empty 3
          true false).isOk = true
      ∧ (RemoveAmountFromSlot Fixture.world Fixture.sevenPotions 1 3).isOk = true
      ∧ (SplitItemStack Fixture.world Fixture.sevenPotions 1 3).isOk = true
      ∧ (SwapItems Fixture.world Fixture.sevenPotions 1 2 true false).isOk = true
      ∧ (AddItemToComponent Fixture.world Fixture.sevenPotions 1 (some Fixture.chest) 3 true
          false).isOk = true
      ∧ (SwapItemWithComponent Fixture.world Fixture.sevenPotions 1 2 (some Fixture.chest)
          true).isOk = true
      ∧ (CollectAllItems Fixture.world Fixture.sevenPotions (some Fixture.chest) true).isOk = true)
    ∧ (Yields (fun r => SlotsUnique r.1)
        (AddItem Fixture.world Fixture.sevenPotions Fixture.potion FItemProperties.empty 3 true
          false)
      ∧ Yields (fun r => SlotsUnique r.1)
        (AddItemToSlot Fixture.world Fixture.sevenPotions Fixture.potion 1 FItemProperties.empty 3
          true false)
      ∧ Yields (fun r => SlotsUnique r.1)
        (RemoveAmountFromSlot Fixture.world Fixture.sevenPotions 1 3)
      ∧ Yields (fun r => SlotsUnique r.1) (SplitItemStack Fixture.world Fixture.sevenPotions 1 3)
      ∧ Yields (fun r => SlotsUnique r.1)
        (SwapItems Fixture.world Fixture.sevenPotions 1 2 true false)
      ∧ Yields (fun r => SlotsUnique r.1 ∧ SlotsUniqueOther r.2.1)
        (AddItemToComponent Fixture.world Fixture.sevenPotions 1 (some Fixture.chest) 3 true false)
      ∧ Yields (fun r => SlotsUnique r.1 ∧ SlotsUniqueOther r.2.1)
        (SwapItemWithComponent Fixture.world Fixture.sevenPotions 1 2 (some Fixture.chest) true)
      ∧ Yields (fun r => SlotsUnique r.1 ∧ SlotsUniqueOther r.2.1)
        (CollectAllItems Fixture.world Fixture.sevenPotions (some Fixture.chest) true)) :=
  have hc : SlotsUnique Fixture.sevenPotions := ⟨by decide, rfl, rfl⟩
  have hd : SlotsUniqueOther (some Fixture.chest) :=
    (SlotsUniqueOther_some _).mpr ⟨by decide, rfl, rfl⟩
  ⟨hc, hd, by decide,
    operations_keep_slots_unique Fixture.world Fixture.sevenPotions (some Fixture.chest) hc hd
      Fixture.potion FItemProperties.empty 1 2 3 true false⟩

/-- C22: the validator is not idempotent. On a seed with one slot and three amounts the
first run of `InternalChecks` removes one orphaned amount and stops, the second run
removes another one: the state after two runs differs from the state after one. -/
theorem internalChecks_second_run_changes_state :
    UItemContainerComponent.InternalChecks Fixture.world Fixture.orphanAmounts
      = .ok (⟨[1], [Fixture.potion], [5, 5], [], [], false, 10, 5⟩, true)
    ∧ UItemContainerComponent.InternalChecks Fixture.world
        ⟨[1], [Fixture.potion], [5, 5], [], [], false, 10, 5⟩
      = .ok (⟨[1], [Fixture.potion], [5], [], [], false, 10, 5⟩, true) := by
  decide

/-- C23: the validator keeps a slot number above the capacity. Slot 99 survives
`InternalChecks` in a container of capacity 5, and slot 5 survives a forced
`SetInventorySizeConfig` to capacity 3. -/
theorem internalChecks_keeps_slot_above_capacity :
    UItemContainerComponent.GetInventorySizeConfig Fixture.world Fixture.farSlot = 5
    ∧ UItemContainerComponent.InternalChecks Fixture.world Fixture.farSlot
      = .ok (Fixture.farSlot, false)
    ∧ UItemContainerComponent.SetInventorySizeConfig Fixture.world Fixture.spread 3 true
      = .ok (⟨[1, 2, 5], [Fixture.potion, Fixture.potion, Fixture.potion], [5, 5, 5], [], [],
              false, 10, 3⟩,
          [.SetInventorySizeSuccess true, .ChangedInventorySlots [1, 2, 5]]) := by
  decide

/-- C24: after a duplicate slot number the validator pairs the surviving slots with the
wrong seed entries. The seed lists slot 1 with a potion, slot 1 again with a sword and
slot 2 with three arrows; after `InternalChecks` slot 2 holds the sword of the duplicate
entry and the arrows are gone. -/
theorem internalChecks_shifts_records_after_duplicate :
    UItemContainerComponent.InternalChecks Fixture.world Fixture.duplicateSlot
      = .ok (⟨[1, 2], [Fixture.potion, Fixture.sword], [1, 1], [], [], false, 10, 5⟩, true)
    ∧ UItemContainerComponent.GetInventorySlot
        ⟨[1, 2], [Fixture.potion, Fixture.sword], [1, 1], [], [], false, 10, 5⟩ 2
      = ⟨2, Fixture.sword, FItemProperties.empty, 1⟩ := by
  decide

/-- C26: a non-forced `SetInventorySizeConfig` to capacity 3 is accepted although slot 5
is occupied: the test compares the number of records with the new capacity. -/
theorem setInventorySizeConfig_accepts_occupied_slot_above_capacity :
    UItemContainerComponent.SetInventorySizeConfig Fixture.world Fixture.spread 3 false
      = .ok (⟨[1, 2, 5], [Fixture.potion, Fixture.potion, Fixture.potion], [5, 5, 5], [], [],
              false, 10, 3⟩,
          [.SetInventorySizeSuccess true, .ChangedInventorySlots [1, 2, 5]]) := by
  decide

/-- C29: `SetEquipmentType` with the null type on the assigned hand slot 1, which holds a
shield, is refused by the test of the asset type: nothing is unequipped, the type slot
stays, and the failure delegate fires. -/
theorem setEquipmentType_null_type_is_refused :
    UInventorySystemComponent.SetEquipmentType Fixture.world 2 Fixture.armed 1
        FPrimaryAssetId.None
      = .ok (Fixture.armed, [.SetEquipmentTypeFailure 1 FPrimaryAssetId.None]) := by
  decide

/-- C30: `SetEquipmentType` succeeds although the item could not be unequipped
completely. Of three equipped arrows one fits into the full inventory; the unequip
reports failure, yet hand slot 1 becomes a head slot and still holds two arrows. -/
theorem setEquipmentType_succeeds_after_partial_unequip :
    UInventorySystemComponent.SetEquipmentType Fixture.world 2 Fixture.quiverFull 1
        Fixture.headType
      = .ok ({ Fixture.quiverFull with
                InventoryAmounts := [10], EquipmentTypes := [Fixture.headType],
                EquipmentAmounts := [2] },
          [.ItemUnequipSuccess false 1 [1], .SetEquipmentTypeSuccess 1,
           .ChangedEquipmentSlots [1], .ChangedInventorySlots [1]]) := by
  decide

/-- C25: the validator repairs stacking violations. With a valid asset manager, a stack
limit of at least 1 and a capacity that is not negative, `InternalChecks` returns, and
every amount at a storage position with a surviving slot number lies between 1 and the
effective stack limit of the item at that position. It is the seed amount brought into
that range: an amount of 0 or less becomes 1, an amount of a non-stackable item becomes
1, an amount above the limit becomes the limit, and an amount in range is kept. -/
theorem internalChecks_repairs_stacking_violations (w : World) (c : UItemContainerComponent)
    (hm : w.ManagerIsValid = true)
    (hS : 1 ≤ UItemContainerComponent.GetStackSizeConfig w c)
    (hN : 0 ≤ UItemContainerComponent.GetInventorySizeConfig w c) :
    ∃ c' b, UItemContainerComponent.InternalChecks w c = .ok (c', b)
      ∧ ∀ (J : Nat) (amount : Int), J < c'.InventoryIndices.length →
          c'.InventoryAmounts[J]? = some amount →
          1 ≤ amount
          ∧ amount ≤ effectiveStackLimitAt w (UItemContainerComponent.GetStackSizeConfig w c)
              c'.InventoryAssets J
          ∧ ∃ seed, c.InventoryAmounts[J]? = some seed
            ∧ amount = max 1 (min seed (effectiveStackLimitAt w
                (UItemContainerComponent.GetStackSizeConfig w c) c'.InventoryAssets J))
            ∧ (seed ≤ 0 → amount = 1)
            ∧ (effectiveStackLimitAt w (UItemContainerComponent.GetStackSizeConfig w c)
                c'.InventoryAssets J = 1 → amount = 1)
            ∧ (effectiveStackLimitAt w (UItemContainerComponent.GetStackSizeConfig w c)
                c'.InventoryAssets J < seed →
                amount = effectiveStackLimitAt w (UItemContainerComponent.GetStackSizeConfig w c)
                  c'.InventoryAssets J)
            ∧ (1 ≤ seed → seed ≤ effectiveStackLimitAt w
                (UItemContainerComponent.GetStackSizeConfig w c) c'.InventoryAssets J →
                amount = seed) := by
  obtain ⟨c', b, hrun, hspec⟩ := InternalChecks_amounts_repaired w c hm hS hN
  refine ⟨c', b, hrun, ?_⟩
  intro J amount hJ hamount
  obtain ⟨hAs, hA⟩ := hspec J hJ
  have hL : effectiveStackLimitAt w (UItemContainerComponent.GetStackSizeConfig w c)
      c'.InventoryAssets J
      = effectiveStackLimitAt w (UItemContainerComponent.GetStackSizeConfig w c)
        c.InventoryAssets J := by
    unfold effectiveStackLimitAt
    rw [hAs]
  have hpos := effectiveStackLimitAt_pos w hS c.InventoryAssets J
  rw [hL]
  rw [hamount] at hA
  cases hseed : c.InventoryAmounts[J]? with
  | none => rw [hseed] at hA; exact absurd hA (by simp)
  | some seed =>
    rw [hseed] at hA
    simp only [Option.map_some', Option.some.injEq] at hA
    generalize effectiveStackLimitAt w (UItemContainerComponent.GetStackSizeConfig w c)
      c.InventoryAssets J = L at hA hpos ⊢
    have h1 : 1 ≤ amount := by rw [hA]; exact le_max_left _ _
    have h2 : amount ≤ L := by
      rw [hA]; exact max_le hpos (min_le_right _ _)
    refine ⟨h1, h2, seed, rfl, hA, ?_, ?_, ?_, ?_⟩
    all_goals
      intros
      rw [hA]
      simp only [max_def, min_def]
      split_ifs <;> omega

/-- C25, witness: the seed `brokenAmounts` (amounts 0, 4 swords, 25 arrows) comes out with
the amounts 1, 1 and 10. -/
theorem internalChecks_repairs_stacking_violations_witness :
    Fixture.world.ManagerIsValid = true
    ∧ 1 ≤ UItemContainerComponent.GetStackSizeConfig Fixture.world Fixture.brokenAmounts
    ∧ 0 ≤ UItemContainerComponent.GetInventorySizeConfig Fixture.world Fixture.brokenAmounts
    ∧ UItemContainerComponent.InternalChecks Fixture.world Fixture.brokenAmounts
        = .ok (⟨[1, 2, 3], [Fixture.potion, Fixture.sword, Fixture.arrow], [1, 1, 10], [], [],
                false, 10, 5⟩, false)
    ∧ ∃ c' b, UItemContainerComponent.InternalChecks Fixture.world Fixture.brokenAmounts
          = .ok (c', b)
        ∧ ∀ (J : Nat) (amount : Int), J < c'.InventoryIndices.length →
          c'.InventoryAmounts[J]? = some amount →
          1 ≤ amount
          ∧ amount ≤ effectiveStackLimitAt Fixture.world
              (UItemContainerComponent.GetStackSizeConfig Fixture.world Fixture.brokenAmounts)
              c'.InventoryAssets J :=
  ⟨by decide, by decide, by decide, by decide,
    (internalChecks_repairs_stacking_violations Fixture.world Fixture.brokenAmounts (by decide)
      (by decide) (by decide)).imp (fun _ h => h.imp (fun _ h2 =>
        ⟨h2.1, fun J amount hJ ha => ⟨(h2.2 J amount hJ ha).1, (h2.2 J amount hJ ha).2.1⟩⟩))⟩

/-- C27: a type mismatch is rejected without side effects. Let inventory slot `Slot` hold
an item of the catalog. If an equipment slot is requested and the type it accepts is not
among the item's type tags, or if none is requested and no type slot accepts one of the
tags, then `ItemEquipFromInventory` broadcasts the failure and returns the state it was
given: inventory, equipment and type slots are as before. -/
theorem itemEquipFromInventory_rejects_type_mismatch (w : World)
    (s : UInventorySystemComponent) (Slot EquipmentSlot : Int)
    (bCanUnequippedItemStack bCanStack : Bool) (Asset : FPrimaryAssetId) (Data : FAssetData)
    (hidle : s.bIsProcessing = false)
    (hitem : TArray.get s.InventoryAssets (TArray.Find s.InventoryIndices Slot) = .ok Asset)
    (hdata : w.GetPrimaryAssetData Asset = some Data)
    (hrequested : EquipmentSlot ≠ INDEX_NONE → ∀ T,
      TArray.get s.EquipmentTypes (TArray.Find s.EquipmentTypeIndices EquipmentSlot) = .ok T →
      T ∉ Data.EquipmentType)
    (hsearched : EquipmentSlot = INDEX_NONE → ∀ T ∈ s.EquipmentTypes, T ∉ Data.EquipmentType) :
    UInventorySystemComponent.ItemEquipFromInventory w s Slot EquipmentSlot
        bCanUnequippedItemStack bCanStack
      = .ok (s, [.ItemEquipFromInventorySuccess false EquipmentSlot Slot]) := by
  have hfl := system_flag_restore hidle
  have hfl2 : ({ ({ s with bIsProcessing := true } : UInventorySystemComponent) with
      bIsProcessing := false } : UInventorySystemComponent) = s := hfl
  unfold UInventorySystemComponent.ItemEquipFromInventory
  by_cases hm : w.ManagerIsValid = true
  swap
  · simp only [hm, not_false_eq_true, if_true, hfl]; rfl
  by_cases ha : w.OwnerHasAuthority = true
  swap
  · simp only [hm, ha, not_true_eq_false, not_false_eq_true, if_true, if_false]; rfl
  have hne : TArray.Find s.InventoryIndices Slot ≠ INDEX_NONE := by
    intro h0
    rw [h0] at hitem
    simp [TArray.get, INDEX_NONE] at hitem
  simp only [hm, ha, hidle, not_true_eq_false, if_false, Bool.false_eq_true, hne, hitem, hdata,
    bind, Except.bind, pure, Except.pure]
  by_cases htags : TArray.IsEmpty Data.EquipmentType = true
  · simp only [htags, if_true, hfl2]
  simp only [htags, if_false, Bool.false_eq_true]
  by_cases hreq : EquipmentSlot = INDEX_NONE
  · simp only [hreq, if_true, findTypeSlot_none (s := { s with bIsProcessing := true })
      (hsearched hreq), hfl2]
  simp only [hreq, if_false, dropCreated_none, hfl2, if_true]
  by_cases hidx : TArray.Find s.EquipmentTypeIndices EquipmentSlot = INDEX_NONE
      ∨ ¬ TArray.IsValidIndex s.EquipmentTypes
            (TArray.Find s.EquipmentTypeIndices EquipmentSlot) = true
  · simp only [hidx, if_true]
  simp only [hidx, if_false]
  cases hT : TArray.get s.EquipmentTypes (TArray.Find s.EquipmentTypeIndices EquipmentSlot) with
  | error e =>
    exfalso
    have hv : TArray.IsValidIndex s.EquipmentTypes
        (TArray.Find s.EquipmentTypeIndices EquipmentSlot) = true := by
      by_contra h0
      exact hidx (Or.inr h0)
    obtain ⟨a, hga, _⟩ := TArray.get_of_valid hv
    rw [hga] at hT
    exact absurd hT (by simp)
  | ok T =>
    have hnot : ¬ TArray.Contains Data.EquipmentType T = true := by
      simp only [TArray.Contains, decide_eq_true_eq]
      exact hrequested hreq T hT
    simp only [hnot, not_false_eq_true, if_true]
    split <;> rfl

/-- C27, witness: the sword of inventory slot 3 has the type tag of hand slots; the
request to equip it in head slot 2 fails and leaves the state as it was. -/
theorem itemEquipFromInventory_rejects_type_mismatch_witness :
    TArray.get Fixture.kit.InventoryAssets (TArray.Find Fixture.kit.InventoryIndices 3)
      = .ok Fixture.sword
    ∧ Fixture.world.GetPrimaryAssetData Fixture.sword = some ⟨false, [Fixture.handType]⟩
    ∧ TArray.get Fixture.kit.EquipmentTypes (TArray.Find Fixture.kit.EquipmentTypeIndices 2)
      = .ok Fixture.headType
    ∧ Fixture.headType ∉ [Fixture.handType]
    ∧ UInventorySystemComponent.ItemEquipFromInventory Fixture.world Fixture.kit 3 2 false false
      = .ok (Fixture.kit, [.ItemEquipFromInventorySuccess false 2 3]) :=
  ⟨by decide, by decide, by decide, by decide,
    itemEquipFromInventory_rejects_type_mismatch Fixture.world Fixture.kit 3 2 false false
      Fixture.sword ⟨false, [Fixture.handType]⟩ rfl (by decide) (by decide)
      (fun _ T hT => by
        have h2 : TArray.get Fixture.kit.EquipmentTypes
            (TArray.Find Fixture.kit.EquipmentTypeIndices 2) = .ok Fixture.headType := by decide
        rw [h2] at hT
        simp only [Except.ok.injEq] at hT
        subst hT
        decide)
      (fun h => absurd h (by decide))⟩

/-- C21: `CollectAllItems` with stacking disallowed and limited room. Let the source `c`
and the destination `d` be idle and well-formed, let the asset manager be available and
the stack limit of `d` be at least 1. If `c` holds `n` records, each of a catalog item
and each with an amount within the effective stack limit of `d` for that item (it fits
into a single slot of `d`), and `d` has exactly `f` free slots with `0 < f < n`, then
`CollectAllItems` from `c` to `d` with `bCanStack = false` returns, `d` has gained exactly
`f` records, `c` retains exactly `n - f` records, and the broadcasts report success with
`bItemsLeft = true`. -/
theorem collectAllItems_limited_room (w : World) (c d : UItemContainerComponent) (n f : Nat)
    (hm : w.ManagerIsValid = true)
    (hidle : c.bIsProcessing = false) (hdidle : d.bIsProcessing = false)
    (hwf : WellFormed w c (GetStackSizeConfig w c) (GetInventorySizeConfig w c))
    (hwfd : WellFormed w d (GetStackSizeConfig w d) (GetInventorySizeConfig w d))
    (hS : 1 ≤ GetStackSizeConfig w d)
    (hn : c.InventoryIndices.length = n)
    (hcat : ∀ s ∈ c.InventoryIndices,
      (GetInventorySlot c s).Asset.IsValid = true
      ∧ (w.GetPrimaryAssetData (GetInventorySlot c s).Asset).isSome = true)
    (hfit : ∀ s ∈ c.InventoryIndices,
      (GetInventorySlot c s).Amount
        ≤ effectiveStackLimit w (GetStackSizeConfig w d) (GetInventorySlot c s).Asset)
    (hf : (freeSlots d (GetInventorySizeConfig w d)).length = f)
    (h0 : 0 < f) (hlt : f < n) :
    ∃ c' d' changed changedOther,
      CollectAllItems w c (some d) false
        = .ok (c', some d',
            [.CollectAllItemsOtherComponentStart,
             .CollectAllItemsSuccess true true true,
             .CollectAllItemsOtherComponentSuccess true true,
             .ChangedInventorySlots changed,
             .OtherComponentChangedInventorySlots changedOther])
      ∧ d'.InventoryIndices.length = d.InventoryIndices.length + f
      ∧ c'.InventoryIndices.length = n - f := by
  have hcount := freeSlots_length hwfd.unique hwfd.range
  have hcoll : Collectable w (GetStackSizeConfig w { d with bIsProcessing := true })
      { c with bIsProcessing := true } :=
    ⟨hwf.consistent_busy true, hwf.unique, hwf.statsUnique, fun s hs =>
      ⟨(hwf.bound s hs).1, hfit s hs, (hcat s hs).1,
        Option.isSome_iff_exists.mp (hcat s hs).2⟩⟩
  obtain ⟨x', d', k, hrun, hO', hk1, hk2, hk3, hk4, hlen, hdlen, hadd, hleft⟩ :=
    collect_loop w hm c.InventoryIndices.length 0
      ⟨{ c with bIsProcessing := true }, some { d with bIsProcessing := true }, false, false,
        [], []⟩ { d with bIsProcessing := true } rfl hS hcoll (hwfd.consistent_busy true)
  simp only at hk2 hk3 hk4 hlen hdlen hadd hleft
  rw [GetInventorySizeConfig_flag] at hk3 hk4
  have hkf : k = f := by omega
  subst hkf
  have hA : x'.bAddedOnce = true := hadd.mpr (Or.inr h0)
  have hL : x'.bItemsLeft = true := hleft.mpr (Or.inr ⟨by omega, by omega⟩)
  refine ⟨{ x'.c with bIsProcessing := false }, { d' with bIsProcessing := false },
    x'.ChangedSlots, x'.ChangedSlotsOtherComponent, ?_, hdlen, by simp only; omega⟩
  unfold CollectAllItems
  rw [if_neg (by rw [hidle]; decide)]
  simp only
  rw [if_neg (by rw [hdidle]; decide), hrun]
  simp only [hA, hL, hO', Option.map_some', not_true_eq_false, if_false]

/-- C21, witness (n = 3, f = 2): `threeRecords` holds three records, `roomForTwo` has the
free slots 1 and 3. Collecting without stacking moves the potions into slot 1 and the
sword with its bag into slot 3; the arrows stay in the source. -/
theorem collectAllItems_limited_room_witness :
    freeSlots roomForTwo (GetInventorySizeConfig world roomForTwo) = [1, 3]
    ∧ CollectAllItems world threeRecords (some roomForTwo) false
        = .ok (⟨[3], [arrow], [2], [], [], false, 10, 5⟩,
               some ⟨[2, 1, 3], [potion, potion, sword], [3, 4, 1], [3], [bagA], false, 10, 3⟩,
               [.CollectAllItemsOtherComponentStart,
                .CollectAllItemsSuccess true true true,
                .CollectAllItemsOtherComponentSuccess true true,
                .ChangedInventorySlots [1, 2],
                .OtherComponentChangedInventorySlots [1, 3]])
    ∧ ∃ c' d' changed changedOther,
        CollectAllItems world threeRecords (some roomForTwo) false
          = .ok (c', some d',
              [.CollectAllItemsOtherComponentStart,
               .CollectAllItemsSuccess true true true,
               .CollectAllItemsOtherComponentSuccess true true,
               .ChangedInventorySlots changed,
               .OtherComponentChangedInventorySlots changedOther])
        ∧ d'.InventoryIndices.length = roomForTwo.InventoryIndices.length + 2
        ∧ c'.InventoryIndices.length = 3 - 2 :=
  have hwf : WellFormed world threeRecords (GetStackSizeConfig world threeRecords)
      (GetInventorySizeConfig world threeRecords) :=
    ⟨⟨rfl, rfl, rfl, by decide⟩, by decide, by decide, by decide, by decide, by decide⟩
  have hwfd : WellFormed world roomForTwo (GetStackSizeConfig world roomForTwo)
      (GetInventorySizeConfig world roomForTwo) :=
    ⟨⟨rfl, rfl, rfl, by decide⟩, by decide, by decide, by decide, by decide, by decide⟩
  ⟨by decide, by decide,
    collectAllItems_limited_room world threeRecords roomForTwo 3 2 (by decide) rfl rfl hwf hwfd
      (by decide) rfl (by decide) (by decide) (by decide) (by decide) (by decide)⟩

/-- C34 (counterexample): in the empty `chest` of capacity 5 slot 1 is free and not
excluded, yet `FindNextEmptySlot` with the excluded list `[99]` reports failure, because
an excluded slot number above the capacity makes the call fail. In `spreadShrunk`, the
state that a non-forced `SetInventorySizeConfig` to 3 makes of `spread`, slot 3 is free
and nothing is excluded, yet the call reports failure, because the number of records has
reached the capacity. -/
theorem findNextEmptySlot_fails_on_excluded_slot_above_capacity :
    IsFreeSlot chest (GetInventorySizeConfig world chest) 1
    ∧ (1 : Int) ∉ [(99 : Int)]
    ∧ FindNextEmptySlot chest (GetInventorySizeConfig world chest) [99]
        = (INDEX_NONE, false)
    ∧ SetInventorySizeConfig world spread 3 false
        = .ok (spreadShrunk, [.SetInventorySizeSuccess true, .ChangedInventorySlots [1, 2, 5]])
    ∧ IsFreeSlot spreadShrunk (GetInventorySizeConfig world spreadShrunk) 3
    ∧ FindNextEmptySlot spreadShrunk (GetInventorySizeConfig world spreadShrunk) []
        = (INDEX_NONE, false) := by
  refine ⟨⟨by decide, by decide, by decide⟩, by decide, by decide, by decide,
    ⟨by decide, by decide, by decide⟩, by decide⟩

/-- C34 (amended): for every container, capacity `N` and excluded list,
`FindNextEmptySlot` succeeds with `t` exactly when no excluded number exceeds the
capacity, the number of records is below the capacity, and `t` is the smallest number in
`1..N` that is neither occupied nor excluded. It reports failure, with slot
`INDEX_NONE`, exactly when an excluded number exceeds the capacity, or the number of
records has reached the capacity, or there is no number in `1..N` that is neither
occupied nor excluded. -/
theorem findNextEmptySlot_lowest_free (c : UItemContainerComponent) (N : Int)
    (IgnoreInventorySlots : List Int) :
    (∀ t, FindNextEmptySlot c N IgnoreInventorySlots = (t, true) ↔
      ((IgnoreInventorySlots = [] ∨ MaxOfIntArray IgnoreInventorySlots ≤ N)
        ∧ Num c.InventoryIndices < N
        ∧ 1 ≤ t ∧ t ≤ N ∧ t ∉ c.InventoryIndices ∧ t ∉ IgnoreInventorySlots
        ∧ ∀ g, 1 ≤ g → g ≤ N → g ∉ c.InventoryIndices → g ∉ IgnoreInventorySlots → t ≤ g))
    ∧ (FindNextEmptySlot c N IgnoreInventorySlots = (INDEX_NONE, false) ↔
        ((IgnoreInventorySlots ≠ [] ∧ N < MaxOfIntArray IgnoreInventorySlots)
          ∨ N ≤ Num c.InventoryIndices
          ∨ ¬ ∃ g, 1 ≤ g ∧ g ≤ N ∧ g ∉ c.InventoryIndices ∧ g ∉ IgnoreInventorySlots))
    ∧ ((FindNextEmptySlot c N IgnoreInventorySlots).2 = false ↔
        FindNextEmptySlot c N IgnoreInventorySlots = (INDEX_NONE, false)) := by
  have hiff : ∀ t, FindNextEmptySlot c N IgnoreInventorySlots = (t, true) ↔
      ((IgnoreInventorySlots = [] ∨ MaxOfIntArray IgnoreInventorySlots ≤ N)
        ∧ Num c.InventoryIndices < N
        ∧ 1 ≤ t ∧ t ≤ N ∧ t ∉ c.InventoryIndices ∧ t ∉ IgnoreInventorySlots
        ∧ ∀ g, 1 ≤ g → g ≤ N → g ∉ c.InventoryIndices → g ∉ IgnoreInventorySlots →
          t ≤ g) := by
    intro t
    rw [FindNextEmptySlot_eq_true_iff]
    constructor
    · rintro ⟨hg1, hg2, h1, hN, hc, hi, hlow⟩
      refine ⟨hg1, hg2, h1, hN, hc, hi, ?_⟩
      intro g hg1 _ hgc hgi
      by_contra hlt
      rcases hlow g hg1 (by omega) with h | h
      · exact hgc h
      · exact hgi h
    · rintro ⟨hg1, hg2, h1, hN, hc, hi, hlow⟩
      refine ⟨hg1, hg2, h1, hN, hc, hi, ?_⟩
      intro J hJ1 hJlt
      by_contra hnot
      rw [not_or] at hnot
      have := hlow J hJ1 (by omega) hnot.1 hnot.2
      omega
  have hfail : FindNextEmptySlot c N IgnoreInventorySlots = (INDEX_NONE, false) ↔
      ((IgnoreInventorySlots ≠ [] ∧ N < MaxOfIntArray IgnoreInventorySlots)
        ∨ N ≤ Num c.InventoryIndices
        ∨ ¬ ∃ g, 1 ≤ g ∧ g ≤ N ∧ g ∉ c.InventoryIndices ∧ g ∉ IgnoreInventorySlots) := by
    constructor
    · intro hres
      by_contra hnone
      simp only [not_or, not_and, not_lt, not_le, not_not] at hnone
      obtain ⟨hguard, hnum, g, hg1, hgN, hgc, hgi⟩ := hnone
      obtain ⟨t, ht1, htN, htP, htlow⟩ := exists_least_slot
        (fun J => J ∉ c.InventoryIndices ∧ J ∉ IgnoreInventorySlots) N hg1 hgN ⟨hgc, hgi⟩
      have hok : FindNextEmptySlot c N IgnoreInventorySlots = (t, true) := by
        rw [hiff]
        refine ⟨?_, hnum, ht1, htN, htP.1, htP.2, ?_⟩
        · by_cases he : IgnoreInventorySlots = []
          · exact Or.inl he
          · exact Or.inr (hguard he)
        · intro g' hg1' _ hgc' hgi'
          by_contra hlt
          exact htlow g' hg1' (by omega) ⟨hgc', hgi'⟩
      rw [hres] at hok
      exact absurd (congrArg Prod.snd hok) (by simp)
    · intro hcause
      rcases FindNextEmptySlot_shape c N IgnoreInventorySlots with h | ⟨t, ht⟩
      · exact h
      · exfalso
        obtain ⟨hg, hnum, h1, hN, hc, hi, _⟩ := (hiff t).mp ht
        rcases hcause with ⟨hne, hmax⟩ | hfull | hnone
        · rcases hg with hg | hg
          · exact hne hg
          · omega
        · omega
        · exact hnone ⟨t, h1, hN, hc, hi⟩
  refine ⟨hiff, hfail, ?_⟩
  constructor
  · intro h2
    rcases FindNextEmptySlot_shape c N IgnoreInventorySlots with h | ⟨t, ht⟩
    · exact h
    · rw [ht] at h2
      exact absurd h2 (by simp)
  · intro h
    rw [h]

/-- C35 (counterexample): the bags `qualityThenWeight` and `weightThenQuality` hold the
same two (name, value) pairs, each pair of one occurs in the other, and `operator==`
answers `false`: the comparison goes position by position. The bags `bagA` and
`bagSmallA` hold the values `A` and `a`, which differ as text, and `operator==` answers
`true`: the value texts are compared without regard to the case of letters. -/
theorem bags_with_same_pairs_compare_unequal :
    (∀ p ∈ qualityThenWeight.ItemProperties, ∃ q ∈ weightThenQuality.ItemProperties,
        p.Name = q.Name ∧ p.Value = q.Value)
    ∧ (∀ q ∈ weightThenQuality.ItemProperties, ∃ p ∈ qualityThenWeight.ItemProperties,
        p.Name = q.Name ∧ p.Value = q.Value)
    ∧ FItemProperties.eq qualityThenWeight weightThenQuality = false
    ∧ (∀ p ∈ bagA.ItemProperties, ∀ q ∈ bagSmallA.ItemProperties, p.Value ≠ q.Value)
    ∧ FItemProperties.eq bagA bagSmallA = true := by
  refine ⟨by decide, by decide, by decide, by decide, by decide⟩

/-- C35 (amended): two property bags compare equal with `operator==` if and only if they
list the same (name, value) pairs in the same order, where two value texts count as the
same when they agree up to the case of ASCII letters: the sequences of (name, character
codes of the value with capitals replaced by small letters) are equal. Display labels
are ignored. -/
theorem bags_equal_iff_same_sequence (First Other : FItemProperties) :
    FItemProperties.eq First Other = true ↔
      First.ItemProperties.map (fun p => (p.Name, FString.ToLowerCodes p.Value))
        = Other.ItemProperties.map (fun p => (p.Name, FString.ToLowerCodes p.Value)) := by
  unfold FItemProperties.eq
  generalize First.ItemProperties = l
  generalize Other.ItemProperties = m
  induction l generalizing m with
  | nil =>
    cases m with
    | nil => simp [FItemProperties.eqList]
    | cons b bs => simp [FItemProperties.eqList]
  | cons a as ih =>
    cases m with
    | nil => simp [FItemProperties.eqList]
    | cons b bs =>
      simp only [FItemProperties.eqList, Bool.and_eq_true, ih, List.map_cons, List.cons.injEq,
        Prod.mk.injEq, FItemProperty.eq, FString.eq, decide_eq_true_eq]

/-- C36 (code defect): `Damage = 5` compared with `Damage = abc`, the same name and a
second value that is not numeric. `operator>` and `operator>=` answer `true`, because
only the first operand is tested with `IsNumeric` and `abc` converts to 0; with the
operands exchanged `operator<` and `operator<=` answer `false`. -/
theorem ordering_accepts_non_numeric_second_operand :
    Fixture.IsNumeric damageText.Value = false
    ∧ damageFive.Name = damageText.Name
    ∧ FItemProperty.gt Fixture.IsNumeric Fixture.Atod damageFive damageText = true
    ∧ FItemProperty.ge Fixture.IsNumeric Fixture.Atod damageFive damageText = true
    ∧ FItemProperty.lt Fixture.IsNumeric Fixture.Atod damageText damageFive = false
    ∧ FItemProperty.le Fixture.IsNumeric Fixture.Atod damageText damageFive = false := by
  refine ⟨by decide, by decide, by decide, by decide, by decide, by decide⟩

/-- C38 (code defect): with the default settings (`MaxInventoryStackSize = 99`,
`MaxInventorySize = 200`) a component that sets no stack size of its own gets the stack
size 200 from `UInventorySystemComponent::GetStackSizeConfig`, the setting for the
inventory size, while the equipment getter and the getter of the base container fall
back to their stack-size settings. -/
theorem getStackSizeConfig_falls_back_to_inventory_size :
    ¬ unconfigured.MaxStackSize > 1
    ∧ defaultWorld.Settings.MaxInventoryStackSize = 99
    ∧ UInventorySystemComponent.GetStackSizeConfig defaultWorld unconfigured = 200
    ∧ UInventorySystemComponent.GetStackSizeConfig defaultWorld unconfigured
        = defaultWorld.Settings.MaxInventorySize
    ∧ GetEquipmentStackSizeConfig defaultWorld unconfigured
        = defaultWorld.Settings.MaxItemEquipmentStackSize
    ∧ UItemContainerComponent.GetStackSizeConfig defaultWorld
        unconfigured.toUItemContainerComponent
        = defaultWorld.Settings.MaxItemContainerStackSize := by
  refine ⟨by decide, by decide, by decide, by decide, by decide, by decide⟩

/-- C39 (code defect): `SwapItems(1, 1)` with merging allowed on `sevenPotions`, whose
slot 1 holds seven potions. The call reports success and deletes the record: slot 1 is
blank afterwards and the seven potions are gone. In `twoBags` the potion of slot 1 and
its property bag are deleted in the same way. -/
theorem swapItems_with_itself_deletes_record :
    GetInventorySlot sevenPotions 1 = ⟨1, potion, FItemProperties.empty, 7⟩
    ∧ SwapItems world sevenPotions 1 1 true false
        = .ok (⟨[], [], [], [], [], false, 10, 5⟩,
               [.SwapItemSuccess true 1 1 false, .ChangedInventorySlots [1, 1]])
    ∧ GetInventorySlot ⟨[], [], [], [], [], false, 10, 5⟩ 1 = blankSlot
    ∧ GetInventorySlot twoBags 1 = ⟨1, potion, bagA, 1⟩
    ∧ SwapItems world twoBags 1 1 true false
        = .ok (⟨[2], [potion], [1], [2], [bagB], false, 10, 5⟩,
               [.SwapItemSuccess true 1 1 false, .ChangedInventorySlots [1, 1]]) := by
  refine ⟨by decide, by decide, by decide, by decide, by decide⟩

/-- C40: `AddItemInternal` terminates. The closure `AddNewItem` calls itself only after it
has raised an amount below the stack size to the stack size, so a run with more fuel than
there are such amounts never reaches the fuel bound; there are at most as many of them as
records. Hence `AddItemInternal`, which allows one nested call per record, never stops
for lack of fuel, whatever the container, item, amount and flags are: it returns a
result, or the engine aborts it at an array access outside the bounds. On a consistent
container with a stack size of at least 1 it returns a result. -/
theorem addItemInternal_terminates (w : World) (c : UItemContainerComponent) (S N : Int)
    (asset : FPrimaryAssetId) (stats : FItemProperties) (n : Int)
    (bCanStack bRevertWhenFull : Bool) :
    (∀ (T : Bool) (Temp : UItemContainerComponent) (fuel : Nat) (x : AddItemLocals),
      openStackCount S x.c < fuel →
      AddItemInternal.AddNewItem w S N asset stats bCanStack T bRevertWhenFull Temp fuel x
        ≠ .error .outOfFuel)
    ∧ openStackCount S c ≤ c.InventoryAmounts.length
    ∧ ((∃ x, AddItemInternal w c S N asset stats n bCanStack bRevertWhenFull = .ok x)
        ∨ AddItemInternal w c S N asset stats n bCanStack bRevertWhenFull
            = .error .rangeCheck)
    ∧ (Consistent c → 1 ≤ S →
        ∃ x, AddItemInternal w c S N asset stats n bCanStack bRevertWhenFull = .ok x) := by
  refine ⟨fun T Temp fuel x hfuel =>
      Yields_ne_outOfFuel (AddNewItem_returns w S N asset stats bCanStack T bRevertWhenFull
        Temp fuel x hfuel),
    openStackCount_le S c, ?_, ?_⟩
  · unfold AddItemInternal
    split
    · exact Or.inl ⟨_, rfl⟩
    · split
      · exact Or.inl ⟨_, rfl⟩
      · split
        · exact Or.inl ⟨_, rfl⟩
        · rename_i AssetData _
          have hrun := AddNewItem_returns w S N asset stats bCanStack AssetData.bCanStack
            bRevertWhenFull c (c.InventoryAmounts.length + 1)
            { c := c, Amount := n, ChangedSlots := [] }
            (Nat.lt_succ_of_le (openStackCount_le S c))
          split
          · rename_i e he
            rw [he] at hrun
            right
            rw [show e = Fault.rangeCheck from hrun]
          · exact Or.inl ⟨_, rfl⟩
  · intro hc hS
    obtain ⟨x, hx, _⟩ := AddItemInternal_spec w hc hS N asset stats n bCanStack bRevertWhenFull
    exact ⟨x, hx⟩

/-- C40, witness: adding 25 potions with stacking to `twoStacks` fills the open stacks one
after the other and returns. -/
theorem addItemInternal_terminates_witness :
    Consistent twoStacks ∧ (1 : Int) ≤ 10
    ∧ ∃ x, AddItemInternal world twoStacks 10 5 potion FItemProperties.empty 25 true false
        = .ok x :=
  have hc : Consistent twoStacks := ⟨⟨rfl, rfl, rfl, by decide⟩, by decide⟩
  ⟨hc, by decide,
    (addItemInternal_terminates world twoStacks 10 5 potion FItemProperties.empty 25 true
      false).2.2.2 hc (by decide)⟩

/-- C31 (code defect): adding 25 arrows to the empty hand slot 5 of `kit`, whose
equipment stack limit is 10, puts all 25 arrows into the equipment slot and 15 more into
the inventory slots 2 and 5, and reports the overflow 0: 40 arrows are stored for the 25
that were added. -/
theorem addItemToEquipmentSlot_exceeds_stack_limit :
    GetEquipmentStackSizeConfig world kit = 10
    ∧ GetEquipmentSlot world kit 5
        = .ok ⟨5, FPrimaryAssetId.None, FItemProperties.empty, INDEX_NONE⟩
    ∧ TotalAmount world kit arrow FItemProperties.empty = .ok 0
    ∧ ∃ after,
        AddItemToEquipmentSlot world kit arrow 5 FItemProperties.empty 25 true true
          = .ok (after, [.AddItemToEquipmentSlotSuccess 5 [2, 5] 0, .ChangedEquipmentSlots [5],
                         .ChangedInventorySlots [2, 5]])
        ∧ GetEquipmentSlot world after 5 = .ok ⟨5, arrow, FItemProperties.empty, 25⟩
        ∧ StoredAmount after.toUItemContainerComponent arrow FItemProperties.empty = 15
        ∧ TotalAmount world after arrow FItemProperties.empty = .ok 40 := by
  refine ⟨by decide, by decide, by decide, _, rfl, ?_, ?_, ?_⟩ <;> decide

/-- C37 (code defect): calls that report failure and still emit a slots-changed event.
Swapping the empty equipment slots 2 and 5 of `kit`, or slot 2 with the slot 7 that is no
type slot, broadcasts `SwapItemSuccess(false, ...)` followed by `ChangedEquipmentSlots`,
and collecting from an empty container broadcasts `CollectAllItemsSuccess(false, ...)`
followed by both inventory slots-changed events; the component is unchanged each time.
`AddItem` into a full container broadcasts the failure only. -/
theorem failed_calls_emit_slots_changed :
    UInventorySystemComponent.SwapItems world kit 2 5 true true
      = .ok (kit, [.SwapItemSuccess false 2 5 true, .ChangedEquipmentSlots [2, 5]])
    ∧ UInventorySystemComponent.SwapItems world kit 2 7 false true
      = .ok (kit, [.SwapItemSuccess false 2 7 true, .ChangedEquipmentSlots [2, 7]])
    ∧ CollectAllItems world chest (some sevenPotions) true
      = .ok (chest, some sevenPotions,
             [.CollectAllItemsOtherComponentStart,
              .CollectAllItemsSuccess false true true,
              .CollectAllItemsOtherComponentSuccess false true,
              .ChangedInventorySlots [],
              .OtherComponentChangedInventorySlots []])
    ∧ AddItem world fullBag sword FItemProperties.empty 1 false true
      = .ok (fullBag, [.AddItemFailure sword FItemProperties.empty 1]) := by
  decide

/-- C33: from a component in which every occupied equipment slot number is a type slot,
each equipment operation, with any arguments, either returns a component in which every
occupied equipment slot number is a type slot, or is aborted by a range check of the
engine's arrays; the nested unequip calls never exceed the fuel of the model. The name
`ItemEquipmentTypeClass` of the class `UItemEquipmentTypeDataAsset`, which
`SetEquipmentType` compares with the asset type, is not `NAME_None`. -/
theorem equipment_operations_keep_slots_typed (w : World) (ItemEquipmentTypeClass : Nat)
    (s : UInventorySystemComponent) (hclass : ItemEquipmentTypeClass ≠ 0)
    (hs : TypedSlots s) :
    (∀ Slot EquipmentType,
      Yields (fun r => TypedSlots r.1)
        (SetEquipmentType w ItemEquipmentTypeClass s Slot EquipmentType))
    ∧ (∀ Slot EquipmentSlot bCanUnequippedItemStack bCanStack,
      Yields (fun r => TypedSlots r.1)
        (ItemEquipFromInventory w s Slot EquipmentSlot bCanUnequippedItemStack bCanStack))
    ∧ (∀ EquipmentSlot IgnoreInventorySlots bCanStack SpecificInventorySlot,
      Yields (fun r => TypedSlots r.1)
        (ItemUnequip w s EquipmentSlot IgnoreInventorySlots bCanStack SpecificInventorySlot))
    ∧ (∀ InventoryAsset EquipmentSlot DynamicStats Amount bCanUnequippedItemStack bCanStack,
      Yields (fun r => TypedSlots r.1)
        (AddItemToEquipmentSlot w s InventoryAsset EquipmentSlot DynamicStats Amount
          bCanUnequippedItemStack bCanStack))
    ∧ (∀ EquipmentSlot Amount,
      Yields (fun r => TypedSlots r.1) (RemoveEquipmentAmountFromSlot w s EquipmentSlot Amount))
    ∧ (∀ First Second bCanStack,
      Yields (fun r => TypedSlots r.1)
        (UInventorySystemComponent.SwapItems w s First Second bCanStack true)) :=
  ⟨fun Slot T => SetEquipmentType_typed w ItemEquipmentTypeClass hclass hs Slot T,
   fun Slot e b1 b2 => ItemEquipFromInventory_typed w hs Slot e b1 b2,
   fun e ign b sp => (ItemUnequip_shrinks w s e ign b sp).mono (fun _ hr => hr.keepsTyped hs),
   fun a e st n b1 b2 => AddItemToEquipmentSlot_typed w hs a e st n b1 b2,
   fun e n => (RemoveEquipmentAmountFromSlot_shrinks w s e n).mono (fun _ hr => hr.keepsTyped hs),
   fun First Second b => SwapItems_equipment_typed w hs First Second b⟩

/-- C33 (witness): in `quiverFull` the occupied hand slot 1 is a type slot; unequipping it
and adding 25 arrows to it leave every occupied equipment slot a type slot. -/
theorem equipment_operations_keep_slots_typed_witness :
    (2 : Nat) ≠ 0 ∧ TypedSlots quiverFull
    ∧ Yields (fun r => TypedSlots r.1) (ItemUnequip world quiverFull 1 [] true INDEX_NONE)
    ∧ Yields (fun r => TypedSlots r.1)
        (AddItemToEquipmentSlot world quiverFull arrow 1 FItemProperties.empty 25 true true) :=
  ⟨by decide, ⟨by decide⟩,
   (equipment_operations_keep_slots_typed world 2 quiverFull (by decide) ⟨by decide⟩).2.2.1
      1 [] true INDEX_NONE,
   (equipment_operations_keep_slots_typed world 2 quiverFull (by decide) ⟨by decide⟩).2.2.2.1
      arrow 1 FItemProperties.empty 25 true true⟩

end Claims
